import Mathlib

/-!
# Behler symmetry functions (`src/SANNP/nnp_symm_func_behler.cpp`)

A shallow embedding of `SymmFuncBehler::SymmFuncBehler` and
`SymmFuncBehler::calculate`.

Modelling conventions.

* `real` is a type parameter `R` carrying a linearly ordered field; the C math
  library functions `tanh`, `exp`, `pow` used by the source are a parameter
  (`MathFns R`).  Theorems about real-number semantics instantiate `R := ℝ`
  with `Real.tanh`, `Real.exp`, `Real.rpow`.
* C `int` values are `Int` (signed overflow is undefined behaviour in C++ and
  is not modelled); integer division `/` is truncating (`Int.tdiv`).  Loop
  counters, which start at `0` and count upwards, are `Nat`.
* A pointer is an `Option`: `none` is `NULL`.  A non-null array is a function
  from indices to values; output buffers are indexed by `Int` because their
  offsets are computed with `int` arithmetic.
* `stop_by_error` aborts the computation; a call that reaches it yields
  `Except.error` with the message of the source.
* A neighbor count in a statement is a natural number `n`, passed to the code as
  the `int` `(n : Int)`.
-/

set_option linter.dupNamespace false

namespace SANNP

/-- The C math library functions the source calls (`tanh`, `exp`, `pow`). -/
structure MathFns (R : Type) where
  tanh : R → R
  exp : R → R
  pow : R → R → R

/-- Reading `p[i]` through a pointer; reading through `NULL` (undefined
behaviour in the source) yields `0`. -/
def deref {R : Type} [Zero R] (p : Option (Nat → R)) (i : Nat) : R :=
  match p with
  | some a => a i
  | none => 0

/-- The loop `for (i = 0; i < n; ++i) body`, threading the state. -/
def forLoop {σ : Type} : Nat → (σ → Nat → σ) → σ → σ
  | 0, _, s => s
  | n + 1, body, s => body (forLoop n body s) n

/-- The statement `buf[i] += v`. -/
def addAt {R : Type} [Add R] (buf : Int → R) (i : Int) (v : R) : Int → R :=
  fun x => if x = i then buf x + v else buf x

/-- The statement `buf[i] -= v`. -/
def subAt {R : Type} [Sub R] (buf : Int → R) (i : Int) (v : R) : Int → R :=
  fun x => if x = i then buf x - v else buf x

/-- The statement `buf[i] = v`. -/
def setAt {R : Type} (buf : Int → R) (i : Int) (v : R) : Int → R :=
  fun x => if x = i then v else buf x

/-- Modelled from the spec: the helper `stop_by_error` is not part of the
sources at hand; the spec calls both error kinds fatal (a configuration error
"aborts setup", an input error is "fatal to that call"), so a computation that
reaches it ends there with the message as its error. -/
def stop_by_error {α : Type} (message : String) : Except String α :=
  .error message

/-- The data members of `SymmFuncBehler` (with those inherited from
`SymmFunc`). -/
structure SymmFuncBehler (R : Type) where
  numElems : Int
  numBasis : Int
  sizeRad : Int
  sizeAng : Int
  numRadBasis : Int
  numAngBasis : Int
  radiusCut : R
  radiusEta : Option (Nat → R)
  radiusShift : Option (Nat → R)
  angleEta : Option (Nat → R)
  angleZeta : Option (Nat → R)

/-- Modelled from the spec: the base-class constructor `SymmFunc::SymmFunc(numElems)`
is not part of the sources at hand; the spec lists `numElements` as a plain
configuration value with no failure condition of its own, so the base part of
the object stores it. -/
def SymmFunc.SymmFunc (numElems : Int) : Int := numElems

/-- The constructor `SymmFuncBehler::SymmFuncBehler` (lines 10-64): seven
guards in source order, then the assignments. -/
def SymmFuncBehler.SymmFuncBehler {R : Type} [LinearOrderedField R]
    (numElems sizeRad sizeAng : Int) (radiusCut : R)
    (radiusEta radiusShift angleEta angleZeta : Option (Nat → R)) :
    Except String (SymmFuncBehler R) :=
  let numElems := SymmFunc.SymmFunc numElems
  if sizeRad < 1 then stop_by_error "size of radius basis is not positive."
  else if sizeAng < 0 then stop_by_error "size of angle basis is negative."
  else if radiusCut ≤ 0 then stop_by_error "cutoff radius is not positive."
  else if radiusEta.isNone then stop_by_error "radiusEta is null."
  else if radiusShift.isNone then stop_by_error "radiusShift is null."
  else if 0 < sizeAng ∧ angleEta.isNone then stop_by_error "angleEta is null."
  else if 0 < sizeAng ∧ angleZeta.isNone then stop_by_error "angleZeta is null."
  else
    let numRadBasis := sizeRad * numElems
    let numAngBasis := sizeAng * 2 * (Int.tdiv (numElems * (numElems + 1)) 2)
    .ok {
      numElems := numElems
      numBasis := numRadBasis + numAngBasis
      sizeRad := sizeRad
      sizeAng := sizeAng
      numRadBasis := numRadBasis
      numAngBasis := numAngBasis
      radiusCut := radiusCut
      radiusEta := radiusEta
      radiusShift := radiusShift
      angleEta := angleEta
      angleZeta := angleZeta }

/-- The two caller-owned output buffers of `calculate`. -/
structure Out (R : Type) where
  symmData : Int → R
  symmDiff : Int → R

/-- The cutoff value and its radial derivative, `(fc, dfc/dr)`, as computed at
lines 180-183, 244-247 and 271-274 (the three sites are identical). -/
def cutoff {R : Type} [LinearOrderedField R] (m : MathFns R) (radiusCut r : R) : R × R :=
  let tanh1 := m.tanh (1 - r / radiusCut)
  let tanh2 := tanh1 * tanh1
  let fc := tanh1 * tanh2
  let dfcdr := -3 * tanh2 * (1 - tanh2) / radiusCut
  (fc, dfcdr)

/-- The values `(g, dgdx1, dgdy1, dgdz1)` of one radial term (lines 190-205),
for neighbor data `r1, x1, y1, z1` and radial mode `imode`. -/
def radialTerm {R : Type} [LinearOrderedField R] (m : MathFns R) (self : SymmFuncBehler R)
    (r1 x1 y1 z1 : R) (imode : Nat) : R × R × R × R :=
  let fc1 := (cutoff m self.radiusCut r1).1
  let dfc1dr1 := (cutoff m self.radiusCut r1).2
  let dfc1dx1 := x1 / r1 * dfc1dr1
  let dfc1dy1 := y1 / r1 * dfc1dr1
  let dfc1dz1 := z1 / r1 * dfc1dr1
  let eta := deref self.radiusEta imode
  let rs := deref self.radiusShift imode
  let dr := r1 - rs
  let rr := dr * dr
  let gau := m.exp (-eta * rr)
  let coef0 := -2 * eta * dr / r1 * gau
  let dgaudx1 := x1 * coef0
  let dgaudy1 := y1 * coef0
  let dgaudz1 := z1 * coef0
  let g := gau * fc1
  let dgdx1 := dgaudx1 * fc1 + gau * dfc1dx1
  let dgdy1 := dgaudy1 * fc1 + gau * dfc1dy1
  let dgdz1 := dgaudz1 * fc1 + gau * dfc1dz1
  (g, dgdx1, dgdy1, dgdz1)

/-- Body of the radial mode loop (lines 188-218): the accumulation into
`symmData` and the six accumulations into `symmDiff`. -/
def radialMode {R : Type} [LinearOrderedField R] (m : MathFns R) (self : SymmFuncBehler R)
    (posNeighbor : Nat → Nat → R) (elemNeighbor : Nat → Int) (ineigh1 : Nat)
    (o : Out R) (imode : Nat) : Out R :=
  let ifree1 : Int := 3 * ((ineigh1 : Int) + 1)
  let jelem1 := elemNeighbor ineigh1
  let jbase := jelem1 * self.sizeRad
  let r1 := posNeighbor ineigh1 0
  let x1 := posNeighbor ineigh1 1
  let y1 := posNeighbor ineigh1 2
  let z1 := posNeighbor ineigh1 3
  let t := radialTerm m self r1 x1 y1 z1 imode
  let g := t.1
  let dgdx1 := t.2.1
  let dgdy1 := t.2.2.1
  let dgdz1 := t.2.2.2
  let ibase := (imode : Int) + jbase
  let symmData := addAt o.symmData ibase g
  let d := subAt o.symmDiff (ibase + 0 * self.numBasis) dgdx1
  let d := subAt d (ibase + 1 * self.numBasis) dgdy1
  let d := subAt d (ibase + 2 * self.numBasis) dgdz1
  let d := addAt d (ibase + (ifree1 + 0) * self.numBasis) dgdx1
  let d := addAt d (ibase + (ifree1 + 1) * self.numBasis) dgdy1
  let d := addAt d (ibase + (ifree1 + 2) * self.numBasis) dgdz1
  { symmData := symmData, symmDiff := d }

/-- Body of the radial neighbor loop (lines 168-219). -/
def radialNeighbor {R : Type} [LinearOrderedField R] (m : MathFns R) (self : SymmFuncBehler R)
    (posNeighbor : Nat → Nat → R) (elemNeighbor : Nat → Int)
    (o : Out R) (ineigh1 : Nat) : Out R :=
  forLoop self.sizeRad.toNat (radialMode m self posNeighbor elemNeighbor ineigh1) o

/-- The values computed for one angular term (lines 312-334). -/
structure AngTerm (R : Type) where
  g : R
  dgdx1 : R
  dgdy1 : R
  dgdz1 : R
  dgdx2 : R
  dgdy2 : R
  dgdz2 : R

/-- The gradient component of an angular term for the inner neighbor along
axis `a` (`0`: `dgdx1`, `1`: `dgdy1`, otherwise `dgdz1`). -/
def AngTerm.grad1 {R : Type} (t : AngTerm R) (a : Nat) : R :=
  if a = 0 then t.dgdx1 else if a = 1 then t.dgdy1 else t.dgdz1

/-- The gradient component of an angular term for the outer neighbor along
axis `a` (`0`: `dgdx2`, `1`: `dgdy2`, otherwise `dgdz2`). -/
def AngTerm.grad2 {R : Type} (t : AngTerm R) (a : Nat) : R :=
  if a = 0 then t.dgdx2 else if a = 1 then t.dgdy2 else t.dgdz2

/-- The threshold `chi0_thr` (line 139). -/
def chi0_thr {R : Type} [LinearOrderedField R] : R := 1 / 1000000

/-- The angular branch sign (line 300). -/
def lambdaOf {R : Type} [LinearOrderedField R] (ilambda : Nat) : R :=
  if ilambda = 0 then 1 else -1

/-- The cosine `psi` of the angle between two neighbors (line 287). -/
def psiOf {R : Type} [LinearOrderedField R] (r1 x1 y1 z1 r2 x2 y2 z2 : R) : R :=
  (x1 * x2 + y1 * y2 + z1 * z2) / r1 / r2

/-- The gradient of `psi` with respect to the two displacements (lines
288-296): `(dpsidx1, dpsidy1, dpsidz1, dpsidx2, dpsidy2, dpsidz2)`. -/
def dpsiOf {R : Type} [LinearOrderedField R] (r1 x1 y1 z1 r2 x2 y2 z2 : R) :
    R × R × R × R × R × R :=
  let psi := psiOf r1 x1 y1 z1 r2 x2 y2 z2
  let coef0 := 1 / r1 / r2
  let coef1 := psi / r1 / r1
  let coef2 := psi / r2 / r2
  (coef0 * x2 - coef1 * x1, coef0 * y2 - coef1 * y1, coef0 * z2 - coef1 * z1,
    coef0 * x1 - coef2 * x2, coef0 * y1 - coef2 * y2, coef0 * z1 - coef2 * z2)

/-- One angular term (lines 239-250, 264-296 and 312-334) for the neighbor data
`r1, x1, y1, z1` (inner neighbor) and `r2, x2, y2, z2` (outer neighbor), the
branch `ilambda` and the angular mode `imode`.  The scratch entry
`zeta1[imode] = pow(2, 1 - zeta)` of lines 227-232 is the value `zeta0`. -/
def angularTerm {R : Type} [LinearOrderedField R] (m : MathFns R) (self : SymmFuncBehler R)
    (r1 x1 y1 z1 r2 x2 y2 z2 : R) (ilambda imode : Nat) : AngTerm R :=
  let fc2 := (cutoff m self.radiusCut r2).1
  let dfc2dr2 := (cutoff m self.radiusCut r2).2
  let dfc2dx2 := x2 / r2 * dfc2dr2
  let dfc2dy2 := y2 / r2 * dfc2dr2
  let dfc2dz2 := z2 / r2 * dfc2dr2
  let rr := r1 * r1 + r2 * r2
  let fc1 := (cutoff m self.radiusCut r1).1
  let dfc1dr1 := (cutoff m self.radiusCut r1).2
  let dfc1dx1 := x1 / r1 * dfc1dr1
  let dfc1dy1 := y1 / r1 * dfc1dr1
  let dfc1dz1 := z1 / r1 * dfc1dr1
  let fc12 := fc1 * fc2
  let dfc12dx1 := dfc1dx1 * fc2
  let dfc12dy1 := dfc1dy1 * fc2
  let dfc12dz1 := dfc1dz1 * fc2
  let dfc12dx2 := fc1 * dfc2dx2
  let dfc12dy2 := fc1 * dfc2dy2
  let dfc12dz2 := fc1 * dfc2dz2
  let psi := psiOf r1 x1 y1 z1 r2 x2 y2 z2
  let dpsi := dpsiOf r1 x1 y1 z1 r2 x2 y2 z2
  let dpsidx1 := dpsi.1
  let dpsidy1 := dpsi.2.1
  let dpsidz1 := dpsi.2.2.1
  let dpsidx2 := dpsi.2.2.2.1
  let dpsidy2 := dpsi.2.2.2.2.1
  let dpsidz2 := dpsi.2.2.2.2.2
  let lambda : R := lambdaOf ilambda
  let chi0 := 1 + lambda * psi
  let eta := deref self.angleEta imode
  let zeta := deref self.angleZeta imode
  let zeta0 := m.pow 2 (1 - zeta)
  let chi := zeta0 * m.pow chi0 zeta
  let dchidpsi := zeta * lambda * chi / chi0
  let gau := m.exp (-eta * rr)
  let coef0 := -2 * eta * gau
  let dgaudx1 := x1 * coef0
  let dgaudy1 := y1 * coef0
  let dgaudz1 := z1 * coef0
  let dgaudx2 := x2 * coef0
  let dgaudy2 := y2 * coef0
  let dgaudz2 := z2 * coef0
  { g := chi * gau * fc12
    dgdx1 := dchidpsi * dpsidx1 * gau * fc12 + chi * dgaudx1 * fc12 + chi * gau * dfc12dx1
    dgdy1 := dchidpsi * dpsidy1 * gau * fc12 + chi * dgaudy1 * fc12 + chi * gau * dfc12dy1
    dgdz1 := dchidpsi * dpsidz1 * gau * fc12 + chi * dgaudz1 * fc12 + chi * gau * dfc12dz1
    dgdx2 := dchidpsi * dpsidx2 * gau * fc12 + chi * dgaudx2 * fc12 + chi * gau * dfc12dx2
    dgdy2 := dchidpsi * dpsidy2 * gau * fc12 + chi * dgaudy2 * fc12 + chi * gau * dfc12dy2
    dgdz2 := dchidpsi * dpsidz2 * gau * fc12 + chi * dgaudz2 * fc12 + chi * gau * dfc12dz2 }

/-- The term of the pair `(ineigh1, ineigh2)` read from the neighbor arrays. -/
def angularTermAt {R : Type} [LinearOrderedField R] (m : MathFns R) (self : SymmFuncBehler R)
    (posNeighbor : Nat → Nat → R) (ineigh1 ineigh2 ilambda imode : Nat) : AngTerm R :=
  angularTerm m self
    (posNeighbor ineigh1 0) (posNeighbor ineigh1 1) (posNeighbor ineigh1 2) (posNeighbor ineigh1 3)
    (posNeighbor ineigh2 0) (posNeighbor ineigh2 1) (posNeighbor ineigh2 2) (posNeighbor ineigh2 3)
    ilambda imode

/-- Body of the angular mode loop (lines 310-351): the accumulation into
`symmData` and the nine accumulations into `symmDiff`. -/
def angularMode {R : Type} [LinearOrderedField R] (m : MathFns R) (self : SymmFuncBehler R)
    (posNeighbor : Nat → Nat → R) (elemNeighbor : Nat → Int) (ineigh2 ineigh1 ilambda : Nat)
    (o : Out R) (imode : Nat) : Out R :=
  let ifree2 : Int := 3 * ((ineigh2 : Int) + 1)
  let jelem2 := elemNeighbor ineigh2
  let ifree1 : Int := 3 * ((ineigh1 : Int) + 1)
  let jelem1 := elemNeighbor ineigh1
  let kbase := (jelem1 + Int.tdiv (jelem2 * (jelem2 + 1)) 2) * 2 * self.sizeAng
  let jbase := (ilambda : Int) * self.sizeAng
  let t := angularTermAt m self posNeighbor ineigh1 ineigh2 ilambda imode
  let ibase := self.numRadBasis + (imode : Int) + jbase + kbase
  let symmData := addAt o.symmData ibase t.g
  let d := subAt o.symmDiff (ibase + 0 * self.numBasis) (t.dgdx1 + t.dgdx2)
  let d := subAt d (ibase + 1 * self.numBasis) (t.dgdy1 + t.dgdy2)
  let d := subAt d (ibase + 2 * self.numBasis) (t.dgdz1 + t.dgdz2)
  let d := addAt d (ibase + (ifree1 + 0) * self.numBasis) t.dgdx1
  let d := addAt d (ibase + (ifree1 + 1) * self.numBasis) t.dgdy1
  let d := addAt d (ibase + (ifree1 + 2) * self.numBasis) t.dgdz1
  let d := addAt d (ibase + (ifree2 + 0) * self.numBasis) t.dgdx2
  let d := addAt d (ibase + (ifree2 + 1) * self.numBasis) t.dgdy2
  let d := addAt d (ibase + (ifree2 + 2) * self.numBasis) t.dgdz2
  { symmData := symmData, symmDiff := d }

/-- The value `chi0 = 1 + lambda * psi` of a pair and branch (lines 287, 300-302). -/
def chi0At {R : Type} [LinearOrderedField R] (posNeighbor : Nat → Nat → R)
    (ineigh1 ineigh2 ilambda : Nat) : R :=
  1 + lambdaOf ilambda * psiOf
    (posNeighbor ineigh1 0) (posNeighbor ineigh1 1) (posNeighbor ineigh1 2) (posNeighbor ineigh1 3)
    (posNeighbor ineigh2 0) (posNeighbor ineigh2 1) (posNeighbor ineigh2 2) (posNeighbor ineigh2 3)

/-- Body of the branch loop (lines 298-352), with the threshold skip. -/
def angularLambda {R : Type} [LinearOrderedField R] (m : MathFns R) (self : SymmFuncBehler R)
    (posNeighbor : Nat → Nat → R) (elemNeighbor : Nat → Int) (ineigh2 ineigh1 : Nat)
    (o : Out R) (ilambda : Nat) : Out R :=
  if chi0At posNeighbor ineigh1 ineigh2 ilambda < chi0_thr then o
  else forLoop self.sizeAng.toNat
    (angularMode m self posNeighbor elemNeighbor ineigh2 ineigh1 ilambda) o

/-- The canonical pair rule (line 257): `true` when the pair is skipped. -/
def pairSkipped (elemNeighbor : Nat → Int) (ineigh1 ineigh2 : Nat) : Bool :=
  decide (elemNeighbor ineigh1 > elemNeighbor ineigh2 ∨
    (elemNeighbor ineigh1 = elemNeighbor ineigh2 ∧ ineigh1 ≥ ineigh2))

/-- Body of the inner neighbor loop of the angular part (lines 252-353). -/
def angularInner {R : Type} [LinearOrderedField R] (m : MathFns R) (self : SymmFuncBehler R)
    (posNeighbor : Nat → Nat → R) (elemNeighbor : Nat → Int) (ineigh2 : Nat)
    (o : Out R) (ineigh1 : Nat) : Out R :=
  if pairSkipped elemNeighbor ineigh1 ineigh2 then o
  else forLoop 2 (angularLambda m self posNeighbor elemNeighbor ineigh2 ineigh1) o

/-- Body of the outer neighbor loop of the angular part (lines 234-354). -/
def angularOuter {R : Type} [LinearOrderedField R] (m : MathFns R) (self : SymmFuncBehler R)
    (numNeighbor : Int) (posNeighbor : Nat → Nat → R) (elemNeighbor : Nat → Int)
    (o : Out R) (ineigh2 : Nat) : Out R :=
  forLoop numNeighbor.toNat (angularInner m self posNeighbor elemNeighbor ineigh2) o

/-- The zero-initialisation of both buffers (lines 148-160). -/
def zeroInit {R : Type} [LinearOrderedField R] (self : SymmFuncBehler R) (numNeighbor : Int)
    (o : Out R) : Out R :=
  let numFree : Int := 3 * (1 + numNeighbor)
  let symmData := forLoop self.numBasis.toNat (fun b ibase => setAt b (ibase : Int) 0) o.symmData
  let symmDiff := forLoop numFree.toNat (fun b ifree1 =>
    forLoop self.numBasis.toNat
      (fun b ibase => setAt b ((ibase : Int) + (ifree1 : Int) * self.numBasis) 0) b) o.symmDiff
  { symmData := symmData, symmDiff := symmDiff }

/-- The part of `calculate` after the null checks (lines 89-357). -/
def calculateBody {R : Type} [LinearOrderedField R] (m : MathFns R) (self : SymmFuncBehler R)
    (numNeighbor : Int) (posNeighbor : Nat → Nat → R) (elemNeighbor : Nat → Int)
    (o : Out R) : Out R :=
  let o := zeroInit self numNeighbor o
  if numNeighbor < 1 then o
  else
    let o := forLoop numNeighbor.toNat (radialNeighbor m self posNeighbor elemNeighbor) o
    if numNeighbor < 2 ∨ self.sizeAng < 1 then o
    else forLoop numNeighbor.toNat (angularOuter m self numNeighbor posNeighbor elemNeighbor) o

/-- The state a call of `calculate` acts on: the object (the method is
`const`) and the two caller-owned output buffers, each possibly `NULL`. -/
structure CallState (R : Type) where
  self : SymmFuncBehler R
  symmData : Option (Int → R)
  symmDiff : Option (Int → R)

/-- The method `SymmFuncBehler::calculate` (lines 71-357): the result of the
call (an error message when `stop_by_error` is reached) and the state after
it. -/
def SymmFuncBehler.calculate {R : Type} [LinearOrderedField R] (m : MathFns R)
    (numNeighbor : Int) (posNeighbor : Option (Nat → Nat → R)) (elemNeighbor : Option (Nat → Int))
    (s : CallState R) : Except String Unit × CallState R :=
  match posNeighbor, elemNeighbor with
  | some pos, some elem =>
    match s.symmData with
    | none => (stop_by_error "symmData is null.", s)
    | some symmData =>
      match s.symmDiff with
      | none => (stop_by_error "symmDiff is null.", s)
      | some symmDiff =>
        let o := calculateBody m s.self numNeighbor pos elem
          { symmData := symmData, symmDiff := symmDiff }
        (.ok (), { self := s.self, symmData := some o.symmData, symmDiff := some o.symmDiff })
  | _, _ => (stop_by_error "neighbor is null.", s)

/-! ## Quantities used in the statements and proofs -/

/-- The sum of one coordinate axis `a` of jacobian row `b` over the central
block and the `n` neighbor blocks. -/
def rowSum {R : Type} [AddCommMonoid R] (N : Int) (n : Nat) (b a : Int) (buf : Int → R) : R :=
  ∑ k in Finset.range (n + 1), buf (b + (3 * (k : Int) + a) * N)

/-- What the constructor guarantees about an object it returns. -/
structure WellFormed {R : Type} [LinearOrderedField R] (self : SymmFuncBehler R) : Prop where
  sizeRad_pos : 1 ≤ self.sizeRad
  sizeAng_nonneg : 0 ≤ self.sizeAng
  cut_pos : 0 < self.radiusCut
  numRad_eq : self.numRadBasis = self.sizeRad * self.numElems
  numAng_eq : self.numAngBasis
    = self.sizeAng * 2 * (Int.tdiv (self.numElems * (self.numElems + 1)) 2)
  numBasis_eq : self.numBasis = self.numRadBasis + self.numAngBasis

/-- The radial slot `imode + jelem1 * sizeRad` (lines 173, 207). -/
def radialSlot {R : Type} (self : SymmFuncBehler R) (elemNeighbor : Nat → Int)
    (ineigh1 imode : Nat) : Int :=
  (imode : Int) + elemNeighbor ineigh1 * self.sizeRad

/-- The angular slot `numRadBasis + imode + jbase + kbase` (lines 262, 308, 336). -/
def angularSlot {R : Type} (self : SymmFuncBehler R) (elemNeighbor : Nat → Int)
    (ineigh1 ineigh2 ilambda imode : Nat) : Int :=
  self.numRadBasis + (imode : Int) + (ilambda : Int) * self.sizeAng
    + (elemNeighbor ineigh1
        + Int.tdiv (elemNeighbor ineigh2 * (elemNeighbor ineigh2 + 1)) 2) * 2 * self.sizeAng

/-- Everything the radial pass adds to `symmData[x]`. -/
def radialSum {R : Type} [LinearOrderedField R] (m : MathFns R) (self : SymmFuncBehler R)
    (n : Nat) (pos : Nat → Nat → R) (elem : Nat → Int) (x : Int) : R :=
  ∑ i in Finset.range n, ∑ k in Finset.range self.sizeRad.toNat,
    if x = radialSlot self elem i k then
      (radialTerm m self (pos i 0) (pos i 1) (pos i 2) (pos i 3) k).1 else 0

/-- Everything the angular pass adds to `symmData[x]`. -/
def angularSum {R : Type} [LinearOrderedField R] (m : MathFns R) (self : SymmFuncBehler R)
    (n : Nat) (pos : Nat → Nat → R) (elem : Nat → Int) (x : Int) : R :=
  ∑ i2 in Finset.range n, ∑ i1 in Finset.range n,
    if pairSkipped elem i1 i2 then 0 else
      ∑ l in Finset.range 2,
        if chi0At pos i1 i2 l < chi0_thr then 0 else
          ∑ k in Finset.range self.sizeAng.toNat,
            if x = angularSlot self elem i1 i2 l k then (angularTermAt m self pos i1 i2 l k).g
            else 0

/-- The gradient component of a radial term along axis `a` (`0`: x, `1`: y,
otherwise z). -/
def radialGrad {R : Type} (t : R × R × R × R) (a : Nat) : R :=
  if a = 0 then t.2.1 else if a = 1 then t.2.2.1 else t.2.2.2

/-- Everything one radial term (lines 211-217) adds to `symmDiff[x]`. -/
def radialDelta {R : Type} [LinearOrderedField R] (m : MathFns R) (self : SymmFuncBehler R)
    (pos : Nat → Nat → R) (elem : Nat → Int) (i k : Nat) (x : Int) : R :=
  (if x = radialSlot self elem i k + 0 * self.numBasis then
      -(radialTerm m self (pos i 0) (pos i 1) (pos i 2) (pos i 3) k).2.1 else 0)
  + (if x = radialSlot self elem i k + 1 * self.numBasis then
      -(radialTerm m self (pos i 0) (pos i 1) (pos i 2) (pos i 3) k).2.2.1 else 0)
  + (if x = radialSlot self elem i k + 2 * self.numBasis then
      -(radialTerm m self (pos i 0) (pos i 1) (pos i 2) (pos i 3) k).2.2.2 else 0)
  + (if x = radialSlot self elem i k + (3 * ((i : Int) + 1) + 0) * self.numBasis then
      (radialTerm m self (pos i 0) (pos i 1) (pos i 2) (pos i 3) k).2.1 else 0)
  + (if x = radialSlot self elem i k + (3 * ((i : Int) + 1) + 1) * self.numBasis then
      (radialTerm m self (pos i 0) (pos i 1) (pos i 2) (pos i 3) k).2.2.1 else 0)
  + (if x = radialSlot self elem i k + (3 * ((i : Int) + 1) + 2) * self.numBasis then
      (radialTerm m self (pos i 0) (pos i 1) (pos i 2) (pos i 3) k).2.2.2 else 0)

/-- The coordinate of `(x, y, z)` along axis `a` (`0`: x, `1`: y, otherwise z). -/
def axisCoord {R : Type} (x y z : R) (a : Nat) : R :=
  if a = 0 then x else if a = 1 then y else z

/-- The derivative of the radial profile `r -> exp(-eta*(r-rs)^2) * tanh(1-r/Rc)^3`
with respect to `r`, written with the library functions `m`. -/
def radialSlope {R : Type} [LinearOrderedField R] (m : MathFns R) (eta rs radiusCut r : R) : R :=
  -2 * eta * (r - rs) * m.exp (-eta * (r - rs) ^ 2) * m.tanh (1 - r / radiusCut) ^ 3
    + m.exp (-eta * (r - rs) ^ 2)
      * (-3 / radiusCut * m.tanh (1 - r / radiusCut) ^ 2
        * (1 - m.tanh (1 - r / radiusCut) ^ 2))

/-- Everything one angular term (lines 340-350) adds to `symmDiff[x]`. -/
def angularDelta {R : Type} [LinearOrderedField R] (m : MathFns R) (self : SymmFuncBehler R)
    (pos : Nat → Nat → R) (elem : Nat → Int) (i1 i2 l k : Nat) (x : Int) : R :=
  (if x = angularSlot self elem i1 i2 l k + 0 * self.numBasis then
      -((angularTermAt m self pos i1 i2 l k).dgdx1 + (angularTermAt m self pos i1 i2 l k).dgdx2)
    else 0)
  + (if x = angularSlot self elem i1 i2 l k + 1 * self.numBasis then
      -((angularTermAt m self pos i1 i2 l k).dgdy1 + (angularTermAt m self pos i1 i2 l k).dgdy2)
    else 0)
  + (if x = angularSlot self elem i1 i2 l k + 2 * self.numBasis then
      -((angularTermAt m self pos i1 i2 l k).dgdz1 + (angularTermAt m self pos i1 i2 l k).dgdz2)
    else 0)
  + (if x = angularSlot self elem i1 i2 l k + (3 * ((i1 : Int) + 1) + 0) * self.numBasis then
      (angularTermAt m self pos i1 i2 l k).dgdx1 else 0)
  + (if x = angularSlot self elem i1 i2 l k + (3 * ((i1 : Int) + 1) + 1) * self.numBasis then
      (angularTermAt m self pos i1 i2 l k).dgdy1 else 0)
  + (if x = angularSlot self elem i1 i2 l k + (3 * ((i1 : Int) + 1) + 2) * self.numBasis then
      (angularTermAt m self pos i1 i2 l k).dgdz1 else 0)
  + (if x = angularSlot self elem i1 i2 l k + (3 * ((i2 : Int) + 1) + 0) * self.numBasis then
      (angularTermAt m self pos i1 i2 l k).dgdx2 else 0)
  + (if x = angularSlot self elem i1 i2 l k + (3 * ((i2 : Int) + 1) + 1) * self.numBasis then
      (angularTermAt m self pos i1 i2 l k).dgdy2 else 0)
  + (if x = angularSlot self elem i1 i2 l k + (3 * ((i2 : Int) + 1) + 2) * self.numBasis then
      (angularTermAt m self pos i1 i2 l k).dgdz2 else 0)

/-- Everything the radial pass adds to `symmDiff[x]`. -/
def radialDiffSum {R : Type} [LinearOrderedField R] (m : MathFns R) (self : SymmFuncBehler R)
    (n : Nat) (pos : Nat → Nat → R) (elem : Nat → Int) (x : Int) : R :=
  ∑ i in Finset.range n, ∑ k in Finset.range self.sizeRad.toNat, radialDelta m self pos elem i k x

/-- The branch loop body with the threshold test made optional: with
`skip = true` it is `angularLambda`; with `skip = false` it is the same code
without the test of lines 303-306. -/
def angularLambdaOpt {R : Type} [LinearOrderedField R] (skip : Bool) (m : MathFns R)
    (self : SymmFuncBehler R) (posNeighbor : Nat → Nat → R) (elemNeighbor : Nat → Int)
    (ineigh2 ineigh1 : Nat) (o : Out R) (ilambda : Nat) : Out R :=
  if skip = true ∧ chi0At posNeighbor ineigh1 ineigh2 ilambda < chi0_thr then o
  else forLoop self.sizeAng.toNat
    (angularMode m self posNeighbor elemNeighbor ineigh2 ineigh1 ilambda) o

/-- The inner neighbor loop body over `angularLambdaOpt`. -/
def angularInnerOpt {R : Type} [LinearOrderedField R] (skip : Bool) (m : MathFns R)
    (self : SymmFuncBehler R) (posNeighbor : Nat → Nat → R) (elemNeighbor : Nat → Int)
    (ineigh2 : Nat) (o : Out R) (ineigh1 : Nat) : Out R :=
  if pairSkipped elemNeighbor ineigh1 ineigh2 then o
  else forLoop 2 (angularLambdaOpt skip m self posNeighbor elemNeighbor ineigh2 ineigh1) o

/-- The outer neighbor loop body over `angularInnerOpt`. -/
def angularOuterOpt {R : Type} [LinearOrderedField R] (skip : Bool) (m : MathFns R)
    (self : SymmFuncBehler R) (numNeighbor : Int) (posNeighbor : Nat → Nat → R)
    (elemNeighbor : Nat → Int) (o : Out R) (ineigh2 : Nat) : Out R :=
  forLoop numNeighbor.toNat (angularInnerOpt skip m self posNeighbor elemNeighbor ineigh2) o

/-- The body of `calculate` with the threshold test made optional: with
`skip = true` it is `calculateBody`; with `skip = false` it is the same code
without the threshold skip. -/
def calculateBodyOpt {R : Type} [LinearOrderedField R] (skip : Bool) (m : MathFns R)
    (self : SymmFuncBehler R) (numNeighbor : Int) (posNeighbor : Nat → Nat → R)
    (elemNeighbor : Nat → Int) (o : Out R) : Out R :=
  let o := zeroInit self numNeighbor o
  if numNeighbor < 1 then o
  else
    let o := forLoop numNeighbor.toNat (radialNeighbor m self posNeighbor elemNeighbor) o
    if numNeighbor < 2 ∨ self.sizeAng < 1 then o
    else forLoop numNeighbor.toNat
      (angularOuterOpt skip m self numNeighbor posNeighbor elemNeighbor) o

/-- Everything the angular pass of `calculateBodyOpt` adds to `symmData[x]`. -/
def angularSumOpt {R : Type} [LinearOrderedField R] (skip : Bool) (m : MathFns R)
    (self : SymmFuncBehler R) (n : Nat) (pos : Nat → Nat → R) (elem : Nat → Int) (x : Int) : R :=
  ∑ i2 in Finset.range n, ∑ i1 in Finset.range n,
    if pairSkipped elem i1 i2 then 0 else
      ∑ l in Finset.range 2,
        if skip = true ∧ chi0At pos i1 i2 l < chi0_thr then 0 else
          ∑ k in Finset.range self.sizeAng.toNat,
            if x = angularSlot self elem i1 i2 l k then (angularTermAt m self pos i1 i2 l k).g
            else 0

/-- Everything the angular pass of `calculateBodyOpt` adds to `symmDiff[x]`. -/
def angularDiffSumOpt {R : Type} [LinearOrderedField R] (skip : Bool) (m : MathFns R)
    (self : SymmFuncBehler R) (n : Nat) (pos : Nat → Nat → R) (elem : Nat → Int) (x : Int) : R :=
  ∑ i2 in Finset.range n, ∑ i1 in Finset.range n,
    if pairSkipped elem i1 i2 then 0 else
      ∑ l in Finset.range 2,
        if skip = true ∧ chi0At pos i1 i2 l < chi0_thr then 0 else
          ∑ k in Finset.range self.sizeAng.toNat, angularDelta m self pos elem i1 i2 l k x

/-- The packed angular index `ibase = numRadBasis + imode + jbase + kbase` as a
function of the element pair, the branch and the mode, with
`jbase = ilambda * sizeAng` (line 308) and
`kbase = (jelem1 + jelem2 * (jelem2 + 1) / 2) * 2 * sizeAng` (line 262). -/
def angularIbase {R : Type} (self : SymmFuncBehler R) (jelem1 jelem2 : Int)
    (ilambda imode : Nat) : Int :=
  let kbase := (jelem1 + Int.tdiv (jelem2 * (jelem2 + 1)) 2) * 2 * self.sizeAng
  let jbase := (ilambda : Int) * self.sizeAng
  self.numRadBasis + (imode : Int) + jbase + kbase

/-! ## The Coulomb pair style: `PairNNPCoulCut::compute` -/

/-- The library functions and constants `cos`, `sin`, `PI`, `PId` used by
`PairNNPCoulCut::compute`; they are declared in headers outside the sources at
hand and are kept as parameters. -/
structure CoulFns (R : Type) where
  cos : R → R
  sin : R → R
  PI : R
  PId : R

/-- The assignment `v[i] = x` on a small array. -/
def setIdx {R : Type} (v : Nat → R) (i : Nat) (x : R) : Nat → R :=
  fun j => if j = i then x else v j

/-- The value of an integer expression after it is stored in the signed type
`tagint` of `tagBits` bits (two's-complement wrap-around).  `tagint` is
declared in a header outside the sources at hand; its width is the parameter
`tagBits`. -/
def wrapTag (tagBits : Nat) (v : Int) : Int :=
  (v + 2 ^ (tagBits - 1)) % 2 ^ tagBits - 2 ^ (tagBits - 1)

/-- The "skip half of atoms" test of `PairNNPCoulCut::compute` (lines 86-96) for
the atom `i` (tag `itag`, position `xtmp, ytmp, ztmp`) and its neighbor `j`
(tag `jtag`, position `xj`): `true` when one of the `continue` statements is
reached.  The sum `itag + jtag` is a `tagint` of `tagBits` bits, and `%` is
C's remainder, which truncates toward zero. -/
def PairNNPCoulCut.skipHalf {R : Type} [LinearOrderedField R] (tagBits : Nat)
    (itag jtag : Int) (xtmp ytmp ztmp : R) (xj : Nat → R) : Bool :=
  if itag > jtag then
    if Int.tmod (wrapTag tagBits (itag + jtag)) 2 = 0 then true else false
  else if itag < jtag then
    if Int.tmod (wrapTag tagBits (itag + jtag)) 2 = 1 then true else false
  else
    if xj 2 < ztmp then true
    else if xj 2 = ztmp ∧ xj 1 < ytmp then true
    else if xj 2 = ztmp ∧ xj 1 = ytmp ∧ xj 0 < xtmp then true
    else false

/-- Body of the inner loop of the first pass of `PairNNPCoulCut::compute` (lines
78-123) for one neighbor `jj` of atom `ii`: the new contents of
`frcNeighborAll[ii][jj]` (`[0]`: flag, `[1]`: `ecoul`, `[2]`: `fpair`).  `xi`,
`qtmp` are `x[i]`, `q[i]`; `xj`, `qj` are `x[j]`, `q[j]`; `factor_coul` is
`special_coul[sbmask(j)]`; `posNeighbor` is `posNeighborAll[ii][jj]`. -/
def PairNNPCoulCut.computePair {R : Type} [LinearOrderedField R] (tagBits : Nat)
    (c : CoulFns R)
    (cutcoul rcut qqrd2e : R) (eflag : Int) (itag jtag : Int) (xi : Nat → R) (qtmp : R)
    (xj : Nat → R) (qj factor_coul : R) (posNeighbor : Nat → R) (frc : Nat → R) : Nat → R :=
  let frc := setIdx frc 0 (-1)
  if PairNNPCoulCut.skipHalf tagBits itag jtag (xi 0) (xi 1) (xi 2) xj then frc
  else
    let r := posNeighbor 0
    if 0 < r ∧ r < cutcoul then
      let rinv := 1 / r
      let r2inv := rinv * rinv
      let forcecoul := qqrd2e * qtmp * qj * rinv
      let fc := if r < rcut then (1 / 2) * (1 - c.cos (c.PI * r / rcut)) else 1
      let dfcdr := (1 / 2) * c.PId / rcut * c.sin (c.PId * r / rcut)
      let fpair := if r < rcut then factor_coul * forcecoul * (rinv * fc - dfcdr) * rinv
        else factor_coul * forcecoul * r2inv
      let ecoul := if eflag ≠ 0 then factor_coul * forcecoul * fc else 0
      let frc := setIdx frc 0 1
      let frc := setIdx frc 1 ecoul
      setIdx frc 2 fpair
    else frc

/-- Modelled from the spec: `ev_tally` is not part of the sources at hand, and
the spec does not describe it; its call is recorded as the event
`some (ecoul, fpair, delx, dely, delz)`, no call as `none`.  Body of the inner
loop of the second pass of `PairNNPCoulCut::compute` (lines 136-161) for the
pair of atom indices `i`, `j`: the force array after the accumulation and the
`ev_tally` event. -/
def PairNNPCoulCut.tallyPair {R : Type} [LinearOrderedField R] (evflag : Int) (i j : Nat)
    (posNeighbor frc : Nat → R) (f : Nat → Nat → R) :
    (Nat → Nat → R) × Option (R × R × R × R × R) :=
  if frc 0 > 0 then
    let delx := -posNeighbor 1
    let dely := -posNeighbor 2
    let delz := -posNeighbor 3
    let ecoul := frc 1
    let fpair := frc 2
    let fx := delx * fpair
    let fy := dely * fpair
    let fz := delz * fpair
    let f := fun a => if a = i then setIdx (setIdx (setIdx (f a) 0 (f a 0 + fx)) 1 (f a 1 + fy))
      2 (f a 2 + fz) else f a
    let f := fun a => if a = j then setIdx (setIdx (setIdx (f a) 0 (f a 0 - fx)) 1 (f a 1 - fy))
      2 (f a 2 - fz) else f a
    (f, if evflag ≠ 0 then some (ecoul, fpair, delx, dely, delz) else none)
  else (f, none)

/-! ## Loops and buffer writes -/

theorem forLoop_probe {σ M : Type} [AddCommMonoid M] (L : σ → M) (body : σ → Nat → σ)
    (δ : Nat → M) (n : Nat) (h : ∀ s i, i < n → L (body s i) = L s + δ i) (s : σ) :
    L (forLoop n body s) = L s + ∑ i in Finset.range n, δ i := by
  induction n with
  | zero => simp [forLoop]
  | succ k ih =>
    have ih2 := ih (fun s i hi => h s i (Nat.lt_succ_of_lt hi))
    rw [Finset.sum_range_succ, forLoop, h _ k (Nat.lt_succ_self k), ih2, add_assoc]

theorem forLoop_keeps {σ : Type} (P : σ → Prop) (body : σ → Nat → σ) (n : Nat)
    (h : ∀ s i, i < n → P s → P (body s i)) (s : σ) (hs : P s) : P (forLoop n body s) := by
  induction n with
  | zero => simpa [forLoop] using hs
  | succ k ih =>
    rw [forLoop]
    exact h _ k (Nat.lt_succ_self k) (ih (fun s i hi => h s i (Nat.lt_succ_of_lt hi)))

theorem addAt_apply {R : Type} [AddMonoid R] (buf : Int → R) (i : Int) (v : R) (x : Int) :
    addAt buf i v x = buf x + (if x = i then v else 0) := by
  unfold addAt
  split <;> simp

theorem subAt_apply {R : Type} [AddGroup R] (buf : Int → R) (i : Int) (v : R) (x : Int) :
    subAt buf i v x = buf x + (if x = i then -v else 0) := by
  unfold subAt
  split <;> simp [sub_eq_add_neg]

theorem forLoop_setAt {R : Type} (buf : Int → R) (v : R) (off : Int) (n : Nat) (x : Int) :
    forLoop n (fun b (i : Nat) => setAt b ((i : Int) + off) v) buf x
      = if ∃ i : Nat, i < n ∧ x = (i : Int) + off then v else buf x := by
  induction n with
  | zero => simp [forLoop]
  | succ k ih =>
    rw [forLoop]
    simp only [setAt]
    by_cases hx : x = (k : Int) + off
    · rw [if_pos hx, if_pos ⟨k, Nat.lt_succ_self k, hx⟩]
    · rw [if_neg hx, ih]
      have : (∃ i : Nat, i < k + 1 ∧ x = (i : Int) + off) ↔ ∃ i : Nat, i < k ∧ x = (i : Int) + off := by
        constructor
        · rintro ⟨i, hi, he⟩
          refine ⟨i, ?_, he⟩
          rcases Nat.lt_succ_iff_lt_or_eq.mp hi with h | h
          · exact h
          · subst h; exact absurd he hx
        · rintro ⟨i, hi, he⟩
          exact ⟨i, Nat.lt_succ_of_lt hi, he⟩
      simp only [this]

theorem forLoop_setAt_block {R : Type} (buf : Int → R) (v : R) (N : Int) (B F : Nat) (x : Int) :
    forLoop F (fun b (f : Nat) =>
        forLoop B (fun b (i : Nat) => setAt b ((i : Int) + (f : Int) * N) v) b) buf x
      = if ∃ f : Nat, f < F ∧ ∃ i : Nat, i < B ∧ x = (i : Int) + (f : Int) * N then v
        else buf x := by
  induction F with
  | zero => simp [forLoop]
  | succ k ih =>
    rw [forLoop, forLoop_setAt, ih]
    by_cases h1 : ∃ i : Nat, i < B ∧ x = (i : Int) + (k : Int) * N
    · rw [if_pos h1, if_pos ⟨k, Nat.lt_succ_self k, h1⟩]
    · rw [if_neg h1]
      have : (∃ f : Nat, f < k + 1 ∧ ∃ i : Nat, i < B ∧ x = (i : Int) + (f : Int) * N)
          ↔ ∃ f : Nat, f < k ∧ ∃ i : Nat, i < B ∧ x = (i : Int) + (f : Int) * N := by
        constructor
        · rintro ⟨f, hf, hi⟩
          refine ⟨f, ?_, hi⟩
          rcases Nat.lt_succ_iff_lt_or_eq.mp hf with h | h
          · exact h
          · subst h; exact absurd hi h1
        · rintro ⟨f, hf, hi⟩
          exact ⟨f, Nat.lt_succ_of_lt hf, hi⟩
      simp only [this]

/-! ## The zero-initialisation -/

theorem zeroInit_symmData {R : Type} [LinearOrderedField R] (self : SymmFuncBehler R)
    (numNeighbor : Int) (o : Out R) (x : Int) :
    (zeroInit self numNeighbor o).symmData x
      = if 0 ≤ x ∧ x < self.numBasis then 0 else o.symmData x := by
  have h := forLoop_setAt o.symmData (0 : R) 0 self.numBasis.toNat x
  simp only [add_zero] at h
  simp only [zeroInit]
  rw [h]
  have : (∃ i : Nat, i < self.numBasis.toNat ∧ x = (i : Int)) ↔ (0 ≤ x ∧ x < self.numBasis) := by
    constructor
    · rintro ⟨i, hi, rfl⟩
      omega
    · rintro ⟨h0, h1⟩
      exact ⟨x.toNat, by omega, by omega⟩
  simp only [this]

theorem zeroInit_symmDiff {R : Type} [LinearOrderedField R] (self : SymmFuncBehler R)
    (numNeighbor : Int) (o : Out R) (x : Int) :
    (zeroInit self numNeighbor o).symmDiff x
      = if ∃ f : Nat, f < (3 * (1 + numNeighbor)).toNat ∧
            ∃ i : Nat, i < self.numBasis.toNat ∧ x = (i : Int) + (f : Int) * self.numBasis
        then 0 else o.symmDiff x := by
  simp only [zeroInit]
  exact forLoop_setAt_block o.symmDiff 0 self.numBasis self.numBasis.toNat _ x

theorem zeroInit_symmDiff_inRange {R : Type} [LinearOrderedField R] (self : SymmFuncBehler R)
    (numNeighbor : Int) (o : Out R) (b c : Int) (hb0 : 0 ≤ b) (hb : b < self.numBasis)
    (hc0 : 0 ≤ c) (hc : c < 3 * (1 + numNeighbor)) :
    (zeroInit self numNeighbor o).symmDiff (b + c * self.numBasis) = 0 := by
  rw [zeroInit_symmDiff, if_pos]
  exact ⟨c.toNat, by omega, b.toNat, by omega, by
    rw [Int.toNat_of_nonneg hb0, Int.toNat_of_nonneg hc0]⟩

/-! ## Index arithmetic -/

theorem flat_index_inj (N b b2 q q2 : Int) (hb0 : 0 ≤ b) (hb : b < N) (hc0 : 0 ≤ b2)
    (hc : b2 < N) : b + q * N = b2 + q2 * N ↔ b = b2 ∧ q = q2 := by
  constructor
  · intro h
    have hN : 0 < N := lt_of_le_of_lt hb0 hb
    have e1 : (b + q * N) % N = b := by
      rw [Int.add_mul_emod_self, Int.emod_eq_of_lt hb0 hb]
    have e2 : (b2 + q2 * N) % N = b2 := by
      rw [Int.add_mul_emod_self, Int.emod_eq_of_lt hc0 hc]
    have hbb : b = b2 := by rw [← e1, ← e2, h]
    refine ⟨hbb, ?_⟩
    subst hbb
    have h3 : q * N = q2 * N := by linarith
    exact mul_right_cancel₀ (ne_of_gt hN) h3
  · rintro ⟨rfl, rfl⟩
    rfl

theorem rowSum_addAt {R : Type} [AddCommGroup R] (N : Int) (n : Nat) (b a : Int) (buf : Int → R)
    (ibase : Int) (c : Nat) (a2 : Int) (v : R)
    (hb0 : 0 ≤ b) (hb : b < N) (hi0 : 0 ≤ ibase) (hi : ibase < N)
    (ha0 : 0 ≤ a) (ha : a < 3) (h20 : 0 ≤ a2) (h2 : a2 < 3) (hc : c ≤ n) :
    rowSum N n b a (addAt buf (ibase + (3 * (c : Int) + a2) * N) v)
      = rowSum N n b a buf + if b = ibase ∧ a = a2 then v else 0 := by
  unfold rowSum
  simp only [addAt_apply, Finset.sum_add_distrib]
  congr 1
  have key : ∀ k : Nat, (b + (3 * (k : Int) + a) * N = ibase + (3 * (c : Int) + a2) * N)
      ↔ (k = c ∧ (b = ibase ∧ a = a2)) := by
    intro k
    rw [flat_index_inj N b ibase _ _ hb0 hb hi0 hi]
    constructor
    · rintro ⟨h1, h3⟩
      exact ⟨by omega, h1, by omega⟩
    · rintro ⟨rfl, h1, rfl⟩
      exact ⟨h1, rfl⟩
  simp only [key]
  by_cases hq : b = ibase ∧ a = a2
  · simp only [hq, and_true, and_self, if_true]
    rw [Finset.sum_ite_eq', if_pos]
    simp only [Finset.mem_range]
    omega
  · simp [hq]

theorem rowSum_subAt {R : Type} [AddCommGroup R] (N : Int) (n : Nat) (b a : Int) (buf : Int → R)
    (ibase : Int) (c : Nat) (a2 : Int) (v : R)
    (hb0 : 0 ≤ b) (hb : b < N) (hi0 : 0 ≤ ibase) (hi : ibase < N)
    (ha0 : 0 ≤ a) (ha : a < 3) (h20 : 0 ≤ a2) (h2 : a2 < 3) (hc : c ≤ n) :
    rowSum N n b a (subAt buf (ibase + (3 * (c : Int) + a2) * N) v)
      = rowSum N n b a buf + if b = ibase ∧ a = a2 then -v else 0 := by
  have e : subAt buf (ibase + (3 * (c : Int) + a2) * N) v
      = addAt buf (ibase + (3 * (c : Int) + a2) * N) (-v) := by
    funext x
    rw [addAt_apply, subAt_apply]
  rw [e]
  exact rowSum_addAt N n b a buf ibase c a2 (-v) hb0 hb hi0 hi ha0 ha h20 h2 hc

/-! ## Facts established by the constructor -/

theorem construct_ok {R : Type} [LinearOrderedField R]
    (numElems sizeRad sizeAng : Int) (radiusCut : R)
    (radiusEta radiusShift angleEta angleZeta : Option (Nat → R)) (self : SymmFuncBehler R)
    (h : SymmFuncBehler.SymmFuncBehler numElems sizeRad sizeAng radiusCut
      radiusEta radiusShift angleEta angleZeta = .ok self) :
    (1 ≤ sizeRad ∧ 0 ≤ sizeAng ∧ 0 < radiusCut ∧ radiusEta.isSome ∧ radiusShift.isSome ∧
      (0 < sizeAng → angleEta.isSome ∧ angleZeta.isSome)) ∧
    self = { numElems := numElems
             numBasis := sizeRad * numElems
               + sizeAng * 2 * (Int.tdiv (numElems * (numElems + 1)) 2)
             sizeRad := sizeRad
             sizeAng := sizeAng
             numRadBasis := sizeRad * numElems
             numAngBasis := sizeAng * 2 * (Int.tdiv (numElems * (numElems + 1)) 2)
             radiusCut := radiusCut
             radiusEta := radiusEta
             radiusShift := radiusShift
             angleEta := angleEta
             angleZeta := angleZeta } := by
  unfold SymmFuncBehler.SymmFuncBehler SymmFunc.SymmFunc stop_by_error at h
  simp only [] at h
  split_ifs at h with h1 h2 h3 h4 h5 h6 h7
  injection h with h
  subst h
  refine ⟨⟨by omega, by omega, lt_of_not_ge h3, ?_, ?_, ?_⟩, rfl⟩
  · cases radiusEta <;> simp_all
  · cases radiusShift <;> simp_all
  · intro hp
    constructor
    · cases angleEta <;> simp_all
    · cases angleZeta <;> simp_all

theorem wellFormed_of_construct {R : Type} [LinearOrderedField R]
    (numElems sizeRad sizeAng : Int) (radiusCut : R)
    (radiusEta radiusShift angleEta angleZeta : Option (Nat → R)) (self : SymmFuncBehler R)
    (h : SymmFuncBehler.SymmFuncBehler numElems sizeRad sizeAng radiusCut
      radiusEta radiusShift angleEta angleZeta = .ok self) : WellFormed self := by
  obtain ⟨⟨h1, h2, h3, -⟩, rfl⟩ := construct_ok _ _ _ _ _ _ _ _ _ h
  exact ⟨h1, h2, h3, rfl, rfl, rfl⟩

theorem two_mul_tri (e : Int) : 2 * Int.tdiv (e * (e + 1)) 2 = e * (e + 1) := by
  have hd : (2 : Int) ∣ e * (e + 1) := (Int.even_mul_succ_self e).two_dvd
  rw [Int.tdiv_eq_ediv_of_dvd hd]
  exact Int.mul_ediv_cancel' hd

theorem radial_slot_bounds {R : Type} [LinearOrderedField R] (self : SymmFuncBehler R)
    (w : WellFormed self) (e : Int) (he0 : 0 ≤ e) (he : e < self.numElems) (imode : Nat)
    (hm : imode < self.sizeRad.toNat) :
    0 ≤ (imode : Int) + e * self.sizeRad ∧ (imode : Int) + e * self.sizeRad < self.numRadBasis
      ∧ self.numRadBasis ≤ self.numBasis := by
  obtain ⟨h1, h2, -, hnr, hna, hnb⟩ := w
  have hk : (imode : Int) < self.sizeRad := by omega
  have hk0 : (0 : Int) ≤ imode := Int.ofNat_nonneg _
  have ht := two_mul_tri self.numElems
  have hN : 0 ≤ self.numElems := by omega
  have ht0 : 0 ≤ Int.tdiv (self.numElems * (self.numElems + 1)) 2 := by nlinarith
  refine ⟨by nlinarith, ?_, ?_⟩
  · rw [hnr]
    nlinarith
  · rw [hnb, hna]
    nlinarith

theorem angular_slot_bounds {R : Type} [LinearOrderedField R] (self : SymmFuncBehler R)
    (w : WellFormed self) (e1 e2 : Int) (he0 : 0 ≤ e1) (he12 : e1 ≤ e2) (he : e2 < self.numElems)
    (ilambda imode : Nat) (hl : ilambda < 2) (hm : imode < self.sizeAng.toNat) :
    self.numRadBasis ≤ self.numRadBasis + (imode : Int) + (ilambda : Int) * self.sizeAng
        + (e1 + Int.tdiv (e2 * (e2 + 1)) 2) * 2 * self.sizeAng ∧
      self.numRadBasis + (imode : Int) + (ilambda : Int) * self.sizeAng
        + (e1 + Int.tdiv (e2 * (e2 + 1)) 2) * 2 * self.sizeAng < self.numBasis ∧
      0 ≤ self.numRadBasis := by
  obtain ⟨h1, h2, -, hnr, hna, hnb⟩ := w
  have hk : (imode : Int) < self.sizeAng := by omega
  have hk0 : (0 : Int) ≤ imode := Int.ofNat_nonneg _
  have hl0 : (0 : Int) ≤ ilambda := Int.ofNat_nonneg _
  have hl1 : (ilambda : Int) ≤ 1 := by omega
  have ht := two_mul_tri self.numElems
  have ht2 := two_mul_tri e2
  have hN : 0 ≤ self.numElems := by omega
  have he20 : 0 ≤ e2 := by omega
  have ht20 : 0 ≤ Int.tdiv (e2 * (e2 + 1)) 2 := by nlinarith
  have hp : e1 + Int.tdiv (e2 * (e2 + 1)) 2 + 1 ≤ Int.tdiv (self.numElems * (self.numElems + 1)) 2 := by
    have : (e2 + 1) * (e2 + 2) ≤ self.numElems * (self.numElems + 1) := by nlinarith
    nlinarith
  have hls : (ilambda : Int) * self.sizeAng ≤ self.sizeAng := by nlinarith
  have hls0 : 0 ≤ (ilambda : Int) * self.sizeAng := by positivity
  have hp0 : 0 ≤ (e1 + Int.tdiv (e2 * (e2 + 1)) 2) * 2 * self.sizeAng := by positivity
  have hps : (e1 + Int.tdiv (e2 * (e2 + 1)) 2 + 1) * (2 * self.sizeAng)
      ≤ Int.tdiv (self.numElems * (self.numElems + 1)) 2 * (2 * self.sizeAng) :=
    mul_le_mul_of_nonneg_right hp (by omega)
  refine ⟨by linarith, ?_, ?_⟩
  · rw [hnb, hna]
    nlinarith
  · rw [hnr]
    nlinarith

/-! ## Translational invariance: every write pattern keeps the row sums -/

theorem radialMode_rowSum {R : Type} [LinearOrderedField R] (m : MathFns R)
    (self : SymmFuncBehler R) (w : WellFormed self)
    (posNeighbor : Nat → Nat → R) (elemNeighbor : Nat → Int) (n ineigh1 : Nat)
    (hi : ineigh1 < n) (he0 : 0 ≤ elemNeighbor ineigh1)
    (he : elemNeighbor ineigh1 < self.numElems) (o : Out R) (imode : Nat)
    (hm : imode < self.sizeRad.toNat) (b a : Int) (hb0 : 0 ≤ b) (hb : b < self.numBasis)
    (ha0 : 0 ≤ a) (ha : a < 3) :
    rowSum self.numBasis n b a (radialMode m self posNeighbor elemNeighbor ineigh1 o imode).symmDiff
      = rowSum self.numBasis n b a o.symmDiff := by
  obtain ⟨hs0, hs1, hs2⟩ := radial_slot_bounds self w _ he0 he imode hm
  have hs : (imode : Int) + elemNeighbor ineigh1 * self.sizeRad < self.numBasis := by omega
  simp only [radialMode]
  generalize (imode : Int) + elemNeighbor ineigh1 * self.sizeRad = ibase at hs0 hs
  have e0 : ibase + 0 * self.numBasis = ibase + (3 * ((0 : Nat) : Int) + 0) * self.numBasis := by
    push_cast; ring
  have e1 : ibase + 1 * self.numBasis = ibase + (3 * ((0 : Nat) : Int) + 1) * self.numBasis := by
    push_cast; ring
  have e2 : ibase + 2 * self.numBasis = ibase + (3 * ((0 : Nat) : Int) + 2) * self.numBasis := by
    push_cast; ring
  have e3 : ∀ c : Int, ibase + (3 * ((ineigh1 : Int) + 1) + c) * self.numBasis
      = ibase + (3 * ((ineigh1 + 1 : Nat) : Int) + c) * self.numBasis := by
    intro c; push_cast; ring
  rw [e0, e1, e2, e3, e3, e3]
  rw [rowSum_addAt _ _ _ _ _ _ _ _ _ hb0 hb hs0 hs ha0 ha (by omega) (by omega) (by omega),
    rowSum_addAt _ _ _ _ _ _ _ _ _ hb0 hb hs0 hs ha0 ha (by omega) (by omega) (by omega),
    rowSum_addAt _ _ _ _ _ _ _ _ _ hb0 hb hs0 hs ha0 ha (by omega) (by omega) (by omega),
    rowSum_subAt _ _ _ _ _ _ _ _ _ hb0 hb hs0 hs ha0 ha (by omega) (by omega) (by omega),
    rowSum_subAt _ _ _ _ _ _ _ _ _ hb0 hb hs0 hs ha0 ha (by omega) (by omega) (by omega),
    rowSum_subAt _ _ _ _ _ _ _ _ _ hb0 hb hs0 hs ha0 ha (by omega) (by omega) (by omega)]
  by_cases hbi : b = ibase
  · rcases (show a = 0 ∨ a = 1 ∨ a = 2 by omega) with h | h | h <;> subst h <;> simp [hbi]
  · simp [hbi]

theorem angularMode_rowSum {R : Type} [LinearOrderedField R] (m : MathFns R)
    (self : SymmFuncBehler R) (w : WellFormed self)
    (posNeighbor : Nat → Nat → R) (elemNeighbor : Nat → Int) (n ineigh2 ineigh1 ilambda : Nat)
    (hi1 : ineigh1 < n) (hi2 : ineigh2 < n) (hl : ilambda < 2)
    (he0 : 0 ≤ elemNeighbor ineigh1) (he12 : elemNeighbor ineigh1 ≤ elemNeighbor ineigh2)
    (he : elemNeighbor ineigh2 < self.numElems) (o : Out R) (imode : Nat)
    (hm : imode < self.sizeAng.toNat) (b a : Int) (hb0 : 0 ≤ b) (hb : b < self.numBasis)
    (ha0 : 0 ≤ a) (ha : a < 3) :
    rowSum self.numBasis n b a
        (angularMode m self posNeighbor elemNeighbor ineigh2 ineigh1 ilambda o imode).symmDiff
      = rowSum self.numBasis n b a o.symmDiff := by
  obtain ⟨hs0, hs, hs2⟩ := angular_slot_bounds self w _ _ he0 he12 he ilambda imode hl hm
  have hs1 : 0 ≤ self.numRadBasis + (imode : Int) + (ilambda : Int) * self.sizeAng
        + (elemNeighbor ineigh1
          + Int.tdiv (elemNeighbor ineigh2 * (elemNeighbor ineigh2 + 1)) 2) * 2 * self.sizeAng := by
    omega
  simp only [angularMode]
  generalize self.numRadBasis + (imode : Int) + (ilambda : Int) * self.sizeAng
        + (elemNeighbor ineigh1
          + Int.tdiv (elemNeighbor ineigh2 * (elemNeighbor ineigh2 + 1)) 2) * 2 * self.sizeAng
        = ibase at hs1 hs
  have e0 : ibase + 0 * self.numBasis = ibase + (3 * ((0 : Nat) : Int) + 0) * self.numBasis := by
    push_cast; ring
  have e1 : ibase + 1 * self.numBasis = ibase + (3 * ((0 : Nat) : Int) + 1) * self.numBasis := by
    push_cast; ring
  have e2 : ibase + 2 * self.numBasis = ibase + (3 * ((0 : Nat) : Int) + 2) * self.numBasis := by
    push_cast; ring
  have e3 : ∀ (i : Nat) (c : Int), ibase + (3 * ((i : Int) + 1) + c) * self.numBasis
      = ibase + (3 * ((i + 1 : Nat) : Int) + c) * self.numBasis := by
    intro i c; push_cast; ring
  rw [e0, e1, e2, e3, e3, e3, e3, e3, e3]
  rw [rowSum_addAt _ _ _ _ _ _ _ _ _ hb0 hb hs1 hs ha0 ha (by omega) (by omega) (by omega),
    rowSum_addAt _ _ _ _ _ _ _ _ _ hb0 hb hs1 hs ha0 ha (by omega) (by omega) (by omega),
    rowSum_addAt _ _ _ _ _ _ _ _ _ hb0 hb hs1 hs ha0 ha (by omega) (by omega) (by omega),
    rowSum_addAt _ _ _ _ _ _ _ _ _ hb0 hb hs1 hs ha0 ha (by omega) (by omega) (by omega),
    rowSum_addAt _ _ _ _ _ _ _ _ _ hb0 hb hs1 hs ha0 ha (by omega) (by omega) (by omega),
    rowSum_addAt _ _ _ _ _ _ _ _ _ hb0 hb hs1 hs ha0 ha (by omega) (by omega) (by omega),
    rowSum_subAt _ _ _ _ _ _ _ _ _ hb0 hb hs1 hs ha0 ha (by omega) (by omega) (by omega),
    rowSum_subAt _ _ _ _ _ _ _ _ _ hb0 hb hs1 hs ha0 ha (by omega) (by omega) (by omega),
    rowSum_subAt _ _ _ _ _ _ _ _ _ hb0 hb hs1 hs ha0 ha (by omega) (by omega) (by omega)]
  by_cases hbi : b = ibase
  · rcases (show a = 0 ∨ a = 1 ∨ a = 2 by omega) with h | h | h <;> subst h <;> simp [hbi] <;> ring
  · simp [hbi]

theorem not_pairSkipped (elemNeighbor : Nat → Int) (i1 i2 : Nat)
    (h : pairSkipped elemNeighbor i1 i2 = false) :
    elemNeighbor i1 < elemNeighbor i2 ∨ (elemNeighbor i1 = elemNeighbor i2 ∧ i1 < i2) := by
  unfold pairSkipped at h
  simp only [decide_eq_false_iff_not] at h
  omega

theorem calculate_ok {R : Type} [LinearOrderedField R] (m : MathFns R) (self : SymmFuncBehler R)
    (numNeighbor : Int) (pos : Nat → Nat → R) (elem : Nat → Int) (d0 f0 : Int → R) :
    SymmFuncBehler.calculate m numNeighbor (some pos) (some elem)
        { self := self, symmData := some d0, symmDiff := some f0 }
      = (.ok (), { self := self
                   symmData := some (calculateBody m self numNeighbor pos elem
                     { symmData := d0, symmDiff := f0 }).symmData
                   symmDiff := some (calculateBody m self numNeighbor pos elem
                     { symmData := d0, symmDiff := f0 }).symmDiff }) := rfl

theorem calculateBody_rowSum {R : Type} [LinearOrderedField R] (m : MathFns R)
    (self : SymmFuncBehler R) (w : WellFormed self) (n : Nat)
    (pos : Nat → Nat → R) (elem : Nat → Int)
    (hel : ∀ i : Nat, i < n → 0 ≤ elem i ∧ elem i < self.numElems) (o : Out R)
    (b a : Int) (hb0 : 0 ≤ b) (hb : b < self.numBasis) (ha0 : 0 ≤ a) (ha : a < 3) :
    rowSum self.numBasis n b a (calculateBody m self (n : Int) pos elem o).symmDiff = 0 := by
  have hinit : rowSum self.numBasis n b a (zeroInit self (n : Int) o).symmDiff = 0 := by
    unfold rowSum
    apply Finset.sum_eq_zero
    intro k hk
    rw [Finset.mem_range] at hk
    exact zeroInit_symmDiff_inRange self _ o b _ hb0 hb (by omega) (by omega)
  have hrad : ∀ o2 : Out R, rowSum self.numBasis n b a o2.symmDiff = 0 →
      rowSum self.numBasis n b a
        (forLoop n (radialNeighbor m self pos elem) o2).symmDiff = 0 := by
    intro o2 h2
    refine forLoop_keeps (fun s => rowSum self.numBasis n b a s.symmDiff = 0) _ n ?_ o2 h2
    intro s i hi hs
    unfold radialNeighbor
    refine forLoop_keeps (fun s => rowSum self.numBasis n b a s.symmDiff = 0) _ _ ?_ s hs
    intro s2 k hk hs2
    show rowSum self.numBasis n b a (radialMode m self pos elem i s2 k).symmDiff = 0
    rw [radialMode_rowSum m self w pos elem n i hi (hel i hi).1 (hel i hi).2 s2 k hk b a
      hb0 hb ha0 ha]
    exact hs2
  have hang : ∀ o2 : Out R, rowSum self.numBasis n b a o2.symmDiff = 0 →
      rowSum self.numBasis n b a
        (forLoop n (angularOuter m self (n : Int) pos elem) o2).symmDiff = 0 := by
    intro o2 h2
    refine forLoop_keeps (fun s => rowSum self.numBasis n b a s.symmDiff = 0) _ n ?_ o2 h2
    intro s i2 hi2 hs
    unfold angularOuter
    rw [Int.toNat_ofNat]
    refine forLoop_keeps (fun s => rowSum self.numBasis n b a s.symmDiff = 0) _ n ?_ s hs
    intro s1 i1 hi1 hs1
    unfold angularInner
    cases hsk : pairSkipped elem i1 i2
    · simp only [Bool.false_eq_true, if_false]
      have hle : elem i1 ≤ elem i2 := by
        rcases not_pairSkipped elem i1 i2 hsk with h | h <;> omega
      refine forLoop_keeps (fun s => rowSum self.numBasis n b a s.symmDiff = 0) _ 2 ?_ s1 hs1
      intro s3 l hl hs3
      unfold angularLambda
      split_ifs
      · exact hs3
      · refine forLoop_keeps (fun s => rowSum self.numBasis n b a s.symmDiff = 0) _ _ ?_ s3 hs3
        intro s4 k hk hs4
        show rowSum self.numBasis n b a (angularMode m self pos elem i2 i1 l s4 k).symmDiff = 0
        rw [angularMode_rowSum m self w pos elem n i2 i1 l hi1 hi2 hl (hel i1 hi1).1 hle
          (hel i2 hi2).2 s4 k hk b a hb0 hb ha0 ha]
        exact hs4
    · simpa using hs1
  unfold calculateBody
  simp only [Int.toNat_ofNat]
  split_ifs
  · exact hinit
  · exact hrad _ hinit
  · exact hang _ (hrad _ hinit)

/-! ## Closed form of the descriptor -/

theorem radialMode_symmData {R : Type} [LinearOrderedField R] (m : MathFns R)
    (self : SymmFuncBehler R) (pos : Nat → Nat → R) (elem : Nat → Int) (i : Nat)
    (o : Out R) (k : Nat) (x : Int) :
    (radialMode m self pos elem i o k).symmData x
      = o.symmData x + if x = radialSlot self elem i k then
          (radialTerm m self (pos i 0) (pos i 1) (pos i 2) (pos i 3) k).1 else 0 := by
  simp only [radialMode, radialSlot, addAt_apply]

theorem angularMode_symmData {R : Type} [LinearOrderedField R] (m : MathFns R)
    (self : SymmFuncBehler R) (pos : Nat → Nat → R) (elem : Nat → Int) (i2 i1 l : Nat)
    (o : Out R) (k : Nat) (x : Int) :
    (angularMode m self pos elem i2 i1 l o k).symmData x
      = o.symmData x + if x = angularSlot self elem i1 i2 l k then
          (angularTermAt m self pos i1 i2 l k).g else 0 := by
  simp only [angularMode, angularSlot, addAt_apply]

theorem radialPass_symmData {R : Type} [LinearOrderedField R] (m : MathFns R)
    (self : SymmFuncBehler R) (n : Nat) (pos : Nat → Nat → R) (elem : Nat → Int)
    (o : Out R) (x : Int) :
    (forLoop n (radialNeighbor m self pos elem) o).symmData x
      = o.symmData x + radialSum m self n pos elem x := by
  unfold radialSum
  refine forLoop_probe (fun s : Out R => s.symmData x) _ _ n ?_ o
  intro s i _
  unfold radialNeighbor
  refine forLoop_probe (fun s : Out R => s.symmData x) _ _ _ ?_ s
  intro s2 k _
  exact radialMode_symmData m self pos elem i s2 k x

theorem angularPass_symmData {R : Type} [LinearOrderedField R] (m : MathFns R)
    (self : SymmFuncBehler R) (n : Nat) (pos : Nat → Nat → R) (elem : Nat → Int)
    (o : Out R) (x : Int) :
    (forLoop n (angularOuter m self (n : Int) pos elem) o).symmData x
      = o.symmData x + angularSum m self n pos elem x := by
  unfold angularSum
  refine forLoop_probe (fun s : Out R => s.symmData x) _ _ n ?_ o
  intro s i2 _
  unfold angularOuter
  rw [Int.toNat_ofNat]
  refine forLoop_probe (fun s : Out R => s.symmData x) _ _ n ?_ s
  intro s1 i1 _
  unfold angularInner
  cases hsk : pairSkipped elem i1 i2
  · simp only [Bool.false_eq_true, if_false]
    refine forLoop_probe (fun s : Out R => s.symmData x) _ _ 2 ?_ s1
    intro s3 l _
    unfold angularLambda
    split_ifs
    · simp
    · refine forLoop_probe (fun s : Out R => s.symmData x) _ _ _ ?_ s3
      intro s4 k _
      exact angularMode_symmData m self pos elem i2 i1 l s4 k x
  · simp

theorem angularSum_eq_zero_of_few {R : Type} [LinearOrderedField R] (m : MathFns R)
    (self : SymmFuncBehler R) (n : Nat) (pos : Nat → Nat → R) (elem : Nat → Int) (x : Int)
    (h : (n : Int) < 2 ∨ self.sizeAng < 1) : angularSum m self n pos elem x = 0 := by
  unfold angularSum
  apply Finset.sum_eq_zero
  intro i2 h2
  apply Finset.sum_eq_zero
  intro i1 h1
  rw [Finset.mem_range] at h1 h2
  rcases h with h | h
  · have : pairSkipped elem i1 i2 = true := by
      unfold pairSkipped
      have e1 : i1 = 0 := by omega
      have e2 : i2 = 0 := by omega
      subst e1 e2
      simp
    simp [this]
  · have : self.sizeAng.toNat = 0 := by omega
    simp [this]

theorem calculateBody_symmData {R : Type} [LinearOrderedField R] (m : MathFns R)
    (self : SymmFuncBehler R) (n : Nat) (pos : Nat → Nat → R) (elem : Nat → Int)
    (o : Out R) (x : Int) :
    (calculateBody m self (n : Int) pos elem o).symmData x
      = (zeroInit self (n : Int) o).symmData x + radialSum m self n pos elem x
        + angularSum m self n pos elem x := by
  unfold calculateBody
  simp only [Int.toNat_ofNat]
  split_ifs with h1 h2
  · have e0 : n = 0 := by omega
    subst e0
    rw [angularSum_eq_zero_of_few m self 0 pos elem x (Or.inl (by norm_num))]
    simp [radialSum]
  · rw [angularSum_eq_zero_of_few m self n pos elem x h2, radialPass_symmData, add_zero]
  · rw [angularPass_symmData, radialPass_symmData]

theorem radialSum_at_slot {R : Type} [LinearOrderedField R] (m : MathFns R)
    (self : SymmFuncBehler R) (n : Nat) (pos : Nat → Nat → R) (elem : Nat → Int)
    (e : Int) (k : Nat) (hk : (k : Int) < self.sizeRad) :
    radialSum m self n pos elem ((k : Int) + e * self.sizeRad)
      = ∑ i in (Finset.range n).filter (fun i => elem i = e),
          (radialTerm m self (pos i 0) (pos i 1) (pos i 2) (pos i 3) k).1 := by
  unfold radialSum
  rw [Finset.sum_filter]
  apply Finset.sum_congr rfl
  intro i _
  have key : ∀ k2 : Nat, k2 ∈ Finset.range self.sizeRad.toNat →
      (if (k : Int) + e * self.sizeRad = radialSlot self elem i k2 then
        (radialTerm m self (pos i 0) (pos i 1) (pos i 2) (pos i 3) k2).1 else 0)
      = if k2 = k then (if elem i = e then
          (radialTerm m self (pos i 0) (pos i 1) (pos i 2) (pos i 3) k).1 else 0) else 0 := by
    intro k2 hk2
    rw [Finset.mem_range] at hk2
    unfold radialSlot
    have hiff := flat_index_inj self.sizeRad (k : Int) (k2 : Int) e (elem i)
      (Int.ofNat_nonneg _) hk (Int.ofNat_nonneg _) (by omega)
    by_cases h : k2 = k
    · subst h
      by_cases h2 : elem i = e
      · rw [if_pos rfl, if_pos h2, if_pos (by rw [h2])]
      · rw [if_pos rfl, if_neg h2, if_neg]
        intro h3
        exact h2 (hiff.mp h3).2.symm
    · rw [if_neg h, if_neg]
      intro h3
      exact h (by have := (hiff.mp h3).1; omega)
  rw [Finset.sum_congr rfl key, Finset.sum_ite_eq', if_pos]
  rw [Finset.mem_range]
  omega

theorem angularSum_below {R : Type} [LinearOrderedField R] (m : MathFns R)
    (self : SymmFuncBehler R) (w : WellFormed self) (n : Nat) (pos : Nat → Nat → R)
    (elem : Nat → Int) (hel : ∀ i : Nat, i < n → 0 ≤ elem i ∧ elem i < self.numElems)
    (x : Int) (hx : x < self.numRadBasis) : angularSum m self n pos elem x = 0 := by
  unfold angularSum
  apply Finset.sum_eq_zero
  intro i2 h2
  apply Finset.sum_eq_zero
  intro i1 h1
  rw [Finset.mem_range] at h1 h2
  cases hsk : pairSkipped elem i1 i2
  · simp only [Bool.false_eq_true, if_false]
    have hle : elem i1 ≤ elem i2 := by
      rcases not_pairSkipped elem i1 i2 hsk with h | h <;> omega
    apply Finset.sum_eq_zero
    intro l hl
    rw [Finset.mem_range] at hl
    split_ifs
    · rfl
    · apply Finset.sum_eq_zero
      intro k hk
      rw [Finset.mem_range] at hk
      have hb := (angular_slot_bounds self w _ _ (hel i1 h1).1 hle (hel i2 h2).2 l k hl hk).1
      rw [if_neg]
      unfold angularSlot
      omega
  · simp

/-! ## Claims about `calculate` -/

/-- C1 (zero-sum, translational invariance): for an object returned by the
constructor and a neighbor list whose element indices lie in
`[0, numElems)`, `calculate` succeeds and, for every basis row `b` and axis
`a`, the jacobian entries `symmDiff[b + (3*k + a)*numBasis]`, `k = 0..n`,
sum to exactly zero over the reals. -/
theorem zero_sum_invariant (m : MathFns ℝ) (numElems sizeRad sizeAng : Int) (radiusCut : ℝ)
    (radiusEta radiusShift angleEta angleZeta : Option (Nat → ℝ)) (self : SymmFuncBehler ℝ)
    (hself : SymmFuncBehler.SymmFuncBehler numElems sizeRad sizeAng radiusCut
      radiusEta radiusShift angleEta angleZeta = .ok self)
    (n : Nat) (pos : Nat → Nat → ℝ) (elem : Nat → Int)
    (hel : ∀ i : Nat, i < n → 0 ≤ elem i ∧ elem i < numElems) (d0 f0 : Int → ℝ) :
    ∃ data diff : Int → ℝ,
      SymmFuncBehler.calculate m (n : Int) (some pos) (some elem)
          { self := self, symmData := some d0, symmDiff := some f0 }
        = (.ok (), { self := self, symmData := some data, symmDiff := some diff }) ∧
      ∀ b a : Nat, (b : Int) < self.numBasis → a < 3 →
        ∑ k in Finset.range (n + 1), diff ((b : Int) + (3 * (k : Int) + (a : Int)) * self.numBasis)
          = 0 := by
  have w := wellFormed_of_construct _ _ _ _ _ _ _ _ _ hself
  have hne : self.numElems = numElems := by
    rw [(construct_ok _ _ _ _ _ _ _ _ _ hself).2]
  refine ⟨_, _, calculate_ok m self n pos elem d0 f0, ?_⟩
  intro b a hb ha
  exact calculateBody_rowSum m self w n pos elem (fun i hi => by rw [hne]; exact hel i hi)
    _ (b : Int) (a : Int) (Int.ofNat_nonneg _) hb (Int.ofNat_nonneg _) (by omega)

theorem zero_sum_invariant_witness :
    ∃ data diff : Int → ℝ,
      SymmFuncBehler.calculate (⟨Real.tanh, Real.exp, Real.rpow⟩ : MathFns ℝ) ((2 : Nat) : Int)
          (some (fun i c => if c = 0 then 1 else if c = i + 1 then 1 else 0))
          (some (fun i => (i : Int)))
          { self := { numElems := 2, numBasis := 8, sizeRad := 1, sizeAng := 1, numRadBasis := 2,
                      numAngBasis := 6, radiusCut := 5, radiusEta := some (fun _ => 1),
                      radiusShift := some (fun _ => 0), angleEta := some (fun _ => 1),
                      angleZeta := some (fun _ => 1) }
            symmData := some (fun _ => 7), symmDiff := some (fun _ => 7) }
        = (.ok (), { self := { numElems := 2, numBasis := 8, sizeRad := 1, sizeAng := 1,
                               numRadBasis := 2, numAngBasis := 6, radiusCut := 5,
                               radiusEta := some (fun _ => 1), radiusShift := some (fun _ => 0),
                               angleEta := some (fun _ => 1), angleZeta := some (fun _ => 1) }
                     symmData := some data, symmDiff := some diff }) ∧
      ∀ b a : Nat, (b : Int) < 8 → a < 3 →
        ∑ k in Finset.range (2 + 1), diff ((b : Int) + (3 * (k : Int) + (a : Int)) * 8) = 0 :=
  zero_sum_invariant ⟨Real.tanh, Real.exp, Real.rpow⟩ 2 1 1 5 (some (fun _ => 1))
    (some (fun _ => 0)) (some (fun _ => 1)) (some (fun _ => 1)) _
    (by norm_num [SymmFuncBehler.SymmFuncBehler, SymmFunc.SymmFunc, stop_by_error]; decide) 2 _
    (fun i => (i : Int)) (fun i hi => by dsimp only; omega) _ _

theorem radialTerm_value (self : SymmFuncBehler ℝ) (eta rs : Nat → ℝ)
    (hEta : self.radiusEta = some eta) (hShift : self.radiusShift = some rs)
    (r1 x1 y1 z1 : ℝ) (k : Nat) :
    (radialTerm ⟨Real.tanh, Real.exp, Real.rpow⟩ self r1 x1 y1 z1 k).1
      = Real.exp (-(eta k) * (r1 - rs k) ^ 2) * Real.tanh (1 - r1 / self.radiusCut) ^ 3 := by
  simp only [radialTerm, cutoff, hEta, hShift, deref]
  ring_nf

theorem radial_descriptor_closed_form (self : SymmFuncBehler ℝ) (w : WellFormed self)
    (radiusEta radiusShift : Nat → ℝ)
    (hEta : self.radiusEta = some radiusEta) (hShift : self.radiusShift = some radiusShift)
    (n : Nat) (pos : Nat → Nat → ℝ) (elem : Nat → Int)
    (hel : ∀ i : Nat, i < n → 0 ≤ elem i ∧ elem i < self.numElems) (o : Out ℝ)
    (e : Int) (he0 : 0 ≤ e) (he : e < self.numElems) (k : Nat) (hk : (k : Int) < self.sizeRad) :
    (calculateBody ⟨Real.tanh, Real.exp, Real.rpow⟩ self (n : Int) pos elem o).symmData
        ((k : Int) + e * self.sizeRad)
      = ∑ i in (Finset.range n).filter (fun i => elem i = e),
          Real.exp (-(radiusEta k) * (pos i 0 - radiusShift k) ^ 2)
            * Real.tanh (1 - pos i 0 / self.radiusCut) ^ 3 := by
  obtain ⟨hb0, hb1, hb2⟩ := radial_slot_bounds self w e he0 he k (by omega)
  rw [calculateBody_symmData, zeroInit_symmData,
    if_pos ⟨hb0, by omega⟩, angularSum_below _ self w n pos elem hel _ hb1,
    radialSum_at_slot _ self n pos elem e k hk, zero_add, add_zero]
  apply Finset.sum_congr rfl
  intro i _
  rw [radialTerm_value self radiusEta radiusShift hEta hShift]

/-- C2 (radial descriptor value): for element indices in `[0, numElems)`,
every element `e` and radial mode `k < sizeRad`, `calculate` leaves
`symmData[k + e*sizeRad]` equal to the sum, over exactly the neighbors `i` of
element `e`, of `exp(-eta_k*(r_i - shift_k)^2) * tanh(1 - r_i/Rc)^3`. -/
theorem radial_descriptor_value (numElems sizeRad sizeAng : Int) (radiusCut : ℝ)
    (radiusEta radiusShift : Nat → ℝ) (angleEta angleZeta : Option (Nat → ℝ))
    (self : SymmFuncBehler ℝ)
    (hself : SymmFuncBehler.SymmFuncBehler numElems sizeRad sizeAng radiusCut
      (some radiusEta) (some radiusShift) angleEta angleZeta = .ok self)
    (n : Nat) (pos : Nat → Nat → ℝ) (elem : Nat → Int)
    (hel : ∀ i : Nat, i < n → 0 ≤ elem i ∧ elem i < numElems) (d0 f0 : Int → ℝ)
    (e : Int) (he0 : 0 ≤ e) (he : e < numElems) (k : Nat) (hk : (k : Int) < sizeRad) :
    ∃ data diff : Int → ℝ,
      SymmFuncBehler.calculate ⟨Real.tanh, Real.exp, Real.rpow⟩ (n : Int) (some pos) (some elem)
          { self := self, symmData := some d0, symmDiff := some f0 }
        = (.ok (), { self := self, symmData := some data, symmDiff := some diff }) ∧
      data ((k : Int) + e * sizeRad)
        = ∑ i in (Finset.range n).filter (fun i => elem i = e),
            Real.exp (-(radiusEta k) * (pos i 0 - radiusShift k) ^ 2)
              * Real.tanh (1 - pos i 0 / radiusCut) ^ 3 := by
  have w := wellFormed_of_construct _ _ _ _ _ _ _ _ _ hself
  have hs := (construct_ok _ _ _ _ _ _ _ _ _ hself).2
  have hne : self.numElems = numElems := by rw [hs]
  have hsr : self.sizeRad = sizeRad := by rw [hs]
  have hrc : self.radiusCut = radiusCut := by rw [hs]
  have hEta : self.radiusEta = some radiusEta := by rw [hs]
  have hShift : self.radiusShift = some radiusShift := by rw [hs]
  have hel2 : ∀ i : Nat, i < n → 0 ≤ elem i ∧ elem i < self.numElems :=
    fun i hi => by rw [hne]; exact hel i hi
  refine ⟨_, _, calculate_ok _ self n pos elem d0 f0, ?_⟩
  rw [← hsr, ← hrc]
  exact radial_descriptor_closed_form self w radiusEta radiusShift hEta hShift n pos elem hel2 _
    e he0 (by omega) k (by omega)

theorem radial_descriptor_value_witness :
    ∃ data diff : Int → ℝ,
      SymmFuncBehler.calculate ⟨Real.tanh, Real.exp, Real.rpow⟩ ((3 : Nat) : Int)
          (some (fun i _ => (i : ℝ) + 1)) (some (fun i => if i = 1 then 1 else 0))
          { self := { numElems := 2, numBasis := 10, sizeRad := 2, sizeAng := 1, numRadBasis := 4,
                      numAngBasis := 6, radiusCut := 5, radiusEta := some (fun _ => 1),
                      radiusShift := some (fun _ => 0), angleEta := some (fun _ => 1),
                      angleZeta := some (fun _ => 1) }
            symmData := some (fun _ => 7), symmDiff := some (fun _ => 7) }
        = (.ok (), { self := { numElems := 2, numBasis := 10, sizeRad := 2, sizeAng := 1,
                               numRadBasis := 4, numAngBasis := 6, radiusCut := 5,
                               radiusEta := some (fun _ => 1), radiusShift := some (fun _ => 0),
                               angleEta := some (fun _ => 1), angleZeta := some (fun _ => 1) }
                     symmData := some data, symmDiff := some diff }) ∧
      data (((1 : Nat) : Int) + 0 * 2)
        = ∑ i in (Finset.range 3).filter (fun i => (if i = 1 then (1 : Int) else 0) = 0),
            Real.exp (-(1 : ℝ) * (((i : ℝ) + 1) - 0) ^ 2)
              * Real.tanh (1 - ((i : ℝ) + 1) / 5) ^ 3 :=
  radial_descriptor_value 2 2 1 5 (fun _ => 1) (fun _ => 0) (some (fun _ => 1))
    (some (fun _ => 1)) _
    (by norm_num [SymmFuncBehler.SymmFuncBehler, SymmFunc.SymmFunc, stop_by_error]; decide) 3
    (fun i _ => (i : ℝ) + 1) (fun i => if i = 1 then 1 else 0)
    (fun i hi => by dsimp only; split_ifs <;> omega) _ _ 0 (le_refl 0) (by decide) 1 (by decide)

/-! ## The cutoff function -/

theorem hasDerivAt_tanh (x : ℝ) : HasDerivAt Real.tanh (1 - Real.tanh x ^ 2) x := by
  have hc : Real.cosh x ≠ 0 := ne_of_gt (Real.cosh_pos x)
  have h := (Real.hasDerivAt_sinh x).div (Real.hasDerivAt_cosh x) hc
  have e : Real.tanh = fun y => Real.sinh y / Real.cosh y := by
    funext y
    exact Real.tanh_eq_sinh_div_cosh y
  rw [e]
  convert h using 1
  field_simp
  have hq := Real.cosh_sq x
  nlinarith [hq]

theorem hasDerivAt_cutoff (radiusCut r : ℝ) :
    HasDerivAt (fun s : ℝ => Real.tanh (1 - s / radiusCut) ^ 3)
      (-3 / radiusCut * Real.tanh (1 - r / radiusCut) ^ 2
        * (1 - Real.tanh (1 - r / radiusCut) ^ 2)) r := by
  have h1 : HasDerivAt (fun s : ℝ => 1 - s / radiusCut) (-(1 / radiusCut)) r := by
    have := ((hasDerivAt_id r).div_const radiusCut).const_sub 1
    simpa using this
  have h2 := ((hasDerivAt_tanh (1 - r / radiusCut)).comp r h1).pow 3
  convert h2 using 1
  simp only [Function.comp]
  ring

/-- C6 (cutoff function): for every `r` and every `Rc > 0` the value `fc`
computed by `calculate` is `tanh(1 - r/Rc)^3`, the value `dfc/dr` it computes
is `-3/Rc * tanh^2(1-r/Rc) * (1 - tanh^2(1-r/Rc))`, which is the derivative of
`r -> tanh(1 - r/Rc)^3` at `r`; at `r = Rc` both are exactly `0`. -/
theorem cutoff_value_and_derivative (radiusCut r : ℝ) (hRc : 0 < radiusCut) :
    (cutoff ⟨Real.tanh, Real.exp, Real.rpow⟩ radiusCut r).1
        = Real.tanh (1 - r / radiusCut) ^ 3 ∧
      (cutoff ⟨Real.tanh, Real.exp, Real.rpow⟩ radiusCut r).2
        = -3 / radiusCut * Real.tanh (1 - r / radiusCut) ^ 2
            * (1 - Real.tanh (1 - r / radiusCut) ^ 2) ∧
      HasDerivAt (fun s : ℝ => Real.tanh (1 - s / radiusCut) ^ 3)
        (cutoff ⟨Real.tanh, Real.exp, Real.rpow⟩ radiusCut r).2 r ∧
      (cutoff ⟨Real.tanh, Real.exp, Real.rpow⟩ radiusCut radiusCut).1 = 0 ∧
      (cutoff ⟨Real.tanh, Real.exp, Real.rpow⟩ radiusCut radiusCut).2 = 0 := by
  have e2 : (cutoff ⟨Real.tanh, Real.exp, Real.rpow⟩ radiusCut r).2
        = -3 / radiusCut * Real.tanh (1 - r / radiusCut) ^ 2
            * (1 - Real.tanh (1 - r / radiusCut) ^ 2) := by
    simp only [cutoff]
    ring
  refine ⟨?_, e2, ?_, ?_, ?_⟩
  · simp only [cutoff]
    ring
  · rw [e2]
    exact hasDerivAt_cutoff radiusCut r
  · simp only [cutoff, div_self (ne_of_gt hRc), sub_self, Real.tanh_zero, mul_zero]
  · simp only [cutoff, div_self (ne_of_gt hRc), sub_self, Real.tanh_zero, mul_zero, zero_mul,
      zero_div]

theorem cutoff_value_and_derivative_witness :
    (cutoff ⟨Real.tanh, Real.exp, Real.rpow⟩ (5 : ℝ) 2).1 = Real.tanh (1 - 2 / 5) ^ 3 ∧
      (cutoff ⟨Real.tanh, Real.exp, Real.rpow⟩ (5 : ℝ) 2).2
        = -3 / 5 * Real.tanh (1 - 2 / 5) ^ 2 * (1 - Real.tanh (1 - 2 / 5) ^ 2) ∧
      HasDerivAt (fun s : ℝ => Real.tanh (1 - s / 5) ^ 3)
        (cutoff ⟨Real.tanh, Real.exp, Real.rpow⟩ (5 : ℝ) 2).2 2 ∧
      (cutoff ⟨Real.tanh, Real.exp, Real.rpow⟩ (5 : ℝ) 5).1 = 0 ∧
      (cutoff ⟨Real.tanh, Real.exp, Real.rpow⟩ (5 : ℝ) 5).2 = 0 :=
  cutoff_value_and_derivative 5 2 (by norm_num)

/-! ## Empty neighbor list, construction, null arguments -/

/-- C7 (empty-neighbor case): with `numNeighbor = 0` and non-null buffers,
`calculate` succeeds and leaves all `numBasis` descriptor entries and all
`numBasis*3` jacobian entries equal to `0`, whatever the buffers held. -/
theorem empty_neighbor_all_zero (m : MathFns ℝ) (self : SymmFuncBehler ℝ)
    (pos : Nat → Nat → ℝ) (elem : Nat → Int) (d0 f0 : Int → ℝ) :
    ∃ data diff : Int → ℝ,
      SymmFuncBehler.calculate m 0 (some pos) (some elem)
          { self := self, symmData := some d0, symmDiff := some f0 }
        = (.ok (), { self := self, symmData := some data, symmDiff := some diff }) ∧
      (∀ x : Int, 0 ≤ x → x < self.numBasis → data x = 0) ∧
      (∀ x : Int, 0 ≤ x → x < self.numBasis * 3 → diff x = 0) := by
  refine ⟨_, _, calculate_ok m self 0 pos elem d0 f0, ?_, ?_⟩
  · intro x hx0 hx
    have h := calculateBody_symmData m self 0 pos elem { symmData := d0, symmDiff := f0 } x
    simp only [Nat.cast_zero] at h
    rw [h, zeroInit_symmData, if_pos ⟨hx0, hx⟩,
      angularSum_eq_zero_of_few m self 0 pos elem x (Or.inl (by norm_num))]
    simp [radialSum]
  · intro x hx0 hx
    have hN : 0 < self.numBasis := by omega
    have hdec : x = x % self.numBasis + (x / self.numBasis) * self.numBasis := by
      have := Int.emod_add_ediv x self.numBasis
      linarith [mul_comm self.numBasis (x / self.numBasis)]
    have hq3 : x / self.numBasis < 3 := by
      apply Int.ediv_lt_of_lt_mul hN
      linarith
    have hcb : calculateBody m self 0 pos elem { symmData := d0, symmDiff := f0 }
        = zeroInit self 0 { symmData := d0, symmDiff := f0 } := by
      simp [calculateBody]
    rw [hcb, hdec]
    exact zeroInit_symmDiff_inRange self 0 _ _ _ (Int.emod_nonneg x (ne_of_gt hN))
      (Int.emod_lt_of_pos x hN) (Int.ediv_nonneg hx0 (le_of_lt hN)) (by omega)

theorem empty_neighbor_all_zero_witness :
    ∃ data diff : Int → ℝ,
      SymmFuncBehler.calculate (⟨Real.tanh, Real.exp, Real.rpow⟩ : MathFns ℝ) 0
          (some (fun _ _ => 1)) (some (fun _ => 0))
          { self := { numElems := 1, numBasis := 1, sizeRad := 1, sizeAng := 0, numRadBasis := 1,
                      numAngBasis := 0, radiusCut := 5, radiusEta := some (fun _ => 1),
                      radiusShift := some (fun _ => 0), angleEta := none, angleZeta := none }
            symmData := some (fun _ => 7), symmDiff := some (fun _ => 9) }
        = (.ok (), { self := { numElems := 1, numBasis := 1, sizeRad := 1, sizeAng := 0,
                               numRadBasis := 1, numAngBasis := 0, radiusCut := 5,
                               radiusEta := some (fun _ => 1), radiusShift := some (fun _ => 0),
                               angleEta := none, angleZeta := none }
                     symmData := some data, symmDiff := some diff }) ∧
      data 0 = 0 ∧ diff 2 = 0 := by
  obtain ⟨data, diff, h, hd, hf⟩ := empty_neighbor_all_zero
    (⟨Real.tanh, Real.exp, Real.rpow⟩ : MathFns ℝ)
    { numElems := 1, numBasis := 1, sizeRad := 1, sizeAng := 0, numRadBasis := 1,
      numAngBasis := 0, radiusCut := 5, radiusEta := some (fun _ => 1),
      radiusShift := some (fun _ => 0), angleEta := none, angleZeta := none }
    (fun _ _ => 1) (fun _ => 0) (fun _ => 7) (fun _ => 9)
  exact ⟨data, diff, h, hd 0 (by decide) (by decide), hf 2 (by decide) (by decide)⟩

/-- C8 (basis size): an object returned by the constructor has
`numBasis = numElems*sizeRad + sizeAng*2*(numElems*(numElems+1)/2)`, with
`numRadBasis = numElems*sizeRad` and `numAngBasis` the second summand, and
`calculate` (whatever its arguments) leaves `numBasis` unchanged. -/
theorem numBasis_formula (numElems sizeRad sizeAng : Int) (radiusCut : ℝ)
    (radiusEta radiusShift angleEta angleZeta : Option (Nat → ℝ)) (self : SymmFuncBehler ℝ)
    (hself : SymmFuncBehler.SymmFuncBehler numElems sizeRad sizeAng radiusCut
      radiusEta radiusShift angleEta angleZeta = .ok self) :
    self.numBasis = numElems * sizeRad + sizeAng * 2 * (numElems * (numElems + 1) / 2) ∧
      self.numRadBasis = numElems * sizeRad ∧
      self.numAngBasis = sizeAng * 2 * (numElems * (numElems + 1) / 2) ∧
      ∀ (m : MathFns ℝ) (numNeighbor : Int) (pos : Option (Nat → Nat → ℝ))
        (elem : Option (Nat → Int)) (symmData symmDiff : Option (Int → ℝ)),
        (SymmFuncBehler.calculate m numNeighbor pos elem
          { self := self, symmData := symmData, symmDiff := symmDiff }).2.self.numBasis
          = self.numBasis := by
  have hs := (construct_ok _ _ _ _ _ _ _ _ _ hself).2
  have ht : Int.tdiv (numElems * (numElems + 1)) 2 = numElems * (numElems + 1) / 2 :=
    Int.tdiv_eq_ediv_of_dvd (Int.even_mul_succ_self numElems).two_dvd
  refine ⟨?_, ?_, ?_, ?_⟩
  · rw [hs, ht]
    simp only
    ring
  · rw [hs]
    simp only
    ring
  · rw [hs, ht]
  · intro m numNeighbor pos elem symmData symmDiff
    unfold SymmFuncBehler.calculate
    cases pos <;> cases elem <;> cases symmData <;> cases symmDiff <;> rfl

theorem numBasis_formula_witness :
    (8 : Int) = 2 * 1 + 1 * 2 * (2 * (2 + 1) / 2) ∧ (2 : Int) = 2 * 1 ∧
      (6 : Int) = 1 * 2 * (2 * (2 + 1) / 2) ∧
      ∀ (m : MathFns ℝ) (numNeighbor : Int) (pos : Option (Nat → Nat → ℝ))
        (elem : Option (Nat → Int)) (symmData symmDiff : Option (Int → ℝ)),
        (SymmFuncBehler.calculate m numNeighbor pos elem
          { self := { numElems := 2, numBasis := 8, sizeRad := 1, sizeAng := 1, numRadBasis := 2,
                      numAngBasis := 6, radiusCut := 5, radiusEta := some (fun _ => 1),
                      radiusShift := some (fun _ => 0), angleEta := some (fun _ => 1),
                      angleZeta := some (fun _ => 1) }
            symmData := symmData, symmDiff := symmDiff }).2.self.numBasis = 8 :=
  numBasis_formula 2 1 1 5 (some (fun _ => 1)) (some (fun _ => 0)) (some (fun _ => 1))
    (some (fun _ => 1))
    { numElems := 2, numBasis := 8, sizeRad := 1, sizeAng := 1, numRadBasis := 2,
      numAngBasis := 6, radiusCut := 5, radiusEta := some (fun _ => 1),
      radiusShift := some (fun _ => 0), angleEta := some (fun _ => 1),
      angleZeta := some (fun _ => 1) }
    (by norm_num [SymmFuncBehler.SymmFuncBehler, SymmFunc.SymmFunc, stop_by_error]; decide)

/-- C9 (construction errors): the constructor fails if and only if
`sizeRad < 1`, or `sizeAng < 0`, or `radiusCut <= 0`, or `radiusEta` is null,
or `radiusShift` is null, or `sizeAng > 0` and one of `angleEta`, `angleZeta`
is null; null angular arrays are accepted when `sizeAng = 0`. -/
theorem construction_fails_iff (numElems sizeRad sizeAng : Int) (radiusCut : ℝ)
    (radiusEta radiusShift angleEta angleZeta : Option (Nat → ℝ)) :
    (∃ msg : String, SymmFuncBehler.SymmFuncBehler numElems sizeRad sizeAng radiusCut
        radiusEta radiusShift angleEta angleZeta = .error msg)
      ↔ (sizeRad < 1 ∨ sizeAng < 0 ∨ radiusCut ≤ 0 ∨ radiusEta = none ∨ radiusShift = none ∨
          (0 < sizeAng ∧ (angleEta = none ∨ angleZeta = none))) := by
  unfold SymmFuncBehler.SymmFuncBehler SymmFunc.SymmFunc stop_by_error
  split_ifs with h1 h2 h3 h4 h5 h6 h7
  · simp [h1]
  · simp [h2]
  · simp [h3]
  · rw [Option.isNone_iff_eq_none] at h4
    simp [h4]
  · rw [Option.isNone_iff_eq_none] at h5
    simp [h5]
  · rw [Option.isNone_iff_eq_none] at h6
    simp [h6.1, h6.2]
  · rw [Option.isNone_iff_eq_none] at h7
    simp [h7.1, h7.2]
  · rw [Option.isNone_iff_eq_none] at h4 h5 h6 h7
    constructor
    · rintro ⟨msg, h⟩
      cases h
    · intro h
      exfalso
      rcases h with h | h | h | h | h | ⟨hp, h | h⟩
      · exact h1 h
      · exact h2 h
      · exact h3 h
      · exact h4 h
      · exact h5 h
      · exact h6 ⟨hp, h⟩
      · exact h7 ⟨hp, h⟩

/-- C10 (null arguments): when `posNeighbor`, `elemNeighbor`, `symmData` or
`symmDiff` is null, `calculate` fails for every `numNeighbor` and the state
after the call is the state before it: no buffer entry is written. -/
theorem calculate_null_fails (m : MathFns ℝ) (numNeighbor : Int)
    (posNeighbor : Option (Nat → Nat → ℝ)) (elemNeighbor : Option (Nat → Int))
    (s : CallState ℝ)
    (h : posNeighbor = none ∨ elemNeighbor = none ∨ s.symmData = none ∨ s.symmDiff = none) :
    ∃ msg : String,
      SymmFuncBehler.calculate m numNeighbor posNeighbor elemNeighbor s = (.error msg, s) := by
  unfold SymmFuncBehler.calculate
  cases posNeighbor with
  | none => exact ⟨_, rfl⟩
  | some pos =>
    cases elemNeighbor with
    | none => exact ⟨_, rfl⟩
    | some elem =>
      cases hd : s.symmData with
      | none => exact ⟨_, rfl⟩
      | some d =>
        cases hf : s.symmDiff with
        | none => exact ⟨_, rfl⟩
        | some f => simp [hd, hf] at h

theorem calculate_null_fails_witness :
    ∃ msg : String,
      SymmFuncBehler.calculate (⟨Real.tanh, Real.exp, Real.rpow⟩ : MathFns ℝ) 0
          (some (fun _ _ => 1)) (some (fun _ => 0))
          { self := { numElems := 1, numBasis := 1, sizeRad := 1, sizeAng := 0, numRadBasis := 1,
                      numAngBasis := 0, radiusCut := 5, radiusEta := some (fun _ => 1),
                      radiusShift := some (fun _ => 0), angleEta := none, angleZeta := none }
            symmData := some (fun _ => 7), symmDiff := none }
        = (.error msg,
          { self := { numElems := 1, numBasis := 1, sizeRad := 1, sizeAng := 0, numRadBasis := 1,
                      numAngBasis := 0, radiusCut := 5, radiusEta := some (fun _ => 1),
                      radiusShift := some (fun _ => 0), angleEta := none, angleZeta := none }
            symmData := some (fun _ => 7), symmDiff := none }) :=
  calculate_null_fails _ 0 _ _ _ (Or.inr (Or.inr (Or.inr rfl)))

/-! ## The angular slots -/

theorem tri_pair_inj (e1 e2 c1 c2 : Int) (h0 : 0 ≤ e1) (h12 : e1 ≤ e2) (g0 : 0 ≤ c1)
    (g12 : c1 ≤ c2)
    (h : e1 + Int.tdiv (e2 * (e2 + 1)) 2 = c1 + Int.tdiv (c2 * (c2 + 1)) 2) :
    e1 = c1 ∧ e2 = c2 := by
  have t1 := two_mul_tri e2
  have t2 := two_mul_tri c2
  have hee : e2 = c2 := by
    rcases lt_trichotomy e2 c2 with hlt | heq | hgt
    · exfalso
      have : (e2 + 1) * (e2 + 2) ≤ c2 * (c2 + 1) := by nlinarith
      nlinarith
    · exact heq
    · exfalso
      have : (c2 + 1) * (c2 + 2) ≤ e2 * (e2 + 1) := by nlinarith
      nlinarith
  subst hee
  exact ⟨by omega, rfl⟩

theorem angular_slot_inj (base sizeAng : Int) (k k2 l l2 : Nat) (e1 e2 c1 c2 : Int)
    (hk : (k : Int) < sizeAng) (hk2 : (k2 : Int) < sizeAng) (hl : l < 2) (hl2 : l2 < 2)
    (h0 : 0 ≤ e1) (h12 : e1 ≤ e2) (g0 : 0 ≤ c1) (g12 : c1 ≤ c2) :
    base + (k : Int) + (l : Int) * sizeAng
        + (e1 + Int.tdiv (e2 * (e2 + 1)) 2) * 2 * sizeAng
      = base + (k2 : Int) + (l2 : Int) * sizeAng
        + (c1 + Int.tdiv (c2 * (c2 + 1)) 2) * 2 * sizeAng
      ↔ (k2 = k ∧ l2 = l ∧ c1 = e1 ∧ c2 = e2) := by
  constructor
  · intro h
    have hk0 : (0 : Int) ≤ k := Int.ofNat_nonneg _
    have hk20 : (0 : Int) ≤ k2 := Int.ofNat_nonneg _
    have hsA : 0 < sizeAng := by omega
    have hl0 : (0 : Int) ≤ l := Int.ofNat_nonneg _
    have hl20 : (0 : Int) ≤ l2 := Int.ofNat_nonneg _
    have hl1 : (l : Int) ≤ 1 := by omega
    have hl21 : (l2 : Int) ≤ 1 := by omega
    have hu0 : 0 ≤ (k : Int) + (l : Int) * sizeAng := by positivity
    have hu20 : 0 ≤ (k2 : Int) + (l2 : Int) * sizeAng := by positivity
    have hu : (k : Int) + (l : Int) * sizeAng < 2 * sizeAng := by nlinarith
    have hu2 : (k2 : Int) + (l2 : Int) * sizeAng < 2 * sizeAng := by nlinarith
    have h2 : ((k : Int) + (l : Int) * sizeAng)
          + (e1 + Int.tdiv (e2 * (e2 + 1)) 2) * (2 * sizeAng)
        = ((k2 : Int) + (l2 : Int) * sizeAng)
          + (c1 + Int.tdiv (c2 * (c2 + 1)) 2) * (2 * sizeAng) := by linarith
    obtain ⟨hA, hB⟩ := (flat_index_inj (2 * sizeAng) _ _ _ _ hu0 hu hu20 hu2).mp h2
    obtain ⟨hC, hD⟩ := (flat_index_inj sizeAng _ _ _ _ hk0 hk hk20 hk2).mp hA
    obtain ⟨hE, hF⟩ := tri_pair_inj e1 e2 c1 c2 h0 h12 g0 g12 hB
    exact ⟨by omega, by omega, hE.symm, hF.symm⟩
  · rintro ⟨rfl, rfl, rfl, rfl⟩
    rfl

theorem sum_range_two {M : Type} [AddCommMonoid M] (f : Nat → M) :
    ∑ l in Finset.range 2, f l = f 0 + f 1 := by
  rw [Finset.sum_range_succ, Finset.sum_range_succ, Finset.sum_range_zero, zero_add]

theorem angularSum_at_slot {R : Type} [LinearOrderedField R] (m : MathFns R)
    (self : SymmFuncBehler R) (n : Nat) (pos : Nat → Nat → R) (elem : Nat → Int)
    (hel : ∀ i : Nat, i < n → 0 ≤ elem i) (e1 e2 : Int) (h0 : 0 ≤ e1) (h12 : e1 ≤ e2)
    (b : Nat) (hb : b < 2) (k : Nat) (hk : (k : Int) < self.sizeAng) :
    angularSum m self n pos elem
        (self.numRadBasis + (k : Int) + (b : Int) * self.sizeAng
          + (e1 + Int.tdiv (e2 * (e2 + 1)) 2) * 2 * self.sizeAng)
      = ∑ i2 in Finset.range n, ∑ i1 in Finset.range n,
          if pairSkipped elem i1 i2 = false ∧ elem i1 = e1 ∧ elem i2 = e2 then
            (if chi0At pos i1 i2 b < chi0_thr then 0 else (angularTermAt m self pos i1 i2 b k).g)
          else 0 := by
  unfold angularSum
  apply Finset.sum_congr rfl
  intro i2 hi2
  apply Finset.sum_congr rfl
  intro i1 hi1
  rw [Finset.mem_range] at hi1 hi2
  cases hsk : pairSkipped elem i1 i2
  · simp only [Bool.false_eq_true, if_false, true_and]
    have hle : elem i1 ≤ elem i2 := by
      rcases not_pairSkipped elem i1 i2 hsk with h | h <;> omega
    have inner : ∀ l : Nat, l < 2 →
        (∑ k2 in Finset.range self.sizeAng.toNat,
          if self.numRadBasis + (k : Int) + (b : Int) * self.sizeAng
              + (e1 + Int.tdiv (e2 * (e2 + 1)) 2) * 2 * self.sizeAng
              = angularSlot self elem i1 i2 l k2
          then (angularTermAt m self pos i1 i2 l k2).g else 0)
        = if l = b ∧ elem i1 = e1 ∧ elem i2 = e2 then (angularTermAt m self pos i1 i2 l k).g
          else 0 := by
      intro l hl
      have key : ∀ k2 : Nat, k2 ∈ Finset.range self.sizeAng.toNat →
          (if self.numRadBasis + (k : Int) + (b : Int) * self.sizeAng
              + (e1 + Int.tdiv (e2 * (e2 + 1)) 2) * 2 * self.sizeAng
              = angularSlot self elem i1 i2 l k2
            then (angularTermAt m self pos i1 i2 l k2).g else 0)
          = if k2 = k then (if l = b ∧ elem i1 = e1 ∧ elem i2 = e2 then
              (angularTermAt m self pos i1 i2 l k).g else 0) else 0 := by
        intro k2 hk2
        rw [Finset.mem_range] at hk2
        unfold angularSlot
        have hiff := angular_slot_inj self.numRadBasis self.sizeAng k k2 b l e1 e2
          (elem i1) (elem i2) hk (by omega) hb hl h0 h12 (hel i1 hi1) hle
        by_cases hq : k2 = k ∧ l = b ∧ elem i1 = e1 ∧ elem i2 = e2
        · obtain ⟨q1, q2, q3, q4⟩ := hq
          rw [if_pos (hiff.mpr ⟨q1, q2, q3, q4⟩), if_pos q1, if_pos ⟨q2, q3, q4⟩, q1]
        · rw [if_neg (fun hh => hq (hiff.mp hh))]
          by_cases q1 : k2 = k
          · rw [if_pos q1, if_neg (fun hh => hq ⟨q1, hh⟩)]
          · rw [if_neg q1]
      rw [Finset.sum_congr rfl key, Finset.sum_ite_eq', if_pos]
      rw [Finset.mem_range]
      omega
    rw [sum_range_two, inner 0 (by norm_num), inner 1 (by norm_num)]
    by_cases hq : elem i1 = e1 ∧ elem i2 = e2
    · rcases (show b = 0 ∨ b = 1 by omega) with hb0 | hb1
      · subst hb0
        simp only [hq, and_self, and_true, if_true]
        split_ifs <;> simp_all
      · subst hb1
        simp only [hq, and_self, and_true, if_true]
        split_ifs <;> simp_all
    · have hq2 : ∀ l : Nat, ¬ (l = b ∧ elem i1 = e1 ∧ elem i2 = e2) := fun l hh => hq hh.2
      simp only [hq, hq2, if_false, ite_self, add_zero, and_false]
  · simp

theorem sum_square_eq_pairs {M : Type} [AddCommMonoid M] (A : Nat → Nat → M) (n : Nat) :
    ∑ j in Finset.range n, ∑ i in Finset.range n, A i j
      = ∑ j in Finset.range n, ∑ i in Finset.range j, (A i j + A j i)
        + ∑ i in Finset.range n, A i i := by
  induction n with
  | zero => simp
  | succ k ih =>
    have h1 : ∑ j in Finset.range (k + 1), ∑ i in Finset.range (k + 1), A i j
        = ∑ j in Finset.range k, ∑ i in Finset.range k, A i j
          + ∑ j in Finset.range k, A k j + (∑ i in Finset.range k, A i k + A k k) := by
      rw [Finset.sum_range_succ]
      simp only [Finset.sum_range_succ, Finset.sum_add_distrib]
    rw [h1, ih, Finset.sum_range_succ, Finset.sum_range_succ (fun i => A i i),
      Finset.sum_add_distrib]
    abel

theorem pairSkipped_self (elem : Nat → Int) (i : Nat) : pairSkipped elem i i = true := by
  unfold pairSkipped
  simp

theorem pair_sum_canonical {R : Type} [LinearOrderedField R] (elem : Nat → Int) (e1 e2 : Int)
    (h12 : e1 ≤ e2) (T : Nat → Nat → R) (hT : ∀ i j, T j i = T i j) (n : Nat) :
    ∑ i2 in Finset.range n, ∑ i1 in Finset.range n,
        (if pairSkipped elem i1 i2 = false ∧ elem i1 = e1 ∧ elem i2 = e2 then T i1 i2 else 0)
      = ∑ j in Finset.range n, ∑ i in Finset.range j,
          if (elem i = e1 ∧ elem j = e2) ∨ (elem i = e2 ∧ elem j = e1) then T i j else 0 := by
  rw [sum_square_eq_pairs
    (fun i1 i2 => if pairSkipped elem i1 i2 = false ∧ elem i1 = e1 ∧ elem i2 = e2 then T i1 i2
      else 0) n]
  have hdiag : ∑ i in Finset.range n,
      (if pairSkipped elem i i = false ∧ elem i = e1 ∧ elem i = e2 then T i i else 0) = 0 := by
    apply Finset.sum_eq_zero
    intro i _
    simp [pairSkipped_self]
  rw [hdiag, add_zero]
  apply Finset.sum_congr rfl
  intro j _
  apply Finset.sum_congr rfl
  intro i hi
  rw [Finset.mem_range] at hi
  have s1 : (pairSkipped elem i j = false) ↔ elem i ≤ elem j := by
    unfold pairSkipped
    simp only [decide_eq_false_iff_not]
    omega
  have s2 : (pairSkipped elem j i = false) ↔ elem j < elem i := by
    unfold pairSkipped
    simp only [decide_eq_false_iff_not]
    omega
  rw [hT i j]
  by_cases hP : pairSkipped elem i j = false ∧ elem i = e1 ∧ elem j = e2
  · have hQ : ¬ (pairSkipped elem j i = false ∧ elem j = e1 ∧ elem i = e2) := by
      rintro ⟨q1, -, -⟩
      have := s1.mp hP.1
      have := s2.mp q1
      omega
    rw [if_pos hP, if_neg hQ, if_pos (Or.inl hP.2), add_zero]
  · by_cases hQ : pairSkipped elem j i = false ∧ elem j = e1 ∧ elem i = e2
    · rw [if_neg hP, if_pos hQ, if_pos (Or.inr ⟨hQ.2.2, hQ.2.1⟩), zero_add]
    · rw [if_neg hP, if_neg hQ, if_neg, add_zero]
      rintro (⟨c1, c2⟩ | ⟨c1, c2⟩)
      · exact hP ⟨s1.mpr (by omega), c1, c2⟩
      · by_cases hee : e1 = e2
        · exact hP ⟨s1.mpr (by omega), by omega, by omega⟩
        · exact hQ ⟨s2.mpr (by omega), c2, c1⟩

theorem radialSum_above {R : Type} [LinearOrderedField R] (m : MathFns R)
    (self : SymmFuncBehler R) (w : WellFormed self) (n : Nat) (pos : Nat → Nat → R)
    (elem : Nat → Int) (hel : ∀ i : Nat, i < n → 0 ≤ elem i ∧ elem i < self.numElems)
    (x : Int) (hx : self.numRadBasis ≤ x) : radialSum m self n pos elem x = 0 := by
  unfold radialSum
  apply Finset.sum_eq_zero
  intro i hi
  apply Finset.sum_eq_zero
  intro k hk
  rw [Finset.mem_range] at hi hk
  have hb := (radial_slot_bounds self w _ (hel i hi).1 (hel i hi).2 k hk).2.1
  rw [if_neg]
  unfold radialSlot
  omega

theorem angularTerm_value (self : SymmFuncBehler ℝ) (eta zeta : Nat → ℝ)
    (hEta : self.angleEta = some eta) (hZeta : self.angleZeta = some zeta)
    (r1 x1 y1 z1 r2 x2 y2 z2 : ℝ) (l k : Nat) :
    (angularTerm ⟨Real.tanh, Real.exp, Real.rpow⟩ self r1 x1 y1 z1 r2 x2 y2 z2 l k).g
      = (2 : ℝ) ^ (1 - zeta k)
          * (1 + (if l = 0 then 1 else -1) * ((x1 * x2 + y1 * y2 + z1 * z2) / (r1 * r2)))
              ^ (zeta k)
          * Real.exp (-(eta k) * (r1 ^ 2 + r2 ^ 2))
          * Real.tanh (1 - r1 / self.radiusCut) ^ 3 * Real.tanh (1 - r2 / self.radiusCut) ^ 3 := by
  simp only [angularTerm, cutoff, psiOf, lambdaOf, deref, hEta, hZeta, div_div, Real.rpow_eq_pow]
  ring_nf

/-- C3 (angular descriptor value): for element indices in `[0, numElems)`,
every element pair `e1 <= e2`, branch `b` in `{0,1}` (`lambda = +1` for
`b = 0`, `-1` for `b = 1`) and angular mode `k < sizeAng`, `calculate` leaves
`symmData[numRadBasis + k + b*sizeAng + (e1 + e2*(e2+1)/2)*2*sizeAng]` equal
to the sum, over the unordered pairs `i < j` of distinct neighbors whose
elements are `{e1, e2}`, of
`2^(1-zeta_k) * (1 + lambda*cos)^zeta_k * exp(-eta_k*(r_i^2 + r_j^2)) * fc(r_i) * fc(r_j)`,
a term being `0` when `1 + lambda*cos < 1e-6`.  It holds for every number of
neighbors, in particular for at least two. -/
theorem angular_descriptor_value (numElems sizeRad sizeAng : Int) (radiusCut : ℝ)
    (radiusEta radiusShift : Option (Nat → ℝ)) (angleEta angleZeta : Nat → ℝ)
    (self : SymmFuncBehler ℝ)
    (hself : SymmFuncBehler.SymmFuncBehler numElems sizeRad sizeAng radiusCut
      radiusEta radiusShift (some angleEta) (some angleZeta) = .ok self)
    (n : Nat) (pos : Nat → Nat → ℝ) (elem : Nat → Int)
    (hel : ∀ i : Nat, i < n → 0 ≤ elem i ∧ elem i < numElems) (d0 f0 : Int → ℝ)
    (e1 e2 : Int) (h0 : 0 ≤ e1) (h12 : e1 ≤ e2) (h2 : e2 < numElems)
    (b : Nat) (hb : b < 2) (k : Nat) (hk : (k : Int) < sizeAng) :
    ∃ data diff : Int → ℝ,
      SymmFuncBehler.calculate ⟨Real.tanh, Real.exp, Real.rpow⟩ (n : Int) (some pos) (some elem)
          { self := self, symmData := some d0, symmDiff := some f0 }
        = (.ok (), { self := self, symmData := some data, symmDiff := some diff }) ∧
      data (self.numRadBasis + (k : Int) + (b : Int) * sizeAng
          + (e1 + e2 * (e2 + 1) / 2) * 2 * sizeAng)
        = ∑ j in Finset.range n, ∑ i in Finset.range j,
            if (elem i = e1 ∧ elem j = e2) ∨ (elem i = e2 ∧ elem j = e1) then
              (if 1 + (if b = 0 then 1 else -1)
                    * ((pos i 1 * pos j 1 + pos i 2 * pos j 2 + pos i 3 * pos j 3)
                        / (pos i 0 * pos j 0)) < 1 / 1000000
               then 0
               else (2 : ℝ) ^ (1 - angleZeta k)
                  * (1 + (if b = 0 then 1 else -1)
                      * ((pos i 1 * pos j 1 + pos i 2 * pos j 2 + pos i 3 * pos j 3)
                          / (pos i 0 * pos j 0))) ^ (angleZeta k)
                  * Real.exp (-(angleEta k) * (pos i 0 ^ 2 + pos j 0 ^ 2))
                  * Real.tanh (1 - pos i 0 / radiusCut) ^ 3
                  * Real.tanh (1 - pos j 0 / radiusCut) ^ 3)
            else 0 := by
  have w := wellFormed_of_construct _ _ _ _ _ _ _ _ _ hself
  have hs := (construct_ok _ _ _ _ _ _ _ _ _ hself).2
  have hne : self.numElems = numElems := by rw [hs]
  have hsa : self.sizeAng = sizeAng := by rw [hs]
  have hrc : self.radiusCut = radiusCut := by rw [hs]
  have hEta : self.angleEta = some angleEta := by rw [hs]
  have hZeta : self.angleZeta = some angleZeta := by rw [hs]
  have hel2 : ∀ i : Nat, i < n → 0 ≤ elem i ∧ elem i < self.numElems :=
    fun i hi => by rw [hne]; exact hel i hi
  have ht : e2 * (e2 + 1) / 2 = Int.tdiv (e2 * (e2 + 1)) 2 :=
    (Int.tdiv_eq_ediv_of_dvd (Int.even_mul_succ_self e2).two_dvd).symm
  refine ⟨_, _, calculate_ok _ self n pos elem d0 f0, ?_⟩
  obtain ⟨hb0, hb1, hb2⟩ := angular_slot_bounds self w e1 e2 h0 h12 (by omega) b k hb (by omega)
  rw [calculateBody_symmData, zeroInit_symmData, ht, ← hsa,
    if_pos ⟨by omega, hb1⟩, radialSum_above _ self w n pos elem hel2 _ hb0,
    angularSum_at_slot _ self n pos elem (fun i hi => (hel2 i hi).1) e1 e2 h0 h12 b hb k
      (by omega), zero_add, zero_add]
  rw [← pair_sum_canonical elem e1 e2 h12 _ _ n]
  · apply Finset.sum_congr rfl
    intro i2 _
    apply Finset.sum_congr rfl
    intro i1 _
    by_cases hc : pairSkipped elem i1 i2 = false ∧ elem i1 = e1 ∧ elem i2 = e2
    · rw [if_pos hc, if_pos hc]
      simp only [chi0At, chi0_thr, psiOf, lambdaOf, div_div, angularTermAt]
      rw [angularTerm_value self angleEta angleZeta hEta hZeta, hrc]
    · rw [if_neg hc, if_neg hc]
  · intro i j
    have hcos : (pos j 1 * pos i 1 + pos j 2 * pos i 2 + pos j 3 * pos i 3) / (pos j 0 * pos i 0)
        = (pos i 1 * pos j 1 + pos i 2 * pos j 2 + pos i 3 * pos j 3) / (pos i 0 * pos j 0) := by
      ring
    have hrr : pos j 0 ^ 2 + pos i 0 ^ 2 = pos i 0 ^ 2 + pos j 0 ^ 2 := add_comm _ _
    simp only [hcos, hrr]
    split_ifs <;> first | rfl | ring

theorem angular_descriptor_value_witness :
    ∃ data diff : Int → ℝ,
      SymmFuncBehler.calculate ⟨Real.tanh, Real.exp, Real.rpow⟩ ((2 : Nat) : Int)
          (some (fun _ _ => 1)) (some (fun i => (i : Int)))
          { self := { numElems := 2, numBasis := 8, sizeRad := 1, sizeAng := 1, numRadBasis := 2,
                      numAngBasis := 6, radiusCut := 5, radiusEta := some (fun _ => 1),
                      radiusShift := some (fun _ => 0), angleEta := some (fun _ => 1),
                      angleZeta := some (fun _ => 2) }
            symmData := some (fun _ => 7), symmDiff := some (fun _ => 7) }
        = (.ok (), { self := { numElems := 2, numBasis := 8, sizeRad := 1, sizeAng := 1,
                               numRadBasis := 2, numAngBasis := 6, radiusCut := 5,
                               radiusEta := some (fun _ => 1), radiusShift := some (fun _ => 0),
                               angleEta := some (fun _ => 1), angleZeta := some (fun _ => 2) }
                     symmData := some data, symmDiff := some diff }) ∧
      data (2 + ((0 : Nat) : Int) + ((1 : Nat) : Int) * 1 + (0 + 1 * (1 + 1) / 2) * 2 * 1)
        = ∑ j in Finset.range 2, ∑ i in Finset.range j,
            if ((i : Int) = 0 ∧ (j : Int) = 1) ∨ ((i : Int) = 1 ∧ (j : Int) = 0) then
              (if 1 + (if (1 : Nat) = 0 then 1 else -1)
                    * (((1 : ℝ) * 1 + 1 * 1 + 1 * 1) / (1 * 1)) < 1 / 1000000
               then 0
               else (2 : ℝ) ^ (1 - (2 : ℝ))
                  * (1 + (if (1 : Nat) = 0 then 1 else -1)
                      * (((1 : ℝ) * 1 + 1 * 1 + 1 * 1) / (1 * 1))) ^ (2 : ℝ)
                  * Real.exp (-(1 : ℝ) * (1 ^ 2 + 1 ^ 2))
                  * Real.tanh (1 - 1 / 5) ^ 3 * Real.tanh (1 - 1 / 5) ^ 3)
            else 0 :=
  angular_descriptor_value 2 1 1 5 (some (fun _ => 1)) (some (fun _ => 0)) (fun _ => 1)
    (fun _ => 2)
    { numElems := 2, numBasis := 8, sizeRad := 1, sizeAng := 1, numRadBasis := 2,
      numAngBasis := 6, radiusCut := 5, radiusEta := some (fun _ => 1),
      radiusShift := some (fun _ => 0), angleEta := some (fun _ => 1),
      angleZeta := some (fun _ => 2) }
    (by norm_num [SymmFuncBehler.SymmFuncBehler, SymmFunc.SymmFunc, stop_by_error]; decide) 2
    (fun _ _ => 1) (fun i => (i : Int))
    (fun i hi => by dsimp only; omega) (fun _ => 7) (fun _ => 7) 0 1 (le_refl 0) (by decide)
    (by decide) 1 (by decide) 0 (by decide)

/-! ## Closed form of the jacobian after the radial pass -/

theorem radialMode_symmDiff {R : Type} [LinearOrderedField R] (m : MathFns R)
    (self : SymmFuncBehler R) (pos : Nat → Nat → R) (elem : Nat → Int) (i : Nat)
    (o : Out R) (k : Nat) (x : Int) :
    (radialMode m self pos elem i o k).symmDiff x
      = o.symmDiff x + radialDelta m self pos elem i k x := by
  simp only [radialMode, radialDelta, radialSlot, addAt_apply, subAt_apply]
  ring

theorem radialPass_symmDiff {R : Type} [LinearOrderedField R] (m : MathFns R)
    (self : SymmFuncBehler R) (n : Nat) (pos : Nat → Nat → R) (elem : Nat → Int)
    (o : Out R) (x : Int) :
    (forLoop n (radialNeighbor m self pos elem) o).symmDiff x
      = o.symmDiff x + ∑ i in Finset.range n, ∑ k in Finset.range self.sizeRad.toNat,
          radialDelta m self pos elem i k x := by
  refine forLoop_probe (fun s : Out R => s.symmDiff x) _ _ n ?_ o
  intro s i _
  unfold radialNeighbor
  refine forLoop_probe (fun s : Out R => s.symmDiff x) _ _ _ ?_ s
  intro s2 k _
  exact radialMode_symmDiff m self pos elem i s2 k x

theorem calculateBody_symmDiff_radial {R : Type} [LinearOrderedField R] (m : MathFns R)
    (self : SymmFuncBehler R) (hsa : self.sizeAng < 1) (n : Nat) (pos : Nat → Nat → R)
    (elem : Nat → Int) (o : Out R) (x : Int) :
    (calculateBody m self (n : Int) pos elem o).symmDiff x
      = (zeroInit self (n : Int) o).symmDiff x
        + ∑ i in Finset.range n, ∑ k in Finset.range self.sizeRad.toNat,
            radialDelta m self pos elem i k x := by
  unfold calculateBody
  simp only [Int.toNat_ofNat]
  split_ifs with h1 h2
  · have e0 : n = 0 := by omega
    subst e0
    simp
  · rw [radialPass_symmDiff]
  · exact absurd (Or.inr hsa) h2

theorem radialDelta_at {R : Type} [LinearOrderedField R] (m : MathFns R)
    (self : SymmFuncBehler R) (pos : Nat → Nat → R) (elem : Nat → Int) (i k : Nat)
    (s c : Int) (hs0 : 0 ≤ s) (hs : s < self.numBasis)
    (ht0 : 0 ≤ radialSlot self elem i k) (ht : radialSlot self elem i k < self.numBasis) :
    radialDelta m self pos elem i k (s + c * self.numBasis)
      = if s = radialSlot self elem i k then
          (if c = 0 then
              -(radialTerm m self (pos i 0) (pos i 1) (pos i 2) (pos i 3) k).2.1 else 0)
          + (if c = 1 then
              -(radialTerm m self (pos i 0) (pos i 1) (pos i 2) (pos i 3) k).2.2.1 else 0)
          + (if c = 2 then
              -(radialTerm m self (pos i 0) (pos i 1) (pos i 2) (pos i 3) k).2.2.2 else 0)
          + (if c = 3 * ((i : Int) + 1) + 0 then
              (radialTerm m self (pos i 0) (pos i 1) (pos i 2) (pos i 3) k).2.1 else 0)
          + (if c = 3 * ((i : Int) + 1) + 1 then
              (radialTerm m self (pos i 0) (pos i 1) (pos i 2) (pos i 3) k).2.2.1 else 0)
          + (if c = 3 * ((i : Int) + 1) + 2 then
              (radialTerm m self (pos i 0) (pos i 1) (pos i 2) (pos i 3) k).2.2.2 else 0)
        else 0 := by
  have key : ∀ q : Int, (s + c * self.numBasis = radialSlot self elem i k + q * self.numBasis)
      ↔ (s = radialSlot self elem i k ∧ c = q) :=
    fun q => flat_index_inj self.numBasis s _ c q hs0 hs ht0 ht
  unfold radialDelta
  simp only [key]
  by_cases h : s = radialSlot self elem i k
  · simp only [h, true_and, if_true]
  · simp only [h, false_and, if_false, add_zero]

theorem radialSlot_eq_iff {R : Type} [LinearOrderedField R] (self : SymmFuncBehler R)
    (elem : Nat → Int) (e : Int) (i k k2 : Nat) (hk : k < self.sizeRad.toNat)
    (hk2 : k2 < self.sizeRad.toNat) :
    (k : Int) + e * self.sizeRad = radialSlot self elem i k2 ↔ (k2 = k ∧ elem i = e) := by
  unfold radialSlot
  rw [flat_index_inj self.sizeRad (k : Int) (k2 : Int) e (elem i)
    (Int.ofNat_nonneg _) (by omega) (Int.ofNat_nonneg _) (by omega)]
  constructor
  · rintro ⟨h1, h2⟩
    exact ⟨by omega, h2.symm⟩
  · rintro ⟨h1, h2⟩
    exact ⟨by omega, h2.symm⟩

theorem radialJac_neighbor {R : Type} [LinearOrderedField R] (m : MathFns R)
    (self : SymmFuncBehler R) (w : WellFormed self) (n : Nat) (pos : Nat → Nat → R)
    (elem : Nat → Int) (hel : ∀ i : Nat, i < n → 0 ≤ elem i ∧ elem i < self.numElems)
    (i k a : Nat) (hi : i < n) (hk : k < self.sizeRad.toNat) (ha : a < 3) :
    ∑ i2 in Finset.range n, ∑ k2 in Finset.range self.sizeRad.toNat,
        radialDelta m self pos elem i2 k2
          (radialSlot self elem i k + (3 * ((i : Int) + 1) + (a : Int)) * self.numBasis)
      = radialGrad (radialTerm m self (pos i 0) (pos i 1) (pos i 2) (pos i 3) k) a := by
  have bnd : ∀ (j q : Nat), j < n → q < self.sizeRad.toNat →
      0 ≤ radialSlot self elem j q ∧ radialSlot self elem j q < self.numBasis := by
    intro j q hj hq
    obtain ⟨b0, b1, b2⟩ := radial_slot_bounds self w _ (hel j hj).1 (hel j hj).2 q hq
    unfold radialSlot
    exact ⟨b0, by omega⟩
  have term : ∀ (j q : Nat), j < n → q < self.sizeRad.toNat →
      radialDelta m self pos elem j q
          (radialSlot self elem i k + (3 * ((i : Int) + 1) + (a : Int)) * self.numBasis)
        = if j = i ∧ q = k then
            radialGrad (radialTerm m self (pos i 0) (pos i 1) (pos i 2) (pos i 3) k) a
          else 0 := by
    intro j q hj hq
    rw [radialDelta_at m self pos elem j q _ _ (bnd i k hi hk).1 (bnd i k hi hk).2
      (bnd j q hj hq).1 (bnd j q hj hq).2]
    have hslot := radialSlot_eq_iff self elem (elem i) j k q hk hq
    have c0 : ¬ (3 * ((i : Int) + 1) + (a : Int) = 0) := by omega
    have c1 : ¬ (3 * ((i : Int) + 1) + (a : Int) = 1) := by omega
    have c2 : ¬ (3 * ((i : Int) + 1) + (a : Int) = 2) := by omega
    have d0 : (3 * ((i : Int) + 1) + (a : Int) = 3 * ((j : Int) + 1) + 0) ↔ (j = i ∧ a = 0) := by
      omega
    have d1 : (3 * ((i : Int) + 1) + (a : Int) = 3 * ((j : Int) + 1) + 1) ↔ (j = i ∧ a = 1) := by
      omega
    have d2 : (3 * ((i : Int) + 1) + (a : Int) = 3 * ((j : Int) + 1) + 2) ↔ (j = i ∧ a = 2) := by
      omega
    simp only [c0, c1, c2, d0, d1, d2, if_false, zero_add]
    by_cases hj2 : j = i
    · subst hj2
      by_cases hq2 : q = k
      · subst hq2
        rcases (show a = 0 ∨ a = 1 ∨ a = 2 by omega) with h | h | h <;> subst h <;>
          simp [radialGrad]
      · have hne : ¬ (radialSlot self elem j k = radialSlot self elem j q) := by
          intro hh
          have := (hslot.mp hh).1
          exact hq2 this
        simp [hne, hq2]
    · simp [hj2]
  rw [Finset.sum_eq_single i]
  · rw [Finset.sum_eq_single k]
    · rw [term i k hi hk, if_pos ⟨rfl, rfl⟩]
    · intro q hq hqk
      rw [Finset.mem_range] at hq
      rw [term i q hi hq, if_neg (fun hh => hqk hh.2)]
    · intro hh
      exact absurd (Finset.mem_range.mpr hk) hh
  · intro j hj hji
    rw [Finset.mem_range] at hj
    apply Finset.sum_eq_zero
    intro q hq
    rw [Finset.mem_range] at hq
    rw [term j q hj hq, if_neg (fun hh => hji hh.1)]
  · intro hh
    exact absurd (Finset.mem_range.mpr hi) hh

theorem radialJac_central {R : Type} [LinearOrderedField R] (m : MathFns R)
    (self : SymmFuncBehler R) (w : WellFormed self) (n : Nat) (pos : Nat → Nat → R)
    (elem : Nat → Int) (hel : ∀ i : Nat, i < n → 0 ≤ elem i ∧ elem i < self.numElems)
    (e : Int) (he0 : 0 ≤ e) (he : e < self.numElems)
    (k a : Nat) (hk : k < self.sizeRad.toNat) (ha : a < 3) :
    ∑ i2 in Finset.range n, ∑ k2 in Finset.range self.sizeRad.toNat,
        radialDelta m self pos elem i2 k2
          ((k : Int) + e * self.sizeRad + (a : Int) * self.numBasis)
      = ∑ i in (Finset.range n).filter (fun i => elem i = e),
          -radialGrad (radialTerm m self (pos i 0) (pos i 1) (pos i 2) (pos i 3) k) a := by
  obtain ⟨s0, s1, s2⟩ := radial_slot_bounds self w e he0 he k hk
  have term : ∀ (j q : Nat), j < n → q < self.sizeRad.toNat →
      radialDelta m self pos elem j q
          ((k : Int) + e * self.sizeRad + (a : Int) * self.numBasis)
        = if q = k ∧ elem j = e then
            -radialGrad (radialTerm m self (pos j 0) (pos j 1) (pos j 2) (pos j 3) k) a
          else 0 := by
    intro j q hj hq
    obtain ⟨b0, b1, b2⟩ := radial_slot_bounds self w _ (hel j hj).1 (hel j hj).2 q hq
    rw [radialDelta_at m self pos elem j q _ _ s0 (by omega) b0 (by unfold radialSlot; omega)]
    have hslot := radialSlot_eq_iff self elem e j k q hk hq
    have d0 : ¬ ((a : Int) = 3 * ((j : Int) + 1) + 0) := by omega
    have d1 : ¬ ((a : Int) = 3 * ((j : Int) + 1) + 1) := by omega
    have d2 : ¬ ((a : Int) = 3 * ((j : Int) + 1) + 2) := by omega
    have c0 : ((a : Int) = 0) ↔ a = 0 := by omega
    have c1 : ((a : Int) = 1) ↔ a = 1 := by omega
    have c2 : ((a : Int) = 2) ↔ a = 2 := by omega
    simp only [c0, c1, c2, d0, d1, d2, if_false, add_zero, hslot]
    by_cases hc : q = k ∧ elem j = e
    · rw [if_pos hc, if_pos hc, hc.1]
      rcases (show a = 0 ∨ a = 1 ∨ a = 2 by omega) with h | h | h <;> subst h <;>
        simp [radialGrad] <;> intro hh <;> exfalso <;> omega
    · rw [if_neg hc, if_neg hc]
  rw [Finset.sum_filter]
  apply Finset.sum_congr rfl
  intro j hj
  rw [Finset.mem_range] at hj
  rw [Finset.sum_eq_single k]
  · rw [term j k hj hk]
    simp
  · intro q hq hqk
    rw [Finset.mem_range] at hq
    rw [term j q hj hq, if_neg (fun hh => hqk hh.1)]
  · intro hh
    exact absurd (Finset.mem_range.mpr hk) hh

/-! ## The radial gradient as a derivative -/

theorem hasDerivAt_radial_profile (eta rs radiusCut : ℝ) (ρ : ℝ → ℝ) (ρ' u : ℝ)
    (hρ : HasDerivAt ρ ρ' u) :
    HasDerivAt (fun v => Real.exp (-eta * (ρ v - rs) ^ 2) * Real.tanh (1 - ρ v / radiusCut) ^ 3)
      ((-2 * eta * (ρ u - rs) * Real.exp (-eta * (ρ u - rs) ^ 2)
            * Real.tanh (1 - ρ u / radiusCut) ^ 3
          + Real.exp (-eta * (ρ u - rs) ^ 2)
            * (-3 / radiusCut * Real.tanh (1 - ρ u / radiusCut) ^ 2
              * (1 - Real.tanh (1 - ρ u / radiusCut) ^ 2))) * ρ') u := by
  have hg : HasDerivAt (fun v => Real.exp (-eta * (ρ v - rs) ^ 2))
      (Real.exp (-eta * (ρ u - rs) ^ 2) * (-eta * (2 * (ρ u - rs) * ρ'))) u := by
    have h1 := ((hρ.sub_const rs).pow 2).const_mul (-eta)
    have h2 := h1.exp
    convert h2 using 2
    norm_num
  have hc := (hasDerivAt_cutoff radiusCut (ρ u)).comp u hρ
  have := hg.mul hc
  convert this using 1
  simp only [Function.comp_apply]
  ring

theorem hasDerivAt_dist (c x : ℝ) (h : x ^ 2 + c ≠ 0) :
    HasDerivAt (fun v : ℝ => Real.sqrt (v ^ 2 + c)) (x / Real.sqrt (x ^ 2 + c)) x := by
  have h1 : HasDerivAt (fun v : ℝ => v ^ 2 + c) (2 * x) x := by
    have := ((hasDerivAt_id x).pow 2).add_const c
    simpa using this
  have h2 := h1.sqrt h
  convert h2 using 1
  rw [mul_div_mul_left _ _ (two_ne_zero : (2 : ℝ) ≠ 0)]

theorem hasDerivAt_dist_shift (c x : ℝ) (h : x ^ 2 + c ≠ 0) :
    HasDerivAt (fun t : ℝ => Real.sqrt ((x - t) ^ 2 + c)) (-(x / Real.sqrt (x ^ 2 + c))) 0 := by
  have h1 : HasDerivAt (fun t : ℝ => x - t) (-1) 0 := by
    simpa using (hasDerivAt_id (0 : ℝ)).const_sub x
  have h2 : HasDerivAt (fun v : ℝ => Real.sqrt (v ^ 2 + c)) (x / Real.sqrt (x ^ 2 + c))
      (x - 0) := by
    rw [sub_zero]
    exact hasDerivAt_dist c x h
  have := h2.comp 0 h1
  convert this using 1
  ring

theorem hasDerivAt_axis_dist (x y z : ℝ) (a : Nat) (ha : a < 3)
    (hne : x ^ 2 + y ^ 2 + z ^ 2 ≠ 0) :
    HasDerivAt (fun u : ℝ => Real.sqrt ((if a = 0 then u else x) ^ 2
        + (if a = 1 then u else y) ^ 2 + (if a = 2 then u else z) ^ 2))
      (axisCoord x y z a / Real.sqrt (x ^ 2 + y ^ 2 + z ^ 2)) (axisCoord x y z a) := by
  rcases (show a = 0 ∨ a = 1 ∨ a = 2 by omega) with h | h | h <;> subst h <;>
    simp only [axisCoord, if_true, if_false, one_ne_zero, OfNat.ofNat_ne_zero,
      OfNat.ofNat_ne_one, OfNat.one_ne_ofNat, OfNat.zero_ne_ofNat, zero_ne_one]
  · have := hasDerivAt_dist (y ^ 2 + z ^ 2) x (by rw [← add_assoc]; exact hne)
    simpa only [add_assoc] using this
  · have := hasDerivAt_dist (x ^ 2 + z ^ 2) y (by
      intro hh; apply hne; linarith)
    have e1 : (fun u : ℝ => Real.sqrt (x ^ 2 + u ^ 2 + z ^ 2))
        = fun u : ℝ => Real.sqrt (u ^ 2 + (x ^ 2 + z ^ 2)) := by
      funext u; congr 1; ring
    have e2 : x ^ 2 + y ^ 2 + z ^ 2 = y ^ 2 + (x ^ 2 + z ^ 2) := by ring
    rw [e1, e2]
    exact this
  · have := hasDerivAt_dist (x ^ 2 + y ^ 2) z (by
      intro hh; apply hne; linarith)
    have e1 : (fun u : ℝ => Real.sqrt (x ^ 2 + y ^ 2 + u ^ 2))
        = fun u : ℝ => Real.sqrt (u ^ 2 + (x ^ 2 + y ^ 2)) := by
      funext u; congr 1; ring
    have e2 : x ^ 2 + y ^ 2 + z ^ 2 = z ^ 2 + (x ^ 2 + y ^ 2) := by ring
    rw [e1, e2]
    exact this

theorem hasDerivAt_axis_dist_shift (x y z : ℝ) (a : Nat) (ha : a < 3)
    (hne : x ^ 2 + y ^ 2 + z ^ 2 ≠ 0) :
    HasDerivAt (fun t : ℝ => Real.sqrt ((x - (if a = 0 then t else 0)) ^ 2
        + (y - (if a = 1 then t else 0)) ^ 2 + (z - (if a = 2 then t else 0)) ^ 2))
      (-(axisCoord x y z a / Real.sqrt (x ^ 2 + y ^ 2 + z ^ 2))) 0 := by
  rcases (show a = 0 ∨ a = 1 ∨ a = 2 by omega) with h | h | h <;> subst h <;>
    simp only [axisCoord, if_true, if_false, one_ne_zero, OfNat.ofNat_ne_zero,
      OfNat.ofNat_ne_one, OfNat.one_ne_ofNat, OfNat.zero_ne_ofNat, zero_ne_one, sub_zero]
  · have := hasDerivAt_dist_shift (y ^ 2 + z ^ 2) x (by rw [← add_assoc]; exact hne)
    simpa only [add_assoc] using this
  · have := hasDerivAt_dist_shift (x ^ 2 + z ^ 2) y (by
      intro hh; apply hne; linarith)
    have e1 : (fun t : ℝ => Real.sqrt (x ^ 2 + (y - t) ^ 2 + z ^ 2))
        = fun t : ℝ => Real.sqrt ((y - t) ^ 2 + (x ^ 2 + z ^ 2)) := by
      funext t; congr 1; ring
    have e2 : x ^ 2 + y ^ 2 + z ^ 2 = y ^ 2 + (x ^ 2 + z ^ 2) := by ring
    rw [e1, e2]
    exact this
  · have := hasDerivAt_dist_shift (x ^ 2 + y ^ 2) z (by
      intro hh; apply hne; linarith)
    have e1 : (fun t : ℝ => Real.sqrt (x ^ 2 + y ^ 2 + (z - t) ^ 2))
        = fun t : ℝ => Real.sqrt ((z - t) ^ 2 + (x ^ 2 + y ^ 2)) := by
      funext t; congr 1; ring
    have e2 : x ^ 2 + y ^ 2 + z ^ 2 = z ^ 2 + (x ^ 2 + y ^ 2) := by ring
    rw [e1, e2]
    exact this

theorem radialGrad_value (self : SymmFuncBehler ℝ) (eta rs : Nat → ℝ)
    (hEta : self.radiusEta = some eta) (hShift : self.radiusShift = some rs)
    (r1 x1 y1 z1 : ℝ) (k a : Nat) :
    radialGrad (radialTerm ⟨Real.tanh, Real.exp, Real.rpow⟩ self r1 x1 y1 z1 k) a
      = (-2 * eta k * (r1 - rs k) * Real.exp (-(eta k) * (r1 - rs k) ^ 2)
            * Real.tanh (1 - r1 / self.radiusCut) ^ 3
          + Real.exp (-(eta k) * (r1 - rs k) ^ 2)
            * (-3 / self.radiusCut * Real.tanh (1 - r1 / self.radiusCut) ^ 2
              * (1 - Real.tanh (1 - r1 / self.radiusCut) ^ 2)))
        * (axisCoord x1 y1 z1 a / r1) := by
  unfold radialGrad axisCoord
  simp only [radialTerm, cutoff, hEta, hShift, deref]
  split_ifs <;> ring_nf

theorem axisCoord_eq (pos : Nat → ℝ) (a : Nat) (ha : a < 3) :
    axisCoord (pos 1) (pos 2) (pos 3) a = pos (a + 1) := by
  rcases (show a = 0 ∨ a = 1 ∨ a = 2 by omega) with h | h | h <;> subst h <;> simp [axisCoord]

theorem hasDerivAt_neighbor_profile (eta rs radiusCut r x y z : ℝ) (a : Nat) (ha : a < 3)
    (hr : r = Real.sqrt (x ^ 2 + y ^ 2 + z ^ 2)) (hr0 : r ≠ 0) :
    HasDerivAt (fun u : ℝ =>
        Real.exp (-eta * (Real.sqrt ((if a = 0 then u else x) ^ 2
            + (if a = 1 then u else y) ^ 2 + (if a = 2 then u else z) ^ 2) - rs) ^ 2)
          * Real.tanh (1 - Real.sqrt ((if a = 0 then u else x) ^ 2
            + (if a = 1 then u else y) ^ 2 + (if a = 2 then u else z) ^ 2) / radiusCut) ^ 3)
      (radialSlope ⟨Real.tanh, Real.exp, Real.rpow⟩ eta rs radiusCut r * (axisCoord x y z a / r))
      (axisCoord x y z a) := by
  have hne : x ^ 2 + y ^ 2 + z ^ 2 ≠ 0 := by
    intro hh
    rw [hh, Real.sqrt_zero] at hr
    exact hr0 hr
  have h1 := hasDerivAt_axis_dist x y z a ha hne
  have h2 := hasDerivAt_radial_profile eta rs radiusCut _ _ _ h1
  have hval : Real.sqrt ((if a = 0 then axisCoord x y z a else x) ^ 2
      + (if a = 1 then axisCoord x y z a else y) ^ 2
      + (if a = 2 then axisCoord x y z a else z) ^ 2) = r := by
    rw [hr]
    rcases (show a = 0 ∨ a = 1 ∨ a = 2 by omega) with h | h | h <;> subst h <;>
      simp [axisCoord]
  simp only [hval, ← hr] at h2
  exact h2

theorem hasDerivAt_shift_profile (eta rs radiusCut r x y z : ℝ) (a : Nat) (ha : a < 3)
    (hr : r = Real.sqrt (x ^ 2 + y ^ 2 + z ^ 2)) (hr0 : r ≠ 0) :
    HasDerivAt (fun t : ℝ =>
        Real.exp (-eta * (Real.sqrt ((x - (if a = 0 then t else 0)) ^ 2
            + (y - (if a = 1 then t else 0)) ^ 2 + (z - (if a = 2 then t else 0)) ^ 2) - rs) ^ 2)
          * Real.tanh (1 - Real.sqrt ((x - (if a = 0 then t else 0)) ^ 2
            + (y - (if a = 1 then t else 0)) ^ 2
            + (z - (if a = 2 then t else 0)) ^ 2) / radiusCut) ^ 3)
      (-(radialSlope ⟨Real.tanh, Real.exp, Real.rpow⟩ eta rs radiusCut r
          * (axisCoord x y z a / r))) 0 := by
  have hne : x ^ 2 + y ^ 2 + z ^ 2 ≠ 0 := by
    intro hh
    rw [hh, Real.sqrt_zero] at hr
    exact hr0 hr
  have h1 := hasDerivAt_axis_dist_shift x y z a ha hne
  have h2 := hasDerivAt_radial_profile eta rs radiusCut _ _ _ h1
  have hval : Real.sqrt ((x - (if a = 0 then (0 : ℝ) else 0)) ^ 2
      + (y - (if a = 1 then (0 : ℝ) else 0)) ^ 2
      + (z - (if a = 2 then (0 : ℝ) else 0)) ^ 2) = r := by
    rw [hr]
    simp
  simp only [hval, ← hr] at h2
  convert h2 using 1
  unfold radialSlope
  ring

theorem radialGrad_eq_slope (self : SymmFuncBehler ℝ) (eta rs : Nat → ℝ)
    (hEta : self.radiusEta = some eta) (hShift : self.radiusShift = some rs)
    (r1 x1 y1 z1 : ℝ) (k a : Nat) :
    radialGrad (radialTerm ⟨Real.tanh, Real.exp, Real.rpow⟩ self r1 x1 y1 z1 k) a
      = radialSlope ⟨Real.tanh, Real.exp, Real.rpow⟩ (eta k) (rs k) self.radiusCut r1
        * (axisCoord x1 y1 z1 a / r1) := by
  rw [radialGrad_value self eta rs hEta hShift]
  rfl

/-- C4 (radial gradient is the true derivative): for a configuration with
`sizeAng = 0` and any neighbor `i` whose distance `r = |p|` is non-zero, the
jacobian entry that `calculate` leaves in neighbor `i`'s block for slot
`k + elem_i*sizeRad` and axis `a` is the partial derivative, with respect to
`p_a`, of `p -> exp(-eta_k*(|p| - shift_k)^2) * tanh(1 - |p|/Rc)^3`; the
central-block entry of slot `k + e*sizeRad` is minus the sum of the
neighbor-block entries and is the derivative of the descriptor component with
respect to a translation `t` of the central atom along axis `a` (every
displacement becomes `p - t*e_a`, distances recomputed). -/
theorem radial_gradient_is_derivative (numElems sizeRad : Int) (radiusCut : ℝ)
    (radiusEta radiusShift : Nat → ℝ) (angleEta angleZeta : Option (Nat → ℝ))
    (self : SymmFuncBehler ℝ)
    (hself : SymmFuncBehler.SymmFuncBehler numElems sizeRad 0 radiusCut
      (some radiusEta) (some radiusShift) angleEta angleZeta = .ok self)
    (n : Nat) (pos : Nat → Nat → ℝ) (elem : Nat → Int)
    (hel : ∀ i : Nat, i < n → 0 ≤ elem i ∧ elem i < numElems)
    (d0 f0 : Int → ℝ) (k : Nat) (hk : (k : Int) < sizeRad) (a : Nat) (ha : a < 3) :
    ∃ data diff : Int → ℝ,
      SymmFuncBehler.calculate ⟨Real.tanh, Real.exp, Real.rpow⟩ (n : Int) (some pos) (some elem)
          { self := self, symmData := some d0, symmDiff := some f0 }
        = (.ok (), { self := self, symmData := some data, symmDiff := some diff }) ∧
      (∀ i : Nat, i < n →
        pos i 0 = Real.sqrt (pos i 1 ^ 2 + pos i 2 ^ 2 + pos i 3 ^ 2) → pos i 0 ≠ 0 →
        HasDerivAt (fun u : ℝ =>
            Real.exp (-(radiusEta k) * (Real.sqrt ((if a = 0 then u else pos i 1) ^ 2
                + (if a = 1 then u else pos i 2) ^ 2
                + (if a = 2 then u else pos i 3) ^ 2) - radiusShift k) ^ 2)
              * Real.tanh (1 - Real.sqrt ((if a = 0 then u else pos i 1) ^ 2
                + (if a = 1 then u else pos i 2) ^ 2
                + (if a = 2 then u else pos i 3) ^ 2) / radiusCut) ^ 3)
          (diff ((k : Int) + elem i * sizeRad
            + (3 * ((i : Int) + 1) + (a : Int)) * self.numBasis))
          (pos i (a + 1))) ∧
      (∀ e : Int, 0 ≤ e → e < numElems →
        diff ((k : Int) + e * sizeRad + (a : Int) * self.numBasis)
          = -∑ i in (Finset.range n).filter (fun i => elem i = e),
              diff ((k : Int) + e * sizeRad
                + (3 * ((i : Int) + 1) + (a : Int)) * self.numBasis) ∧
        ((∀ i : Nat, i < n → elem i = e →
            pos i 0 = Real.sqrt (pos i 1 ^ 2 + pos i 2 ^ 2 + pos i 3 ^ 2) ∧ pos i 0 ≠ 0) →
        ∃ D : ℝ → Int → ℝ,
          (∀ t : ℝ, ∃ diffT : Int → ℝ,
            SymmFuncBehler.calculate ⟨Real.tanh, Real.exp, Real.rpow⟩ (n : Int)
                (some (fun i c =>
                  if c = 0 then
                    Real.sqrt ((pos i 1 - (if a = 0 then t else 0)) ^ 2
                      + (pos i 2 - (if a = 1 then t else 0)) ^ 2
                      + (pos i 3 - (if a = 2 then t else 0)) ^ 2)
                  else pos i c - (if c = a + 1 then t else 0)))
                (some elem) { self := self, symmData := some d0, symmDiff := some f0 }
              = (.ok (), { self := self, symmData := some (D t), symmDiff := some diffT })) ∧
          HasDerivAt (fun t : ℝ => D t ((k : Int) + e * sizeRad))
            (diff ((k : Int) + e * sizeRad + (a : Int) * self.numBasis)) 0)) := by
  have w := wellFormed_of_construct _ _ _ _ _ _ _ _ _ hself
  have hs := (construct_ok _ _ _ _ _ _ _ _ _ hself).2
  have hne : self.numElems = numElems := by rw [hs]
  have hsr : self.sizeRad = sizeRad := by rw [hs]
  have hsa : self.sizeAng < 1 := by rw [hs]; exact Int.zero_lt_one
  have hrc : self.radiusCut = radiusCut := by rw [hs]
  have hEta : self.radiusEta = some radiusEta := by rw [hs]
  have hShift : self.radiusShift = some radiusShift := by rw [hs]
  have hel2 : ∀ i : Nat, i < n → 0 ≤ elem i ∧ elem i < self.numElems :=
    fun i hi => by rw [hne]; exact hel i hi
  have hkn : k < self.sizeRad.toNat := by omega
  -- the neighbor-block entry of neighbor `i`
  have hnb : ∀ i : Nat, i < n →
      (calculateBody ⟨Real.tanh, Real.exp, Real.rpow⟩ self (n : Int) pos elem
          { symmData := d0, symmDiff := f0 }).symmDiff
        ((k : Int) + elem i * sizeRad + (3 * ((i : Int) + 1) + (a : Int)) * self.numBasis)
      = radialSlope ⟨Real.tanh, Real.exp, Real.rpow⟩ (radiusEta k) (radiusShift k) radiusCut
          (pos i 0) * (axisCoord (pos i 1) (pos i 2) (pos i 3) a / pos i 0) := by
    intro i hi
    obtain ⟨b0, b1, b2⟩ := radial_slot_bounds self w _ (hel2 i hi).1 (hel2 i hi).2 k hkn
    rw [calculateBody_symmDiff_radial _ self hsa, ← hsr,
      zeroInit_symmDiff_inRange self _ _ _ _ b0 (by omega) (by omega) (by omega), zero_add]
    have := radialJac_neighbor ⟨Real.tanh, Real.exp, Real.rpow⟩ self w n pos elem hel2 i k a hi
      hkn ha
    unfold radialSlot at this
    rw [this, radialGrad_eq_slope self radiusEta radiusShift hEta hShift, hrc]
  -- the central-block entry of slot `k + e*sizeRad`
  have hcb : ∀ e : Int, 0 ≤ e → e < numElems →
      (calculateBody ⟨Real.tanh, Real.exp, Real.rpow⟩ self (n : Int) pos elem
          { symmData := d0, symmDiff := f0 }).symmDiff
        ((k : Int) + e * sizeRad + (a : Int) * self.numBasis)
      = ∑ i in (Finset.range n).filter (fun i => elem i = e),
          -(radialSlope ⟨Real.tanh, Real.exp, Real.rpow⟩ (radiusEta k) (radiusShift k) radiusCut
            (pos i 0) * (axisCoord (pos i 1) (pos i 2) (pos i 3) a / pos i 0)) := by
    intro e he0 he
    obtain ⟨b0, b1, b2⟩ := radial_slot_bounds self w e he0 (by omega) k hkn
    rw [calculateBody_symmDiff_radial _ self hsa, ← hsr,
      zeroInit_symmDiff_inRange self _ _ _ _ b0 (by omega) (by omega) (by omega), zero_add,
      radialJac_central _ self w n pos elem hel2 e he0 (by omega) k a hkn ha]
    apply Finset.sum_congr rfl
    intro i _
    rw [radialGrad_eq_slope self radiusEta radiusShift hEta hShift, hrc]
  refine ⟨_, _, calculate_ok _ self n pos elem d0 f0, ?_, ?_⟩
  · intro i hi hri hri0
    rw [hnb i hi, ← axisCoord_eq (pos i) a ha]
    exact hasDerivAt_neighbor_profile (radiusEta k) (radiusShift k) radiusCut (pos i 0)
      (pos i 1) (pos i 2) (pos i 3) a ha hri hri0
  · intro e he0 he
    refine ⟨?_, ?_⟩
    · rw [hcb e he0 he, ← Finset.sum_neg_distrib]
      apply Finset.sum_congr rfl
      intro i hi
      rw [Finset.mem_filter, Finset.mem_range] at hi
      rw [← hi.2, hnb i hi.1]
    · intro hr
      refine ⟨fun t => (calculateBody ⟨Real.tanh, Real.exp, Real.rpow⟩ self (n : Int)
          (fun i c =>
            if c = 0 then
              Real.sqrt ((pos i 1 - (if a = 0 then t else 0)) ^ 2
                + (pos i 2 - (if a = 1 then t else 0)) ^ 2
                + (pos i 3 - (if a = 2 then t else 0)) ^ 2)
            else pos i c - (if c = a + 1 then t else 0))
          elem { symmData := d0, symmDiff := f0 }).symmData, ?_, ?_⟩
      · intro t
        exact ⟨_, calculate_ok _ self n _ elem d0 f0⟩
      · have hD : ∀ t : ℝ,
            (calculateBody ⟨Real.tanh, Real.exp, Real.rpow⟩ self (n : Int)
              (fun i c =>
                if c = 0 then
                  Real.sqrt ((pos i 1 - (if a = 0 then t else 0)) ^ 2
                    + (pos i 2 - (if a = 1 then t else 0)) ^ 2
                    + (pos i 3 - (if a = 2 then t else 0)) ^ 2)
                else pos i c - (if c = a + 1 then t else 0))
              elem { symmData := d0, symmDiff := f0 }).symmData ((k : Int) + e * sizeRad)
            = ∑ i in (Finset.range n).filter (fun i => elem i = e),
                Real.exp (-(radiusEta k) * (Real.sqrt ((pos i 1 - (if a = 0 then t else 0)) ^ 2
                    + (pos i 2 - (if a = 1 then t else 0)) ^ 2
                    + (pos i 3 - (if a = 2 then t else 0)) ^ 2) - radiusShift k) ^ 2)
                  * Real.tanh (1 - Real.sqrt ((pos i 1 - (if a = 0 then t else 0)) ^ 2
                    + (pos i 2 - (if a = 1 then t else 0)) ^ 2
                    + (pos i 3 - (if a = 2 then t else 0)) ^ 2) / radiusCut) ^ 3 := by
          intro t
          rw [← hsr, ← hrc]
          rw [radial_descriptor_closed_form self w radiusEta radiusShift hEta hShift n _ elem
            hel2 _ e he0 (by omega) k (by omega)]
          simp only [if_true]
        simp only [hD]
        rw [hcb e he0 he]
        apply HasDerivAt.sum
        intro i hi
        rw [Finset.mem_filter, Finset.mem_range] at hi
        exact hasDerivAt_shift_profile (radiusEta k) (radiusShift k) radiusCut (pos i 0)
          (pos i 1) (pos i 2) (pos i 3) a ha (hr i hi.1 hi.2).1 (hr i hi.1 hi.2).2

theorem radial_gradient_is_derivative_witness :
    ∃ data diff : Int → ℝ,
      SymmFuncBehler.calculate ⟨Real.tanh, Real.exp, Real.rpow⟩ ((1 : Nat) : Int)
          (some (fun _ c => if c = 0 ∨ c = 1 then 2 else 0)) (some (fun _ => 0))
          { self := { numElems := 1, numBasis := 1, sizeRad := 1, sizeAng := 0, numRadBasis := 1,
                      numAngBasis := 0, radiusCut := 5, radiusEta := some (fun _ => 1),
                      radiusShift := some (fun _ => 0), angleEta := none, angleZeta := none }
            symmData := some (fun _ => 7), symmDiff := some (fun _ => 7) }
        = (.ok (), { self := { numElems := 1, numBasis := 1, sizeRad := 1, sizeAng := 0,
                               numRadBasis := 1, numAngBasis := 0, radiusCut := 5,
                               radiusEta := some (fun _ => 1), radiusShift := some (fun _ => 0),
                               angleEta := none, angleZeta := none }
                     symmData := some data, symmDiff := some diff }) ∧
      HasDerivAt (fun u : ℝ =>
          Real.exp (-(1 : ℝ) * (Real.sqrt (u ^ 2 + 0 ^ 2 + 0 ^ 2) - 0) ^ 2)
            * Real.tanh (1 - Real.sqrt (u ^ 2 + 0 ^ 2 + 0 ^ 2) / 5) ^ 3) (diff 3) 2 ∧
      diff 0 = -diff 3 := by
  obtain ⟨data, diff, h1, h2, h3⟩ := radial_gradient_is_derivative 1 1 5 (fun _ => 1)
    (fun _ => 0) none none
    { numElems := 1, numBasis := 1, sizeRad := 1, sizeAng := 0, numRadBasis := 1,
      numAngBasis := 0, radiusCut := 5, radiusEta := some (fun _ => 1),
      radiusShift := some (fun _ => 0), angleEta := none, angleZeta := none }
    (by norm_num [SymmFuncBehler.SymmFuncBehler, SymmFunc.SymmFunc, stop_by_error]) 1
    (fun _ c => if c = 0 ∨ c = 1 then 2 else 0) (fun _ => 0)
    (fun i hi => by dsimp only; omega)
    (fun _ => 7) (fun _ => 7) 0 (by decide) 0 (by decide)
  have h4 : Real.sqrt ((2 : ℝ) ^ 2 + 0 ^ 2 + 0 ^ 2) = 2 := by
    rw [show (2 : ℝ) ^ 2 + 0 ^ 2 + 0 ^ 2 = 2 ^ 2 by norm_num]
    exact Real.sqrt_sq (by norm_num)
  refine ⟨data, diff, h1, ?_, ?_⟩
  · have := h2 0 (by decide) (by simp [h4]) (by simp)
    simpa using this
  · have := (h3 0 (le_refl 0) (by decide)).1
    simpa using this

/-! ## The angular gradient as a derivative -/

theorem hasDerivAt_cos_profile (r2 : ℝ) (ρ dot : ℝ → ℝ) (ρ' dot' u : ℝ)
    (hρ : HasDerivAt ρ ρ' u) (hd : HasDerivAt dot dot' u) (hρ0 : ρ u ≠ 0) (hr2 : r2 ≠ 0) :
    HasDerivAt (fun v => dot v / (ρ v * r2))
      (dot' / (ρ u * r2) - dot u / (ρ u * r2) * ρ' / ρ u) u := by
  have h1 := hd.div (hρ.mul_const r2) (mul_ne_zero hρ0 hr2)
  convert h1 using 1
  field_simp
  ring

theorem hasDerivAt_angular_profile (zeta eta radiusCut lam r2 c2 : ℝ) (ρ dot : ℝ → ℝ)
    (ρ' dot' u : ℝ)
    (hρ : HasDerivAt ρ ρ' u) (hd : HasDerivAt dot dot' u) (hρ0 : ρ u ≠ 0) (hr2 : r2 ≠ 0)
    (hchi : 0 < 1 + lam * (dot u / (ρ u * r2))) :
    HasDerivAt (fun v => (2 : ℝ) ^ (1 - zeta) * (1 + lam * (dot v / (ρ v * r2))) ^ zeta
        * Real.exp (-eta * (ρ v ^ 2 + r2 ^ 2)) * Real.tanh (1 - ρ v / radiusCut) ^ 3 * c2)
      (zeta * lam * ((2 : ℝ) ^ (1 - zeta) * (1 + lam * (dot u / (ρ u * r2))) ^ zeta)
            / (1 + lam * (dot u / (ρ u * r2)))
            * (dot' / (ρ u * r2) - dot u / (ρ u * r2) * ρ' / ρ u)
            * Real.exp (-eta * (ρ u ^ 2 + r2 ^ 2)) * (Real.tanh (1 - ρ u / radiusCut) ^ 3 * c2)
        + (2 : ℝ) ^ (1 - zeta) * (1 + lam * (dot u / (ρ u * r2))) ^ zeta
            * (-2 * eta * Real.exp (-eta * (ρ u ^ 2 + r2 ^ 2)) * (ρ u * ρ'))
            * (Real.tanh (1 - ρ u / radiusCut) ^ 3 * c2)
        + (2 : ℝ) ^ (1 - zeta) * (1 + lam * (dot u / (ρ u * r2))) ^ zeta
            * Real.exp (-eta * (ρ u ^ 2 + r2 ^ 2))
            * (-3 / radiusCut * Real.tanh (1 - ρ u / radiusCut) ^ 2
                * (1 - Real.tanh (1 - ρ u / radiusCut) ^ 2) * ρ' * c2)) u := by
  have hcos := hasDerivAt_cos_profile r2 ρ dot ρ' dot' u hρ hd hρ0 hr2
  have hchi0 : HasDerivAt (fun v => 1 + lam * (dot v / (ρ v * r2)))
      (lam * (dot' / (ρ u * r2) - dot u / (ρ u * r2) * ρ' / ρ u)) u :=
    (hcos.const_mul lam).const_add 1
  have hpow := hchi0.rpow_const (p := zeta) (Or.inl (ne_of_gt hchi))
  have hg : HasDerivAt (fun v => Real.exp (-eta * (ρ v ^ 2 + r2 ^ 2)))
      (Real.exp (-eta * (ρ u ^ 2 + r2 ^ 2)) * (-eta * (2 * ρ u * ρ'))) u := by
    have h1 := (((hρ.pow 2).add_const (r2 ^ 2)).const_mul (-eta)).exp
    convert h1 using 2
    norm_num
  have hc := (hasDerivAt_cutoff radiusCut (ρ u)).comp u hρ
  have hall := ((((hpow.const_mul ((2 : ℝ) ^ (1 - zeta))).mul hg).mul hc).mul_const c2)
  convert hall using 1
  simp only [Function.comp_apply]
  rw [Real.rpow_sub_one (ne_of_gt hchi)]
  have hX := ne_of_gt hchi
  generalize 1 + lam * (dot u / (ρ u * r2)) = X at hX ⊢
  generalize X ^ zeta = P
  generalize Real.exp (-eta * (ρ u ^ 2 + r2 ^ 2)) = E
  generalize Real.tanh (1 - ρ u / radiusCut) = T
  generalize dot' / (ρ u * r2) - dot u / (ρ u * r2) * ρ' / ρ u = Dc
  generalize (2 : ℝ) ^ (1 - zeta) = Z
  field_simp
  ring

theorem psiOf_eq (r1 x1 y1 z1 r2 x2 y2 z2 : ℝ) :
    psiOf r1 x1 y1 z1 r2 x2 y2 z2 = (x1 * x2 + y1 * y2 + z1 * z2) / (r1 * r2) := by
  unfold psiOf
  rw [div_div]

theorem angularGrad1_value (self : SymmFuncBehler ℝ) (eta zeta : Nat → ℝ)
    (hEta : self.angleEta = some eta) (hZeta : self.angleZeta = some zeta)
    (r1 x1 y1 z1 r2 x2 y2 z2 : ℝ) (l k a : Nat) (hr1 : r1 ≠ 0) :
    (angularTerm ⟨Real.tanh, Real.exp, Real.rpow⟩ self r1 x1 y1 z1 r2 x2 y2 z2 l k).grad1 a
      = zeta k * lambdaOf l * ((2 : ℝ) ^ (1 - zeta k)
              * (1 + lambdaOf l * ((x1 * x2 + y1 * y2 + z1 * z2) / (r1 * r2))) ^ zeta k)
            / (1 + lambdaOf l * ((x1 * x2 + y1 * y2 + z1 * z2) / (r1 * r2)))
            * (axisCoord x2 y2 z2 a / (r1 * r2)
                - (x1 * x2 + y1 * y2 + z1 * z2) / (r1 * r2) * (axisCoord x1 y1 z1 a / r1) / r1)
            * Real.exp (-(eta k) * (r1 ^ 2 + r2 ^ 2))
            * (Real.tanh (1 - r1 / self.radiusCut) ^ 3 * Real.tanh (1 - r2 / self.radiusCut) ^ 3)
        + (2 : ℝ) ^ (1 - zeta k)
            * (1 + lambdaOf l * ((x1 * x2 + y1 * y2 + z1 * z2) / (r1 * r2))) ^ zeta k
            * (-2 * eta k * Real.exp (-(eta k) * (r1 ^ 2 + r2 ^ 2))
                * (r1 * (axisCoord x1 y1 z1 a / r1)))
            * (Real.tanh (1 - r1 / self.radiusCut) ^ 3 * Real.tanh (1 - r2 / self.radiusCut) ^ 3)
        + (2 : ℝ) ^ (1 - zeta k)
            * (1 + lambdaOf l * ((x1 * x2 + y1 * y2 + z1 * z2) / (r1 * r2))) ^ zeta k
            * Real.exp (-(eta k) * (r1 ^ 2 + r2 ^ 2))
            * (-3 / self.radiusCut * Real.tanh (1 - r1 / self.radiusCut) ^ 2
                * (1 - Real.tanh (1 - r1 / self.radiusCut) ^ 2) * (axisCoord x1 y1 z1 a / r1)
                * Real.tanh (1 - r2 / self.radiusCut) ^ 3) := by
  have hrr : r1 * r1 + r2 * r2 = r1 ^ 2 + r2 ^ 2 := by ring
  unfold AngTerm.grad1 axisCoord
  simp only [angularTerm, dpsiOf, cutoff, deref, hEta, hZeta, psiOf_eq, Real.rpow_eq_pow, hrr]
  generalize (1 + lambdaOf l * ((x1 * x2 + y1 * y2 + z1 * z2) / (r1 * r2))) ^ zeta k = P
  generalize 1 + lambdaOf l * ((x1 * x2 + y1 * y2 + z1 * z2) / (r1 * r2)) = X
  generalize Real.exp (-(eta k) * (r1 ^ 2 + r2 ^ 2)) = E
  generalize Real.tanh (1 - r1 / self.radiusCut) = T1
  generalize Real.tanh (1 - r2 / self.radiusCut) = T2
  generalize (2 : ℝ) ^ (1 - zeta k) = Z
  have hc : ∀ c : ℝ, r1 * (c / r1) = c := fun c => by field_simp
  simp only [hc]
  split_ifs <;> ring

theorem angularGrad2_value (self : SymmFuncBehler ℝ) (eta zeta : Nat → ℝ)
    (hEta : self.angleEta = some eta) (hZeta : self.angleZeta = some zeta)
    (r1 x1 y1 z1 r2 x2 y2 z2 : ℝ) (l k a : Nat) (hr2 : r2 ≠ 0) :
    (angularTerm ⟨Real.tanh, Real.exp, Real.rpow⟩ self r1 x1 y1 z1 r2 x2 y2 z2 l k).grad2 a
      = zeta k * lambdaOf l * ((2 : ℝ) ^ (1 - zeta k)
              * (1 + lambdaOf l * ((x1 * x2 + y1 * y2 + z1 * z2) / (r2 * r1))) ^ zeta k)
            / (1 + lambdaOf l * ((x1 * x2 + y1 * y2 + z1 * z2) / (r2 * r1)))
            * (axisCoord x1 y1 z1 a / (r2 * r1)
                - (x1 * x2 + y1 * y2 + z1 * z2) / (r2 * r1) * (axisCoord x2 y2 z2 a / r2) / r2)
            * Real.exp (-(eta k) * (r2 ^ 2 + r1 ^ 2))
            * (Real.tanh (1 - r2 / self.radiusCut) ^ 3 * Real.tanh (1 - r1 / self.radiusCut) ^ 3)
        + (2 : ℝ) ^ (1 - zeta k)
            * (1 + lambdaOf l * ((x1 * x2 + y1 * y2 + z1 * z2) / (r2 * r1))) ^ zeta k
            * (-2 * eta k * Real.exp (-(eta k) * (r2 ^ 2 + r1 ^ 2))
                * (r2 * (axisCoord x2 y2 z2 a / r2)))
            * (Real.tanh (1 - r2 / self.radiusCut) ^ 3 * Real.tanh (1 - r1 / self.radiusCut) ^ 3)
        + (2 : ℝ) ^ (1 - zeta k)
            * (1 + lambdaOf l * ((x1 * x2 + y1 * y2 + z1 * z2) / (r2 * r1))) ^ zeta k
            * Real.exp (-(eta k) * (r2 ^ 2 + r1 ^ 2))
            * (-3 / self.radiusCut * Real.tanh (1 - r2 / self.radiusCut) ^ 2
                * (1 - Real.tanh (1 - r2 / self.radiusCut) ^ 2) * (axisCoord x2 y2 z2 a / r2)
                * Real.tanh (1 - r1 / self.radiusCut) ^ 3) := by
  have hrr : r1 * r1 + r2 * r2 = r2 ^ 2 + r1 ^ 2 := by ring
  have hpsi : psiOf r1 x1 y1 z1 r2 x2 y2 z2 = (x1 * x2 + y1 * y2 + z1 * z2) / (r2 * r1) := by
    rw [psiOf_eq, mul_comm r1 r2]
  unfold AngTerm.grad2 axisCoord
  simp only [angularTerm, dpsiOf, cutoff, deref, hEta, hZeta, hpsi, Real.rpow_eq_pow, hrr]
  generalize (1 + lambdaOf l * ((x1 * x2 + y1 * y2 + z1 * z2) / (r2 * r1))) ^ zeta k = P
  generalize 1 + lambdaOf l * ((x1 * x2 + y1 * y2 + z1 * z2) / (r2 * r1)) = X
  generalize Real.exp (-(eta k) * (r2 ^ 2 + r1 ^ 2)) = E
  generalize Real.tanh (1 - r1 / self.radiusCut) = T1
  generalize Real.tanh (1 - r2 / self.radiusCut) = T2
  generalize (2 : ℝ) ^ (1 - zeta k) = Z
  have hc : ∀ c : ℝ, r2 * (c / r2) = c := fun c => by field_simp
  simp only [hc]
  split_ifs <;> ring

theorem hasDerivAt_axis_dot (x1 y1 z1 x2 y2 z2 : ℝ) (a : Nat) (ha : a < 3) :
    HasDerivAt (fun u : ℝ => (if a = 0 then u else x1) * x2 + (if a = 1 then u else y1) * y2
        + (if a = 2 then u else z1) * z2)
      (axisCoord x2 y2 z2 a) (axisCoord x1 y1 z1 a) := by
  rcases (show a = 0 ∨ a = 1 ∨ a = 2 by omega) with h | h | h <;> subst h <;>
    simp only [axisCoord, if_true, if_false, one_ne_zero, OfNat.ofNat_ne_zero,
      OfNat.ofNat_ne_one, OfNat.one_ne_ofNat, OfNat.zero_ne_ofNat, zero_ne_one]
  · have := (((hasDerivAt_id x1).mul_const x2).add_const (y1 * y2)).add_const (z1 * z2)
    simpa using this
  · have := (((hasDerivAt_id y1).mul_const y2).const_add (x1 * x2)).add_const (z1 * z2)
    simpa using this
  · have := ((hasDerivAt_id z1).mul_const z2).const_add (x1 * x2 + y1 * y2)
    simpa using this

theorem axis_dist_at (x y z : ℝ) (a : Nat) (ha : a < 3) :
    Real.sqrt ((if a = 0 then axisCoord x y z a else x) ^ 2
      + (if a = 1 then axisCoord x y z a else y) ^ 2
      + (if a = 2 then axisCoord x y z a else z) ^ 2) = Real.sqrt (x ^ 2 + y ^ 2 + z ^ 2) := by
  rcases (show a = 0 ∨ a = 1 ∨ a = 2 by omega) with h | h | h <;> subst h <;> simp [axisCoord]

theorem axis_dot_at (x1 y1 z1 x2 y2 z2 : ℝ) (a : Nat) (ha : a < 3) :
    (if a = 0 then axisCoord x1 y1 z1 a else x1) * x2
      + (if a = 1 then axisCoord x1 y1 z1 a else y1) * y2
      + (if a = 2 then axisCoord x1 y1 z1 a else z1) * z2 = x1 * x2 + y1 * y2 + z1 * z2 := by
  rcases (show a = 0 ∨ a = 1 ∨ a = 2 by omega) with h | h | h <;> subst h <;> simp [axisCoord]

theorem hasDerivAt_angular_neighbor1 (self : SymmFuncBehler ℝ) (eta zeta : Nat → ℝ)
    (hEta : self.angleEta = some eta) (hZeta : self.angleZeta = some zeta)
    (r1 x1 y1 z1 r2 x2 y2 z2 : ℝ) (l k a : Nat) (ha : a < 3)
    (hr1 : r1 = Real.sqrt (x1 ^ 2 + y1 ^ 2 + z1 ^ 2)) (h10 : r1 ≠ 0) (h20 : r2 ≠ 0)
    (hchi : 0 < 1 + (if l = 0 then 1 else -1) * ((x1 * x2 + y1 * y2 + z1 * z2) / (r1 * r2))) :
    HasDerivAt (fun u : ℝ =>
        (2 : ℝ) ^ (1 - zeta k)
          * (1 + (if l = 0 then 1 else -1)
              * (((if a = 0 then u else x1) * x2 + (if a = 1 then u else y1) * y2
                    + (if a = 2 then u else z1) * z2)
                  / (Real.sqrt ((if a = 0 then u else x1) ^ 2 + (if a = 1 then u else y1) ^ 2
                      + (if a = 2 then u else z1) ^ 2) * r2))) ^ zeta k
          * Real.exp (-(eta k) * (Real.sqrt ((if a = 0 then u else x1) ^ 2
              + (if a = 1 then u else y1) ^ 2 + (if a = 2 then u else z1) ^ 2) ^ 2 + r2 ^ 2))
          * Real.tanh (1 - Real.sqrt ((if a = 0 then u else x1) ^ 2
              + (if a = 1 then u else y1) ^ 2 + (if a = 2 then u else z1) ^ 2)
                / self.radiusCut) ^ 3
          * Real.tanh (1 - r2 / self.radiusCut) ^ 3)
      ((angularTerm ⟨Real.tanh, Real.exp, Real.rpow⟩ self r1 x1 y1 z1 r2 x2 y2 z2 l k).grad1 a)
      (axisCoord x1 y1 z1 a) := by
  have hne : x1 ^ 2 + y1 ^ 2 + z1 ^ 2 ≠ 0 := by
    intro hh
    rw [hh, Real.sqrt_zero] at hr1
    exact h10 hr1
  have hρ := hasDerivAt_axis_dist x1 y1 z1 a ha hne
  have hd := hasDerivAt_axis_dot x1 y1 z1 x2 y2 z2 a ha
  have hval := axis_dist_at x1 y1 z1 a ha
  have hdot := axis_dot_at x1 y1 z1 x2 y2 z2 a ha
  have h := hasDerivAt_angular_profile (zeta k) (eta k) self.radiusCut (if l = 0 then 1 else -1)
    r2 (Real.tanh (1 - r2 / self.radiusCut) ^ 3) _ _ _ _ _ hρ hd
    (by rw [hval, ← hr1]; exact h10) h20 (by rw [hval, hdot, ← hr1]; exact hchi)
  rw [angularGrad1_value self eta zeta hEta hZeta r1 x1 y1 z1 r2 x2 y2 z2 l k a h10]
  simp only [hval, hdot, ← hr1] at h
  exact h

theorem hasDerivAt_angular_neighbor2 (self : SymmFuncBehler ℝ) (eta zeta : Nat → ℝ)
    (hEta : self.angleEta = some eta) (hZeta : self.angleZeta = some zeta)
    (r1 x1 y1 z1 r2 x2 y2 z2 : ℝ) (l k a : Nat) (ha : a < 3)
    (hr2 : r2 = Real.sqrt (x2 ^ 2 + y2 ^ 2 + z2 ^ 2)) (h10 : r1 ≠ 0) (h20 : r2 ≠ 0)
    (hchi : 0 < 1 + (if l = 0 then 1 else -1) * ((x1 * x2 + y1 * y2 + z1 * z2) / (r1 * r2))) :
    HasDerivAt (fun u : ℝ =>
        (2 : ℝ) ^ (1 - zeta k)
          * (1 + (if l = 0 then 1 else -1)
              * ((x1 * (if a = 0 then u else x2) + y1 * (if a = 1 then u else y2)
                    + z1 * (if a = 2 then u else z2))
                  / (r1 * Real.sqrt ((if a = 0 then u else x2) ^ 2
                      + (if a = 1 then u else y2) ^ 2 + (if a = 2 then u else z2) ^ 2)))) ^ zeta k
          * Real.exp (-(eta k) * (r1 ^ 2 + Real.sqrt ((if a = 0 then u else x2) ^ 2
              + (if a = 1 then u else y2) ^ 2 + (if a = 2 then u else z2) ^ 2) ^ 2))
          * Real.tanh (1 - r1 / self.radiusCut) ^ 3
          * Real.tanh (1 - Real.sqrt ((if a = 0 then u else x2) ^ 2
              + (if a = 1 then u else y2) ^ 2 + (if a = 2 then u else z2) ^ 2)
                / self.radiusCut) ^ 3)
      ((angularTerm ⟨Real.tanh, Real.exp, Real.rpow⟩ self r1 x1 y1 z1 r2 x2 y2 z2 l k).grad2 a)
      (axisCoord x2 y2 z2 a) := by
  have hne : x2 ^ 2 + y2 ^ 2 + z2 ^ 2 ≠ 0 := by
    intro hh
    rw [hh, Real.sqrt_zero] at hr2
    exact h20 hr2
  have hρ := hasDerivAt_axis_dist x2 y2 z2 a ha hne
  have hd := hasDerivAt_axis_dot x2 y2 z2 x1 y1 z1 a ha
  have hval := axis_dist_at x2 y2 z2 a ha
  have hdot := axis_dot_at x2 y2 z2 x1 y1 z1 a ha
  have hcomm : x2 * x1 + y2 * y1 + z2 * z1 = x1 * x2 + y1 * y2 + z1 * z2 := by ring
  have hchi2 : 0 < 1 + (if l = 0 then 1 else -1)
      * ((x1 * x2 + y1 * y2 + z1 * z2) / (r2 * r1)) := by
    rw [mul_comm r2 r1]
    exact hchi
  have h := hasDerivAt_angular_profile (zeta k) (eta k) self.radiusCut (if l = 0 then 1 else -1)
    r1 (Real.tanh (1 - r1 / self.radiusCut) ^ 3) _ _ _ _ _ hρ hd
    (by rw [hval, ← hr2]; exact h20) h10 (by rw [hval, hdot, hcomm, ← hr2]; exact hchi2)
  rw [angularGrad2_value self eta zeta hEta hZeta r1 x1 y1 z1 r2 x2 y2 z2 l k a h20]
  simp only [hval, hdot, hcomm, ← hr2] at h
  convert h using 1
  funext u
  have hA : (x1 * (if a = 0 then u else x2) + y1 * (if a = 1 then u else y2)
        + z1 * (if a = 2 then u else z2))
        / (r1 * Real.sqrt ((if a = 0 then u else x2) ^ 2
            + (if a = 1 then u else y2) ^ 2 + (if a = 2 then u else z2) ^ 2))
      = ((if a = 0 then u else x2) * x1 + (if a = 1 then u else y2) * y1
        + (if a = 2 then u else z2) * z1)
        / (Real.sqrt ((if a = 0 then u else x2) ^ 2
            + (if a = 1 then u else y2) ^ 2 + (if a = 2 then u else z2) ^ 2) * r1) := by
    ring
  rw [hA, add_comm (r1 ^ 2)]
  ring

theorem hasDerivAt_psi (r1 x1 y1 z1 r2 x2 y2 z2 : ℝ)
    (hr1 : r1 = Real.sqrt (x1 ^ 2 + y1 ^ 2 + z1 ^ 2)) (h10 : r1 ≠ 0) (h20 : r2 ≠ 0) :
    HasDerivAt (fun u : ℝ => (u * x2 + y1 * y2 + z1 * z2)
        / (Real.sqrt (u ^ 2 + y1 ^ 2 + z1 ^ 2) * r2))
      (dpsiOf r1 x1 y1 z1 r2 x2 y2 z2).1 x1 := by
  have hne : x1 ^ 2 + y1 ^ 2 + z1 ^ 2 ≠ 0 := by
    intro hh
    rw [hh, Real.sqrt_zero] at hr1
    exact h10 hr1
  have hρ := hasDerivAt_axis_dist x1 y1 z1 0 (by norm_num) hne
  have hd := hasDerivAt_axis_dot x1 y1 z1 x2 y2 z2 0 (by norm_num)
  simp only [axisCoord, if_true, if_false, one_ne_zero, OfNat.ofNat_ne_zero,
      OfNat.ofNat_ne_one, OfNat.one_ne_ofNat, OfNat.zero_ne_ofNat, zero_ne_one] at hρ hd
  have h := hasDerivAt_cos_profile r2 _ _ _ _ _ hρ hd (by rw [← hr1]; exact h10) h20
  simp only [← hr1] at h
  convert h using 1
  simp only [dpsiOf, psiOf_eq]
  ring

theorem angularMode_block1 {R : Type} [LinearOrderedField R] (m : MathFns R)
    (self : SymmFuncBehler R) (hN : self.numBasis ≠ 0)
    (pos : Nat → Nat → R) (elem : Nat → Int) (i2 i1 l : Nat) (h12 : i1 ≠ i2)
    (o : Out R) (k a : Nat) (ha : a < 3) :
    (angularMode m self pos elem i2 i1 l o k).symmDiff
        (self.numRadBasis + (k : Int) + (l : Int) * self.sizeAng
          + (elem i1 + Int.tdiv (elem i2 * (elem i2 + 1)) 2) * 2 * self.sizeAng
          + (3 * ((i1 : Int) + 1) + (a : Int)) * self.numBasis)
      = o.symmDiff
          (self.numRadBasis + (k : Int) + (l : Int) * self.sizeAng
            + (elem i1 + Int.tdiv (elem i2 * (elem i2 + 1)) 2) * 2 * self.sizeAng
            + (3 * ((i1 : Int) + 1) + (a : Int)) * self.numBasis)
        + (angularTermAt m self pos i1 i2 l k).grad1 a := by
  have key : ∀ (s c d : Int), (s + c * self.numBasis = s + d * self.numBasis) ↔ c = d := by
    intro s c d
    constructor
    · intro h
      exact mul_right_cancel₀ hN (add_left_cancel h)
    · rintro rfl
      rfl
  have n0 : ¬ (3 * ((i1 : Int) + 1) + (a : Int) = 0) := by omega
  have n1 : ¬ (3 * ((i1 : Int) + 1) + (a : Int) = 1) := by omega
  have n2 : ¬ (3 * ((i1 : Int) + 1) + (a : Int) = 2) := by omega
  have p0 : (3 * ((i1 : Int) + 1) + (a : Int) = 3 * ((i1 : Int) + 1) + 0) ↔ a = 0 := by omega
  have p1 : (3 * ((i1 : Int) + 1) + (a : Int) = 3 * ((i1 : Int) + 1) + 1) ↔ a = 1 := by omega
  have p2 : (3 * ((i1 : Int) + 1) + (a : Int) = 3 * ((i1 : Int) + 1) + 2) ↔ a = 2 := by omega
  have q0 : ¬ (3 * ((i1 : Int) + 1) + (a : Int) = 3 * ((i2 : Int) + 1) + 0) := by omega
  have q1 : ¬ (3 * ((i1 : Int) + 1) + (a : Int) = 3 * ((i2 : Int) + 1) + 1) := by omega
  have q2 : ¬ (3 * ((i1 : Int) + 1) + (a : Int) = 3 * ((i2 : Int) + 1) + 2) := by omega
  simp only [angularMode, addAt_apply, subAt_apply, key, n0, n1, n2, p0, p1, p2, q0, q1, q2,
    if_false]
  rcases (show a = 0 ∨ a = 1 ∨ a = 2 by omega) with h | h | h <;> subst h <;>
    simp [AngTerm.grad1]

theorem angularMode_block2 {R : Type} [LinearOrderedField R] (m : MathFns R)
    (self : SymmFuncBehler R) (hN : self.numBasis ≠ 0)
    (pos : Nat → Nat → R) (elem : Nat → Int) (i2 i1 l : Nat) (h12 : i1 ≠ i2)
    (o : Out R) (k a : Nat) (ha : a < 3) :
    (angularMode m self pos elem i2 i1 l o k).symmDiff
        (self.numRadBasis + (k : Int) + (l : Int) * self.sizeAng
          + (elem i1 + Int.tdiv (elem i2 * (elem i2 + 1)) 2) * 2 * self.sizeAng
          + (3 * ((i2 : Int) + 1) + (a : Int)) * self.numBasis)
      = o.symmDiff
          (self.numRadBasis + (k : Int) + (l : Int) * self.sizeAng
            + (elem i1 + Int.tdiv (elem i2 * (elem i2 + 1)) 2) * 2 * self.sizeAng
            + (3 * ((i2 : Int) + 1) + (a : Int)) * self.numBasis)
        + (angularTermAt m self pos i1 i2 l k).grad2 a := by
  have key : ∀ (s c d : Int), (s + c * self.numBasis = s + d * self.numBasis) ↔ c = d := by
    intro s c d
    constructor
    · intro h
      exact mul_right_cancel₀ hN (add_left_cancel h)
    · rintro rfl
      rfl
  have n0 : ¬ (3 * ((i2 : Int) + 1) + (a : Int) = 0) := by omega
  have n1 : ¬ (3 * ((i2 : Int) + 1) + (a : Int) = 1) := by omega
  have n2 : ¬ (3 * ((i2 : Int) + 1) + (a : Int) = 2) := by omega
  have p0 : (3 * ((i2 : Int) + 1) + (a : Int) = 3 * ((i2 : Int) + 1) + 0) ↔ a = 0 := by omega
  have p1 : (3 * ((i2 : Int) + 1) + (a : Int) = 3 * ((i2 : Int) + 1) + 1) ↔ a = 1 := by omega
  have p2 : (3 * ((i2 : Int) + 1) + (a : Int) = 3 * ((i2 : Int) + 1) + 2) ↔ a = 2 := by omega
  have q0 : ¬ (3 * ((i2 : Int) + 1) + (a : Int) = 3 * ((i1 : Int) + 1) + 0) := by omega
  have q1 : ¬ (3 * ((i2 : Int) + 1) + (a : Int) = 3 * ((i1 : Int) + 1) + 1) := by omega
  have q2 : ¬ (3 * ((i2 : Int) + 1) + (a : Int) = 3 * ((i1 : Int) + 1) + 2) := by omega
  simp only [angularMode, addAt_apply, subAt_apply, key, n0, n1, n2, p0, p1, p2, q0, q1, q2,
    if_false]
  rcases (show a = 0 ∨ a = 1 ∨ a = 2 by omega) with h | h | h <;> subst h <;>
    simp [AngTerm.grad2]

/-! ## Closed form of both buffers, with the threshold test optional -/

theorem angularMode_symmDiff {R : Type} [LinearOrderedField R] (m : MathFns R)
    (self : SymmFuncBehler R) (pos : Nat → Nat → R) (elem : Nat → Int) (i2 i1 l : Nat)
    (o : Out R) (k : Nat) (x : Int) :
    (angularMode m self pos elem i2 i1 l o k).symmDiff x
      = o.symmDiff x + angularDelta m self pos elem i1 i2 l k x := by
  simp only [angularMode, angularDelta, angularSlot, addAt_apply, subAt_apply]
  ring

theorem calculateBodyOpt_true {R : Type} [LinearOrderedField R] (m : MathFns R)
    (self : SymmFuncBehler R) (numNeighbor : Int) (pos : Nat → Nat → R) (elem : Nat → Int)
    (o : Out R) :
    calculateBodyOpt true m self numNeighbor pos elem o
      = calculateBody m self numNeighbor pos elem o := by
  have h1 : angularLambdaOpt true m self pos elem = angularLambda m self pos elem := by
    funext i2 i1 s l
    simp [angularLambdaOpt, angularLambda]
  have h2 : angularInnerOpt true m self pos elem = angularInner m self pos elem := by
    funext i2 s i1
    simp [angularInnerOpt, angularInner, h1]
  have h3 : angularOuterOpt true m self numNeighbor pos elem
      = angularOuter m self numNeighbor pos elem := by
    funext s i2
    simp [angularOuterOpt, angularOuter, h2]
  simp [calculateBodyOpt, calculateBody, h3]

theorem angularPassOpt_probe {R : Type} [LinearOrderedField R] (skip : Bool) (m : MathFns R)
    (self : SymmFuncBehler R) (n : Nat) (pos : Nat → Nat → R) (elem : Nat → Int)
    (L : Out R → R) (δ : Nat → Nat → Nat → Nat → R)
    (hstep : ∀ (s : Out R) (i2 i1 l k : Nat),
      L (angularMode m self pos elem i2 i1 l s k) = L s + δ i1 i2 l k) (o : Out R) :
    L (forLoop n (angularOuterOpt skip m self (n : Int) pos elem) o)
      = L o + ∑ i2 in Finset.range n, ∑ i1 in Finset.range n,
          if pairSkipped elem i1 i2 then 0 else
            ∑ l in Finset.range 2,
              if skip = true ∧ chi0At pos i1 i2 l < chi0_thr then 0 else
                ∑ k in Finset.range self.sizeAng.toNat, δ i1 i2 l k := by
  refine forLoop_probe L _ _ n ?_ o
  intro s i2 _
  unfold angularOuterOpt
  rw [Int.toNat_ofNat]
  refine forLoop_probe L _ _ n ?_ s
  intro s1 i1 _
  unfold angularInnerOpt
  cases hsk : pairSkipped elem i1 i2
  · simp only [Bool.false_eq_true, if_false]
    refine forLoop_probe L _ _ 2 ?_ s1
    intro s3 l _
    unfold angularLambdaOpt
    split_ifs
    · simp
    · refine forLoop_probe L _ _ _ ?_ s3
      intro s4 k _
      exact hstep s4 i2 i1 l k
  · simp

theorem angularSumOpt_eq_zero_of_few {R : Type} [LinearOrderedField R] (skip : Bool)
    (self : SymmFuncBehler R) (n : Nat) (pos : Nat → Nat → R)
    (elem : Nat → Int) (δ : Nat → Nat → Nat → Nat → R)
    (h : (n : Int) < 2 ∨ self.sizeAng < 1) :
    (∑ i2 in Finset.range n, ∑ i1 in Finset.range n,
      if pairSkipped elem i1 i2 then 0 else
        ∑ l in Finset.range 2,
          if skip = true ∧ chi0At pos i1 i2 l < chi0_thr then 0 else
            ∑ k in Finset.range self.sizeAng.toNat, δ i1 i2 l k) = 0 := by
  apply Finset.sum_eq_zero
  intro i2 h2
  apply Finset.sum_eq_zero
  intro i1 h1
  rw [Finset.mem_range] at h1 h2
  rcases h with h | h
  · have : pairSkipped elem i1 i2 = true := by
      unfold pairSkipped
      have e1 : i1 = 0 := by omega
      have e2 : i2 = 0 := by omega
      subst e1 e2
      simp
    simp [this]
  · have : self.sizeAng.toNat = 0 := by omega
    simp [this]

theorem calculateBodyOpt_symmData {R : Type} [LinearOrderedField R] (skip : Bool)
    (m : MathFns R) (self : SymmFuncBehler R) (n : Nat) (pos : Nat → Nat → R)
    (elem : Nat → Int) (o : Out R) (x : Int) :
    (calculateBodyOpt skip m self (n : Int) pos elem o).symmData x
      = (zeroInit self (n : Int) o).symmData x + radialSum m self n pos elem x
        + angularSumOpt skip m self n pos elem x := by
  unfold calculateBodyOpt angularSumOpt
  simp only [Int.toNat_ofNat]
  split_ifs with h1 h2
  · have e0 : n = 0 := by omega
    subst e0
    simp [radialSum]
  · rw [angularSumOpt_eq_zero_of_few skip self n pos elem _ h2, radialPass_symmData, add_zero]
  · rw [angularPassOpt_probe skip m self n pos elem (fun s : Out R => s.symmData x)
      (fun i1 i2 l k => if x = angularSlot self elem i1 i2 l k then
        (angularTermAt m self pos i1 i2 l k).g else 0)
      (fun s i2 i1 l k => angularMode_symmData m self pos elem i2 i1 l s k x),
      radialPass_symmData]

theorem calculateBodyOpt_symmDiff {R : Type} [LinearOrderedField R] (skip : Bool)
    (m : MathFns R) (self : SymmFuncBehler R) (n : Nat) (pos : Nat → Nat → R)
    (elem : Nat → Int) (o : Out R) (x : Int) :
    (calculateBodyOpt skip m self (n : Int) pos elem o).symmDiff x
      = (zeroInit self (n : Int) o).symmDiff x + radialDiffSum m self n pos elem x
        + angularDiffSumOpt skip m self n pos elem x := by
  unfold calculateBodyOpt angularDiffSumOpt radialDiffSum
  simp only [Int.toNat_ofNat]
  split_ifs with h1 h2
  · have e0 : n = 0 := by omega
    subst e0
    simp
  · rw [angularSumOpt_eq_zero_of_few skip self n pos elem _ h2, radialPass_symmDiff, add_zero]
  · rw [angularPassOpt_probe skip m self n pos elem (fun s : Out R => s.symmDiff x)
      (fun i1 i2 l k => angularDelta m self pos elem i1 i2 l k x)
      (fun s i2 i1 l k => angularMode_symmDiff m self pos elem i2 i1 l s k x),
      radialPass_symmDiff]

theorem calculateBody_symmDiff {R : Type} [LinearOrderedField R] (m : MathFns R)
    (self : SymmFuncBehler R) (n : Nat) (pos : Nat → Nat → R) (elem : Nat → Int)
    (o : Out R) (x : Int) :
    (calculateBody m self (n : Int) pos elem o).symmDiff x
      = (zeroInit self (n : Int) o).symmDiff x + radialDiffSum m self n pos elem x
        + angularDiffSumOpt true m self n pos elem x := by
  rw [← calculateBodyOpt_true, calculateBodyOpt_symmDiff]

theorem calculateBody_symmData_opt {R : Type} [LinearOrderedField R] (m : MathFns R)
    (self : SymmFuncBehler R) (n : Nat) (pos : Nat → Nat → R) (elem : Nat → Int)
    (o : Out R) (x : Int) :
    (calculateBody m self (n : Int) pos elem o).symmData x
      = (zeroInit self (n : Int) o).symmData x + radialSum m self n pos elem x
        + angularSumOpt true m self n pos elem x := by
  rw [← calculateBodyOpt_true, calculateBodyOpt_symmData]

theorem zeroInit_symmDiff_flat {R : Type} [LinearOrderedField R] (self : SymmFuncBehler R)
    (n : Nat) (o : Out R) (x : Int) (hx0 : 0 ≤ x) (hx : x < self.numBasis * 3 * (1 + (n : Int))) :
    (zeroInit self (n : Int) o).symmDiff x = 0 := by
  have hn : (0 : Int) ≤ n := Int.ofNat_nonneg n
  have hN : 0 < self.numBasis := by
    by_contra hneg
    have h0 : self.numBasis ≤ 0 := not_lt.mp hneg
    have : self.numBasis * 3 * (1 + (n : Int)) ≤ 0 := by
      have h3 : (0 : Int) ≤ 3 * (1 + (n : Int)) := by omega
      have := mul_nonpos_of_nonpos_of_nonneg h0 h3
      linarith [mul_assoc self.numBasis 3 (1 + (n : Int))]
    omega
  have hdec : x = x % self.numBasis + (x / self.numBasis) * self.numBasis := by
    have := Int.emod_add_ediv x self.numBasis
    linarith [mul_comm self.numBasis (x / self.numBasis)]
  have hq : x / self.numBasis < 3 * (1 + (n : Int)) := by
    apply Int.ediv_lt_of_lt_mul hN
    linarith [mul_assoc self.numBasis 3 (1 + (n : Int)),
      mul_comm self.numBasis (3 * (1 + (n : Int)))]
  rw [hdec]
  exact zeroInit_symmDiff_inRange self (n : Int) o _ _ (Int.emod_nonneg x (ne_of_gt hN))
    (Int.emod_lt_of_pos x hN) (Int.ediv_nonneg hx0 (le_of_lt hN)) hq

/-- C18 (purely functional): two calls of `calculate` with the same object
and the same neighbor inputs but arbitrary, different initial buffer contents
both succeed and agree in all `numBasis` descriptor entries and in all
`numBasis*3*(1+numNeighbor)` jacobian entries. -/
theorem outputs_independent_of_buffers (m : MathFns ℝ) (self : SymmFuncBehler ℝ) (n : Nat)
    (pos : Nat → Nat → ℝ) (elem : Nat → Int) (d0 f0 d1 f1 : Int → ℝ) :
    ∃ data diff data2 diff2 : Int → ℝ,
      SymmFuncBehler.calculate m (n : Int) (some pos) (some elem)
          { self := self, symmData := some d0, symmDiff := some f0 }
        = (.ok (), { self := self, symmData := some data, symmDiff := some diff }) ∧
      SymmFuncBehler.calculate m (n : Int) (some pos) (some elem)
          { self := self, symmData := some d1, symmDiff := some f1 }
        = (.ok (), { self := self, symmData := some data2, symmDiff := some diff2 }) ∧
      (∀ x : Int, 0 ≤ x → x < self.numBasis → data x = data2 x) ∧
      (∀ x : Int, 0 ≤ x → x < self.numBasis * 3 * (1 + (n : Int)) → diff x = diff2 x) := by
  refine ⟨_, _, _, _, calculate_ok m self n pos elem d0 f0, calculate_ok m self n pos elem d1 f1,
    ?_, ?_⟩
  · intro x hx0 hx
    rw [calculateBody_symmData, calculateBody_symmData, zeroInit_symmData, zeroInit_symmData,
      if_pos ⟨hx0, hx⟩, if_pos ⟨hx0, hx⟩]
  · intro x hx0 hx
    rw [calculateBody_symmDiff, calculateBody_symmDiff, zeroInit_symmDiff_flat self n _ x hx0 hx,
      zeroInit_symmDiff_flat self n _ x hx0 hx]

theorem outputs_independent_of_buffers_witness :
    ∃ data diff data2 diff2 : Int → ℝ,
      SymmFuncBehler.calculate (⟨Real.tanh, Real.exp, Real.rpow⟩ : MathFns ℝ) ((2 : Nat) : Int)
          (some (fun _ _ => 1)) (some (fun _ => 0))
          { self := { numElems := 1, numBasis := 3, sizeRad := 1, sizeAng := 1, numRadBasis := 1,
                      numAngBasis := 2, radiusCut := 5, radiusEta := some (fun _ => 1),
                      radiusShift := some (fun _ => 0), angleEta := some (fun _ => 1),
                      angleZeta := some (fun _ => 2) }
            symmData := some (fun _ => 7), symmDiff := some (fun _ => 9) }
        = (.ok (), { self := { numElems := 1, numBasis := 3, sizeRad := 1, sizeAng := 1,
                               numRadBasis := 1, numAngBasis := 2, radiusCut := 5,
                               radiusEta := some (fun _ => 1), radiusShift := some (fun _ => 0),
                               angleEta := some (fun _ => 1), angleZeta := some (fun _ => 2) }
                     symmData := some data, symmDiff := some diff }) ∧
      SymmFuncBehler.calculate (⟨Real.tanh, Real.exp, Real.rpow⟩ : MathFns ℝ) ((2 : Nat) : Int)
          (some (fun _ _ => 1)) (some (fun _ => 0))
          { self := { numElems := 1, numBasis := 3, sizeRad := 1, sizeAng := 1, numRadBasis := 1,
                      numAngBasis := 2, radiusCut := 5, radiusEta := some (fun _ => 1),
                      radiusShift := some (fun _ => 0), angleEta := some (fun _ => 1),
                      angleZeta := some (fun _ => 2) }
            symmData := some (fun x => (x : ℝ)), symmDiff := some (fun _ => -3) }
        = (.ok (), { self := { numElems := 1, numBasis := 3, sizeRad := 1, sizeAng := 1,
                               numRadBasis := 1, numAngBasis := 2, radiusCut := 5,
                               radiusEta := some (fun _ => 1), radiusShift := some (fun _ => 0),
                               angleEta := some (fun _ => 1), angleZeta := some (fun _ => 2) }
                     symmData := some data2, symmDiff := some diff2 }) ∧
      data 2 = data2 2 ∧ diff 26 = diff2 26 := by
  obtain ⟨data, diff, data2, diff2, h1, h2, h3, h4⟩ := outputs_independent_of_buffers
    (⟨Real.tanh, Real.exp, Real.rpow⟩ : MathFns ℝ)
    { numElems := 1, numBasis := 3, sizeRad := 1, sizeAng := 1, numRadBasis := 1,
      numAngBasis := 2, radiusCut := 5, radiusEta := some (fun _ => 1),
      radiusShift := some (fun _ => 0), angleEta := some (fun _ => 1),
      angleZeta := some (fun _ => 2) }
    2 (fun _ _ => 1) (fun _ => 0) (fun _ => 7) (fun _ => 9) (fun x => (x : ℝ)) (fun _ => -3)
  exact ⟨data, diff, data2, diff2, h1, h2, h3 2 (by decide) (by decide),
    h4 26 (by decide) (by decide)⟩

/-! ## The concrete scenario -/

theorem radial_jacobian_neighbor_entry (self : SymmFuncBehler ℝ) (w : WellFormed self)
    (hsa : self.sizeAng < 1) (radiusEta radiusShift : Nat → ℝ)
    (hEta : self.radiusEta = some radiusEta) (hShift : self.radiusShift = some radiusShift)
    (n : Nat) (pos : Nat → Nat → ℝ) (elem : Nat → Int)
    (hel : ∀ i : Nat, i < n → 0 ≤ elem i ∧ elem i < self.numElems) (o : Out ℝ)
    (i k a : Nat) (hi : i < n) (hk : k < self.sizeRad.toNat) (ha : a < 3) :
    (calculateBody ⟨Real.tanh, Real.exp, Real.rpow⟩ self (n : Int) pos elem o).symmDiff
        (radialSlot self elem i k + (3 * ((i : Int) + 1) + (a : Int)) * self.numBasis)
      = radialSlope ⟨Real.tanh, Real.exp, Real.rpow⟩ (radiusEta k) (radiusShift k)
          self.radiusCut (pos i 0) * (axisCoord (pos i 1) (pos i 2) (pos i 3) a / pos i 0) := by
  obtain ⟨b0, b1, b2⟩ := radial_slot_bounds self w _ (hel i hi).1 (hel i hi).2 k hk
  rw [calculateBody_symmDiff_radial _ self hsa,
    zeroInit_symmDiff_inRange self _ _ _ _ (by unfold radialSlot; exact b0)
      (by unfold radialSlot; omega) (by omega) (by omega), zero_add,
    radialJac_neighbor _ self w n pos elem hel i k a hi hk ha,
    radialGrad_eq_slope self radiusEta radiusShift hEta hShift]

theorem radial_jacobian_central_entry (self : SymmFuncBehler ℝ) (w : WellFormed self)
    (hsa : self.sizeAng < 1) (radiusEta radiusShift : Nat → ℝ)
    (hEta : self.radiusEta = some radiusEta) (hShift : self.radiusShift = some radiusShift)
    (n : Nat) (pos : Nat → Nat → ℝ) (elem : Nat → Int)
    (hel : ∀ i : Nat, i < n → 0 ≤ elem i ∧ elem i < self.numElems) (o : Out ℝ)
    (e : Int) (he0 : 0 ≤ e) (he : e < self.numElems)
    (k a : Nat) (hk : k < self.sizeRad.toNat) (ha : a < 3) :
    (calculateBody ⟨Real.tanh, Real.exp, Real.rpow⟩ self (n : Int) pos elem o).symmDiff
        ((k : Int) + e * self.sizeRad + (a : Int) * self.numBasis)
      = ∑ i in (Finset.range n).filter (fun i => elem i = e),
          -(radialSlope ⟨Real.tanh, Real.exp, Real.rpow⟩ (radiusEta k) (radiusShift k)
            self.radiusCut (pos i 0) * (axisCoord (pos i 1) (pos i 2) (pos i 3) a / pos i 0)) := by
  obtain ⟨b0, b1, b2⟩ := radial_slot_bounds self w e he0 he k hk
  rw [calculateBody_symmDiff_radial _ self hsa,
    zeroInit_symmDiff_inRange self _ _ _ _ b0 (by omega) (by omega) (by omega), zero_add,
    radialJac_central _ self w n pos elem hel e he0 he k a hk ha]
  apply Finset.sum_congr rfl
  intro i _
  rw [radialGrad_eq_slope self radiusEta radiusShift hEta hShift]

theorem scenario_construct :
    SymmFuncBehler.SymmFuncBehler 1 1 0 (5 : ℝ) (some (fun _ => 1)) (some (fun _ => 0))
        none none
      = .ok { numElems := 1, numBasis := 1, sizeRad := 1, sizeAng := 0, numRadBasis := 1,
              numAngBasis := 0, radiusCut := 5, radiusEta := some (fun _ => 1),
              radiusShift := some (fun _ => 0), angleEta := none, angleZeta := none } := by
  norm_num [SymmFuncBehler.SymmFuncBehler, SymmFunc.SymmFunc, stop_by_error]

theorem scenario_descriptor (d0 f0 : Int → ℝ) :
    (calculateBody ⟨Real.tanh, Real.exp, Real.rpow⟩
        { numElems := 1, numBasis := 1, sizeRad := 1, sizeAng := 0, numRadBasis := 1,
          numAngBasis := 0, radiusCut := 5, radiusEta := some (fun _ => 1),
          radiusShift := some (fun _ => 0), angleEta := none, angleZeta := none }
        ((1 : Nat) : Int) (fun _ c => if c = 0 ∨ c = 1 then 2 else 0) (fun _ => 0)
        { symmData := d0, symmDiff := f0 }).symmData 0
      = Real.exp (-4) * Real.tanh (3 / 5) ^ 3 := by
  have w := wellFormed_of_construct _ _ _ _ _ _ _ _ _ scenario_construct
  have h := radial_descriptor_closed_form _ w (fun _ => 1) (fun _ => 0) rfl rfl 1
      (fun _ c => if c = 0 ∨ c = 1 then 2 else 0) (fun _ => 0)
      (fun i _ => ⟨le_refl 0, Int.zero_lt_one⟩) { symmData := d0, symmDiff := f0 } 0 (le_refl 0)
      Int.zero_lt_one 0 Int.zero_lt_one
  have e : ((0 : Nat) : Int) + 0 * (1 : Int) = 0 := by norm_num
  rw [e] at h
  rw [h]
  simp
  norm_num

theorem scenario_neighbor (d0 f0 : Int → ℝ) (a : Nat) (ha : a < 3) :
    (calculateBody ⟨Real.tanh, Real.exp, Real.rpow⟩
        { numElems := 1, numBasis := 1, sizeRad := 1, sizeAng := 0, numRadBasis := 1,
          numAngBasis := 0, radiusCut := 5, radiusEta := some (fun _ => 1),
          radiusShift := some (fun _ => 0), angleEta := none, angleZeta := none }
        ((1 : Nat) : Int) (fun _ c => if c = 0 ∨ c = 1 then 2 else 0) (fun _ => 0)
        { symmData := d0, symmDiff := f0 }).symmDiff (3 + (a : Int))
      = radialSlope ⟨Real.tanh, Real.exp, Real.rpow⟩ 1 0 5 2 * (axisCoord (2 : ℝ) 0 0 a / 2) := by
  have w := wellFormed_of_construct _ _ _ _ _ _ _ _ _ scenario_construct
  have h := radial_jacobian_neighbor_entry _ w Int.zero_lt_one (fun _ => 1) (fun _ => 0) rfl rfl 1
      (fun _ c => if c = 0 ∨ c = 1 then 2 else 0) (fun _ => 0)
      (fun i _ => ⟨le_refl 0, Int.zero_lt_one⟩) { symmData := d0, symmDiff := f0 } 0 0 a
      Nat.zero_lt_one Nat.zero_lt_one ha
  unfold radialSlot at h
  simp only [Nat.cast_zero, zero_mul, add_zero, zero_add, mul_one] at h
  rw [h]
  simp

theorem scenario_central (d0 f0 : Int → ℝ) (a : Nat) (ha : a < 3) :
    (calculateBody ⟨Real.tanh, Real.exp, Real.rpow⟩
        { numElems := 1, numBasis := 1, sizeRad := 1, sizeAng := 0, numRadBasis := 1,
          numAngBasis := 0, radiusCut := 5, radiusEta := some (fun _ => 1),
          radiusShift := some (fun _ => 0), angleEta := none, angleZeta := none }
        ((1 : Nat) : Int) (fun _ c => if c = 0 ∨ c = 1 then 2 else 0) (fun _ => 0)
        { symmData := d0, symmDiff := f0 }).symmDiff (a : Int)
      = -(radialSlope ⟨Real.tanh, Real.exp, Real.rpow⟩ 1 0 5 2
          * (axisCoord (2 : ℝ) 0 0 a / 2)) := by
  have w := wellFormed_of_construct _ _ _ _ _ _ _ _ _ scenario_construct
  have h := radial_jacobian_central_entry _ w Int.zero_lt_one (fun _ => 1) (fun _ => 0) rfl rfl 1
      (fun _ c => if c = 0 ∨ c = 1 then 2 else 0) (fun _ => 0)
      (fun i _ => ⟨le_refl 0, Int.zero_lt_one⟩) { symmData := d0, symmDiff := f0 } 0 (le_refl 0)
      Int.zero_lt_one 0 a Nat.zero_lt_one ha
  have e : ((0 : Nat) : Int) + 0 * (1 : Int) + (a : Int) * (1 : Int) = (a : Int) := by
    simp
  rw [e] at h
  rw [h]
  simp

/-- C13 (concrete scenario): with `numElems = 1`, `sizeRad = 1` (`eta = 1`,
`shift = 0`), `sizeAng = 0`, `radiusCut = 5` and one neighbor at displacement
`(2,0,0)` with `r = 2`, the constructor succeeds and `calculate` yields
`descriptor[0] = exp(-4) * tanh(0.6)^3`; the jacobian x-component at the
neighbor (offset 3) is the negative of the x-component at the central atom
(offset 0), and the y and z components of both blocks (offsets 1, 2, 4, 5) are
zero. -/
theorem concrete_scenario (d0 f0 : Int → ℝ) :
    ∃ (self : SymmFuncBehler ℝ) (data diff : Int → ℝ),
      SymmFuncBehler.SymmFuncBehler 1 1 0 (5 : ℝ) (some (fun _ => 1)) (some (fun _ => 0))
          none none = .ok self ∧
      SymmFuncBehler.calculate ⟨Real.tanh, Real.exp, Real.rpow⟩ ((1 : Nat) : Int)
          (some (fun _ c => if c = 0 ∨ c = 1 then 2 else 0)) (some (fun _ => 0))
          { self := self, symmData := some d0, symmDiff := some f0 }
        = (.ok (), { self := self, symmData := some data, symmDiff := some diff }) ∧
      data 0 = Real.exp (-4) * Real.tanh 0.6 ^ 3 ∧
      diff 3 = -diff 0 ∧ diff 1 = 0 ∧ diff 2 = 0 ∧ diff 4 = 0 ∧ diff 5 = 0 := by
  have n0 := scenario_neighbor d0 f0 0 (by decide)
  have n1 := scenario_neighbor d0 f0 1 (by decide)
  have n2 := scenario_neighbor d0 f0 2 (by decide)
  have c0 := scenario_central d0 f0 0 (by decide)
  have c1 := scenario_central d0 f0 1 (by decide)
  have c2 := scenario_central d0 f0 2 (by decide)
  rw [show (3 : Int) + ((0 : Nat) : Int) = 3 by norm_num] at n0
  rw [show (3 : Int) + ((1 : Nat) : Int) = 4 by norm_num] at n1
  rw [show (3 : Int) + ((2 : Nat) : Int) = 5 by norm_num] at n2
  rw [show ((0 : Nat) : Int) = 0 by norm_num] at c0
  rw [show ((1 : Nat) : Int) = 1 by norm_num] at c1
  rw [show ((2 : Nat) : Int) = 2 by norm_num] at c2
  refine ⟨_, _, _, scenario_construct, calculate_ok _ _ ((1 : Nat) : Int) _ _ d0 f0,
    ?_, ?_, ?_, ?_, ?_, ?_⟩
  · rw [scenario_descriptor]
    norm_num
  · rw [n0, c0, neg_neg]
  · rw [show ((1 : Nat) : Int) = 1 by norm_num, c1]
    simp [axisCoord]
  · rw [c2]
    simp [axisCoord]
  · rw [n1]
    simp [axisCoord]
  · rw [n2]
    simp [axisCoord]

theorem exp_three_fifths_bounds :
    (1.82211 : ℝ) < Real.exp (3 / 5) ∧ Real.exp (3 / 5) < 1.82213 := by
  have h := Real.exp_bound (x := (3 / 5 : ℝ)) (by rw [abs_le]; constructor <;> norm_num)
    (n := 9) (by norm_num)
  rw [abs_le, abs_of_pos (by norm_num : (0 : ℝ) < 3 / 5)] at h
  simp only [Finset.sum_range_succ, Finset.sum_range_zero, Nat.factorial] at h
  norm_num at h
  constructor <;> linarith [h.1, h.2]

theorem exp_neg_four_bounds :
    (0.0183156 : ℝ) < Real.exp (-4) ∧ Real.exp (-4) < 0.0183157 := by
  have h1 := Real.exp_one_gt_d9
  have h2 := Real.exp_one_lt_d9
  have e : Real.exp (-4) = (Real.exp 1 ^ 4)⁻¹ := by
    rw [Real.exp_neg, ← Real.exp_nat_mul]
    norm_num
  have p : (0 : ℝ) < Real.exp 1 := Real.exp_pos 1
  have lo : (2.7182818283 : ℝ) ^ 4 < Real.exp 1 ^ 4 :=
    pow_lt_pow_left₀ h1 (by norm_num) (by norm_num)
  have hi : Real.exp 1 ^ 4 < (2.7182818286 : ℝ) ^ 4 :=
    pow_lt_pow_left₀ h2 p.le (by norm_num)
  have q : (0 : ℝ) < Real.exp 1 ^ 4 := pow_pos p 4
  rw [e]
  constructor
  · rw [lt_inv_comm₀ (by norm_num) q]
    refine lt_trans hi ?_
    norm_num
  · rw [inv_lt_comm₀ q (by norm_num)]
    refine lt_trans ?_ lo
    norm_num

theorem tanh_three_fifths_bounds :
    (0.53704 : ℝ) < Real.tanh (3 / 5) ∧ Real.tanh (3 / 5) < 0.53706 := by
  obtain ⟨lo, hi⟩ := exp_three_fifths_bounds
  have p : (0 : ℝ) < Real.exp (3 / 5) := Real.exp_pos _
  have e : Real.tanh (3 / 5) = (Real.exp (3 / 5) ^ 2 - 1) / (Real.exp (3 / 5) ^ 2 + 1) := by
    rw [Real.tanh_eq_sinh_div_cosh, Real.sinh_eq, Real.cosh_eq, Real.exp_neg]
    field_simp
    ring
  have q : (0 : ℝ) < Real.exp (3 / 5) ^ 2 + 1 := by positivity
  rw [e]
  constructor
  · rw [lt_div_iff₀ q]
    nlinarith
  · rw [div_lt_iff₀ q]
    nlinarith

theorem scenario_value_bounds :
    (0.002836 : ℝ) < Real.exp (-4) * Real.tanh (3 / 5) ^ 3
      ∧ Real.exp (-4) * Real.tanh (3 / 5) ^ 3 < 0.002838 := by
  obtain ⟨a1, a2⟩ := exp_neg_four_bounds
  obtain ⟨b1, b2⟩ := tanh_three_fifths_bounds
  have c1 : (0.53704 : ℝ) ^ 3 < Real.tanh (3 / 5) ^ 3 :=
    pow_lt_pow_left₀ b1 (by norm_num) (by norm_num)
  have c2 : Real.tanh (3 / 5) ^ 3 < (0.53706 : ℝ) ^ 3 :=
    pow_lt_pow_left₀ b2 (by linarith) (by norm_num)
  constructor
  · calc (0.002836 : ℝ) < 0.0183156 * (0.53704 : ℝ) ^ 3 := by norm_num
      _ < Real.exp (-4) * Real.tanh (3 / 5) ^ 3 :=
        mul_lt_mul a1 c1.le (by norm_num) (by linarith)
  · calc Real.exp (-4) * Real.tanh (3 / 5) ^ 3
        < 0.0183157 * (0.53706 : ℝ) ^ 3 :=
        mul_lt_mul a2 c2.le (by linarith [pow_pos (show (0:ℝ) < 0.53704 by norm_num) 3]) (by norm_num)
      _ < 0.002838 := by norm_num

/-- C14 (concrete scenario, numeric value), the claim as written fails: in the
scenario `numElems = 1`, `sizeRad = 1` (`eta = 1`, `shift = 0`), `sizeAng = 0`,
`radiusCut = 5`, one neighbor at `(2,0,0)`, started on zeroed buffers,
`calculate` succeeds and the value `descriptor[0]` it returns does not satisfy
`|descriptor[0] - 0.00307| < 0.000005`. -/
theorem scenario_value_not_within_00307 :
    ∃ (self : SymmFuncBehler ℝ) (data diff : Int → ℝ),
      SymmFuncBehler.SymmFuncBehler 1 1 0 (5 : ℝ) (some (fun _ => 1)) (some (fun _ => 0))
          none none = .ok self ∧
      SymmFuncBehler.calculate ⟨Real.tanh, Real.exp, Real.rpow⟩ ((1 : Nat) : Int)
          (some (fun _ c => if c = 0 ∨ c = 1 then 2 else 0)) (some (fun _ => 0))
          { self := self, symmData := some (fun _ => 0), symmDiff := some (fun _ => 0) }
        = (.ok (), { self := self, symmData := some data, symmDiff := some diff }) ∧
      ¬ (|data 0 - 0.00307| < 0.000005) := by
  refine ⟨_, _, _, scenario_construct,
    calculate_ok _ _ ((1 : Nat) : Int) _ _ (fun _ => 0) (fun _ => 0), ?_⟩
  rw [scenario_descriptor, abs_lt]
  intro h
  linarith [h.1, scenario_value_bounds.2]

/-- C14 (concrete scenario, numeric value), amended: in the scenario
`numElems = 1`, `sizeRad = 1` (`eta = 1`, `shift = 0`), `sizeAng = 0`,
`radiusCut = 5`, one neighbor at `(2,0,0)`, `calculate` succeeds and
`descriptor[0] = exp(-4) * tanh(0.6)^3`, which is approximately `0.00284`:
`|descriptor[0] - 0.00284| < 0.000005`. -/
theorem scenario_value_numeric (d0 f0 : Int → ℝ) :
    ∃ (self : SymmFuncBehler ℝ) (data diff : Int → ℝ),
      SymmFuncBehler.SymmFuncBehler 1 1 0 (5 : ℝ) (some (fun _ => 1)) (some (fun _ => 0))
          none none = .ok self ∧
      SymmFuncBehler.calculate ⟨Real.tanh, Real.exp, Real.rpow⟩ ((1 : Nat) : Int)
          (some (fun _ c => if c = 0 ∨ c = 1 then 2 else 0)) (some (fun _ => 0))
          { self := self, symmData := some d0, symmDiff := some f0 }
        = (.ok (), { self := self, symmData := some data, symmDiff := some diff }) ∧
      data 0 = Real.exp (-4) * Real.tanh 0.6 ^ 3 ∧
      |data 0 - 0.00284| < 0.000005 := by
  refine ⟨_, _, _, scenario_construct, calculate_ok _ _ ((1 : Nat) : Int) _ _ d0 f0, ?_, ?_⟩
  · rw [scenario_descriptor]
    norm_num
  · rw [scenario_descriptor, abs_lt]
    constructor <;> linarith [scenario_value_bounds.1, scenario_value_bounds.2]

/-! ## The canonical pair rule -/

theorem pairSkipped_eq_false_iff (elem : Nat → Int) (i j : Nat) :
    pairSkipped elem i j = false ↔ (elem i < elem j ∨ (elem i = elem j ∧ i < j)) := by
  unfold pairSkipped
  rw [decide_eq_false_iff_not]
  constructor
  · intro h
    by_cases h1 : elem i = elem j
    · right
      refine ⟨h1, ?_⟩
      by_contra h2
      exact h (Or.inr ⟨h1, by omega⟩)
    · left
      by_contra h2
      exact h (Or.inl (by omega))
  · rintro (h | ⟨h1, h2⟩) (g | ⟨_, g2⟩) <;> omega

theorem pairSkipped_eq_true_iff (elem : Nat → Int) (i j : Nat) :
    pairSkipped elem i j = true ↔ ¬ (elem i < elem j ∨ (elem i = elem j ∧ i < j)) := by
  rw [← pairSkipped_eq_false_iff, Bool.not_eq_false]

/-- C17 (no double counting): for two distinct neighbor indices `a`, `b` of the
list, the canonical rule of line 257 accepts exactly one of the ordered pairs
`(i=a, j=b)` and `(i=b, j=a)`; it never accepts a pair with `i = j`; every
accepted pair has `element(i) <= element(j)`; among all iterations
`(ineigh1, ineigh2)` of the double neighbor loop exactly one is an accepted
ordering of `{a, b}`; and the loop body leaves both buffers untouched on a
rejected pair. -/
theorem canonical_rule_no_double_counting (elem : Nat → Int) (n a b : Nat)
    (ha : a < n) (hb : b < n) (hab : a ≠ b) :
    ((pairSkipped elem a b = false ∧ pairSkipped elem b a = true)
        ∨ (pairSkipped elem a b = true ∧ pairSkipped elem b a = false))
      ∧ (∀ i : Nat, pairSkipped elem i i = true)
      ∧ (∀ i j : Nat, pairSkipped elem i j = false → elem i ≤ elem j)
      ∧ ((Finset.range n ×ˢ Finset.range n).filter
          (fun p => pairSkipped elem p.1 p.2 = false ∧ (p = (a, b) ∨ p = (b, a)))).card = 1
      ∧ (∀ (m : MathFns ℝ) (self : SymmFuncBehler ℝ) (pos : Nat → Nat → ℝ) (o : Out ℝ)
          (i j : Nat), pairSkipped elem i j = true →
            angularInner m self pos elem j o i = o) := by
  have hx : (pairSkipped elem a b = false ∧ pairSkipped elem b a = true)
      ∨ (pairSkipped elem a b = true ∧ pairSkipped elem b a = false) := by
    rw [pairSkipped_eq_false_iff, pairSkipped_eq_true_iff, pairSkipped_eq_false_iff,
      pairSkipped_eq_true_iff]
    by_cases h1 : elem a < elem b
    · left
      refine ⟨Or.inl h1, ?_⟩
      rintro (g | ⟨g1, g2⟩) <;> omega
    · by_cases h2 : elem a = elem b
      · rcases Nat.lt_or_gt_of_ne hab with h3 | h3
        · left
          refine ⟨Or.inr ⟨h2, h3⟩, ?_⟩
          rintro (g | ⟨g1, g2⟩) <;> omega
        · right
          refine ⟨?_, Or.inr ⟨h2.symm, h3⟩⟩
          rintro (g | ⟨g1, g2⟩) <;> omega
      · right
        refine ⟨?_, Or.inl (by omega)⟩
        rintro (g | ⟨g1, g2⟩) <;> omega
  refine ⟨hx, pairSkipped_self elem, ?_, ?_, ?_⟩
  · intro i j h
    rw [pairSkipped_eq_false_iff] at h
    rcases h with h | ⟨h, _⟩ <;> omega
  · rcases hx with ⟨h1, h2⟩ | ⟨h1, h2⟩
    · have e : (Finset.range n ×ˢ Finset.range n).filter
          (fun p => pairSkipped elem p.1 p.2 = false ∧ (p = (a, b) ∨ p = (b, a)))
          = {(a, b)} := by
        ext p
        simp only [Finset.mem_filter, Finset.mem_product, Finset.mem_range,
          Finset.mem_singleton]
        constructor
        · rintro ⟨_, hp, rfl | rfl⟩
          · rfl
          · rw [h2] at hp
            exact absurd hp (by decide)
        · rintro rfl
          exact ⟨⟨ha, hb⟩, h1, Or.inl rfl⟩
      rw [e, Finset.card_singleton]
    · have e : (Finset.range n ×ˢ Finset.range n).filter
          (fun p => pairSkipped elem p.1 p.2 = false ∧ (p = (a, b) ∨ p = (b, a)))
          = {(b, a)} := by
        ext p
        simp only [Finset.mem_filter, Finset.mem_product, Finset.mem_range,
          Finset.mem_singleton]
        constructor
        · rintro ⟨_, hp, rfl | rfl⟩
          · rw [h1] at hp
            exact absurd hp (by decide)
          · rfl
        · rintro rfl
          exact ⟨⟨hb, ha⟩, h2, Or.inr rfl⟩
      rw [e, Finset.card_singleton]
  · intro m self pos o i j h
    unfold angularInner
    rw [if_pos h]

theorem canonical_rule_no_double_counting_witness :
    ((pairSkipped (fun _ => 0) 0 1 = false ∧ pairSkipped (fun _ => 0) 1 0 = true)
        ∨ (pairSkipped (fun _ => 0) 0 1 = true ∧ pairSkipped (fun _ => 0) 1 0 = false))
      ∧ ((Finset.range 2 ×ˢ Finset.range 2).filter
          (fun p => pairSkipped (fun _ => 0) p.1 p.2 = false
            ∧ (p = (0, 1) ∨ p = (1, 0)))).card = 1 :=
  ⟨(canonical_rule_no_double_counting (fun _ => 0) 2 0 1 (by decide) (by decide) (by decide)).1,
   (canonical_rule_no_double_counting (fun _ => 0) 2 0 1 (by decide) (by decide)
      (by decide)).2.2.2.1⟩

/-! ## The packed angular index -/

theorem angularSlot_eq_angularIbase {R : Type} (self : SymmFuncBehler R) (elem : Nat → Int)
    (i1 i2 l k : Nat) :
    angularSlot self elem i1 i2 l k = angularIbase self (elem i1) (elem i2) l k := rfl

theorem tri_succ (N : Int) :
    Int.tdiv ((N + 1) * (N + 1 + 1)) 2 = Int.tdiv (N * (N + 1)) 2 + (N + 1) := by
  have h1 := two_mul_tri N
  have h2 := two_mul_tri (N + 1)
  nlinarith

theorem tri_decompose (N : Nat) (p : Int) (hp0 : 0 ≤ p)
    (hp : p < Int.tdiv ((N : Int) * ((N : Int) + 1)) 2) :
    ∃ e1 e2 : Int, 0 ≤ e1 ∧ e1 ≤ e2 ∧ e2 < (N : Int) ∧ p = e1 + Int.tdiv (e2 * (e2 + 1)) 2 := by
  induction N with
  | zero =>
    exfalso
    simp at hp
    omega
  | succ N ih =>
    have hs := tri_succ (N : Int)
    push_cast at hp
    rw [hs] at hp
    by_cases h : p < Int.tdiv ((N : Int) * ((N : Int) + 1)) 2
    · obtain ⟨e1, e2, h1, h2, h3, h4⟩ := ih h
      exact ⟨e1, e2, h1, h2, by push_cast; omega, h4⟩
    · refine ⟨p - Int.tdiv ((N : Int) * ((N : Int) + 1)) 2, (N : Int), by omega, by omega,
        by push_cast; omega, by ring⟩

theorem angularIbase_surj {R : Type} [LinearOrderedField R] (self : SymmFuncBehler R)
    (w : WellFormed self) (hN : 0 ≤ self.numElems) (x : Int) (hx0 : self.numRadBasis ≤ x)
    (hx : x < self.numBasis) :
    ∃ (e1 e2 : Int) (l k : Nat), 0 ≤ e1 ∧ e1 ≤ e2 ∧ e2 < self.numElems ∧ l < 2
      ∧ (k : Int) < self.sizeAng ∧ angularIbase self e1 e2 l k = x := by
  obtain ⟨h1, h2, -, hnr, hna, hnb⟩ := w
  have hT := two_mul_tri self.numElems
  have hT0 : 0 ≤ Int.tdiv (self.numElems * (self.numElems + 1)) 2 := by nlinarith
  have hsA : 0 < self.sizeAng := by
    rcases lt_or_eq_of_le h2 with h | h
    · exact h
    · exfalso
      rw [hnb, hna, ← h] at hx
      simp at hx
      omega
  have h2s : 0 < 2 * self.sizeAng := by omega
  set y := x - self.numRadBasis with hy
  have hy0 : 0 ≤ y := by omega
  have hyT : y < Int.tdiv (self.numElems * (self.numElems + 1)) 2 * (2 * self.sizeAng) := by
    rw [hnb, hna] at hx
    have : self.sizeAng * 2 * Int.tdiv (self.numElems * (self.numElems + 1)) 2
        = Int.tdiv (self.numElems * (self.numElems + 1)) 2 * (2 * self.sizeAng) := by ring
    omega
  have hp0 : 0 ≤ y / (2 * self.sizeAng) := Int.ediv_nonneg hy0 h2s.le
  have hp : y / (2 * self.sizeAng) < Int.tdiv (self.numElems * (self.numElems + 1)) 2 :=
    Int.ediv_lt_of_lt_mul h2s hyT
  have hNn : ((self.numElems.toNat : Nat) : Int) = self.numElems := Int.toNat_of_nonneg hN
  rw [← hNn] at hp
  obtain ⟨e1, e2, g1, g2, g3, g4⟩ := tri_decompose _ _ hp0 hp
  rw [hNn] at g3
  have hu0 : 0 ≤ y % (2 * self.sizeAng) := Int.emod_nonneg _ (ne_of_gt h2s)
  have hu : y % (2 * self.sizeAng) < 2 * self.sizeAng := Int.emod_lt_of_pos _ h2s
  have hl0 : 0 ≤ y % (2 * self.sizeAng) / self.sizeAng := Int.ediv_nonneg hu0 hsA.le
  have hl : y % (2 * self.sizeAng) / self.sizeAng < 2 :=
    Int.ediv_lt_of_lt_mul hsA (by omega)
  have hk0 : 0 ≤ y % (2 * self.sizeAng) % self.sizeAng := Int.emod_nonneg _ (ne_of_gt hsA)
  have hk : y % (2 * self.sizeAng) % self.sizeAng < self.sizeAng := Int.emod_lt_of_pos _ hsA
  have d1 := Int.emod_add_ediv y (2 * self.sizeAng)
  have d2 := Int.emod_add_ediv (y % (2 * self.sizeAng)) self.sizeAng
  refine ⟨e1, e2, (y % (2 * self.sizeAng) / self.sizeAng).toNat,
    (y % (2 * self.sizeAng) % self.sizeAng).toNat, g1, g2, g3, by omega, by omega, ?_⟩
  unfold angularIbase
  simp only []
  rw [Int.toNat_of_nonneg hl0, Int.toNat_of_nonneg hk0, ← g4]
  have e3 : self.sizeAng * (y % (2 * self.sizeAng) / self.sizeAng)
      = y % (2 * self.sizeAng) / self.sizeAng * self.sizeAng := by ring
  have e4 : 2 * self.sizeAng * (y / (2 * self.sizeAng))
      = y / (2 * self.sizeAng) * 2 * self.sizeAng := by ring
  omega

/-- C20 (packed triangular indexing): for an object returned by the constructor
with a nonnegative element count, the index function
`(e_i, e_j, branch, k) -> numRadBasis + k + branch*sizeAng + (e_i + e_j*(e_j+1)/2)*2*sizeAng`
restricted to `0 <= e_i <= e_j < numElems`, `branch < 2`, `k < sizeAng` is
injective, every value lies in `[numRadBasis, numBasis)`, and every index of
`[numRadBasis, numBasis)` is a value: two different (element pair, branch,
mode) combinations never share an angular slot. -/
theorem packed_index_bijection (numElems sizeRad sizeAng : Int) (radiusCut : ℝ)
    (radiusEta radiusShift angleEta angleZeta : Option (Nat → ℝ)) (self : SymmFuncBehler ℝ)
    (hself : SymmFuncBehler.SymmFuncBehler numElems sizeRad sizeAng radiusCut
      radiusEta radiusShift angleEta angleZeta = .ok self)
    (hN : 0 ≤ numElems) :
    (∀ (e1 e2 c1 c2 : Int) (l l2 k k2 : Nat),
        0 ≤ e1 → e1 ≤ e2 → e2 < self.numElems → l < 2 → (k : Int) < self.sizeAng →
        0 ≤ c1 → c1 ≤ c2 → c2 < self.numElems → l2 < 2 → (k2 : Int) < self.sizeAng →
        angularIbase self e1 e2 l k = angularIbase self c1 c2 l2 k2 →
        e1 = c1 ∧ e2 = c2 ∧ l = l2 ∧ k = k2)
      ∧ (∀ (e1 e2 : Int) (l k : Nat),
        0 ≤ e1 → e1 ≤ e2 → e2 < self.numElems → l < 2 → (k : Int) < self.sizeAng →
        self.numRadBasis ≤ angularIbase self e1 e2 l k
          ∧ angularIbase self e1 e2 l k < self.numBasis)
      ∧ (∀ x : Int, self.numRadBasis ≤ x → x < self.numBasis →
        ∃ (e1 e2 : Int) (l k : Nat), 0 ≤ e1 ∧ e1 ≤ e2 ∧ e2 < self.numElems ∧ l < 2
          ∧ (k : Int) < self.sizeAng ∧ angularIbase self e1 e2 l k = x) := by
  have w := wellFormed_of_construct _ _ _ _ _ _ _ _ _ hself
  have hNs : 0 ≤ self.numElems := by
    rw [(construct_ok _ _ _ _ _ _ _ _ _ hself).2]
    exact hN
  refine ⟨?_, ?_, ?_⟩
  · intro e1 e2 c1 c2 l l2 k k2 a1 a2 _ a4 a5 b1 b2 _ b4 b5 h
    obtain ⟨r1, r2, r3, r4⟩ := (angular_slot_inj self.numRadBasis self.sizeAng k k2 l l2
      e1 e2 c1 c2 a5 b5 a4 b4 a1 a2 b1 b2).mp h
    exact ⟨r3.symm, r4.symm, r2.symm, r1.symm⟩
  · intro e1 e2 l k a1 a2 a3 a4 a5
    have hb := angular_slot_bounds self w e1 e2 a1 a2 a3 l k a4 (by omega)
    exact ⟨hb.1, hb.2.1⟩
  · intro x hx0 hx
    exact angularIbase_surj self w hNs x hx0 hx

theorem packed_index_bijection_witness :
    angularIbase
        ({ numElems := 2, numBasis := 8, sizeRad := 1, sizeAng := 1, numRadBasis := 2,
           numAngBasis := 6, radiusCut := 5, radiusEta := some (fun _ => 1),
           radiusShift := some (fun _ => 0), angleEta := some (fun _ => 1),
           angleZeta := some (fun _ => 1) } : SymmFuncBehler ℝ) 0 1 1 0 < 8
      ∧ ∃ (e1 e2 : Int) (l k : Nat), 0 ≤ e1 ∧ e1 ≤ e2 ∧ e2 < 2 ∧ l < 2 ∧ (k : Int) < 1
        ∧ angularIbase
            ({ numElems := 2, numBasis := 8, sizeRad := 1, sizeAng := 1, numRadBasis := 2,
               numAngBasis := 6, radiusCut := 5, radiusEta := some (fun _ => 1),
               radiusShift := some (fun _ => 0), angleEta := some (fun _ => 1),
               angleZeta := some (fun _ => 1) } : SymmFuncBehler ℝ) e1 e2 l k = 7 :=
  have h := packed_index_bijection 2 1 1 5 (some (fun _ => 1)) (some (fun _ => 0))
    (some (fun _ => 1)) (some (fun _ => 1))
    { numElems := 2, numBasis := 8, sizeRad := 1, sizeAng := 1, numRadBasis := 2,
      numAngBasis := 6, radiusCut := 5, radiusEta := some (fun _ => 1),
      radiusShift := some (fun _ => 0), angleEta := some (fun _ => 1),
      angleZeta := some (fun _ => 1) }
    (by norm_num [SymmFuncBehler.SymmFuncBehler, SymmFunc.SymmFunc, stop_by_error]; decide)
    (by decide)
  ⟨(h.2.1 0 1 1 0 (by decide) (by decide) (by decide) (by decide) (by decide)).2,
    h.2.2 7 (by decide) (by decide)⟩

/-! ## Index safety -/

theorem jac_index_bounds (N b c F : Int) (hb0 : 0 ≤ b) (hb : b < N) (hc0 : 0 ≤ c) (hc : c < F) :
    0 ≤ b + c * N ∧ b + c * N < N * F := by
  have h1 : 0 ≤ c * N := by nlinarith
  have h2 : (c + 1) * N ≤ F * N := mul_le_mul_of_nonneg_right (by omega) (by omega)
  constructor
  · omega
  · nlinarith

theorem radialSum_outside {R : Type} [LinearOrderedField R] (m : MathFns R)
    (self : SymmFuncBehler R) (w : WellFormed self) (n : Nat) (pos : Nat → Nat → R)
    (elem : Nat → Int) (hel : ∀ i : Nat, i < n → 0 ≤ elem i ∧ elem i < self.numElems)
    (x : Int) (hx : ¬ (0 ≤ x ∧ x < self.numRadBasis)) : radialSum m self n pos elem x = 0 := by
  unfold radialSum
  apply Finset.sum_eq_zero
  intro i hi
  apply Finset.sum_eq_zero
  intro k hk
  rw [Finset.mem_range] at hi hk
  have hb := radial_slot_bounds self w _ (hel i hi).1 (hel i hi).2 k hk
  rw [if_neg]
  unfold radialSlot
  omega

theorem angularSum_outside {R : Type} [LinearOrderedField R] (m : MathFns R)
    (self : SymmFuncBehler R) (w : WellFormed self) (n : Nat) (pos : Nat → Nat → R)
    (elem : Nat → Int) (hel : ∀ i : Nat, i < n → 0 ≤ elem i ∧ elem i < self.numElems)
    (x : Int) (hx : ¬ (self.numRadBasis ≤ x ∧ x < self.numBasis)) :
    angularSum m self n pos elem x = 0 := by
  unfold angularSum
  apply Finset.sum_eq_zero
  intro i2 h2
  apply Finset.sum_eq_zero
  intro i1 h1
  rw [Finset.mem_range] at h1 h2
  cases hsk : pairSkipped elem i1 i2
  · simp only [Bool.false_eq_true, if_false]
    have hle : elem i1 ≤ elem i2 := by
      rcases not_pairSkipped elem i1 i2 hsk with h | h <;> omega
    apply Finset.sum_eq_zero
    intro l hl
    rw [Finset.mem_range] at hl
    split_ifs
    · rfl
    · apply Finset.sum_eq_zero
      intro k hk
      rw [Finset.mem_range] at hk
      have hb := angular_slot_bounds self w _ _ (hel i1 h1).1 hle (hel i2 h2).2 l k hl hk
      rw [if_neg]
      unfold angularSlot
      omega
  · simp

theorem radialDelta_outside {R : Type} [LinearOrderedField R] (m : MathFns R)
    (self : SymmFuncBehler R) (n : Nat) (pos : Nat → Nat → R) (elem : Nat → Int) (i k : Nat)
    (hi : i < n) (ht0 : 0 ≤ radialSlot self elem i k)
    (ht : radialSlot self elem i k < self.numBasis) (x : Int)
    (hx : ¬ (0 ≤ x ∧ x < self.numBasis * (3 * (1 + (n : Int))))) :
    radialDelta m self pos elem i k x = 0 := by
  have hne : ∀ c : Int, 0 ≤ c → c < 3 * (1 + (n : Int)) →
      x ≠ radialSlot self elem i k + c * self.numBasis := by
    intro c hc0 hc h
    exact hx (h ▸ jac_index_bounds _ _ _ _ ht0 ht hc0 hc)
  unfold radialDelta
  rw [if_neg (hne 0 (by omega) (by omega)), if_neg (hne 1 (by omega) (by omega)),
    if_neg (hne 2 (by omega) (by omega)), if_neg (hne _ (by omega) (by omega)),
    if_neg (hne _ (by omega) (by omega)), if_neg (hne _ (by omega) (by omega))]
  simp

theorem angularDelta_outside {R : Type} [LinearOrderedField R] (m : MathFns R)
    (self : SymmFuncBehler R) (n : Nat) (pos : Nat → Nat → R) (elem : Nat → Int)
    (i1 i2 l k : Nat) (hi1 : i1 < n) (hi2 : i2 < n)
    (ht0 : 0 ≤ angularSlot self elem i1 i2 l k)
    (ht : angularSlot self elem i1 i2 l k < self.numBasis) (x : Int)
    (hx : ¬ (0 ≤ x ∧ x < self.numBasis * (3 * (1 + (n : Int))))) :
    angularDelta m self pos elem i1 i2 l k x = 0 := by
  have hne : ∀ c : Int, 0 ≤ c → c < 3 * (1 + (n : Int)) →
      x ≠ angularSlot self elem i1 i2 l k + c * self.numBasis := by
    intro c hc0 hc h
    exact hx (h ▸ jac_index_bounds _ _ _ _ ht0 ht hc0 hc)
  unfold angularDelta
  rw [if_neg (hne 0 (by omega) (by omega)), if_neg (hne 1 (by omega) (by omega)),
    if_neg (hne 2 (by omega) (by omega)), if_neg (hne _ (by omega) (by omega)),
    if_neg (hne _ (by omega) (by omega)), if_neg (hne _ (by omega) (by omega)),
    if_neg (hne _ (by omega) (by omega)), if_neg (hne _ (by omega) (by omega)),
    if_neg (hne _ (by omega) (by omega))]
  simp

theorem radialDiffSum_outside {R : Type} [LinearOrderedField R] (m : MathFns R)
    (self : SymmFuncBehler R) (w : WellFormed self) (n : Nat) (pos : Nat → Nat → R)
    (elem : Nat → Int) (hel : ∀ i : Nat, i < n → 0 ≤ elem i ∧ elem i < self.numElems)
    (x : Int) (hx : ¬ (0 ≤ x ∧ x < self.numBasis * (3 * (1 + (n : Int))))) :
    radialDiffSum m self n pos elem x = 0 := by
  unfold radialDiffSum
  apply Finset.sum_eq_zero
  intro i hi
  apply Finset.sum_eq_zero
  intro k hk
  rw [Finset.mem_range] at hi hk
  have hb := radial_slot_bounds self w _ (hel i hi).1 (hel i hi).2 k hk
  exact radialDelta_outside m self n pos elem i k hi hb.1 (by unfold radialSlot; omega) x hx

theorem angularDiffSumOpt_outside {R : Type} [LinearOrderedField R] (skip : Bool)
    (m : MathFns R)
    (self : SymmFuncBehler R) (w : WellFormed self) (n : Nat) (pos : Nat → Nat → R)
    (elem : Nat → Int) (hel : ∀ i : Nat, i < n → 0 ≤ elem i ∧ elem i < self.numElems)
    (x : Int) (hx : ¬ (0 ≤ x ∧ x < self.numBasis * (3 * (1 + (n : Int))))) :
    angularDiffSumOpt skip m self n pos elem x = 0 := by
  unfold angularDiffSumOpt
  apply Finset.sum_eq_zero
  intro i2 h2
  apply Finset.sum_eq_zero
  intro i1 h1
  rw [Finset.mem_range] at h1 h2
  cases hsk : pairSkipped elem i1 i2
  · simp only [Bool.false_eq_true, if_false]
    have hle : elem i1 ≤ elem i2 := by
      rcases not_pairSkipped elem i1 i2 hsk with h | h <;> omega
    apply Finset.sum_eq_zero
    intro l hl
    rw [Finset.mem_range] at hl
    split_ifs
    · rfl
    · apply Finset.sum_eq_zero
      intro k hk
      rw [Finset.mem_range] at hk
      have hb := angular_slot_bounds self w _ _ (hel i1 h1).1 hle (hel i2 h2).2 l k hl hk
      exact angularDelta_outside m self n pos elem i1 i2 l k h1 h2
        (by unfold angularSlot; omega) (by unfold angularSlot; omega) x hx
  · simp

theorem zeroInit_symmDiff_outside {R : Type} [LinearOrderedField R] (self : SymmFuncBehler R)
    (n : Nat) (o : Out R) (x : Int)
    (hx : ¬ (0 ≤ x ∧ x < self.numBasis * (3 * (1 + (n : Int))))) :
    (zeroInit self (n : Int) o).symmDiff x = o.symmDiff x := by
  rw [zeroInit_symmDiff, if_neg]
  rintro ⟨f, hf, i, hi, rfl⟩
  exact hx (jac_index_bounds _ _ _ _ (by omega) (by omega) (by omega) (by omega))

/-- C19 (index safety and disjoint slices): for an object returned by the
constructor (so `sizeRad >= 1`, `sizeAng >= 0`) and a neighbor list with element
indices in `[0, numElems)`: every descriptor index of a radial write lies in
`[0, numRadBasis)`, every descriptor index of an angular write (an accepted
pair) lies in `[numRadBasis, numBasis)`, so the two never coincide; every
jacobian index of a radial or angular write lies in
`[0, numBasis*3*(1+numNeighbor))`; the radial loop leaves the descriptor
untouched outside `[0, numRadBasis)`, the angular loop leaves it untouched
outside `[numRadBasis, numBasis)`, and `calculate` leaves both buffers
untouched outside `[0, numBasis)` and `[0, numBasis*3*(1+numNeighbor))`. -/
theorem index_safety (numElems sizeRad sizeAng : Int) (radiusCut : ℝ)
    (radiusEta radiusShift angleEta angleZeta : Option (Nat → ℝ)) (self : SymmFuncBehler ℝ)
    (hself : SymmFuncBehler.SymmFuncBehler numElems sizeRad sizeAng radiusCut
      radiusEta radiusShift angleEta angleZeta = .ok self)
    (m : MathFns ℝ) (n : Nat) (pos : Nat → Nat → ℝ) (elem : Nat → Int)
    (hel : ∀ i : Nat, i < n → 0 ≤ elem i ∧ elem i < self.numElems) :
    (∀ i k : Nat, i < n → k < self.sizeRad.toNat →
        (0 ≤ radialSlot self elem i k ∧ radialSlot self elem i k < self.numRadBasis)
        ∧ ∀ a : Nat, a < 3 →
          (0 ≤ radialSlot self elem i k + (a : Int) * self.numBasis
            ∧ radialSlot self elem i k + (a : Int) * self.numBasis
              < self.numBasis * 3 * (1 + (n : Int)))
          ∧ (0 ≤ radialSlot self elem i k + (3 * ((i : Int) + 1) + (a : Int)) * self.numBasis
            ∧ radialSlot self elem i k + (3 * ((i : Int) + 1) + (a : Int)) * self.numBasis
              < self.numBasis * 3 * (1 + (n : Int))))
      ∧ (∀ i1 i2 l k : Nat, i1 < n → i2 < n → pairSkipped elem i1 i2 = false → l < 2 →
          k < self.sizeAng.toNat →
        (self.numRadBasis ≤ angularSlot self elem i1 i2 l k
          ∧ angularSlot self elem i1 i2 l k < self.numBasis)
        ∧ (∀ i k2 : Nat, i < n → k2 < self.sizeRad.toNat →
            radialSlot self elem i k2 ≠ angularSlot self elem i1 i2 l k)
        ∧ ∀ a : Nat, a < 3 →
          (0 ≤ angularSlot self elem i1 i2 l k + (a : Int) * self.numBasis
            ∧ angularSlot self elem i1 i2 l k + (a : Int) * self.numBasis
              < self.numBasis * 3 * (1 + (n : Int)))
          ∧ (0 ≤ angularSlot self elem i1 i2 l k
                + (3 * ((i1 : Int) + 1) + (a : Int)) * self.numBasis
            ∧ angularSlot self elem i1 i2 l k
                + (3 * ((i1 : Int) + 1) + (a : Int)) * self.numBasis
              < self.numBasis * 3 * (1 + (n : Int)))
          ∧ (0 ≤ angularSlot self elem i1 i2 l k
                + (3 * ((i2 : Int) + 1) + (a : Int)) * self.numBasis
            ∧ angularSlot self elem i1 i2 l k
                + (3 * ((i2 : Int) + 1) + (a : Int)) * self.numBasis
              < self.numBasis * 3 * (1 + (n : Int))))
      ∧ (∀ (o : Out ℝ) (x : Int), ¬ (0 ≤ x ∧ x < self.numRadBasis) →
          (forLoop n (radialNeighbor m self pos elem) o).symmData x = o.symmData x)
      ∧ (∀ (o : Out ℝ) (x : Int), ¬ (self.numRadBasis ≤ x ∧ x < self.numBasis) →
          (forLoop n (angularOuter m self (n : Int) pos elem) o).symmData x = o.symmData x)
      ∧ (∀ (d0 f0 : Int → ℝ), ∃ data diff : Int → ℝ,
          SymmFuncBehler.calculate m (n : Int) (some pos) (some elem)
              { self := self, symmData := some d0, symmDiff := some f0 }
            = (.ok (), { self := self, symmData := some data, symmDiff := some diff })
          ∧ (∀ x : Int, ¬ (0 ≤ x ∧ x < self.numBasis) → data x = d0 x)
          ∧ (∀ x : Int, ¬ (0 ≤ x ∧ x < self.numBasis * 3 * (1 + (n : Int))) →
              diff x = f0 x)) := by
  have w := wellFormed_of_construct _ _ _ _ _ _ _ _ _ hself
  have e3 : self.numBasis * 3 * (1 + (n : Int)) = self.numBasis * (3 * (1 + (n : Int))) :=
    mul_assoc _ _ _
  rw [e3]
  refine ⟨?_, ?_, ?_, ?_, ?_⟩
  · intro i k hi hk
    have hb := radial_slot_bounds self w _ (hel i hi).1 (hel i hi).2 k hk
    have hb0 : 0 ≤ radialSlot self elem i k := hb.1
    have hb1 : radialSlot self elem i k < self.numRadBasis := hb.2.1
    refine ⟨⟨hb0, hb1⟩, ?_⟩
    intro a ha
    exact ⟨jac_index_bounds _ _ _ _ hb0 (by omega) (by omega) (by omega),
      jac_index_bounds _ _ _ _ hb0 (by omega) (by omega) (by omega)⟩
  · intro i1 i2 l k h1 h2 hsk hl hk
    have hle : elem i1 ≤ elem i2 := by
      rcases not_pairSkipped elem i1 i2 hsk with h | h <;> omega
    have hb := angular_slot_bounds self w _ _ (hel i1 h1).1 hle (hel i2 h2).2 l k hl hk
    have hb0 : self.numRadBasis ≤ angularSlot self elem i1 i2 l k := hb.1
    have hb1 : angularSlot self elem i1 i2 l k < self.numBasis := hb.2.1
    have hb2 : 0 ≤ angularSlot self elem i1 i2 l k := le_trans hb.2.2 hb0
    refine ⟨⟨hb0, hb1⟩, ?_, ?_⟩
    · intro i k2 hi hk2
      have hr := radial_slot_bounds self w _ (hel i hi).1 (hel i hi).2 k2 hk2
      have hr1 : radialSlot self elem i k2 < self.numRadBasis := hr.2.1
      omega
    · intro a ha
      exact ⟨jac_index_bounds _ _ _ _ hb2 hb1 (by omega) (by omega),
        jac_index_bounds _ _ _ _ hb2 hb1 (by omega) (by omega),
        jac_index_bounds _ _ _ _ hb2 hb1 (by omega) (by omega)⟩
  · intro o x hx
    rw [radialPass_symmData, radialSum_outside m self w n pos elem hel x hx, add_zero]
  · intro o x hx
    rw [angularPass_symmData, angularSum_outside m self w n pos elem hel x hx, add_zero]
  · intro d0 f0
    refine ⟨_, _, calculate_ok m self (n : Int) pos elem d0 f0, ?_, ?_⟩
    · intro x hx
      rw [calculateBody_symmData, zeroInit_symmData, if_neg hx]
      rcases Nat.eq_zero_or_pos n with hn | hn
      · subst hn
        simp [radialSum, angularSum]
      · have hN : 0 < self.numElems := lt_of_le_of_lt (hel 0 hn).1 (hel 0 hn).2
        have w2 := w
        obtain ⟨w1, -, -, wnr, -, -⟩ := w2
        have hR : 0 ≤ self.numRadBasis := by
          rw [wnr]
          exact mul_nonneg (by omega) hN.le
        have hA : self.numRadBasis ≤ self.numBasis :=
          (radial_slot_bounds self w 0 (le_refl 0) hN 0 (by omega)).2.2
        rw [radialSum_outside m self w n pos elem hel x (fun h => hx ⟨h.1, by omega⟩),
          angularSum_outside m self w n pos elem hel x (fun h => hx ⟨by omega, h.2⟩)]
        simp
    · intro x hx
      rw [calculateBody_symmDiff, zeroInit_symmDiff_outside self n _ x hx,
        radialDiffSum_outside m self w n pos elem hel x hx,
        angularDiffSumOpt_outside true m self w n pos elem hel x hx]
      simp

theorem index_safety_witness :
    (0 ≤ radialSlot
          ({ numElems := 1, numBasis := 3, sizeRad := 1, sizeAng := 1, numRadBasis := 1,
             numAngBasis := 2, radiusCut := 5, radiusEta := some (fun _ => 1),
             radiusShift := some (fun _ => 0), angleEta := some (fun _ => 1),
             angleZeta := some (fun _ => 1) } : SymmFuncBehler ℝ) (fun _ => 0) 1 0
        ∧ radialSlot
          ({ numElems := 1, numBasis := 3, sizeRad := 1, sizeAng := 1, numRadBasis := 1,
             numAngBasis := 2, radiusCut := 5, radiusEta := some (fun _ => 1),
             radiusShift := some (fun _ => 0), angleEta := some (fun _ => 1),
             angleZeta := some (fun _ => 1) } : SymmFuncBehler ℝ) (fun _ => 0) 1 0 < 1)
      ∧ ((1 : Int) ≤ angularSlot
          ({ numElems := 1, numBasis := 3, sizeRad := 1, sizeAng := 1, numRadBasis := 1,
             numAngBasis := 2, radiusCut := 5, radiusEta := some (fun _ => 1),
             radiusShift := some (fun _ => 0), angleEta := some (fun _ => 1),
             angleZeta := some (fun _ => 1) } : SymmFuncBehler ℝ) (fun _ => 0) 0 1 1 0
        ∧ angularSlot
          ({ numElems := 1, numBasis := 3, sizeRad := 1, sizeAng := 1, numRadBasis := 1,
             numAngBasis := 2, radiusCut := 5, radiusEta := some (fun _ => 1),
             radiusShift := some (fun _ => 0), angleEta := some (fun _ => 1),
             angleZeta := some (fun _ => 1) } : SymmFuncBehler ℝ) (fun _ => 0) 0 1 1 0 < 3) :=
  have h := index_safety 1 1 1 5 (some (fun _ => 1)) (some (fun _ => 0))
    (some (fun _ => 1)) (some (fun _ => 1))
    { numElems := 1, numBasis := 3, sizeRad := 1, sizeAng := 1, numRadBasis := 1,
      numAngBasis := 2, radiusCut := 5, radiusEta := some (fun _ => 1),
      radiusShift := some (fun _ => 0), angleEta := some (fun _ => 1),
      angleZeta := some (fun _ => 1) }
    (by norm_num [SymmFuncBehler.SymmFuncBehler, SymmFunc.SymmFunc, stop_by_error])
    ⟨Real.tanh, Real.exp, Real.rpow⟩ 2 (fun _ _ => 1) (fun _ => 0)
    (fun _ _ => ⟨le_refl 0, Int.zero_lt_one⟩)
  ⟨(h.1 1 0 (by decide) (by decide)).1,
    (h.2.1 0 1 1 0 (by decide) (by decide) (by decide) (by decide) (by decide)).1⟩

/-! ## The threshold skip -/

theorem angularDelta_at {R : Type} [LinearOrderedField R] (m : MathFns R)
    (self : SymmFuncBehler R) (pos : Nat → Nat → R) (elem : Nat → Int) (i1 i2 l k : Nat)
    (s c : Int) (hs0 : 0 ≤ s) (hs : s < self.numBasis)
    (ht0 : 0 ≤ angularSlot self elem i1 i2 l k)
    (ht : angularSlot self elem i1 i2 l k < self.numBasis) :
    angularDelta m self pos elem i1 i2 l k (s + c * self.numBasis)
      = if s = angularSlot self elem i1 i2 l k then
          (if c = 0 then
              -((angularTermAt m self pos i1 i2 l k).dgdx1
                + (angularTermAt m self pos i1 i2 l k).dgdx2) else 0)
          + (if c = 1 then
              -((angularTermAt m self pos i1 i2 l k).dgdy1
                + (angularTermAt m self pos i1 i2 l k).dgdy2) else 0)
          + (if c = 2 then
              -((angularTermAt m self pos i1 i2 l k).dgdz1
                + (angularTermAt m self pos i1 i2 l k).dgdz2) else 0)
          + (if c = 3 * ((i1 : Int) + 1) + 0 then
              (angularTermAt m self pos i1 i2 l k).dgdx1 else 0)
          + (if c = 3 * ((i1 : Int) + 1) + 1 then
              (angularTermAt m self pos i1 i2 l k).dgdy1 else 0)
          + (if c = 3 * ((i1 : Int) + 1) + 2 then
              (angularTermAt m self pos i1 i2 l k).dgdz1 else 0)
          + (if c = 3 * ((i2 : Int) + 1) + 0 then
              (angularTermAt m self pos i1 i2 l k).dgdx2 else 0)
          + (if c = 3 * ((i2 : Int) + 1) + 1 then
              (angularTermAt m self pos i1 i2 l k).dgdy2 else 0)
          + (if c = 3 * ((i2 : Int) + 1) + 2 then
              (angularTermAt m self pos i1 i2 l k).dgdz2 else 0)
        else 0 := by
  have key : ∀ q : Int,
      (s + c * self.numBasis = angularSlot self elem i1 i2 l k + q * self.numBasis)
        ↔ (s = angularSlot self elem i1 i2 l k ∧ c = q) :=
    fun q => flat_index_inj self.numBasis s _ c q hs0 hs ht0 ht
  unfold angularDelta
  simp only [key]
  by_cases h : s = angularSlot self elem i1 i2 l k
  · simp only [h, true_and, if_true]
  · simp only [h, false_and, if_false, add_zero]

theorem angularSumOpt_skip_irrelevant {R : Type} [LinearOrderedField R] (m : MathFns R)
    (self : SymmFuncBehler R) (n : Nat) (pos : Nat → Nat → R) (elem : Nat → Int) (x : Int)
    (H : ∀ i1 i2 l k : Nat, i1 < n → i2 < n → pairSkipped elem i1 i2 = false → l < 2 →
      chi0At pos i1 i2 l < chi0_thr → k < self.sizeAng.toNat →
      x ≠ angularSlot self elem i1 i2 l k) :
    angularSumOpt true m self n pos elem x = angularSumOpt false m self n pos elem x := by
  unfold angularSumOpt
  refine Finset.sum_congr rfl (fun i2 h2 => Finset.sum_congr rfl (fun i1 h1 => ?_))
  rw [Finset.mem_range] at h1 h2
  cases hsk : pairSkipped elem i1 i2
  · simp only [Bool.false_eq_true, if_false, false_and, true_and]
    refine Finset.sum_congr rfl (fun l hl => ?_)
    rw [Finset.mem_range] at hl
    by_cases hc : chi0At pos i1 i2 l < chi0_thr
    · rw [if_pos hc]
      symm
      apply Finset.sum_eq_zero
      intro k hk
      rw [Finset.mem_range] at hk
      rw [if_neg (H i1 i2 l k h1 h2 hsk hl hc hk)]
    · rw [if_neg hc]
  · simp

theorem angularDiffSumOpt_skip_irrelevant {R : Type} [LinearOrderedField R] (m : MathFns R)
    (self : SymmFuncBehler R) (n : Nat) (pos : Nat → Nat → R) (elem : Nat → Int) (x : Int)
    (H : ∀ i1 i2 l k : Nat, i1 < n → i2 < n → pairSkipped elem i1 i2 = false → l < 2 →
      chi0At pos i1 i2 l < chi0_thr → k < self.sizeAng.toNat →
      angularDelta m self pos elem i1 i2 l k x = 0) :
    angularDiffSumOpt true m self n pos elem x = angularDiffSumOpt false m self n pos elem x := by
  unfold angularDiffSumOpt
  refine Finset.sum_congr rfl (fun i2 h2 => Finset.sum_congr rfl (fun i1 h1 => ?_))
  rw [Finset.mem_range] at h1 h2
  cases hsk : pairSkipped elem i1 i2
  · simp only [Bool.false_eq_true, if_false, false_and, true_and]
    refine Finset.sum_congr rfl (fun l hl => ?_)
    rw [Finset.mem_range] at hl
    by_cases hc : chi0At pos i1 i2 l < chi0_thr
    · rw [if_pos hc]
      symm
      apply Finset.sum_eq_zero
      intro k hk
      rw [Finset.mem_range] at hk
      exact H i1 i2 l k h1 h2 hsk hl hc hk
    · rw [if_neg hc]
  · simp

theorem chi0At_other_branch {R : Type} [LinearOrderedField R] (pos : Nat → Nat → R)
    (i1 i2 b l : Nat) (hb : b < 2) (hl : l < 2) (hchi : chi0At pos i1 i2 b < chi0_thr)
    (hl2 : chi0At pos i1 i2 l < chi0_thr) : l = b := by
  by_contra hne
  have hsum : chi0At pos i1 i2 b + chi0At pos i1 i2 l = 2 := by
    unfold chi0At lambdaOf
    rcases (show (b = 0 ∧ l = 1) ∨ (b = 1 ∧ l = 0) by omega) with ⟨h1, h2⟩ | ⟨h1, h2⟩
    · subst h1 h2
      simp only [if_true, Nat.one_ne_zero, if_false]
      ring
    · subst h1 h2
      simp only [if_true, Nat.one_ne_zero, if_false]
      ring
  have ht : (chi0_thr : R) < 1 := by
    unfold chi0_thr
    rw [div_lt_one (by norm_num)]
    norm_num
  linarith

theorem angularSumOpt_true_eq_zero {R : Type} [LinearOrderedField R] (m : MathFns R)
    (self : SymmFuncBehler R) (n : Nat) (pos : Nat → Nat → R) (elem : Nat → Int) (x : Int)
    (H : ∀ i1 i2 l k : Nat, i1 < n → i2 < n → pairSkipped elem i1 i2 = false → l < 2 →
      ¬ chi0At pos i1 i2 l < chi0_thr → k < self.sizeAng.toNat →
      x ≠ angularSlot self elem i1 i2 l k) :
    angularSumOpt true m self n pos elem x = 0 := by
  unfold angularSumOpt
  refine Finset.sum_eq_zero (fun i2 h2 => Finset.sum_eq_zero (fun i1 h1 => ?_))
  rw [Finset.mem_range] at h1 h2
  cases hsk : pairSkipped elem i1 i2
  · simp only [Bool.false_eq_true, if_false, true_and]
    refine Finset.sum_eq_zero (fun l hl => ?_)
    rw [Finset.mem_range] at hl
    by_cases hc : chi0At pos i1 i2 l < chi0_thr
    · rw [if_pos hc]
    · rw [if_neg hc]
      refine Finset.sum_eq_zero (fun k hk => ?_)
      rw [Finset.mem_range] at hk
      rw [if_neg (H i1 i2 l k h1 h2 hsk hl hc hk)]
  · simp

theorem angularDiffSumOpt_true_eq_zero {R : Type} [LinearOrderedField R] (m : MathFns R)
    (self : SymmFuncBehler R) (n : Nat) (pos : Nat → Nat → R) (elem : Nat → Int) (x : Int)
    (H : ∀ i1 i2 l k : Nat, i1 < n → i2 < n → pairSkipped elem i1 i2 = false → l < 2 →
      ¬ chi0At pos i1 i2 l < chi0_thr → k < self.sizeAng.toNat →
      angularDelta m self pos elem i1 i2 l k x = 0) :
    angularDiffSumOpt true m self n pos elem x = 0 := by
  unfold angularDiffSumOpt
  refine Finset.sum_eq_zero (fun i2 h2 => Finset.sum_eq_zero (fun i1 h1 => ?_))
  rw [Finset.mem_range] at h1 h2
  cases hsk : pairSkipped elem i1 i2
  · simp only [Bool.false_eq_true, if_false, true_and]
    refine Finset.sum_eq_zero (fun l hl => ?_)
    rw [Finset.mem_range] at hl
    by_cases hc : chi0At pos i1 i2 l < chi0_thr
    · rw [if_pos hc]
    · rw [if_neg hc]
      exact Finset.sum_eq_zero (fun k hk => H i1 i2 l k h1 h2 hsk hl hc
        (Finset.mem_range.mp hk))
  · simp

theorem radialDiffSum_row_above {R : Type} [LinearOrderedField R] (m : MathFns R)
    (self : SymmFuncBehler R) (w : WellFormed self) (n : Nat) (pos : Nat → Nat → R)
    (elem : Nat → Int) (hel : ∀ i : Nat, i < n → 0 ≤ elem i ∧ elem i < self.numElems)
    (s c : Int) (hs0 : self.numRadBasis ≤ s) (hs : s < self.numBasis) :
    radialDiffSum m self n pos elem (s + c * self.numBasis) = 0 := by
  unfold radialDiffSum
  refine Finset.sum_eq_zero (fun i hi => Finset.sum_eq_zero (fun k hk => ?_))
  rw [Finset.mem_range] at hi hk
  have hb := radial_slot_bounds self w _ (hel i hi).1 (hel i hi).2 k hk
  have hb0 : 0 ≤ radialSlot self elem i k := hb.1
  have hb1 : radialSlot self elem i k < self.numRadBasis := hb.2.1
  rw [radialDelta_at m self pos elem i k s c (by omega) hs hb0 (by omega), if_neg (by omega)]

/-- C12 (threshold skip): for an object constructed with one element and a
list of exactly two neighbors (both of element 0) whose pair has
`chi0 = 1 + lambda*psi < 1e-6` for branch `b`, `calculate` succeeds and every
angular slot `numRadBasis + k + b*sizeAng` of that branch has descriptor value
`0` and a jacobian row that is zero in all nine columns, while every other
slot (the other branch and all radial slots) holds, in the descriptor and in
all nine jacobian columns, the value computed by the same code without the
threshold test (`calculateBodyOpt false`). -/
theorem threshold_skip (sizeRad sizeAng : Int) (radiusCut : ℝ)
    (radiusEta radiusShift angleEta angleZeta : Option (Nat → ℝ)) (self : SymmFuncBehler ℝ)
    (hself : SymmFuncBehler.SymmFuncBehler 1 sizeRad sizeAng radiusCut
      radiusEta radiusShift angleEta angleZeta = .ok self)
    (m : MathFns ℝ) (pos : Nat → Nat → ℝ) (elem : Nat → Int)
    (he0 : elem 0 = 0) (he1 : elem 1 = 0) (b : Nat) (hb : b < 2)
    (hchi : chi0At pos 0 1 b < chi0_thr) (d0 f0 : Int → ℝ) :
    ∃ data diff : Int → ℝ,
      SymmFuncBehler.calculate m ((2 : Nat) : Int) (some pos) (some elem)
          { self := self, symmData := some d0, symmDiff := some f0 }
        = (.ok (), { self := self, symmData := some data, symmDiff := some diff })
      ∧ (∀ k : Nat, k < self.sizeAng.toNat →
          data (self.numRadBasis + (k : Int) + (b : Int) * self.sizeAng) = 0
          ∧ ∀ c : Nat, c < 9 →
            diff (self.numRadBasis + (k : Int) + (b : Int) * self.sizeAng
              + (c : Int) * self.numBasis) = 0)
      ∧ (∀ x : Int, 0 ≤ x → x < self.numBasis →
          (∀ k : Nat, k < self.sizeAng.toNat →
            x ≠ self.numRadBasis + (k : Int) + (b : Int) * self.sizeAng) →
          data x = (calculateBodyOpt false m self ((2 : Nat) : Int) pos elem
              { symmData := d0, symmDiff := f0 }).symmData x
          ∧ ∀ c : Nat, c < 9 →
            diff (x + (c : Int) * self.numBasis)
              = (calculateBodyOpt false m self ((2 : Nat) : Int) pos elem
                  { symmData := d0, symmDiff := f0 }).symmDiff
                    (x + (c : Int) * self.numBasis)) := by
  have w := wellFormed_of_construct _ _ _ _ _ _ _ _ _ hself
  have hNE : self.numElems = 1 := by
    rw [(construct_ok _ _ _ _ _ _ _ _ _ hself).2]
  have hel : ∀ i : Nat, i < 2 → 0 ≤ elem i ∧ elem i < self.numElems := by
    intro i hi
    rw [hNE]
    rcases (show i = 0 ∨ i = 1 by omega) with h | h <;> subst h
    · rw [he0]
      decide
    · rw [he1]
      decide
  have hpair : ∀ i1 i2 : Nat, i1 < 2 → i2 < 2 → pairSkipped elem i1 i2 = false →
      i1 = 0 ∧ i2 = 1 := by
    intro i1 i2 h1 h2 hsk
    have e1 : elem i1 = 0 := by
      rcases (show i1 = 0 ∨ i1 = 1 by omega) with h | h <;> subst h <;> assumption
    have e2 : elem i2 = 0 := by
      rcases (show i2 = 0 ∨ i2 = 1 by omega) with h | h <;> subst h <;> assumption
    rcases not_pairSkipped elem i1 i2 hsk with h | h <;> omega
  have hslot : ∀ l k : Nat, angularSlot self elem 0 1 l k
      = self.numRadBasis + (k : Int) + (l : Int) * self.sizeAng := by
    intro l k
    unfold angularSlot
    rw [he0, he1]
    norm_num
  have hbnd : ∀ l k : Nat, l < 2 → k < self.sizeAng.toNat →
      0 ≤ self.numRadBasis ∧ self.numRadBasis ≤ angularSlot self elem 0 1 l k
        ∧ angularSlot self elem 0 1 l k < self.numBasis := by
    intro l k hl hk
    have h := angular_slot_bounds self w (elem 0) (elem 1) (hel 0 (by decide)).1
      (by rw [he0, he1]) (hel 1 (by decide)).2 l k hl hk
    exact ⟨h.2.2, h.1, h.2.1⟩
  have hne : ∀ l k k2 : Nat, l < 2 → k < self.sizeAng.toNat → k2 < self.sizeAng.toNat →
      l ≠ b → self.numRadBasis + (k : Int) + (b : Int) * self.sizeAng
        ≠ angularSlot self elem 0 1 l k2 := by
    intro l k k2 hl hk hk2 hlb h
    rw [hslot] at h
    rcases (show (b = 0 ∧ l = 1) ∨ (b = 1 ∧ l = 0) by omega) with ⟨h1, h2⟩ | ⟨h1, h2⟩
    · subst h1 h2
      simp at h
      omega
    · subst h1 h2
      simp at h
      omega
  refine ⟨_, _, calculate_ok m self ((2 : Nat) : Int) pos elem d0 f0, ?_, ?_⟩
  · intro k hk
    have hx := hbnd b k hb hk
    rw [hslot] at hx
    constructor
    · rw [calculateBody_symmData_opt, zeroInit_symmData, if_pos ⟨by omega, hx.2.2⟩,
        radialSum_above m self w 2 pos elem hel _ hx.2.1,
        angularSumOpt_true_eq_zero m self 2 pos elem _ ?_]
      · simp
      · intro i1 i2 l k2 h1 h2 hsk hl hc hk2
        obtain ⟨r1, r2⟩ := hpair i1 i2 h1 h2 hsk
        subst r1 r2
        exact hne l k k2 hl hk hk2 (fun e => hc (e ▸ hchi))
    · intro c hc
      rw [calculateBody_symmDiff,
        zeroInit_symmDiff_inRange self _ _ _ _ (by omega) hx.2.2 (by omega)
          (by push_cast; omega),
        radialDiffSum_row_above m self w 2 pos elem hel _ _ hx.2.1 hx.2.2,
        angularDiffSumOpt_true_eq_zero m self 2 pos elem _ ?_]
      · simp
      · intro i1 i2 l k2 h1 h2 hsk hl hc2 hk2
        obtain ⟨r1, r2⟩ := hpair i1 i2 h1 h2 hsk
        subst r1 r2
        have hs := hbnd l k2 hl hk2
        rw [angularDelta_at m self pos elem 0 1 l k2 _ _ (by omega) hx.2.2 (by omega) hs.2.2,
          if_neg (hne l k k2 hl hk hk2 (fun e => hc2 (e ▸ hchi)))]
  · intro x hx0 hx hxb
    constructor
    · rw [calculateBody_symmData_opt, calculateBodyOpt_symmData,
        angularSumOpt_skip_irrelevant m self 2 pos elem x ?_]
      intro i1 i2 l k h1 h2 hsk hl hc hk
      obtain ⟨r1, r2⟩ := hpair i1 i2 h1 h2 hsk
      subst r1 r2
      have hlb := chi0At_other_branch pos 0 1 b l hb hl hchi hc
      subst hlb
      rw [hslot]
      exact hxb k hk
    · intro c hc
      rw [calculateBody_symmDiff, calculateBodyOpt_symmDiff,
        angularDiffSumOpt_skip_irrelevant m self 2 pos elem _ ?_]
      intro i1 i2 l k h1 h2 hsk hl hc2 hk
      obtain ⟨r1, r2⟩ := hpair i1 i2 h1 h2 hsk
      subst r1 r2
      have hlb := chi0At_other_branch pos 0 1 b l hb hl hchi hc2
      subst hlb
      have hs := hbnd l k hl hk
      rw [angularDelta_at m self pos elem 0 1 l k _ _ hx0 hx (by omega) hs.2.2, if_neg]
      rw [hslot]
      exact hxb k hk

theorem threshold_skip_witness :
    ∃ data diff : Int → ℝ,
      SymmFuncBehler.calculate (⟨Real.tanh, Real.exp, Real.rpow⟩ : MathFns ℝ) ((2 : Nat) : Int)
          (some (fun i c => if c = 0 then 1 else if c = 1 then (if i = 0 then 1 else -1) else 0))
          (some (fun _ => 0))
          { self := { numElems := 1, numBasis := 3, sizeRad := 1, sizeAng := 1, numRadBasis := 1,
                      numAngBasis := 2, radiusCut := 5, radiusEta := some (fun _ => 1),
                      radiusShift := some (fun _ => 0), angleEta := some (fun _ => 1),
                      angleZeta := some (fun _ => 1) }
            symmData := some (fun _ => 0), symmDiff := some (fun _ => 0) }
        = (.ok (), { self := { numElems := 1, numBasis := 3, sizeRad := 1, sizeAng := 1,
                               numRadBasis := 1, numAngBasis := 2, radiusCut := 5,
                               radiusEta := some (fun _ => 1), radiusShift := some (fun _ => 0),
                               angleEta := some (fun _ => 1), angleZeta := some (fun _ => 1) }
                     symmData := some data, symmDiff := some diff })
      ∧ data 1 = 0 ∧ diff 13 = 0 := by
  obtain ⟨data, diff, h, h1, -⟩ := threshold_skip 1 1 5 (some (fun _ => 1)) (some (fun _ => 0))
    (some (fun _ => 1)) (some (fun _ => 1))
    { numElems := 1, numBasis := 3, sizeRad := 1, sizeAng := 1, numRadBasis := 1,
      numAngBasis := 2, radiusCut := 5, radiusEta := some (fun _ => 1),
      radiusShift := some (fun _ => 0), angleEta := some (fun _ => 1),
      angleZeta := some (fun _ => 1) }
    (by norm_num [SymmFuncBehler.SymmFuncBehler, SymmFunc.SymmFunc, stop_by_error])
    (⟨Real.tanh, Real.exp, Real.rpow⟩ : MathFns ℝ)
    (fun i c => if c = 0 then 1 else if c = 1 then (if i = 0 then 1 else -1) else 0)
    (fun _ => 0) rfl rfl 0 (by decide)
    (by norm_num [chi0At, lambdaOf, psiOf, chi0_thr]) (fun _ => 0) (fun _ => 0)
  have h2 := h1 0 (by decide)
  have h3 := h2.2 4 (by decide)
  have h4 := h2.1
  norm_num at h3 h4
  exact ⟨data, diff, h, h4, h3⟩

/-! ## The cutoff boundary -/

theorem cutoff_at_cut (radiusCut : ℝ) (h : radiusCut ≠ 0) :
    cutoff ⟨Real.tanh, Real.exp, Real.rpow⟩ radiusCut radiusCut = (0, 0) := by
  unfold cutoff
  simp [div_self h]

theorem radialTerm_at_cut (self : SymmFuncBehler ℝ) (h : self.radiusCut ≠ 0)
    (r1 x1 y1 z1 : ℝ) (k : Nat) (hr : r1 = self.radiusCut) :
    radialTerm ⟨Real.tanh, Real.exp, Real.rpow⟩ self r1 x1 y1 z1 k = (0, 0, 0, 0) := by
  unfold radialTerm
  rw [hr, cutoff_at_cut _ h]
  simp

theorem angularTerm_at_cut1 (self : SymmFuncBehler ℝ) (h : self.radiusCut ≠ 0)
    (r1 x1 y1 z1 r2 x2 y2 z2 : ℝ) (l k : Nat) (hr : r1 = self.radiusCut) :
    angularTerm ⟨Real.tanh, Real.exp, Real.rpow⟩ self r1 x1 y1 z1 r2 x2 y2 z2 l k
      = ⟨0, 0, 0, 0, 0, 0, 0⟩ := by
  unfold angularTerm
  rw [hr, cutoff_at_cut _ h]
  simp

theorem angularTerm_at_cut2 (self : SymmFuncBehler ℝ) (h : self.radiusCut ≠ 0)
    (r1 x1 y1 z1 r2 x2 y2 z2 : ℝ) (l k : Nat) (hr : r2 = self.radiusCut) :
    angularTerm ⟨Real.tanh, Real.exp, Real.rpow⟩ self r1 x1 y1 z1 r2 x2 y2 z2 l k
      = ⟨0, 0, 0, 0, 0, 0, 0⟩ := by
  unfold angularTerm
  rw [hr, cutoff_at_cut _ h]
  simp

theorem radialDelta_of_zero {R : Type} [LinearOrderedField R] (m : MathFns R)
    (self : SymmFuncBehler R) (pos : Nat → Nat → R) (elem : Nat → Int) (i k : Nat) (x : Int)
    (h : radialTerm m self (pos i 0) (pos i 1) (pos i 2) (pos i 3) k = (0, 0, 0, 0)) :
    radialDelta m self pos elem i k x = 0 := by
  unfold radialDelta
  rw [h]
  simp

theorem angularDelta_of_zero {R : Type} [LinearOrderedField R] (m : MathFns R)
    (self : SymmFuncBehler R) (pos : Nat → Nat → R) (elem : Nat → Int) (i1 i2 l k : Nat)
    (x : Int) (h : angularTermAt m self pos i1 i2 l k = ⟨0, 0, 0, 0, 0, 0, 0⟩) :
    angularDelta m self pos elem i1 i2 l k x = 0 := by
  unfold angularDelta
  rw [h]
  simp

theorem sum_range_succ_skip {M : Type} [AddCommMonoid M] (f : Nat → M) (n j : Nat)
    (hj : j ≤ n) :
    ∑ i in Finset.range (n + 1), f i
      = f j + ∑ i in Finset.range n, f (if i < j then i else i + 1) := by
  induction n with
  | zero =>
    have : j = 0 := by omega
    subst this
    simp
  | succ n ih =>
    rw [Finset.sum_range_succ]
    rcases Nat.lt_or_ge n j with h | h
    · have e : j = n + 1 := by omega
      subst e
      rw [add_comm]
      congr 1
      refine Finset.sum_congr rfl (fun i hi => ?_)
      rw [Finset.mem_range] at hi
      rw [if_pos hi]
    · rw [ih h, Finset.sum_range_succ, if_neg (by omega), add_assoc]

theorem sum_sum_skip {M : Type} [AddCommMonoid M] (F : Nat → Nat → M) (n j : Nat) (hj : j ≤ n)
    (h1 : ∀ i2 : Nat, F j i2 = 0) (h2 : ∀ i1 : Nat, F i1 j = 0) :
    ∑ i2 in Finset.range (n + 1), ∑ i1 in Finset.range (n + 1), F i1 i2
      = ∑ i2 in Finset.range n, ∑ i1 in Finset.range n,
          F (if i1 < j then i1 else i1 + 1) (if i2 < j then i2 else i2 + 1) := by
  rw [sum_range_succ_skip _ n j hj]
  have e : ∑ i1 in Finset.range (n + 1), F i1 j = 0 :=
    Finset.sum_eq_zero (fun i1 _ => h2 i1)
  rw [e, zero_add]
  refine Finset.sum_congr rfl (fun i2 _ => ?_)
  rw [sum_range_succ_skip _ n j hj, h1, zero_add]

theorem pairSkipped_skip (elem : Nat → Int) (j i1 i2 : Nat) :
    pairSkipped elem (if i1 < j then i1 else i1 + 1) (if i2 < j then i2 else i2 + 1)
      = pairSkipped (fun i => elem (if i < j then i else i + 1)) i1 i2 := by
  unfold pairSkipped
  have e : ((if i1 < j then i1 else i1 + 1) ≥ (if i2 < j then i2 else i2 + 1)) ↔ i1 ≥ i2 := by
    split_ifs <;> omega
  simp only [e]

theorem radialSum_skip (self : SymmFuncBehler ℝ) (h : self.radiusCut ≠ 0) (n j : Nat)
    (hj : j ≤ n) (pos : Nat → Nat → ℝ) (elem : Nat → Int) (hr : pos j 0 = self.radiusCut)
    (x : Int) :
    radialSum ⟨Real.tanh, Real.exp, Real.rpow⟩ self (n + 1) pos elem x
      = radialSum ⟨Real.tanh, Real.exp, Real.rpow⟩ self n
          (fun i => pos (if i < j then i else i + 1))
          (fun i => elem (if i < j then i else i + 1)) x := by
  unfold radialSum
  rw [sum_range_succ_skip _ n j hj]
  have e : ∑ k in Finset.range self.sizeRad.toNat,
      (if x = radialSlot self elem j k then
        (radialTerm ⟨Real.tanh, Real.exp, Real.rpow⟩ self (pos j 0) (pos j 1) (pos j 2)
          (pos j 3) k).1 else 0) = 0 := by
    refine Finset.sum_eq_zero (fun k _ => ?_)
    rw [radialTerm_at_cut self h _ _ _ _ k hr]
    simp
  rw [e, zero_add]
  rfl

theorem angularSum_skip (self : SymmFuncBehler ℝ) (h : self.radiusCut ≠ 0) (n j : Nat)
    (hj : j ≤ n) (pos : Nat → Nat → ℝ) (elem : Nat → Int) (hr : pos j 0 = self.radiusCut)
    (x : Int) :
    angularSum ⟨Real.tanh, Real.exp, Real.rpow⟩ self (n + 1) pos elem x
      = angularSum ⟨Real.tanh, Real.exp, Real.rpow⟩ self n
          (fun i => pos (if i < j then i else i + 1))
          (fun i => elem (if i < j then i else i + 1)) x := by
  unfold angularSum
  rw [sum_sum_skip _ n j hj]
  · refine Finset.sum_congr rfl (fun i2 _ => Finset.sum_congr rfl (fun i1 _ => ?_))
    rw [pairSkipped_skip]
    rfl
  · intro i2
    split_ifs
    · rfl
    · refine Finset.sum_eq_zero (fun l _ => ?_)
      split_ifs
      · rfl
      · refine Finset.sum_eq_zero (fun k _ => ?_)
        unfold angularTermAt
        rw [angularTerm_at_cut1 self h _ _ _ _ _ _ _ _ l k hr]
        simp
  · intro i1
    split_ifs
    · rfl
    · refine Finset.sum_eq_zero (fun l _ => ?_)
      split_ifs
      · rfl
      · refine Finset.sum_eq_zero (fun k _ => ?_)
        unfold angularTermAt
        rw [angularTerm_at_cut2 self h _ _ _ _ _ _ _ _ l k hr]
        simp

theorem radialDiffSum_block_at_cut (self : SymmFuncBehler ℝ) (w : WellFormed self) (n j : Nat)
    (pos : Nat → Nat → ℝ) (elem : Nat → Int)
    (hel : ∀ i : Nat, i < n → 0 ≤ elem i ∧ elem i < self.numElems)
    (hr : pos j 0 = self.radiusCut) (b : Int) (hb0 : 0 ≤ b) (hb : b < self.numBasis)
    (a : Nat) (ha : a < 3) :
    radialDiffSum ⟨Real.tanh, Real.exp, Real.rpow⟩ self n pos elem
      (b + (3 * ((j : Int) + 1) + (a : Int)) * self.numBasis) = 0 := by
  have hRc : self.radiusCut ≠ 0 := by
    obtain ⟨-, -, h3, -⟩ := w
    exact ne_of_gt h3
  unfold radialDiffSum
  refine Finset.sum_eq_zero (fun i hi => Finset.sum_eq_zero (fun k hk => ?_))
  rw [Finset.mem_range] at hi hk
  by_cases hij : i = j
  · subst hij
    exact radialDelta_of_zero _ self pos elem i k _ (radialTerm_at_cut self hRc _ _ _ _ k hr)
  · have hs := radial_slot_bounds self w _ (hel i hi).1 (hel i hi).2 k hk
    have hs0 : 0 ≤ radialSlot self elem i k := hs.1
    have hs1 : radialSlot self elem i k < self.numRadBasis := hs.2.1
    rw [radialDelta_at _ self pos elem i k b _ hb0 hb hs0 (by omega)]
    by_cases hbs : b = radialSlot self elem i k
    · have q0 : ∀ z : Int, 0 ≤ z → z < 3 → ¬ (3 * ((j : Int) + 1) + (a : Int) = z) :=
        fun z _ _ h => by omega
      have q1 : ∀ z : Int, 0 ≤ z → z < 3 →
          ¬ (3 * ((j : Int) + 1) + (a : Int) = 3 * ((i : Int) + 1) + z) :=
        fun z _ _ h => by omega
      rw [if_pos hbs, if_neg (q0 0 (by decide) (by decide)), if_neg (q0 1 (by decide) (by decide)),
        if_neg (q0 2 (by decide) (by decide)), if_neg (q1 0 (by decide) (by decide)),
        if_neg (q1 1 (by decide) (by decide)), if_neg (q1 2 (by decide) (by decide))]
      simp
    · rw [if_neg hbs]

theorem angularDiffSum_block_at_cut (self : SymmFuncBehler ℝ) (w : WellFormed self) (n j : Nat)
    (pos : Nat → Nat → ℝ) (elem : Nat → Int)
    (hel : ∀ i : Nat, i < n → 0 ≤ elem i ∧ elem i < self.numElems)
    (hr : pos j 0 = self.radiusCut) (b : Int) (hb0 : 0 ≤ b) (hb : b < self.numBasis)
    (a : Nat) (ha : a < 3) :
    angularDiffSumOpt true ⟨Real.tanh, Real.exp, Real.rpow⟩ self n pos elem
      (b + (3 * ((j : Int) + 1) + (a : Int)) * self.numBasis) = 0 := by
  have hRc : self.radiusCut ≠ 0 := by
    obtain ⟨-, -, h3, -⟩ := w
    exact ne_of_gt h3
  apply angularDiffSumOpt_true_eq_zero
  intro i1 i2 l k h1 h2 hsk hl _ hk
  by_cases hj1 : i1 = j
  · subst hj1
    exact angularDelta_of_zero _ self pos elem i1 i2 l k _
      (angularTerm_at_cut1 self hRc _ _ _ _ _ _ _ _ l k hr)
  by_cases hj2 : i2 = j
  · subst hj2
    exact angularDelta_of_zero _ self pos elem i1 i2 l k _
      (angularTerm_at_cut2 self hRc _ _ _ _ _ _ _ _ l k hr)
  have hle : elem i1 ≤ elem i2 := by
    rcases not_pairSkipped elem i1 i2 hsk with h | h <;> omega
  have hs := angular_slot_bounds self w _ _ (hel i1 h1).1 hle (hel i2 h2).2 l k hl hk
  have hs0 : self.numRadBasis ≤ angularSlot self elem i1 i2 l k := hs.1
  have hs1 : angularSlot self elem i1 i2 l k < self.numBasis := hs.2.1
  rw [angularDelta_at _ self pos elem i1 i2 l k b _ hb0 hb (by omega) hs1]
  by_cases hbs : b = angularSlot self elem i1 i2 l k
  · have q0 : ∀ z : Int, 0 ≤ z → z < 3 → ¬ (3 * ((j : Int) + 1) + (a : Int) = z) :=
      fun z _ _ h => by omega
    have q1 : ∀ z : Int, 0 ≤ z → z < 3 →
        ¬ (3 * ((j : Int) + 1) + (a : Int) = 3 * ((i1 : Int) + 1) + z) :=
      fun z _ _ h => by omega
    have q2 : ∀ z : Int, 0 ≤ z → z < 3 →
        ¬ (3 * ((j : Int) + 1) + (a : Int) = 3 * ((i2 : Int) + 1) + z) :=
      fun z _ _ h => by omega
    rw [if_pos hbs, if_neg (q0 0 (by decide) (by decide)), if_neg (q0 1 (by decide) (by decide)),
      if_neg (q0 2 (by decide) (by decide)), if_neg (q1 0 (by decide) (by decide)),
      if_neg (q1 1 (by decide) (by decide)), if_neg (q1 2 (by decide) (by decide)),
      if_neg (q2 0 (by decide) (by decide)), if_neg (q2 1 (by decide) (by decide)),
      if_neg (q2 2 (by decide) (by decide))]
    simp
  · rw [if_neg hbs]

/-- C11 (cutoff boundary): for an object returned by the constructor and a list
of `n + 1` neighbors with element indices in range whose neighbor `j` has
`r_j = radiusCut`, `calculate` succeeds on the list and on the list with
neighbor `j` removed; the jacobian block of neighbor `j` (columns
`3(j+1) .. 3(j+1)+2`) is zero in every basis row, and every descriptor entry
equals the entry computed on the list with neighbor `j` removed. -/
theorem cutoff_boundary (numElems sizeRad sizeAng : Int) (radiusCut : ℝ)
    (radiusEta radiusShift angleEta angleZeta : Option (Nat → ℝ)) (self : SymmFuncBehler ℝ)
    (hself : SymmFuncBehler.SymmFuncBehler numElems sizeRad sizeAng radiusCut
      radiusEta radiusShift angleEta angleZeta = .ok self)
    (n j : Nat) (hj : j < n + 1) (pos : Nat → Nat → ℝ) (elem : Nat → Int)
    (hel : ∀ i : Nat, i < n + 1 → 0 ≤ elem i ∧ elem i < self.numElems)
    (hr : pos j 0 = self.radiusCut) (d0 f0 d1 f1 : Int → ℝ) :
    ∃ data diff data2 diff2 : Int → ℝ,
      SymmFuncBehler.calculate ⟨Real.tanh, Real.exp, Real.rpow⟩ ((n + 1 : Nat) : Int)
          (some pos) (some elem) { self := self, symmData := some d0, symmDiff := some f0 }
        = (.ok (), { self := self, symmData := some data, symmDiff := some diff })
      ∧ SymmFuncBehler.calculate ⟨Real.tanh, Real.exp, Real.rpow⟩ (n : Int)
          (some (fun i => pos (if i < j then i else i + 1)))
          (some (fun i => elem (if i < j then i else i + 1)))
          { self := self, symmData := some d1, symmDiff := some f1 }
        = (.ok (), { self := self, symmData := some data2, symmDiff := some diff2 })
      ∧ (∀ (b : Int) (a : Nat), 0 ≤ b → b < self.numBasis → a < 3 →
          diff (b + (3 * ((j : Int) + 1) + (a : Int)) * self.numBasis) = 0)
      ∧ (∀ x : Int, 0 ≤ x → x < self.numBasis → data x = data2 x) := by
  have w := wellFormed_of_construct _ _ _ _ _ _ _ _ _ hself
  have hRc : self.radiusCut ≠ 0 := by
    have w2 := w
    obtain ⟨-, -, h3, -⟩ := w2
    exact ne_of_gt h3
  refine ⟨_, _, _, _, calculate_ok _ self ((n + 1 : Nat) : Int) pos elem d0 f0,
    calculate_ok _ self (n : Int) _ _ d1 f1, ?_, ?_⟩
  · intro b a hb0 hb ha
    rw [calculateBody_symmDiff,
      zeroInit_symmDiff_inRange self _ _ b _ hb0 hb (by omega) (by push_cast; omega),
      radialDiffSum_block_at_cut self w (n + 1) j pos elem hel hr b hb0 hb a ha,
      angularDiffSum_block_at_cut self w (n + 1) j pos elem hel hr b hb0 hb a ha]
    simp
  · intro x hx0 hx
    rw [calculateBody_symmData, calculateBody_symmData, zeroInit_symmData, zeroInit_symmData,
      if_pos ⟨hx0, hx⟩, if_pos ⟨hx0, hx⟩,
      radialSum_skip self hRc n j (by omega) pos elem hr x,
      angularSum_skip self hRc n j (by omega) pos elem hr x]

theorem cutoff_boundary_witness :
    ∃ data diff data2 diff2 : Int → ℝ,
      SymmFuncBehler.calculate ⟨Real.tanh, Real.exp, Real.rpow⟩ ((1 + 1 : Nat) : Int)
          (some (fun i c => if c = 0 then (if i = 0 then 5 else 2) else 1))
          (some (fun _ => 0))
          { self := { numElems := 1, numBasis := 3, sizeRad := 1, sizeAng := 1, numRadBasis := 1,
                      numAngBasis := 2, radiusCut := 5, radiusEta := some (fun _ => 1),
                      radiusShift := some (fun _ => 0), angleEta := some (fun _ => 1),
                      angleZeta := some (fun _ => 1) }
            symmData := some (fun _ => 0), symmDiff := some (fun _ => 0) }
        = (.ok (), { self := { numElems := 1, numBasis := 3, sizeRad := 1, sizeAng := 1,
                               numRadBasis := 1, numAngBasis := 2, radiusCut := 5,
                               radiusEta := some (fun _ => 1), radiusShift := some (fun _ => 0),
                               angleEta := some (fun _ => 1), angleZeta := some (fun _ => 1) }
                     symmData := some data, symmDiff := some diff })
      ∧ SymmFuncBehler.calculate ⟨Real.tanh, Real.exp, Real.rpow⟩ ((1 : Nat) : Int)
          (some (fun i => (fun i c => if c = 0 then (if i = 0 then (5 : ℝ) else 2) else 1)
            (if i < 0 then i else i + 1)))
          (some (fun i => (fun _ => (0 : Int)) (if i < 0 then i else i + 1)))
          { self := { numElems := 1, numBasis := 3, sizeRad := 1, sizeAng := 1, numRadBasis := 1,
                      numAngBasis := 2, radiusCut := 5, radiusEta := some (fun _ => 1),
                      radiusShift := some (fun _ => 0), angleEta := some (fun _ => 1),
                      angleZeta := some (fun _ => 1) }
            symmData := some (fun _ => 0), symmDiff := some (fun _ => 0) }
        = (.ok (), { self := { numElems := 1, numBasis := 3, sizeRad := 1, sizeAng := 1,
                               numRadBasis := 1, numAngBasis := 2, radiusCut := 5,
                               radiusEta := some (fun _ => 1), radiusShift := some (fun _ => 0),
                               angleEta := some (fun _ => 1), angleZeta := some (fun _ => 1) }
                     symmData := some data2, symmDiff := some diff2 })
      ∧ diff 9 = 0 ∧ data 0 = data2 0 := by
  obtain ⟨data, diff, data2, diff2, h1, h2, h3, h4⟩ := cutoff_boundary 1 1 1 5
    (some (fun _ => 1)) (some (fun _ => 0)) (some (fun _ => 1)) (some (fun _ => 1))
    { numElems := 1, numBasis := 3, sizeRad := 1, sizeAng := 1, numRadBasis := 1,
      numAngBasis := 2, radiusCut := 5, radiusEta := some (fun _ => 1),
      radiusShift := some (fun _ => 0), angleEta := some (fun _ => 1),
      angleZeta := some (fun _ => 1) }
    (by norm_num [SymmFuncBehler.SymmFuncBehler, SymmFunc.SymmFunc, stop_by_error])
    1 0 (by decide) (fun i c => if c = 0 then (if i = 0 then 5 else 2) else 1) (fun _ => 0)
    (fun _ _ => ⟨le_refl 0, Int.zero_lt_one⟩) (by norm_num)
    (fun _ => 0) (fun _ => 0) (fun _ => 0) (fun _ => 0)
  have h5 := h3 0 0 (le_refl 0) (by decide) (by decide)
  norm_num at h5
  exact ⟨data, diff, data2, diff2, h1, h2, h5, h4 0 (le_refl 0) (by decide)⟩

/-! ## Permutations of the neighbor list -/

theorem sum_range_perm {M : Type} [AddCommMonoid M] (f : Nat → M) (σ : Equiv.Perm Nat)
    (n : Nat) (hσ : ∀ i : Nat, σ i < n ↔ i < n) :
    ∑ i in Finset.range n, f (σ i) = ∑ i in Finset.range n, f i :=
  Finset.sum_equiv σ (fun i => by simp only [Finset.mem_range, hσ]) (fun _ _ => rfl)

theorem sum_sum_perm {M : Type} [AddCommMonoid M] (G : Nat → Nat → M) (σ : Equiv.Perm Nat)
    (n : Nat) (hσ : ∀ i : Nat, σ i < n ↔ i < n) :
    ∑ i2 in Finset.range n, ∑ i1 in Finset.range n, G (σ i1) (σ i2)
      = ∑ i2 in Finset.range n, ∑ i1 in Finset.range n, G i1 i2 := by
  rw [sum_range_perm (fun j => ∑ i1 in Finset.range n, G (σ i1) j) σ n hσ]
  exact Finset.sum_congr rfl (fun i2 _ => sum_range_perm (fun i => G i i2) σ n hσ)

theorem sum_sum_symm {M : Type} [AddCommMonoid M] (A : Nat → Nat → M) (n : Nat) :
    ∑ i2 in Finset.range n, ∑ i1 in Finset.range n, (A i1 i2 + A i2 i1)
      = ∑ i2 in Finset.range n, ∑ i1 in Finset.range n, A i1 i2
        + ∑ i2 in Finset.range n, ∑ i1 in Finset.range n, A i1 i2 := by
  simp only [Finset.sum_add_distrib]
  congr 1
  exact Finset.sum_comm

theorem canonical_pair_perm {R : Type} [LinearOrderedField R] (elem : Nat → Int)
    (σ : Equiv.Perm Nat) (n : Nat) (hσ : ∀ i : Nat, σ i < n ↔ i < n) (W : Nat → Nat → R)
    (hW : ∀ i1 i2 : Nat, i1 < n → i2 < n → elem i1 = elem i2 → W i2 i1 = W i1 i2)
    (i1 i2 : Nat) (h1 : i1 < n) (h2 : i2 < n) :
    (if pairSkipped (fun i => elem (σ i)) i1 i2 then 0 else W (σ i1) (σ i2))
        + (if pairSkipped (fun i => elem (σ i)) i2 i1 then 0 else W (σ i2) (σ i1))
      = (if pairSkipped elem (σ i1) (σ i2) then 0 else W (σ i1) (σ i2))
        + (if pairSkipped elem (σ i2) (σ i1) then 0 else W (σ i2) (σ i1)) := by
  have e1 := pairSkipped_eq_false_iff (fun i => elem (σ i)) i1 i2
  have e2 := pairSkipped_eq_false_iff (fun i => elem (σ i)) i2 i1
  have e3 := pairSkipped_eq_false_iff elem (σ i1) (σ i2)
  have e4 := pairSkipped_eq_false_iff elem (σ i2) (σ i1)
  have inj : σ i1 = σ i2 ↔ i1 = i2 := σ.injective.eq_iff
  have s1 : σ i1 < n := (hσ i1).mpr h1
  have s2 : σ i2 < n := (hσ i2).mpr h2
  simp only [] at e1 e2
  cases c1 : pairSkipped (fun i => elem (σ i)) i1 i2 <;>
  cases c2 : pairSkipped (fun i => elem (σ i)) i2 i1 <;>
  cases c3 : pairSkipped elem (σ i1) (σ i2) <;>
  cases c4 : pairSkipped elem (σ i2) (σ i1) <;>
  rw [c1] at e1 <;> rw [c2] at e2 <;> rw [c3] at e3 <;> rw [c4] at e4 <;>
  simp only [Bool.false_eq_true, Bool.true_eq_false, if_false, if_true, true_iff, false_iff,
    eq_self_iff_true] at e1 e2 e3 e4 ⊢ <;>
  first
  | rfl
  | (exfalso; omega)
  | (rw [hW (σ i1) (σ i2) s1 s2 (by omega)]; abel)

theorem canonical_sum_perm {R : Type} [LinearOrderedField R] (elem : Nat → Int)
    (σ : Equiv.Perm Nat) (n : Nat) (hσ : ∀ i : Nat, σ i < n ↔ i < n) (W W2 : Nat → Nat → R)
    (hW : ∀ i1 i2 : Nat, i1 < n → i2 < n → elem i1 = elem i2 → W i2 i1 = W i1 i2)
    (hW2 : ∀ i1 i2 : Nat, i1 < n → i2 < n → pairSkipped (fun i => elem (σ i)) i1 i2 = false →
      W2 i1 i2 = W (σ i1) (σ i2)) :
    ∑ i2 in Finset.range n, ∑ i1 in Finset.range n,
        (if pairSkipped (fun i => elem (σ i)) i1 i2 then 0 else W2 i1 i2)
      = ∑ i2 in Finset.range n, ∑ i1 in Finset.range n,
        (if pairSkipped elem i1 i2 then 0 else W i1 i2) := by
  have step1 : ∑ i2 in Finset.range n, ∑ i1 in Finset.range n,
        (if pairSkipped (fun i => elem (σ i)) i1 i2 then 0 else W2 i1 i2)
      = ∑ i2 in Finset.range n, ∑ i1 in Finset.range n,
        (if pairSkipped (fun i => elem (σ i)) i1 i2 then 0 else W (σ i1) (σ i2)) := by
    refine Finset.sum_congr rfl (fun i2 h2 => Finset.sum_congr rfl (fun i1 h1 => ?_))
    rw [Finset.mem_range] at h1 h2
    cases c : pairSkipped (fun i => elem (σ i)) i1 i2
    · simp only [Bool.false_eq_true, if_false]
      exact hW2 i1 i2 h1 h2 c
    · simp
  rw [step1]
  have d1 := sum_sum_symm
    (fun i1 i2 => if pairSkipped (fun i => elem (σ i)) i1 i2 then 0 else W (σ i1) (σ i2)) n
  have d2 := sum_sum_symm (fun i1 i2 => if pairSkipped elem i1 i2 then 0 else W i1 i2) n
  have d3 := sum_sum_perm
    (fun i1 i2 => (if pairSkipped elem i1 i2 then 0 else W i1 i2)
      + (if pairSkipped elem i2 i1 then 0 else W i2 i1)) σ n hσ
  have d4 : ∑ i2 in Finset.range n, ∑ i1 in Finset.range n,
        ((if pairSkipped (fun i => elem (σ i)) i1 i2 then 0 else W (σ i1) (σ i2))
          + (if pairSkipped (fun i => elem (σ i)) i2 i1 then 0 else W (σ i2) (σ i1)))
      = ∑ i2 in Finset.range n, ∑ i1 in Finset.range n,
        ((if pairSkipped elem (σ i1) (σ i2) then 0 else W (σ i1) (σ i2))
          + (if pairSkipped elem (σ i2) (σ i1) then 0 else W (σ i2) (σ i1))) := by
    refine Finset.sum_congr rfl (fun i2 h2 => Finset.sum_congr rfl (fun i1 h1 => ?_))
    rw [Finset.mem_range] at h1 h2
    exact canonical_pair_perm elem σ n hσ W hW i1 i2 h1 h2
  simp only [] at d1 d2 d3
  rw [d4, d3, d2] at d1
  linarith

theorem psiOf_swap {R : Type} [LinearOrderedField R] (r1 x1 y1 z1 r2 x2 y2 z2 : R) :
    psiOf r2 x2 y2 z2 r1 x1 y1 z1 = psiOf r1 x1 y1 z1 r2 x2 y2 z2 := by
  unfold psiOf
  ring

theorem angularTerm_swap {R : Type} [LinearOrderedField R] (m : MathFns R)
    (self : SymmFuncBehler R) (r1 x1 y1 z1 r2 x2 y2 z2 : R) (l k : Nat) :
    angularTerm m self r2 x2 y2 z2 r1 x1 y1 z1 l k
      = ⟨(angularTerm m self r1 x1 y1 z1 r2 x2 y2 z2 l k).g,
         (angularTerm m self r1 x1 y1 z1 r2 x2 y2 z2 l k).dgdx2,
         (angularTerm m self r1 x1 y1 z1 r2 x2 y2 z2 l k).dgdy2,
         (angularTerm m self r1 x1 y1 z1 r2 x2 y2 z2 l k).dgdz2,
         (angularTerm m self r1 x1 y1 z1 r2 x2 y2 z2 l k).dgdx1,
         (angularTerm m self r1 x1 y1 z1 r2 x2 y2 z2 l k).dgdy1,
         (angularTerm m self r1 x1 y1 z1 r2 x2 y2 z2 l k).dgdz1⟩ := by
  have hpsi := psiOf_swap r1 x1 y1 z1 r2 x2 y2 z2
  have hrr : r2 * r2 + r1 * r1 = r1 * r1 + r2 * r2 := add_comm _ _
  simp only [angularTerm, dpsiOf]
  rw [hpsi, hrr]
  refine congr (congr (congr (congr (congr (congr (congrArg AngTerm.mk ?_) ?_) ?_) ?_) ?_) ?_) ?_
    <;> ring

theorem chi0At_swap {R : Type} [LinearOrderedField R] (pos : Nat → Nat → R) (i1 i2 l : Nat) :
    chi0At pos i2 i1 l = chi0At pos i1 i2 l := by
  unfold chi0At
  rw [psiOf_swap]

theorem angularSlot_swap {R : Type} (self : SymmFuncBehler R) (elem : Nat → Int)
    (i1 i2 l k : Nat) (h : elem i1 = elem i2) :
    angularSlot self elem i2 i1 l k = angularSlot self elem i1 i2 l k := by
  unfold angularSlot
  rw [h]

theorem angularTermAt_swap {R : Type} [LinearOrderedField R] (m : MathFns R)
    (self : SymmFuncBehler R) (pos : Nat → Nat → R) (i1 i2 l k : Nat) :
    angularTermAt m self pos i2 i1 l k
      = ⟨(angularTermAt m self pos i1 i2 l k).g,
         (angularTermAt m self pos i1 i2 l k).dgdx2,
         (angularTermAt m self pos i1 i2 l k).dgdy2,
         (angularTermAt m self pos i1 i2 l k).dgdz2,
         (angularTermAt m self pos i1 i2 l k).dgdx1,
         (angularTermAt m self pos i1 i2 l k).dgdy1,
         (angularTermAt m self pos i1 i2 l k).dgdz1⟩ := by
  unfold angularTermAt
  exact angularTerm_swap m self _ _ _ _ _ _ _ _ l k

theorem radialSum_perm {R : Type} [LinearOrderedField R] (m : MathFns R)
    (self : SymmFuncBehler R) (n : Nat) (pos : Nat → Nat → R) (elem : Nat → Int)
    (σ : Equiv.Perm Nat) (hσ : ∀ i : Nat, σ i < n ↔ i < n) (x : Int) :
    radialSum m self n (fun i => pos (σ i)) (fun i => elem (σ i)) x
      = radialSum m self n pos elem x := by
  unfold radialSum
  exact sum_range_perm (fun i => ∑ k in Finset.range self.sizeRad.toNat,
    if x = radialSlot self elem i k then
      (radialTerm m self (pos i 0) (pos i 1) (pos i 2) (pos i 3) k).1 else 0) σ n hσ

theorem angularSum_perm {R : Type} [LinearOrderedField R] (m : MathFns R)
    (self : SymmFuncBehler R) (n : Nat) (pos : Nat → Nat → R) (elem : Nat → Int)
    (σ : Equiv.Perm Nat) (hσ : ∀ i : Nat, σ i < n ↔ i < n) (x : Int) :
    angularSum m self n (fun i => pos (σ i)) (fun i => elem (σ i)) x
      = angularSum m self n pos elem x := by
  unfold angularSum
  refine canonical_sum_perm elem σ n hσ
    (fun i1 i2 => ∑ l in Finset.range 2,
      if chi0At pos i1 i2 l < chi0_thr then 0 else
        ∑ k in Finset.range self.sizeAng.toNat,
          if x = angularSlot self elem i1 i2 l k then (angularTermAt m self pos i1 i2 l k).g
          else 0) _ ?_ ?_
  · intro i1 i2 _ _ he
    refine Finset.sum_congr rfl (fun l _ => ?_)
    rw [chi0At_swap]
    refine if_congr Iff.rfl rfl (Finset.sum_congr rfl (fun k _ => ?_))
    rw [angularSlot_swap self elem i1 i2 l k he, angularTermAt_swap]
  · intro i1 i2 _ _ _
    rfl

/-- C15 (neighbor order): applying a permutation `σ` of the neighbor indices
`0 .. n-1` to the neighbor sequence (positions and elements together) leaves
every entry of the descriptor returned by `calculate` unchanged, exactly over
the reals; both calls succeed.  This includes the angular entries, although the
canonical pair rule of line 257 compares neighbor indices. -/
theorem descriptor_permutation_invariant (m : MathFns ℝ) (self : SymmFuncBehler ℝ) (n : Nat)
    (pos : Nat → Nat → ℝ) (elem : Nat → Int) (σ : Equiv.Perm Nat)
    (hσ : ∀ i : Nat, σ i < n ↔ i < n) (d0 f0 d1 f1 : Int → ℝ) :
    ∃ data diff data2 diff2 : Int → ℝ,
      SymmFuncBehler.calculate m (n : Int) (some pos) (some elem)
          { self := self, symmData := some d0, symmDiff := some f0 }
        = (.ok (), { self := self, symmData := some data, symmDiff := some diff })
      ∧ SymmFuncBehler.calculate m (n : Int) (some (fun i => pos (σ i)))
          (some (fun i => elem (σ i)))
          { self := self, symmData := some d1, symmDiff := some f1 }
        = (.ok (), { self := self, symmData := some data2, symmDiff := some diff2 })
      ∧ ∀ x : Int, 0 ≤ x → x < self.numBasis → data2 x = data x := by
  refine ⟨_, _, _, _, calculate_ok m self (n : Int) pos elem d0 f0,
    calculate_ok m self (n : Int) _ _ d1 f1, ?_⟩
  intro x hx0 hx
  rw [calculateBody_symmData, calculateBody_symmData, zeroInit_symmData, zeroInit_symmData,
    if_pos ⟨hx0, hx⟩, if_pos ⟨hx0, hx⟩, radialSum_perm m self n pos elem σ hσ x,
    angularSum_perm m self n pos elem σ hσ x]

theorem swap_lt_iff (a b n i : Nat) (ha : a < n) (hb : b < n) :
    Equiv.swap a b i < n ↔ i < n := by
  by_cases h1 : i = a
  · subst h1
    rw [Equiv.swap_apply_left]
    exact ⟨fun _ => ha, fun _ => hb⟩
  · by_cases h2 : i = b
    · subst h2
      rw [Equiv.swap_apply_right]
      exact ⟨fun _ => hb, fun _ => ha⟩
    · rw [Equiv.swap_apply_of_ne_of_ne h1 h2]

theorem descriptor_permutation_invariant_witness :
    ∃ data diff data2 diff2 : Int → ℝ,
      SymmFuncBehler.calculate (⟨Real.tanh, Real.exp, Real.rpow⟩ : MathFns ℝ) ((3 : Nat) : Int)
          (some (fun i c => if c = 0 then 2 else if c = 1 then (i : ℝ) else 1))
          (some (fun i => if i = 1 then 1 else 0))
          { self := { numElems := 2, numBasis := 8, sizeRad := 1, sizeAng := 1, numRadBasis := 2,
                      numAngBasis := 6, radiusCut := 5, radiusEta := some (fun _ => 1),
                      radiusShift := some (fun _ => 0), angleEta := some (fun _ => 1),
                      angleZeta := some (fun _ => 1) }
            symmData := some (fun _ => 0), symmDiff := some (fun _ => 0) }
        = (.ok (), { self := { numElems := 2, numBasis := 8, sizeRad := 1, sizeAng := 1,
                               numRadBasis := 2, numAngBasis := 6, radiusCut := 5,
                               radiusEta := some (fun _ => 1), radiusShift := some (fun _ => 0),
                               angleEta := some (fun _ => 1), angleZeta := some (fun _ => 1) }
                     symmData := some data, symmDiff := some diff })
      ∧ SymmFuncBehler.calculate (⟨Real.tanh, Real.exp, Real.rpow⟩ : MathFns ℝ)
          ((3 : Nat) : Int)
          (some (fun i => (fun (i : Nat) (c : Nat) =>
            if c = 0 then (2 : ℝ) else if c = 1 then (i : ℝ) else 1) (Equiv.swap 0 2 i)))
          (some (fun i => (fun (i : Nat) => if i = 1 then (1 : Int) else 0) (Equiv.swap 0 2 i)))
          { self := { numElems := 2, numBasis := 8, sizeRad := 1, sizeAng := 1, numRadBasis := 2,
                      numAngBasis := 6, radiusCut := 5, radiusEta := some (fun _ => 1),
                      radiusShift := some (fun _ => 0), angleEta := some (fun _ => 1),
                      angleZeta := some (fun _ => 1) }
            symmData := some (fun _ => 0), symmDiff := some (fun _ => 0) }
        = (.ok (), { self := { numElems := 2, numBasis := 8, sizeRad := 1, sizeAng := 1,
                               numRadBasis := 2, numAngBasis := 6, radiusCut := 5,
                               radiusEta := some (fun _ => 1), radiusShift := some (fun _ => 0),
                               angleEta := some (fun _ => 1), angleZeta := some (fun _ => 1) }
                     symmData := some data2, symmDiff := some diff2 })
      ∧ data2 4 = data 4 := by
  obtain ⟨data, diff, data2, diff2, h1, h2, h3⟩ := descriptor_permutation_invariant
    (⟨Real.tanh, Real.exp, Real.rpow⟩ : MathFns ℝ)
    { numElems := 2, numBasis := 8, sizeRad := 1, sizeAng := 1, numRadBasis := 2,
      numAngBasis := 6, radiusCut := 5, radiusEta := some (fun _ => 1),
      radiusShift := some (fun _ => 0), angleEta := some (fun _ => 1),
      angleZeta := some (fun _ => 1) }
    3 (fun i c => if c = 0 then 2 else if c = 1 then (i : ℝ) else 1)
    (fun i => if i = 1 then 1 else 0) (Equiv.swap 0 2)
    (fun i => swap_lt_iff 0 2 3 i (by decide) (by decide))
    (fun _ => 0) (fun _ => 0) (fun _ => 0) (fun _ => 0)
  exact ⟨data, diff, data2, diff2, h1, h2, h3 4 (by decide) (by decide)⟩

/-! ## Permutation symmetry of the jacobian -/

theorem radialDelta_perm {R : Type} [LinearOrderedField R] (m : MathFns R)
    (self : SymmFuncBehler R) (pos : Nat → Nat → R) (elem : Nat → Int) (σ : Equiv.Perm Nat)
    (i k : Nat) (s c2 c : Int) (hs0 : 0 ≤ s) (hs : s < self.numBasis)
    (ht0 : 0 ≤ radialSlot self elem (σ i) k) (ht : radialSlot self elem (σ i) k < self.numBasis)
    (hc : ∀ t : Int, 0 ≤ t → t < 3 → (c2 = t ↔ c = t))
    (hn : ∀ (i : Nat) (t : Int), 0 ≤ t → t < 3 →
      (c2 = 3 * ((i : Int) + 1) + t ↔ c = 3 * (((σ i : Nat) : Int) + 1) + t)) :
    radialDelta m self (fun i => pos (σ i)) (fun i => elem (σ i)) i k (s + c2 * self.numBasis)
      = radialDelta m self pos elem (σ i) k (s + c * self.numBasis) := by
  have e : radialSlot self (fun i => elem (σ i)) i k = radialSlot self elem (σ i) k := rfl
  rw [radialDelta_at m self _ _ i k s c2 hs0 hs (by rw [e]; exact ht0) (by rw [e]; exact ht),
    radialDelta_at m self pos elem (σ i) k s c hs0 hs ht0 ht, e]
  simp only [hc 0 (by decide) (by decide), hc 1 (by decide) (by decide),
    hc 2 (by decide) (by decide), hn i 0 (by decide) (by decide),
    hn i 1 (by decide) (by decide), hn i 2 (by decide) (by decide)]

theorem angularDelta_perm {R : Type} [LinearOrderedField R] (m : MathFns R)
    (self : SymmFuncBehler R) (pos : Nat → Nat → R) (elem : Nat → Int) (σ : Equiv.Perm Nat)
    (i1 i2 l k : Nat) (s c2 c : Int) (hs0 : 0 ≤ s) (hs : s < self.numBasis)
    (ht0 : 0 ≤ angularSlot self elem (σ i1) (σ i2) l k)
    (ht : angularSlot self elem (σ i1) (σ i2) l k < self.numBasis)
    (hc : ∀ t : Int, 0 ≤ t → t < 3 → (c2 = t ↔ c = t))
    (hn : ∀ (i : Nat) (t : Int), 0 ≤ t → t < 3 →
      (c2 = 3 * ((i : Int) + 1) + t ↔ c = 3 * (((σ i : Nat) : Int) + 1) + t)) :
    angularDelta m self (fun i => pos (σ i)) (fun i => elem (σ i)) i1 i2 l k
        (s + c2 * self.numBasis)
      = angularDelta m self pos elem (σ i1) (σ i2) l k (s + c * self.numBasis) := by
  have e : angularSlot self (fun i => elem (σ i)) i1 i2 l k
      = angularSlot self elem (σ i1) (σ i2) l k := rfl
  have e2 : angularTermAt m self (fun i => pos (σ i)) i1 i2 l k
      = angularTermAt m self pos (σ i1) (σ i2) l k := rfl
  rw [angularDelta_at m self _ _ i1 i2 l k s c2 hs0 hs (by rw [e]; exact ht0)
      (by rw [e]; exact ht),
    angularDelta_at m self pos elem (σ i1) (σ i2) l k s c hs0 hs ht0 ht, e, e2]
  simp only [hc 0 (by decide) (by decide), hc 1 (by decide) (by decide),
    hc 2 (by decide) (by decide), hn i1 0 (by decide) (by decide),
    hn i1 1 (by decide) (by decide), hn i1 2 (by decide) (by decide),
    hn i2 0 (by decide) (by decide),
    hn i2 1 (by decide) (by decide), hn i2 2 (by decide) (by decide)]

theorem angularDelta_swap {R : Type} [LinearOrderedField R] (m : MathFns R)
    (self : SymmFuncBehler R) (pos : Nat → Nat → R) (elem : Nat → Int) (i1 i2 l k : Nat)
    (x : Int) (h : elem i1 = elem i2) :
    angularDelta m self pos elem i2 i1 l k x = angularDelta m self pos elem i1 i2 l k x := by
  unfold angularDelta
  rw [angularSlot_swap self elem i1 i2 l k h, angularTermAt_swap]
  simp only []
  rw [add_comm (angularTermAt m self pos i1 i2 l k).dgdx2,
    add_comm (angularTermAt m self pos i1 i2 l k).dgdy2,
    add_comm (angularTermAt m self pos i1 i2 l k).dgdz2]
  ring

theorem radialDiffSum_perm {R : Type} [LinearOrderedField R] (m : MathFns R)
    (self : SymmFuncBehler R) (w : WellFormed self) (n : Nat) (pos : Nat → Nat → R)
    (elem : Nat → Int) (hel : ∀ i : Nat, i < n → 0 ≤ elem i ∧ elem i < self.numElems)
    (σ : Equiv.Perm Nat) (hσ : ∀ i : Nat, σ i < n ↔ i < n)
    (s c2 c : Int) (hs0 : 0 ≤ s) (hs : s < self.numBasis)
    (hc : ∀ t : Int, 0 ≤ t → t < 3 → (c2 = t ↔ c = t))
    (hn : ∀ (i : Nat) (t : Int), 0 ≤ t → t < 3 →
      (c2 = 3 * ((i : Int) + 1) + t ↔ c = 3 * (((σ i : Nat) : Int) + 1) + t)) :
    radialDiffSum m self n (fun i => pos (σ i)) (fun i => elem (σ i)) (s + c2 * self.numBasis)
      = radialDiffSum m self n pos elem (s + c * self.numBasis) := by
  unfold radialDiffSum
  rw [← sum_range_perm (fun i => ∑ k in Finset.range self.sizeRad.toNat,
    radialDelta m self pos elem i k (s + c * self.numBasis)) σ n hσ]
  refine Finset.sum_congr rfl (fun i hi => Finset.sum_congr rfl (fun k hk => ?_))
  rw [Finset.mem_range] at hi hk
  have hi2 : σ i < n := (hσ i).mpr hi
  have hb := radial_slot_bounds self w _ (hel _ hi2).1 (hel _ hi2).2 k hk
  have hb0 : 0 ≤ radialSlot self elem (σ i) k := hb.1
  have hb1 : radialSlot self elem (σ i) k < self.numRadBasis := hb.2.1
  exact radialDelta_perm m self pos elem σ i k s c2 c hs0 hs hb0 (by omega) hc hn

theorem angularDiffSumOpt_perm {R : Type} [LinearOrderedField R] (skip : Bool) (m : MathFns R)
    (self : SymmFuncBehler R) (w : WellFormed self) (n : Nat) (pos : Nat → Nat → R)
    (elem : Nat → Int) (hel : ∀ i : Nat, i < n → 0 ≤ elem i ∧ elem i < self.numElems)
    (σ : Equiv.Perm Nat) (hσ : ∀ i : Nat, σ i < n ↔ i < n)
    (s c2 c : Int) (hs0 : 0 ≤ s) (hs : s < self.numBasis)
    (hc : ∀ t : Int, 0 ≤ t → t < 3 → (c2 = t ↔ c = t))
    (hn : ∀ (i : Nat) (t : Int), 0 ≤ t → t < 3 →
      (c2 = 3 * ((i : Int) + 1) + t ↔ c = 3 * (((σ i : Nat) : Int) + 1) + t)) :
    angularDiffSumOpt skip m self n (fun i => pos (σ i)) (fun i => elem (σ i))
        (s + c2 * self.numBasis)
      = angularDiffSumOpt skip m self n pos elem (s + c * self.numBasis) := by
  unfold angularDiffSumOpt
  refine canonical_sum_perm elem σ n hσ
    (fun i1 i2 => ∑ l in Finset.range 2,
      if skip = true ∧ chi0At pos i1 i2 l < chi0_thr then 0 else
        ∑ k in Finset.range self.sizeAng.toNat,
          angularDelta m self pos elem i1 i2 l k (s + c * self.numBasis)) _ ?_ ?_
  · intro i1 i2 _ _ he
    refine Finset.sum_congr rfl (fun l _ => ?_)
    rw [chi0At_swap]
    refine if_congr Iff.rfl rfl (Finset.sum_congr rfl (fun k _ => ?_))
    exact angularDelta_swap m self pos elem i1 i2 l k _ he
  · intro i1 i2 h1 h2 hsk
    have g1 : σ i1 < n := (hσ i1).mpr h1
    have g2 : σ i2 < n := (hσ i2).mpr h2
    have hle : elem (σ i1) ≤ elem (σ i2) := by
      have h := not_pairSkipped (fun i => elem (σ i)) i1 i2 hsk
      simp only [] at h
      omega
    refine Finset.sum_congr rfl (fun l hl => ?_)
    rw [Finset.mem_range] at hl
    have ec : chi0At (fun i => pos (σ i)) i1 i2 l = chi0At pos (σ i1) (σ i2) l := rfl
    rw [ec]
    refine if_congr Iff.rfl rfl (Finset.sum_congr rfl (fun k hk => ?_))
    rw [Finset.mem_range] at hk
    have hb := angular_slot_bounds self w _ _ (hel _ g1).1 hle (hel _ g2).2 l k hl hk
    have hb0 : self.numRadBasis ≤ angularSlot self elem (σ i1) (σ i2) l k := hb.1
    have hb1 : angularSlot self elem (σ i1) (σ i2) l k < self.numBasis := hb.2.1
    exact angularDelta_perm m self pos elem σ i1 i2 l k s c2 c hs0 hs (by omega) hb1 hc hn

theorem jacobian_perm {R : Type} [LinearOrderedField R] (m : MathFns R)
    (self : SymmFuncBehler R) (w : WellFormed self) (n : Nat) (pos : Nat → Nat → R)
    (elem : Nat → Int) (hel : ∀ i : Nat, i < n → 0 ≤ elem i ∧ elem i < self.numElems)
    (σ : Equiv.Perm Nat) (hσ : ∀ i : Nat, σ i < n ↔ i < n) (o o2 : Out R)
    (s c2 c : Int) (hs0 : 0 ≤ s) (hs : s < self.numBasis)
    (hc20 : 0 ≤ c2) (hc2 : c2 < 3 * (1 + (n : Int))) (hc0 : 0 ≤ c)
    (hc1 : c < 3 * (1 + (n : Int)))
    (hc : ∀ t : Int, 0 ≤ t → t < 3 → (c2 = t ↔ c = t))
    (hn : ∀ (i : Nat) (t : Int), 0 ≤ t → t < 3 →
      (c2 = 3 * ((i : Int) + 1) + t ↔ c = 3 * (((σ i : Nat) : Int) + 1) + t)) :
    (calculateBody m self (n : Int) (fun i => pos (σ i)) (fun i => elem (σ i)) o2).symmDiff
        (s + c2 * self.numBasis)
      = (calculateBody m self (n : Int) pos elem o).symmDiff (s + c * self.numBasis) := by
  rw [calculateBody_symmDiff, calculateBody_symmDiff,
    zeroInit_symmDiff_inRange self _ _ s c2 hs0 hs hc20 hc2,
    zeroInit_symmDiff_inRange self _ _ s c hs0 hs hc0 hc1,
    radialDiffSum_perm m self w n pos elem hel σ hσ s c2 c hs0 hs hc hn,
    angularDiffSumOpt_perm true m self w n pos elem hel σ hσ s c2 c hs0 hs hc hn]

theorem col_rel_neighbor (σ : Equiv.Perm Nat) (i0 : Nat) (t0 : Nat) (ht0 : t0 < 3) :
    (∀ t : Int, 0 ≤ t → t < 3 →
      (3 * ((i0 : Int) + 1) + (t0 : Int) = t
        ↔ 3 * (((σ i0 : Nat) : Int) + 1) + (t0 : Int) = t))
    ∧ (∀ (i : Nat) (t : Int), 0 ≤ t → t < 3 →
      (3 * ((i0 : Int) + 1) + (t0 : Int) = 3 * ((i : Int) + 1) + t
        ↔ 3 * (((σ i0 : Nat) : Int) + 1) + (t0 : Int) = 3 * (((σ i : Nat) : Int) + 1) + t)) := by
  constructor
  · intro t h0 h1
    constructor <;> intro h <;> omega
  · intro i t h0 h1
    by_cases hi : i = i0
    · subst hi
      constructor <;> intro h <;> omega
    · have hs : σ i ≠ σ i0 := fun h => hi (σ.injective h)
      constructor <;> intro h <;> exfalso <;> omega

theorem col_rel_central (σ : Equiv.Perm Nat) (t0 : Nat) (ht0 : t0 < 3) :
    (∀ t : Int, 0 ≤ t → t < 3 → ((t0 : Int) = t ↔ (t0 : Int) = t))
    ∧ (∀ (i : Nat) (t : Int), 0 ≤ t → t < 3 →
      ((t0 : Int) = 3 * ((i : Int) + 1) + t
        ↔ (t0 : Int) = 3 * (((σ i : Nat) : Int) + 1) + t)) := by
  constructor
  · intro t _ _
    exact Iff.rfl
  · intro i t h0 h1
    constructor <;> intro h <;> exfalso <;> omega

theorem jacobian_perm_block {R : Type} [LinearOrderedField R] (m : MathFns R)
    (self : SymmFuncBehler R) (w : WellFormed self) (n : Nat) (pos : Nat → Nat → R)
    (elem : Nat → Int) (hel : ∀ i : Nat, i < n → 0 ≤ elem i ∧ elem i < self.numElems)
    (σ : Equiv.Perm Nat) (hσ : ∀ i : Nat, σ i < n ↔ i < n) (o o2 : Out R)
    (s : Int) (hs0 : 0 ≤ s) (hs : s < self.numBasis) (i t : Nat) (hi : i < n) (ht : t < 3) :
    (calculateBody m self (n : Int) (fun i => pos (σ i)) (fun i => elem (σ i)) o2).symmDiff
        (s + (3 * ((i : Int) + 1) + (t : Int)) * self.numBasis)
      = (calculateBody m self (n : Int) pos elem o).symmDiff
        (s + (3 * (((σ i : Nat) : Int) + 1) + (t : Int)) * self.numBasis) := by
  have hi2 : σ i < n := (hσ i).mpr hi
  obtain ⟨hc, hn⟩ := col_rel_neighbor σ i t ht
  exact jacobian_perm m self w n pos elem hel σ hσ o o2 s _ _ hs0 hs (by omega) (by omega)
    (by omega) (by omega) hc hn

theorem jacobian_perm_central {R : Type} [LinearOrderedField R] (m : MathFns R)
    (self : SymmFuncBehler R) (w : WellFormed self) (n : Nat) (pos : Nat → Nat → R)
    (elem : Nat → Int) (hel : ∀ i : Nat, i < n → 0 ≤ elem i ∧ elem i < self.numElems)
    (σ : Equiv.Perm Nat) (hσ : ∀ i : Nat, σ i < n ↔ i < n) (o o2 : Out R)
    (s : Int) (hs0 : 0 ≤ s) (hs : s < self.numBasis) (t : Nat) (ht : t < 3) :
    (calculateBody m self (n : Int) (fun i => pos (σ i)) (fun i => elem (σ i)) o2).symmDiff
        (s + (t : Int) * self.numBasis)
      = (calculateBody m self (n : Int) pos elem o).symmDiff (s + (t : Int) * self.numBasis) := by
  obtain ⟨hc, hn⟩ := col_rel_central σ t ht
  exact jacobian_perm m self w n pos elem hel σ hσ o o2 s _ _ hs0 hs (by omega) (by omega)
    (by omega) (by omega) hc hn

/-- C16 (permutation symmetry of the jacobian): for an object returned by the
constructor and a neighbor list with element indices in range, exchanging the
neighbors `a` and `b` in the input leaves every descriptor entry unchanged and
yields the jacobian of the original list with the column blocks of `a`
(columns `3(a+1) .. 3(a+1)+2`) and `b` exchanged and every other block, the
central block included, unchanged.  This holds for any two neighbors, in
particular for two of identical element and distance. -/
theorem jacobian_swap_symmetry (numElems sizeRad sizeAng : Int) (radiusCut : ℝ)
    (radiusEta radiusShift angleEta angleZeta : Option (Nat → ℝ)) (self : SymmFuncBehler ℝ)
    (hself : SymmFuncBehler.SymmFuncBehler numElems sizeRad sizeAng radiusCut
      radiusEta radiusShift angleEta angleZeta = .ok self)
    (m : MathFns ℝ) (n : Nat) (pos : Nat → Nat → ℝ) (elem : Nat → Int)
    (hel : ∀ i : Nat, i < n → 0 ≤ elem i ∧ elem i < self.numElems)
    (a b : Nat) (ha : a < n) (hb : b < n) (d0 f0 d1 f1 : Int → ℝ) :
    ∃ data diff data2 diff2 : Int → ℝ,
      SymmFuncBehler.calculate m (n : Int) (some pos) (some elem)
          { self := self, symmData := some d0, symmDiff := some f0 }
        = (.ok (), { self := self, symmData := some data, symmDiff := some diff })
      ∧ SymmFuncBehler.calculate m (n : Int) (some (fun i => pos (Equiv.swap a b i)))
          (some (fun i => elem (Equiv.swap a b i)))
          { self := self, symmData := some d1, symmDiff := some f1 }
        = (.ok (), { self := self, symmData := some data2, symmDiff := some diff2 })
      ∧ (∀ x : Int, 0 ≤ x → x < self.numBasis → data2 x = data x)
      ∧ (∀ (row : Int) (t : Nat), 0 ≤ row → row < self.numBasis → t < 3 →
          diff2 (row + (3 * ((a : Int) + 1) + (t : Int)) * self.numBasis)
            = diff (row + (3 * ((b : Int) + 1) + (t : Int)) * self.numBasis)
          ∧ diff2 (row + (3 * ((b : Int) + 1) + (t : Int)) * self.numBasis)
            = diff (row + (3 * ((a : Int) + 1) + (t : Int)) * self.numBasis)
          ∧ diff2 (row + (t : Int) * self.numBasis) = diff (row + (t : Int) * self.numBasis)
          ∧ ∀ i : Nat, i < n → i ≠ a → i ≠ b →
            diff2 (row + (3 * ((i : Int) + 1) + (t : Int)) * self.numBasis)
              = diff (row + (3 * ((i : Int) + 1) + (t : Int)) * self.numBasis)) := by
  have w := wellFormed_of_construct _ _ _ _ _ _ _ _ _ hself
  have hσ : ∀ i : Nat, Equiv.swap a b i < n ↔ i < n := fun i => swap_lt_iff a b n i ha hb
  refine ⟨_, _, _, _, calculate_ok m self (n : Int) pos elem d0 f0,
    calculate_ok m self (n : Int) _ _ d1 f1, ?_, ?_⟩
  · intro x hx0 hx
    rw [calculateBody_symmData, calculateBody_symmData, zeroInit_symmData, zeroInit_symmData,
      if_pos ⟨hx0, hx⟩, if_pos ⟨hx0, hx⟩, radialSum_perm m self n pos elem _ hσ x,
      angularSum_perm m self n pos elem _ hσ x]
  · intro row t hr0 hr ht
    refine ⟨?_, ?_, ?_, ?_⟩
    · have h := jacobian_perm_block m self w n pos elem hel _ hσ
        { symmData := d0, symmDiff := f0 } { symmData := d1, symmDiff := f1 } row hr0 hr a t ha ht
      rw [Equiv.swap_apply_left] at h
      exact h
    · have h := jacobian_perm_block m self w n pos elem hel _ hσ
        { symmData := d0, symmDiff := f0 } { symmData := d1, symmDiff := f1 } row hr0 hr b t hb ht
      rw [Equiv.swap_apply_right] at h
      exact h
    · exact jacobian_perm_central m self w n pos elem hel _ hσ _ _ row hr0 hr t ht
    · intro i hi hia hib
      have h := jacobian_perm_block m self w n pos elem hel _ hσ
        { symmData := d0, symmDiff := f0 } { symmData := d1, symmDiff := f1 } row hr0 hr i t hi ht
      rw [Equiv.swap_apply_of_ne_of_ne hia hib] at h
      exact h

theorem jacobian_swap_symmetry_witness :
    ∃ data diff data2 diff2 : Int → ℝ,
      SymmFuncBehler.calculate (⟨Real.tanh, Real.exp, Real.rpow⟩ : MathFns ℝ) ((3 : Nat) : Int)
          (some (fun i c => if c = 0 then 2 else if c = 1 then (i : ℝ) else 1))
          (some (fun _ => 0))
          { self := { numElems := 1, numBasis := 3, sizeRad := 1, sizeAng := 1, numRadBasis := 1,
                      numAngBasis := 2, radiusCut := 5, radiusEta := some (fun _ => 1),
                      radiusShift := some (fun _ => 0), angleEta := some (fun _ => 1),
                      angleZeta := some (fun _ => 1) }
            symmData := some (fun _ => 0), symmDiff := some (fun _ => 0) }
        = (.ok (), { self := { numElems := 1, numBasis := 3, sizeRad := 1, sizeAng := 1,
                               numRadBasis := 1, numAngBasis := 2, radiusCut := 5,
                               radiusEta := some (fun _ => 1), radiusShift := some (fun _ => 0),
                               angleEta := some (fun _ => 1), angleZeta := some (fun _ => 1) }
                     symmData := some data, symmDiff := some diff })
      ∧ SymmFuncBehler.calculate (⟨Real.tanh, Real.exp, Real.rpow⟩ : MathFns ℝ)
          ((3 : Nat) : Int)
          (some (fun i => (fun (i : Nat) (c : Nat) =>
            if c = 0 then (2 : ℝ) else if c = 1 then (i : ℝ) else 1) (Equiv.swap 0 2 i)))
          (some (fun i => (fun (_ : Nat) => (0 : Int)) (Equiv.swap 0 2 i)))
          { self := { numElems := 1, numBasis := 3, sizeRad := 1, sizeAng := 1, numRadBasis := 1,
                      numAngBasis := 2, radiusCut := 5, radiusEta := some (fun _ => 1),
                      radiusShift := some (fun _ => 0), angleEta := some (fun _ => 1),
                      angleZeta := some (fun _ => 1) }
            symmData := some (fun _ => 0), symmDiff := some (fun _ => 0) }
        = (.ok (), { self := { numElems := 1, numBasis := 3, sizeRad := 1, sizeAng := 1,
                               numRadBasis := 1, numAngBasis := 2, radiusCut := 5,
                               radiusEta := some (fun _ => 1), radiusShift := some (fun _ => 0),
                               angleEta := some (fun _ => 1), angleZeta := some (fun _ => 1) }
                     symmData := some data2, symmDiff := some diff2 })
      ∧ data2 1 = data 1 ∧ diff2 10 = diff 28 := by
  obtain ⟨data, diff, data2, diff2, h1, h2, h3, h4⟩ := jacobian_swap_symmetry 1 1 1 5
    (some (fun _ => 1)) (some (fun _ => 0)) (some (fun _ => 1)) (some (fun _ => 1))
    { numElems := 1, numBasis := 3, sizeRad := 1, sizeAng := 1, numRadBasis := 1,
      numAngBasis := 2, radiusCut := 5, radiusEta := some (fun _ => 1),
      radiusShift := some (fun _ => 0), angleEta := some (fun _ => 1),
      angleZeta := some (fun _ => 1) }
    (by norm_num [SymmFuncBehler.SymmFuncBehler, SymmFunc.SymmFunc, stop_by_error])
    (⟨Real.tanh, Real.exp, Real.rpow⟩ : MathFns ℝ) 3
    (fun i c => if c = 0 then 2 else if c = 1 then (i : ℝ) else 1) (fun _ => 0)
    (fun _ _ => ⟨le_refl 0, Int.zero_lt_one⟩) 0 2 (by decide) (by decide)
    (fun _ => 0) (fun _ => 0) (fun _ => 0) (fun _ => 0)
  have h5 := (h4 1 0 (by decide) (by decide) (by decide)).1
  norm_num at h5
  exact ⟨data, diff, data2, diff2, h1, h2, h3 1 (by decide) (by decide), h5⟩

/-! ## The layout of the jacobian -/

theorem layout_construct :
    SymmFuncBehler.SymmFuncBehler 1 2 0 (5 : ℝ) (some (fun _ => 1)) (some (fun _ => 0))
        none none
      = .ok { numElems := 1, numBasis := 2, sizeRad := 2, sizeAng := 0, numRadBasis := 2,
              numAngBasis := 0, radiusCut := 5, radiusEta := some (fun _ => 1),
              radiusShift := some (fun _ => 0), angleEta := none, angleZeta := none } := by
  norm_num [SymmFuncBehler.SymmFuncBehler, SymmFunc.SymmFunc, stop_by_error]

theorem layout_slope_neg : radialSlope ⟨Real.tanh, Real.exp, Real.rpow⟩ 1 0 5 2 < 0 := by
  obtain ⟨b1, b2⟩ := tanh_three_fifths_bounds
  have e : (1 : ℝ) - 2 / 5 = 3 / 5 := by norm_num
  have hE : 0 < Real.exp (-1 * (2 - 0) ^ 2) := Real.exp_pos _
  have hT : 0 < Real.tanh (3 / 5) := by linarith
  have hT1 : Real.tanh (3 / 5) < 1 := by linarith
  unfold radialSlope
  simp only [e]
  have h1 : 0 < Real.exp (-1 * (2 - 0) ^ 2) * Real.tanh (3 / 5) ^ 3 := by positivity
  have h2 : 0 < Real.tanh (3 / 5) ^ 2 * (1 - Real.tanh (3 / 5) ^ 2) := by
    have : Real.tanh (3 / 5) ^ 2 < 1 := by nlinarith
    have : 0 < Real.tanh (3 / 5) ^ 2 := by positivity
    nlinarith
  have h3 : 0 < Real.exp (-1 * (2 - 0) ^ 2)
      * (Real.tanh (3 / 5) ^ 2 * (1 - Real.tanh (3 / 5) ^ 2)) := mul_pos hE h2
  nlinarith

theorem layout_central (pos : Nat → Nat → ℝ) (d0 f0 : Int → ℝ) (k a : Nat) (hk : k < 2)
    (ha : a < 3) :
    (calculateBody ⟨Real.tanh, Real.exp, Real.rpow⟩
        { numElems := 1, numBasis := 2, sizeRad := 2, sizeAng := 0, numRadBasis := 2,
          numAngBasis := 0, radiusCut := 5, radiusEta := some (fun _ => 1),
          radiusShift := some (fun _ => 0), angleEta := none, angleZeta := none }
        ((1 : Nat) : Int) pos (fun _ => 0)
        { symmData := d0, symmDiff := f0 }).symmDiff ((k : Int) + (a : Int) * 2)
      = -(radialSlope ⟨Real.tanh, Real.exp, Real.rpow⟩ 1 0 5 (pos 0 0)
          * (axisCoord (pos 0 1) (pos 0 2) (pos 0 3) a / pos 0 0)) := by
  have w := wellFormed_of_construct _ _ _ _ _ _ _ _ _ layout_construct
  have h := radial_jacobian_central_entry _ w Int.zero_lt_one (fun _ => 1) (fun _ => 0) rfl rfl 1
      pos (fun _ => 0)
      (fun i _ => ⟨le_refl 0, Int.zero_lt_one⟩) { symmData := d0, symmDiff := f0 } 0 (le_refl 0)
      Int.zero_lt_one k a (by simpa using hk) ha
  have e : (k : Int) + 0 * (2 : Int) + (a : Int) * (2 : Int) = (k : Int) + (a : Int) * 2 := by
    ring
  rw [e] at h
  rw [h]
  simp

theorem layout_descriptor (pos : Nat → Nat → ℝ) (d0 f0 : Int → ℝ) :
    (calculateBody ⟨Real.tanh, Real.exp, Real.rpow⟩
        { numElems := 1, numBasis := 2, sizeRad := 2, sizeAng := 0, numRadBasis := 2,
          numAngBasis := 0, radiusCut := 5, radiusEta := some (fun _ => 1),
          radiusShift := some (fun _ => 0), angleEta := none, angleZeta := none }
        ((1 : Nat) : Int) pos (fun _ => 0)
        { symmData := d0, symmDiff := f0 }).symmData 0
      = Real.exp (-1 * (pos 0 0 - 0) ^ 2) * Real.tanh (1 - pos 0 0 / 5) ^ 3 := by
  have w := wellFormed_of_construct _ _ _ _ _ _ _ _ _ layout_construct
  have h := radial_descriptor_closed_form _ w (fun _ => 1) (fun _ => 0) rfl rfl 1
      pos (fun _ => 0)
      (fun i _ => ⟨le_refl 0, Int.zero_lt_one⟩) { symmData := d0, symmDiff := f0 } 0 (le_refl 0)
      Int.zero_lt_one 0 (by decide)
  have e : ((0 : Nat) : Int) + 0 * (2 : Int) = 0 := by norm_num
  rw [e] at h
  rw [h]
  simp

theorem layout_profile_deriv :
    HasDerivAt (fun t : ℝ =>
        Real.exp (-1 * (Real.sqrt (2 ^ 2 + t ^ 2) - 0) ^ 2)
          * Real.tanh (1 - Real.sqrt (2 ^ 2 + t ^ 2) / 5) ^ 3) 0 0 := by
  have h := hasDerivAt_shift_profile 1 0 5 2 2 0 0 1 (by decide)
    (by rw [show (2 : ℝ) ^ 2 + 0 ^ 2 + 0 ^ 2 = 2 ^ 2 by norm_num,
      Real.sqrt_sq (by norm_num)]) (by norm_num)
  have hv : -(radialSlope ⟨Real.tanh, Real.exp, Real.rpow⟩ 1 0 5 2
      * (axisCoord (2 : ℝ) 0 0 1 / 2)) = 0 := by
    simp [axisCoord]
  rw [hv] at h
  have hf : (fun t : ℝ =>
        Real.exp (-1 * (Real.sqrt ((2 - (if (1 : Nat) = 0 then t else 0)) ^ 2
            + (0 - (if (1 : Nat) = 1 then t else 0)) ^ 2
            + (0 - (if (1 : Nat) = 2 then t else 0)) ^ 2) - 0) ^ 2)
          * Real.tanh (1 - Real.sqrt ((2 - (if (1 : Nat) = 0 then t else 0)) ^ 2
            + (0 - (if (1 : Nat) = 1 then t else 0)) ^ 2
            + (0 - (if (1 : Nat) = 2 then t else 0)) ^ 2) / 5) ^ 3)
      = (fun t : ℝ =>
        Real.exp (-1 * (Real.sqrt (2 ^ 2 + t ^ 2) - 0) ^ 2)
          * Real.tanh (1 - Real.sqrt (2 ^ 2 + t ^ 2) / 5) ^ 3) := by
    funext t
    norm_num
  rw [hf] at h
  exact h

/-- C21 (jacobian layout), the claim as written fails: with `numElems = 1`,
`sizeRad = 2` (`eta = 1`, `shift = 0` for both modes), `sizeAng = 0`,
`radiusCut = 5` (so `numBasis = 2`) and one neighbor at displacement `(2,0,0)`,
take basis row `b = 0` and coordinate column `c = 1` (the y coordinate of the
central atom).  With `D t` the descriptor returned by `calculate` after the
central atom is moved by `t` along y, the derivative of `D t 0` at `t = 0` is
the value `calculate` stores at offset `b + c*numBasis = 2`; it is not the
value stored at the basis-major offset `b*3*(1+numNeighbor) + c = 1`. -/
theorem layout_not_basis_major :
    ∃ (self : SymmFuncBehler ℝ) (data diff : Int → ℝ) (D : ℝ → Int → ℝ),
      SymmFuncBehler.SymmFuncBehler 1 2 0 (5 : ℝ) (some (fun _ => 1)) (some (fun _ => 0))
          none none = .ok self ∧
      self.numBasis = 2 ∧
      SymmFuncBehler.calculate ⟨Real.tanh, Real.exp, Real.rpow⟩ ((1 : Nat) : Int)
          (some (fun _ c => if c = 0 ∨ c = 1 then 2 else 0)) (some (fun _ => 0))
          { self := self, symmData := some (fun _ => 0), symmDiff := some (fun _ => 0) }
        = (.ok (), { self := self, symmData := some data, symmDiff := some diff }) ∧
      (∀ t : ℝ, ∃ diffT : Int → ℝ,
        SymmFuncBehler.calculate ⟨Real.tanh, Real.exp, Real.rpow⟩ ((1 : Nat) : Int)
            (some (fun _ c => if c = 0 then Real.sqrt (2 ^ 2 + t ^ 2) else if c = 1 then 2
              else if c = 2 then -t else 0)) (some (fun _ => 0))
            { self := self, symmData := some (fun _ => 0), symmDiff := some (fun _ => 0) }
          = (.ok (), { self := self, symmData := some (D t), symmDiff := some diffT })) ∧
      HasDerivAt (fun t : ℝ => D t 0) (diff (0 + 1 * 2)) 0 ∧
      ¬ HasDerivAt (fun t : ℝ => D t 0) (diff (0 * 3 * (1 + 1) + 1)) 0 := by
  have hD : (fun t : ℝ => (calculateBody ⟨Real.tanh, Real.exp, Real.rpow⟩
        { numElems := 1, numBasis := 2, sizeRad := 2, sizeAng := 0, numRadBasis := 2,
          numAngBasis := 0, radiusCut := 5, radiusEta := some (fun _ => 1),
          radiusShift := some (fun _ => 0), angleEta := none, angleZeta := none }
        ((1 : Nat) : Int)
        (fun _ c => if c = 0 then Real.sqrt (2 ^ 2 + t ^ 2) else if c = 1 then 2
          else if c = 2 then -t else 0) (fun _ => 0)
        { symmData := fun _ => 0, symmDiff := fun _ => 0 }).symmData 0)
      = (fun t : ℝ =>
        Real.exp (-1 * (Real.sqrt (2 ^ 2 + t ^ 2) - 0) ^ 2)
          * Real.tanh (1 - Real.sqrt (2 ^ 2 + t ^ 2) / 5) ^ 3) := by
    funext t
    rw [layout_descriptor]
    simp
  have c2 := layout_central (fun _ c => if c = 0 ∨ c = 1 then 2 else 0) (fun _ => 0)
    (fun _ => 0) 0 1 (by decide) (by decide)
  have c1 := layout_central (fun _ c => if c = 0 ∨ c = 1 then 2 else 0) (fun _ => 0)
    (fun _ => 0) 1 0 (by decide) (by decide)
  have e2 : ((0 : Nat) : Int) + ((1 : Nat) : Int) * 2 = 0 + 1 * 2 := by norm_num
  have e1 : ((1 : Nat) : Int) + ((0 : Nat) : Int) * 2 = 0 * 3 * (1 + 1) + 1 := by norm_num
  rw [e2] at c2
  rw [e1] at c1
  refine ⟨_, _, _, _, layout_construct, rfl, calculate_ok _ _ ((1 : Nat) : Int) _ _ _ _,
    fun t => ⟨_, calculate_ok _ _ ((1 : Nat) : Int) _ _ _ _⟩, ?_, ?_⟩
  · have hz : -(radialSlope ⟨Real.tanh, Real.exp, Real.rpow⟩ 1 0 5
          ((fun (_ : Nat) (c : Nat) => if c = 0 ∨ c = 1 then (2 : ℝ) else 0) 0 0)
        * (axisCoord ((fun (_ : Nat) (c : Nat) => if c = 0 ∨ c = 1 then (2 : ℝ) else 0) 0 1)
            ((fun (_ : Nat) (c : Nat) => if c = 0 ∨ c = 1 then (2 : ℝ) else 0) 0 2)
            ((fun (_ : Nat) (c : Nat) => if c = 0 ∨ c = 1 then (2 : ℝ) else 0) 0 3) 1
          / (fun (_ : Nat) (c : Nat) => if c = 0 ∨ c = 1 then (2 : ℝ) else 0) 0 0)) = 0 := by
      simp [axisCoord]
    rw [hD, c2, hz]
    exact layout_profile_deriv
  · rw [hD, c1]
    intro h
    have hu := h.unique layout_profile_deriv
    simp [axisCoord] at hu
    have := layout_slope_neg
    linarith

theorem radialMode_layout {R : Type} [LinearOrderedField R] (m : MathFns R)
    (self : SymmFuncBehler R) (pos : Nat → Nat → R) (elem : Nat → Int) (i k : Nat) (o : Out R)
    (ht0 : 0 ≤ radialSlot self elem i k) (ht : radialSlot self elem i k < self.numBasis) :
    (∀ a : Nat, a < 3 →
        (radialMode m self pos elem i o k).symmDiff
            (radialSlot self elem i k + (a : Int) * self.numBasis)
          = o.symmDiff (radialSlot self elem i k + (a : Int) * self.numBasis)
            - radialGrad (radialTerm m self (pos i 0) (pos i 1) (pos i 2) (pos i 3) k) a
        ∧ (radialMode m self pos elem i o k).symmDiff
            (radialSlot self elem i k + (3 * ((i : Int) + 1) + (a : Int)) * self.numBasis)
          = o.symmDiff
              (radialSlot self elem i k + (3 * ((i : Int) + 1) + (a : Int)) * self.numBasis)
            + radialGrad (radialTerm m self (pos i 0) (pos i 1) (pos i 2) (pos i 3) k) a)
      ∧ (∀ b c : Int, 0 ≤ b → b < self.numBasis →
          (b ≠ radialSlot self elem i k
            ∨ ∀ a : Nat, a < 3 → c ≠ (a : Int) ∧ c ≠ 3 * ((i : Int) + 1) + (a : Int)) →
          (radialMode m self pos elem i o k).symmDiff (b + c * self.numBasis)
            = o.symmDiff (b + c * self.numBasis)) := by
  refine ⟨?_, ?_⟩
  · intro a ha
    constructor
    · rw [radialMode_symmDiff, radialDelta_at m self pos elem i k _ _ ht0 ht ht0 ht, if_pos rfl]
      generalize radialTerm m self (pos i 0) (pos i 1) (pos i 2) (pos i 3) k = t
      rcases (show a = 0 ∨ a = 1 ∨ a = 2 by omega) with h | h | h <;> subst h <;>
        simp only [radialGrad, Nat.cast_zero, Nat.cast_one, Nat.cast_ofNat] <;> split_ifs <;>
        first
        | (exfalso; omega)
        | (exfalso; assumption)
        | ring
    · rw [radialMode_symmDiff, radialDelta_at m self pos elem i k _ _ ht0 ht ht0 ht, if_pos rfl]
      generalize radialTerm m self (pos i 0) (pos i 1) (pos i 2) (pos i 3) k = t
      rcases (show a = 0 ∨ a = 1 ∨ a = 2 by omega) with h | h | h <;> subst h <;>
        simp only [radialGrad, Nat.cast_zero, Nat.cast_one, Nat.cast_ofNat] <;> split_ifs <;>
        first
        | (exfalso; omega)
        | (exfalso; assumption)
        | ring
  · intro b c hb0 hb hbc
    rw [radialMode_symmDiff, radialDelta_at m self pos elem i k b c hb0 hb ht0 ht]
    generalize radialTerm m self (pos i 0) (pos i 1) (pos i 2) (pos i 3) k = t
    rcases hbc with h | h
    · rw [if_neg h, add_zero]
    · have h0 := h 0 (by decide)
      have h1 := h 1 (by decide)
      have h2 := h 2 (by decide)
      simp only [Nat.cast_zero, Nat.cast_one, Nat.cast_ofNat] at h0 h1 h2
      split_ifs <;>
        first
        | (exfalso; omega)
        | ring

theorem angularMode_layout {R : Type} [LinearOrderedField R] (m : MathFns R)
    (self : SymmFuncBehler R) (pos : Nat → Nat → R) (elem : Nat → Int) (i1 i2 l k : Nat)
    (o : Out R) (h12 : i1 ≠ i2)
    (ht0 : 0 ≤ angularSlot self elem i1 i2 l k)
    (ht : angularSlot self elem i1 i2 l k < self.numBasis) :
    (∀ a : Nat, a < 3 →
        (angularMode m self pos elem i2 i1 l o k).symmDiff
            (angularSlot self elem i1 i2 l k + (a : Int) * self.numBasis)
          = o.symmDiff (angularSlot self elem i1 i2 l k + (a : Int) * self.numBasis)
            - ((angularTermAt m self pos i1 i2 l k).grad1 a
              + (angularTermAt m self pos i1 i2 l k).grad2 a)
        ∧ (angularMode m self pos elem i2 i1 l o k).symmDiff
            (angularSlot self elem i1 i2 l k
              + (3 * ((i1 : Int) + 1) + (a : Int)) * self.numBasis)
          = o.symmDiff (angularSlot self elem i1 i2 l k
              + (3 * ((i1 : Int) + 1) + (a : Int)) * self.numBasis)
            + (angularTermAt m self pos i1 i2 l k).grad1 a
        ∧ (angularMode m self pos elem i2 i1 l o k).symmDiff
            (angularSlot self elem i1 i2 l k
              + (3 * ((i2 : Int) + 1) + (a : Int)) * self.numBasis)
          = o.symmDiff (angularSlot self elem i1 i2 l k
              + (3 * ((i2 : Int) + 1) + (a : Int)) * self.numBasis)
            + (angularTermAt m self pos i1 i2 l k).grad2 a)
      ∧ (∀ b c : Int, 0 ≤ b → b < self.numBasis →
          (b ≠ angularSlot self elem i1 i2 l k
            ∨ ∀ a : Nat, a < 3 → c ≠ (a : Int) ∧ c ≠ 3 * ((i1 : Int) + 1) + (a : Int)
                ∧ c ≠ 3 * ((i2 : Int) + 1) + (a : Int)) →
          (angularMode m self pos elem i2 i1 l o k).symmDiff (b + c * self.numBasis)
            = o.symmDiff (b + c * self.numBasis)) := by
  refine ⟨?_, ?_⟩
  · intro a ha
    refine ⟨?_, ?_, ?_⟩
    · have n1 : ∀ z : Int, 0 ≤ z → ¬ ((a : Int) = 3 * ((i1 : Int) + 1) + z) :=
        fun z _ h => by omega
      have n2 : ∀ z : Int, 0 ≤ z → ¬ ((a : Int) = 3 * ((i2 : Int) + 1) + z) :=
        fun z _ h => by omega
      rw [angularMode_symmDiff, angularDelta_at m self pos elem i1 i2 l k _ _ ht0 ht ht0 ht,
        if_pos rfl, if_neg (n1 0 (by decide)), if_neg (n1 1 (by decide)),
        if_neg (n1 2 (by decide)), if_neg (n2 0 (by decide)), if_neg (n2 1 (by decide)),
        if_neg (n2 2 (by decide))]
      generalize angularTermAt m self pos i1 i2 l k = t
      rcases (show a = 0 ∨ a = 1 ∨ a = 2 by omega) with h | h | h <;> subst h <;>
        simp only [AngTerm.grad1, AngTerm.grad2, Nat.cast_zero, Nat.cast_one,
          Nat.cast_ofNat] <;> split_ifs <;>
        first
        | (exfalso; omega)
        | (exfalso; assumption)
        | ring
    · have n0 : ∀ z : Int, z < 3 → ¬ (3 * ((i1 : Int) + 1) + (a : Int) = z) :=
        fun z _ h => by omega
      have n2 : ∀ z : Int, 0 ≤ z → z < 3 →
          ¬ (3 * ((i1 : Int) + 1) + (a : Int) = 3 * ((i2 : Int) + 1) + z) :=
        fun z _ _ h => by omega
      rw [angularMode_symmDiff, angularDelta_at m self pos elem i1 i2 l k _ _ ht0 ht ht0 ht,
        if_pos rfl, if_neg (n0 0 (by decide)), if_neg (n0 1 (by decide)),
        if_neg (n0 2 (by decide)), if_neg (n2 0 (by decide) (by decide)),
        if_neg (n2 1 (by decide) (by decide)), if_neg (n2 2 (by decide) (by decide))]
      generalize angularTermAt m self pos i1 i2 l k = t
      rcases (show a = 0 ∨ a = 1 ∨ a = 2 by omega) with h | h | h <;> subst h <;>
        simp only [AngTerm.grad1, AngTerm.grad2, Nat.cast_zero, Nat.cast_one,
          Nat.cast_ofNat] <;> split_ifs <;>
        first
        | (exfalso; omega)
        | (exfalso; assumption)
        | ring
    · have n0 : ∀ z : Int, z < 3 → ¬ (3 * ((i2 : Int) + 1) + (a : Int) = z) :=
        fun z _ h => by omega
      have n1 : ∀ z : Int, 0 ≤ z → z < 3 →
          ¬ (3 * ((i2 : Int) + 1) + (a : Int) = 3 * ((i1 : Int) + 1) + z) :=
        fun z _ _ h => by omega
      rw [angularMode_symmDiff, angularDelta_at m self pos elem i1 i2 l k _ _ ht0 ht ht0 ht,
        if_pos rfl, if_neg (n0 0 (by decide)), if_neg (n0 1 (by decide)),
        if_neg (n0 2 (by decide)), if_neg (n1 0 (by decide) (by decide)),
        if_neg (n1 1 (by decide) (by decide)), if_neg (n1 2 (by decide) (by decide))]
      generalize angularTermAt m self pos i1 i2 l k = t
      rcases (show a = 0 ∨ a = 1 ∨ a = 2 by omega) with h | h | h <;> subst h <;>
        simp only [AngTerm.grad1, AngTerm.grad2, Nat.cast_zero, Nat.cast_one,
          Nat.cast_ofNat] <;> split_ifs <;>
        first
        | (exfalso; omega)
        | (exfalso; assumption)
        | ring
  · intro b c hb0 hb hbc
    rw [angularMode_symmDiff, angularDelta_at m self pos elem i1 i2 l k b c hb0 hb ht0 ht]
    rcases hbc with h | h
    · rw [if_neg h, add_zero]
    · have h0 := h 0 (by decide)
      have h1 := h 1 (by decide)
      have h2 := h 2 (by decide)
      simp only [Nat.cast_zero, Nat.cast_one, Nat.cast_ofNat] at h0 h1 h2
      rw [if_neg h0.1, if_neg h1.1, if_neg h2.1, if_neg h0.2.1, if_neg h1.2.1, if_neg h2.2.1,
        if_neg h0.2.2, if_neg h1.2.2, if_neg h2.2.2]
      simp

theorem flat_index_surj (N F x : Int) (hF : 0 ≤ F) (hx0 : 0 ≤ x) (hx : x < N * F) :
    ∃ b c : Int, 0 ≤ b ∧ b < N ∧ 0 ≤ c ∧ c < F ∧ x = b + c * N := by
  have hN : 0 < N := by
    by_contra h
    have : N * F ≤ 0 := mul_nonpos_of_nonpos_of_nonneg (by omega) hF
    omega
  refine ⟨x % N, x / N, Int.emod_nonneg x (ne_of_gt hN), Int.emod_lt_of_pos x hN,
    Int.ediv_nonneg hx0 hN.le, ?_, ?_⟩
  · exact Int.ediv_lt_of_lt_mul hN (by rw [mul_comm]; exact hx)
  · have := Int.emod_add_ediv x N
    rw [mul_comm] at this
    omega

/-- C21 (jacobian layout), amended: `calculate` stores the jacobian
coordinate-major.  For an object returned by the constructor and neighbors with
element indices in range, the flat offset of basis row `b` and coordinate
column `c` (`c = 0..2` central atom, `c = 3k..3k+2` neighbor `k-1`) is
`b + c*numBasis`: the `numBasis` offsets of one column are contiguous, the map
`(b, c) -> b + c*numBasis` is a bijection onto `[0, numBasis*3*(1+numNeighbor))`,
and every accumulation of the radial and of the angular loop body for slot `b`
changes exactly the offsets `b + c*numBasis` of its columns: minus the
gradient in the central columns `a`, plus the gradient of neighbor `i` in the
columns `3(i+1)+a`. -/
theorem jacobian_layout (numElems sizeRad sizeAng : Int) (radiusCut : ℝ)
    (radiusEta radiusShift angleEta angleZeta : Option (Nat → ℝ)) (self : SymmFuncBehler ℝ)
    (hself : SymmFuncBehler.SymmFuncBehler numElems sizeRad sizeAng radiusCut
      radiusEta radiusShift angleEta angleZeta = .ok self)
    (m : MathFns ℝ) (n : Nat) (pos : Nat → Nat → ℝ) (elem : Nat → Int)
    (hel : ∀ i : Nat, i < n → 0 ≤ elem i ∧ elem i < self.numElems) :
    (∀ b c : Int, 0 ≤ b → b < self.numBasis → 0 ≤ c → c < 3 * (1 + (n : Int)) →
        (c * self.numBasis ≤ b + c * self.numBasis
          ∧ b + c * self.numBasis < (c + 1) * self.numBasis)
        ∧ 0 ≤ b + c * self.numBasis
        ∧ b + c * self.numBasis < self.numBasis * (3 * (1 + (n : Int))))
      ∧ (∀ b c b2 c2 : Int, 0 ≤ b → b < self.numBasis → 0 ≤ b2 → b2 < self.numBasis →
        b + c * self.numBasis = b2 + c2 * self.numBasis → b = b2 ∧ c = c2)
      ∧ (∀ x : Int, 0 ≤ x → x < self.numBasis * (3 * (1 + (n : Int))) →
        ∃ b c : Int, 0 ≤ b ∧ b < self.numBasis ∧ 0 ≤ c ∧ c < 3 * (1 + (n : Int))
          ∧ x = b + c * self.numBasis)
      ∧ (∀ (o : Out ℝ) (i k : Nat), i < n → k < self.sizeRad.toNat →
        (∀ a : Nat, a < 3 →
          (radialMode m self pos elem i o k).symmDiff
              (radialSlot self elem i k + (a : Int) * self.numBasis)
            = o.symmDiff (radialSlot self elem i k + (a : Int) * self.numBasis)
              - radialGrad (radialTerm m self (pos i 0) (pos i 1) (pos i 2) (pos i 3) k) a
          ∧ (radialMode m self pos elem i o k).symmDiff
              (radialSlot self elem i k + (3 * ((i : Int) + 1) + (a : Int)) * self.numBasis)
            = o.symmDiff
                (radialSlot self elem i k + (3 * ((i : Int) + 1) + (a : Int)) * self.numBasis)
              + radialGrad (radialTerm m self (pos i 0) (pos i 1) (pos i 2) (pos i 3) k) a)
        ∧ (∀ b c : Int, 0 ≤ b → b < self.numBasis →
            (b ≠ radialSlot self elem i k
              ∨ ∀ a : Nat, a < 3 → c ≠ (a : Int) ∧ c ≠ 3 * ((i : Int) + 1) + (a : Int)) →
            (radialMode m self pos elem i o k).symmDiff (b + c * self.numBasis)
              = o.symmDiff (b + c * self.numBasis)))
      ∧ (∀ (o : Out ℝ) (i1 i2 l k : Nat), i1 < n → i2 < n → pairSkipped elem i1 i2 = false →
          l < 2 → k < self.sizeAng.toNat →
        (∀ a : Nat, a < 3 →
          (angularMode m self pos elem i2 i1 l o k).symmDiff
              (angularSlot self elem i1 i2 l k + (a : Int) * self.numBasis)
            = o.symmDiff (angularSlot self elem i1 i2 l k + (a : Int) * self.numBasis)
              - ((angularTermAt m self pos i1 i2 l k).grad1 a
                + (angularTermAt m self pos i1 i2 l k).grad2 a)
          ∧ (angularMode m self pos elem i2 i1 l o k).symmDiff
              (angularSlot self elem i1 i2 l k
                + (3 * ((i1 : Int) + 1) + (a : Int)) * self.numBasis)
            = o.symmDiff (angularSlot self elem i1 i2 l k
                + (3 * ((i1 : Int) + 1) + (a : Int)) * self.numBasis)
              + (angularTermAt m self pos i1 i2 l k).grad1 a
          ∧ (angularMode m self pos elem i2 i1 l o k).symmDiff
              (angularSlot self elem i1 i2 l k
                + (3 * ((i2 : Int) + 1) + (a : Int)) * self.numBasis)
            = o.symmDiff (angularSlot self elem i1 i2 l k
                + (3 * ((i2 : Int) + 1) + (a : Int)) * self.numBasis)
              + (angularTermAt m self pos i1 i2 l k).grad2 a)
        ∧ (∀ b c : Int, 0 ≤ b → b < self.numBasis →
            (b ≠ angularSlot self elem i1 i2 l k
              ∨ ∀ a : Nat, a < 3 → c ≠ (a : Int) ∧ c ≠ 3 * ((i1 : Int) + 1) + (a : Int)
                  ∧ c ≠ 3 * ((i2 : Int) + 1) + (a : Int)) →
            (angularMode m self pos elem i2 i1 l o k).symmDiff (b + c * self.numBasis)
              = o.symmDiff (b + c * self.numBasis))) := by
  have w := wellFormed_of_construct _ _ _ _ _ _ _ _ _ hself
  refine ⟨?_, ?_, ?_, ?_, ?_⟩
  · intro b c hb0 hb hc0 hc
    have h := jac_index_bounds self.numBasis b c _ hb0 hb hc0 hc
    refine ⟨⟨by omega, ?_⟩, h.1, h.2⟩
    have : (c + 1) * self.numBasis = c * self.numBasis + self.numBasis := by ring
    omega
  · intro b c b2 c2 hb0 hb hb20 hb2 h
    exact (flat_index_inj self.numBasis b b2 c c2 hb0 hb hb20 hb2).mp h
  · intro x hx0 hx
    exact flat_index_surj _ _ x (by omega) hx0 hx
  · intro o i k hi hk
    have hb := radial_slot_bounds self w _ (hel i hi).1 (hel i hi).2 k hk
    have hb0 : 0 ≤ radialSlot self elem i k := hb.1
    have hb1 : radialSlot self elem i k < self.numRadBasis := hb.2.1
    exact radialMode_layout m self pos elem i k o hb0 (by omega)
  · intro o i1 i2 l k h1 h2 hsk hl hk
    have hle : elem i1 ≤ elem i2 := by
      rcases not_pairSkipped elem i1 i2 hsk with h | h <;> omega
    have hne : i1 ≠ i2 := by
      intro h
      rw [h, pairSkipped_self] at hsk
      exact absurd hsk (by decide)
    have hb := angular_slot_bounds self w _ _ (hel i1 h1).1 hle (hel i2 h2).2 l k hl hk
    have hb0 : self.numRadBasis ≤ angularSlot self elem i1 i2 l k := hb.1
    have hb1 : angularSlot self elem i1 i2 l k < self.numBasis := hb.2.1
    exact angularMode_layout m self pos elem i1 i2 l k o hne (by omega) hb1

theorem jacobian_layout_witness :
    (∃ b c : Int, 0 ≤ b ∧ b < 3 ∧ 0 ≤ c ∧ c < 3 * (1 + ((2 : Nat) : Int)) ∧ (7 : Int) = b + c * 3)
      ∧ (radialMode (⟨Real.tanh, Real.exp, Real.rpow⟩ : MathFns ℝ)
            { numElems := 1, numBasis := 3, sizeRad := 1, sizeAng := 1, numRadBasis := 1,
              numAngBasis := 2, radiusCut := 5, radiusEta := some (fun _ => 1),
              radiusShift := some (fun _ => 0), angleEta := some (fun _ => 1),
              angleZeta := some (fun _ => 1) }
            (fun _ _ => 1) (fun _ => 0) 1 { symmData := fun _ => 0, symmDiff := fun _ => 0 }
            0).symmDiff 18
          = 0 + radialGrad (radialTerm (⟨Real.tanh, Real.exp, Real.rpow⟩ : MathFns ℝ)
              { numElems := 1, numBasis := 3, sizeRad := 1, sizeAng := 1, numRadBasis := 1,
                numAngBasis := 2, radiusCut := 5, radiusEta := some (fun _ => 1),
                radiusShift := some (fun _ => 0), angleEta := some (fun _ => 1),
                angleZeta := some (fun _ => 1) } 1 1 1 1 0) 0 := by
  have h := jacobian_layout 1 1 1 5 (some (fun _ => 1)) (some (fun _ => 0))
    (some (fun _ => 1)) (some (fun _ => 1))
    { numElems := 1, numBasis := 3, sizeRad := 1, sizeAng := 1, numRadBasis := 1,
      numAngBasis := 2, radiusCut := 5, radiusEta := some (fun _ => 1),
      radiusShift := some (fun _ => 0), angleEta := some (fun _ => 1),
      angleZeta := some (fun _ => 1) }
    (by norm_num [SymmFuncBehler.SymmFuncBehler, SymmFunc.SymmFunc, stop_by_error])
    (⟨Real.tanh, Real.exp, Real.rpow⟩ : MathFns ℝ) 2 (fun _ _ => 1) (fun _ => 0)
    (fun _ _ => ⟨le_refl 0, Int.zero_lt_one⟩)
  refine ⟨h.2.2.1 7 (by decide) (by decide), ?_⟩
  have h2 := ((h.2.2.2.1 { symmData := fun _ => 0, symmDiff := fun _ => 0 } 1 0 (by decide)
    (by decide)).1 0 (by decide)).2
  have e : radialSlot
      ({ numElems := 1, numBasis := 3, sizeRad := 1, sizeAng := 1, numRadBasis := 1,
         numAngBasis := 2, radiusCut := 5, radiusEta := some (fun _ => 1),
         radiusShift := some (fun _ => 0), angleEta := some (fun _ => 1),
         angleZeta := some (fun _ => 1) } : SymmFuncBehler ℝ) (fun _ => 0) 1 0
        + (3 * (((1 : Nat) : Int) + 1) + ((0 : Nat) : Int)) * 3 = 18 := by
    simp [radialSlot]
  simp only [] at h2
  rw [e] at h2
  exact h2

/-! ## Coulomb pair halving -/

theorem wrapTag_of_inRange (tagBits : Nat) (hb : 0 < tagBits) (v : Int) (h0 : 0 ≤ v)
    (h1 : v < 2 ^ (tagBits - 1)) : wrapTag tagBits v = v := by
  unfold wrapTag
  have e : (2 : Int) ^ tagBits = 2 * 2 ^ (tagBits - 1) := by
    obtain ⟨m, rfl⟩ : ∃ m, tagBits = m + 1 := ⟨tagBits - 1, by omega⟩
    rw [Nat.add_sub_cancel, pow_succ]
    ring
  have hp : (0 : Int) < 2 ^ (tagBits - 1) := by positivity
  rw [Int.emod_eq_of_lt (by omega) (by omega)]
  ring

theorem tmod_two_of_pos (v : Int) (hv : 0 < v) : Int.tmod v 2 = 0 ∨ Int.tmod v 2 = 1 := by
  rw [Int.tmod_eq_emod (le_of_lt hv) (by decide)]
  omega

theorem skipHalf_gt {R : Type} [LinearOrderedField R] (tagBits : Nat) (itag jtag : Int)
    (h : itag > jtag) (xtmp ytmp ztmp : R) (xj : Nat → R) :
    PairNNPCoulCut.skipHalf tagBits itag jtag xtmp ytmp ztmp xj
      = decide (Int.tmod (wrapTag tagBits (itag + jtag)) 2 = 0) := by
  unfold PairNNPCoulCut.skipHalf
  rw [if_pos h]
  by_cases h2 : Int.tmod (wrapTag tagBits (itag + jtag)) 2 = 0 <;> simp [h2]

theorem skipHalf_lt {R : Type} [LinearOrderedField R] (tagBits : Nat) (itag jtag : Int)
    (h : itag < jtag) (xtmp ytmp ztmp : R) (xj : Nat → R) :
    PairNNPCoulCut.skipHalf tagBits itag jtag xtmp ytmp ztmp xj
      = decide (Int.tmod (wrapTag tagBits (itag + jtag)) 2 = 1) := by
  unfold PairNNPCoulCut.skipHalf
  rw [if_neg (by omega), if_pos h]
  by_cases h2 : Int.tmod (wrapTag tagBits (itag + jtag)) 2 = 1 <;> simp [h2]

/-- Where the sum of the two tags is representable (`s + t < 2^(tagBits-1)`),
exactly one direction of a pair with distinct positive tags passes the test. -/
theorem skipHalf_exactly_one {R : Type} [LinearOrderedField R] (tagBits : Nat)
    (hb : 0 < tagBits) (s t : Int) (hs : 0 < s)
    (ht : 0 < t) (hst : s ≠ t) (hsum : s + t < 2 ^ (tagBits - 1)) (xs xt : Nat → R) :
    (PairNNPCoulCut.skipHalf tagBits s t (xs 0) (xs 1) (xs 2) xt = false
        ∧ PairNNPCoulCut.skipHalf tagBits t s (xt 0) (xt 1) (xt 2) xs = true)
      ∨ (PairNNPCoulCut.skipHalf tagBits s t (xs 0) (xs 1) (xs 2) xt = true
        ∧ PairNNPCoulCut.skipHalf tagBits t s (xt 0) (xt 1) (xt 2) xs = false) := by
  have hw := wrapTag_of_inRange tagBits hb (s + t) (by omega) hsum
  have hp := tmod_two_of_pos (s + t) (by omega)
  have hc : t + s = s + t := add_comm t s
  rcases lt_or_gt_of_ne hst with h | h
  · rw [skipHalf_lt tagBits s t h, skipHalf_gt tagBits t s h, hc, hw]
    rcases hp with h0 | h1
    · left
      simp [h0]
    · right
      simp [h1]
  · rw [skipHalf_gt tagBits s t h, skipHalf_lt tagBits t s h, hc, hw]
    rcases hp with h0 | h1
    · right
      simp [h0]
    · left
      simp [h1]

theorem computePair_skipped {R : Type} [LinearOrderedField R] (tagBits : Nat) (c : CoulFns R)
    (cutcoul rcut qqrd2e : R) (eflag : Int) (itag jtag : Int) (xi : Nat → R) (qtmp : R)
    (xj : Nat → R) (qj factor_coul : R) (posNeighbor frc : Nat → R)
    (h : PairNNPCoulCut.skipHalf tagBits itag jtag (xi 0) (xi 1) (xi 2) xj = true) :
    PairNNPCoulCut.computePair tagBits c cutcoul rcut qqrd2e eflag itag jtag xi qtmp xj qj
      factor_coul posNeighbor frc 0 = -1 := by
  unfold PairNNPCoulCut.computePair
  simp only [h, if_true]
  simp [setIdx]

theorem computePair_passed {R : Type} [LinearOrderedField R] (tagBits : Nat) (c : CoulFns R)
    (cutcoul rcut qqrd2e : R) (eflag : Int) (itag jtag : Int) (xi : Nat → R) (qtmp : R)
    (xj : Nat → R) (qj factor_coul : R) (posNeighbor frc : Nat → R)
    (h : PairNNPCoulCut.skipHalf tagBits itag jtag (xi 0) (xi 1) (xi 2) xj = false) :
    PairNNPCoulCut.computePair tagBits c cutcoul rcut qqrd2e eflag itag jtag xi qtmp xj qj
      factor_coul posNeighbor frc 0
      = if 0 < posNeighbor 0 ∧ posNeighbor 0 < cutcoul then 1 else -1 := by
  unfold PairNNPCoulCut.computePair
  simp only [h, Bool.false_eq_true, if_false]
  split_ifs <;> simp [setIdx]

theorem tallyPair_unflagged {R : Type} [LinearOrderedField R] (evflag : Int) (i j : Nat)
    (posNeighbor frc : Nat → R) (f : Nat → Nat → R) (h : frc 0 = -1) :
    PairNNPCoulCut.tallyPair evflag i j posNeighbor frc f = (f, none) := by
  unfold PairNNPCoulCut.tallyPair
  rw [if_neg]
  rw [h]
  norm_num

theorem tallyPair_flagged {R : Type} [LinearOrderedField R] (evflag : Int) (he : evflag ≠ 0)
    (i j : Nat) (posNeighbor frc : Nat → R) (f : Nat → Nat → R) (h : frc 0 = 1) :
    (PairNNPCoulCut.tallyPair evflag i j posNeighbor frc f).2
      = some (frc 1, frc 2, -posNeighbor 1, -posNeighbor 2, -posNeighbor 3) := by
  unfold PairNNPCoulCut.tallyPair
  rw [if_pos (by rw [h]; exact one_pos)]
  simp [he]

theorem skipHalf_wraps_32 {R : Type} [LinearOrderedField R] (xs xt : Nat → R) :
    PairNNPCoulCut.skipHalf 32 1073741824 1073741825 (xs 0) (xs 1) (xs 2) xt = false
      ∧ PairNNPCoulCut.skipHalf 32 1073741825 1073741824 (xt 0) (xt 1) (xt 2) xs = false := by
  constructor
  · rw [skipHalf_lt 32 _ _ (by decide)]
    decide
  · rw [skipHalf_gt 32 _ _ (by decide)]
    decide

/-- C22 (Coulomb pair halving), the code at a failing input: with a 32-bit
`tagint`, take two atoms with the distinct positive tags `1073741824` and
`1073741825` at distance `1 < cutcoul = 10`.  The sum of the tags wraps to
`-2147483647`, whose C remainder by 2 is `-1`, so neither `== 0` (line 89) nor
`== 1` (line 91) holds: the skip rule passes the pair in both directions, the
first pass flags both entries with `1`, and the second pass calls `ev_tally`
for both.  The pair's energy and force are recorded twice. -/
theorem coulomb_pair_double_counted (c : CoulFns ℝ) (rcut qqrd2e qs qt factor1 factor2 : ℝ)
    (xs xt frc1 frc2 : Nat → ℝ) (i j : Nat) (f : Nat → Nat → ℝ) :
    wrapTag 32 (1073741824 + 1073741825) = -2147483647
      ∧ Int.tmod (-2147483647) 2 = -1
      ∧ PairNNPCoulCut.skipHalf 32 1073741824 1073741825 (xs 0) (xs 1) (xs 2) xt = false
      ∧ PairNNPCoulCut.skipHalf 32 1073741825 1073741824 (xt 0) (xt 1) (xt 2) xs = false
      ∧ PairNNPCoulCut.computePair 32 c 10 rcut qqrd2e 1 1073741824 1073741825 xs qs xt qt
          factor1 (fun _ => 1) frc1 0 = 1
      ∧ PairNNPCoulCut.computePair 32 c 10 rcut qqrd2e 1 1073741825 1073741824 xt qt xs qs
          factor2 (fun _ => 1) frc2 0 = 1
      ∧ (PairNNPCoulCut.tallyPair 1 i j (fun _ => 1)
          (PairNNPCoulCut.computePair 32 c 10 rcut qqrd2e 1 1073741824 1073741825 xs qs xt qt
            factor1 (fun _ => 1) frc1) f).2 ≠ none
      ∧ (PairNNPCoulCut.tallyPair 1 j i (fun _ => 1)
          (PairNNPCoulCut.computePair 32 c 10 rcut qqrd2e 1 1073741825 1073741824 xt qt xs qs
            factor2 (fun _ => 1) frc2) f).2 ≠ none := by
  obtain ⟨h1, h2⟩ := skipHalf_wraps_32 xs xt
  have e1 := computePair_passed 32 c 10 rcut qqrd2e 1 1073741824 1073741825 xs qs xt qt
    factor1 (fun _ => 1) frc1 h1
  have e2 := computePair_passed 32 c 10 rcut qqrd2e 1 1073741825 1073741824 xt qt xs qs
    factor2 (fun _ => 1) frc2 h2
  have hr : (0 : ℝ) < 1 ∧ (1 : ℝ) < 10 := ⟨one_pos, by norm_num⟩
  rw [if_pos hr] at e1 e2
  refine ⟨by decide, by decide, h1, h2, e1, e2, ?_, ?_⟩
  · rw [tallyPair_flagged 1 (by decide) i j _ _ f e1]
    exact Option.some_ne_none _
  · rw [tallyPair_flagged 1 (by decide) j i _ _ f e2]
    exact Option.some_ne_none _

/-! ## The angular jacobian entries returned by calculate -/

theorem angular_column_neighbor {R : Type} [LinearOrderedField R] (t : AngTerm R)
    (i j1 j2 a : Nat) (ha : a < 3) :
    (if 3 * ((i : Int) + 1) + (a : Int) = 0 then -(t.dgdx1 + t.dgdx2) else 0)
        + (if 3 * ((i : Int) + 1) + (a : Int) = 1 then -(t.dgdy1 + t.dgdy2) else 0)
        + (if 3 * ((i : Int) + 1) + (a : Int) = 2 then -(t.dgdz1 + t.dgdz2) else 0)
        + (if 3 * ((i : Int) + 1) + (a : Int) = 3 * ((j1 : Int) + 1) + 0 then t.dgdx1 else 0)
        + (if 3 * ((i : Int) + 1) + (a : Int) = 3 * ((j1 : Int) + 1) + 1 then t.dgdy1 else 0)
        + (if 3 * ((i : Int) + 1) + (a : Int) = 3 * ((j1 : Int) + 1) + 2 then t.dgdz1 else 0)
        + (if 3 * ((i : Int) + 1) + (a : Int) = 3 * ((j2 : Int) + 1) + 0 then t.dgdx2 else 0)
        + (if 3 * ((i : Int) + 1) + (a : Int) = 3 * ((j2 : Int) + 1) + 1 then t.dgdy2 else 0)
        + (if 3 * ((i : Int) + 1) + (a : Int) = 3 * ((j2 : Int) + 1) + 2 then t.dgdz2 else 0)
      = (if j1 = i then t.grad1 a else 0) + (if j2 = i then t.grad2 a else 0) := by
  have n0 : ∀ z : Int, z < 3 → ¬ (3 * ((i : Int) + 1) + (a : Int) = z) :=
    fun z _ h => by omega
  have k1 : ∀ z : Nat, z < 3 →
      ((3 * ((i : Int) + 1) + (a : Int) = 3 * ((j1 : Int) + 1) + (z : Int)) ↔ (j1 = i ∧ z = a)) :=
    fun z _ => ⟨fun h => ⟨by omega, by omega⟩, fun h => by omega⟩
  have k2 : ∀ z : Nat, z < 3 →
      ((3 * ((i : Int) + 1) + (a : Int) = 3 * ((j2 : Int) + 1) + (z : Int)) ↔ (j2 = i ∧ z = a)) :=
    fun z _ => ⟨fun h => ⟨by omega, by omega⟩, fun h => by omega⟩
  have a0 := k1 0 (by decide)
  have a1 := k1 1 (by decide)
  have a2 := k1 2 (by decide)
  have b0 := k2 0 (by decide)
  have b1 := k2 1 (by decide)
  have b2 := k2 2 (by decide)
  simp only [Nat.cast_zero, Nat.cast_one, Nat.cast_ofNat] at a0 a1 a2 b0 b1 b2
  rw [if_neg (n0 0 (by decide)), if_neg (n0 1 (by decide)), if_neg (n0 2 (by decide))]
  simp only [a0, a1, a2, b0, b1, b2, AngTerm.grad1, AngTerm.grad2]
  by_cases h1 : j1 = i <;> by_cases h2 : j2 = i <;>
    rcases (show a = 0 ∨ a = 1 ∨ a = 2 by omega) with h | h | h <;> subst h <;>
    simp [h1, h2]

theorem angular_block_entry {R : Type} [LinearOrderedField R] (m : MathFns R)
    (self : SymmFuncBehler R) (w : WellFormed self) (n : Nat) (pos : Nat → Nat → R)
    (elem : Nat → Int) (hel : ∀ i : Nat, i < n → 0 ≤ elem i ∧ elem i < self.numElems)
    (o : Out R) (e1 e2 : Int) (h0 : 0 ≤ e1) (h12 : e1 ≤ e2) (he2 : e2 < self.numElems)
    (l k i a : Nat) (hl : l < 2) (hk : k < self.sizeAng.toNat) (hi : i < n) (ha : a < 3) :
    (calculateBody m self (n : Int) pos elem o).symmDiff
        (self.numRadBasis + (k : Int) + (l : Int) * self.sizeAng
          + (e1 + Int.tdiv (e2 * (e2 + 1)) 2) * 2 * self.sizeAng
          + (3 * ((i : Int) + 1) + (a : Int)) * self.numBasis)
      = ∑ j2 in Finset.range n, ∑ j1 in Finset.range n,
          if pairSkipped elem j1 j2 = false ∧ elem j1 = e1 ∧ elem j2 = e2
              ∧ ¬ chi0At pos j1 j2 l < chi0_thr then
            (if j1 = i then (angularTermAt m self pos j1 j2 l k).grad1 a else 0)
              + (if j2 = i then (angularTermAt m self pos j1 j2 l k).grad2 a else 0)
          else 0 := by
  obtain ⟨s0, s1, s2⟩ := angular_slot_bounds self w e1 e2 h0 h12 he2 l k hl hk
  have hkk : (k : Int) < self.sizeAng := by omega
  rw [calculateBody_symmDiff,
    zeroInit_symmDiff_inRange self _ _ _ _ (by omega) s1 (by omega) (by omega),
    radialDiffSum_row_above m self w n pos elem hel _ _ s0 s1, zero_add, zero_add]
  unfold angularDiffSumOpt
  refine Finset.sum_congr rfl (fun j2 hj2 => Finset.sum_congr rfl (fun j1 hj1 => ?_))
  rw [Finset.mem_range] at hj1 hj2
  cases hsk : pairSkipped elem j1 j2
  · simp only [Bool.false_eq_true, if_false, true_and]
    have hle : elem j1 ≤ elem j2 := by
      rcases not_pairSkipped elem j1 j2 hsk with h | h <;> omega
    have term : ∀ l2 k2 : Nat, l2 < 2 → k2 < self.sizeAng.toNat →
        angularDelta m self pos elem j1 j2 l2 k2
          (self.numRadBasis + (k : Int) + (l : Int) * self.sizeAng
            + (e1 + Int.tdiv (e2 * (e2 + 1)) 2) * 2 * self.sizeAng
            + (3 * ((i : Int) + 1) + (a : Int)) * self.numBasis)
        = if k2 = k ∧ l2 = l ∧ elem j1 = e1 ∧ elem j2 = e2 then
            (if j1 = i then (angularTermAt m self pos j1 j2 l k).grad1 a else 0)
              + (if j2 = i then (angularTermAt m self pos j1 j2 l k).grad2 a else 0)
          else 0 := by
      intro l2 k2 hl2 hk2
      obtain ⟨t0, t1, -⟩ := angular_slot_bounds self w _ _ (hel j1 hj1).1 hle (hel j2 hj2).2
        l2 k2 hl2 hk2
      have hiff := angular_slot_inj self.numRadBasis self.sizeAng k k2 l l2 e1 e2
        (elem j1) (elem j2) hkk (by omega) hl hl2 h0 h12 (hel j1 hj1).1 hle
      have hslot : (self.numRadBasis + (k : Int) + (l : Int) * self.sizeAng
            + (e1 + Int.tdiv (e2 * (e2 + 1)) 2) * 2 * self.sizeAng
            = angularSlot self elem j1 j2 l2 k2)
          ↔ (k2 = k ∧ l2 = l ∧ elem j1 = e1 ∧ elem j2 = e2) := by
        unfold angularSlot
        exact hiff
      have u0 : 0 ≤ angularSlot self elem j1 j2 l2 k2 := by
        unfold angularSlot
        omega
      have u1 : angularSlot self elem j1 j2 l2 k2 < self.numBasis := by
        unfold angularSlot
        exact t1
      rw [angularDelta_at m self pos elem j1 j2 l2 k2 _ _ (by omega) s1 u0 u1]
      by_cases hq : k2 = k ∧ l2 = l ∧ elem j1 = e1 ∧ elem j2 = e2
      · rw [if_pos (hslot.mpr hq), if_pos hq]
        obtain ⟨q1, q2, -, -⟩ := hq
        rw [q1, q2]
        exact angular_column_neighbor _ i j1 j2 a ha
      · rw [if_neg (fun hh => hq (hslot.mp hh)), if_neg hq]
    have inner : ∀ l2 : Nat, l2 < 2 →
        (∑ k2 in Finset.range self.sizeAng.toNat,
          angularDelta m self pos elem j1 j2 l2 k2
            (self.numRadBasis + (k : Int) + (l : Int) * self.sizeAng
              + (e1 + Int.tdiv (e2 * (e2 + 1)) 2) * 2 * self.sizeAng
              + (3 * ((i : Int) + 1) + (a : Int)) * self.numBasis))
        = if l2 = l ∧ elem j1 = e1 ∧ elem j2 = e2 then
            (if j1 = i then (angularTermAt m self pos j1 j2 l k).grad1 a else 0)
              + (if j2 = i then (angularTermAt m self pos j1 j2 l k).grad2 a else 0)
          else 0 := by
      intro l2 hl2
      rw [Finset.sum_eq_single k]
      · rw [term l2 k hl2 hk]
        simp only [true_and]
      · intro k2 hk2 hne
        rw [Finset.mem_range] at hk2
        have p1 : ¬ (k2 = k ∧ l2 = l ∧ elem j1 = e1 ∧ elem j2 = e2) := fun hh => hne hh.1
        rw [term l2 k2 hl2 hk2, if_neg p1]
      · intro hh
        exact absurd (Finset.mem_range.mpr hk) hh
    rw [Finset.sum_eq_single l]
    · rw [inner l hl]
      by_cases hc : chi0At pos j1 j2 l < chi0_thr
      · have hn : ¬ (elem j1 = e1 ∧ elem j2 = e2 ∧ ¬ chi0At pos j1 j2 l < chi0_thr) :=
          fun hh => hh.2.2 hc
        rw [if_pos hc, if_neg hn]
      · rw [if_neg hc]
        by_cases hq : elem j1 = e1 ∧ elem j2 = e2
        · have p1 : l = l ∧ elem j1 = e1 ∧ elem j2 = e2 := ⟨rfl, hq⟩
          have p2 : elem j1 = e1 ∧ elem j2 = e2 ∧ ¬ chi0At pos j1 j2 l < chi0_thr :=
            ⟨hq.1, hq.2, hc⟩
          rw [if_pos p1, if_pos p2]
        · have p1 : ¬ (l = l ∧ elem j1 = e1 ∧ elem j2 = e2) := fun hh => hq hh.2
          have p2 : ¬ (elem j1 = e1 ∧ elem j2 = e2 ∧ ¬ chi0At pos j1 j2 l < chi0_thr) :=
            fun hh => hq ⟨hh.1, hh.2.1⟩
          rw [if_neg p1, if_neg p2]
    · intro l2 hl2 hne
      rw [Finset.mem_range] at hl2
      have p1 : ¬ (l2 = l ∧ elem j1 = e1 ∧ elem j2 = e2) := fun hh => hne hh.1
      rw [inner l2 hl2, if_neg p1, ite_self]
    · intro hh
      exact absurd (Finset.mem_range.mpr hl) hh
  · simp

theorem pair_sum_only {M : Type} [AddCommMonoid M] (F : Nat → Nat → M) (n i1 i2 : Nat)
    (hi1 : i1 < n) (hi2 : i2 < n) (honly : ∀ j : Nat, j < n → j = i1 ∨ j = i2)
    (h11 : F i1 i1 = 0) (h22 : F i2 i2 = 0) (h21 : i1 ≠ i2 → F i2 i1 = 0) :
    ∑ j2 in Finset.range n, ∑ j1 in Finset.range n, F j1 j2 = F i1 i2 := by
  by_cases he : i1 = i2
  · subst he
    rw [h11]
    refine Finset.sum_eq_zero (fun j2 hj2 => Finset.sum_eq_zero (fun j1 hj1 => ?_))
    rw [Finset.mem_range] at hj1 hj2
    have e1 : j1 = i1 := by rcases honly j1 hj1 with h | h <;> exact h
    have e2 : j2 = i1 := by rcases honly j2 hj2 with h | h <;> exact h
    rw [e1, e2, h11]
  · rw [Finset.sum_eq_single i2, Finset.sum_eq_single i1]
    · intro j1 hj1 hne
      rw [Finset.mem_range] at hj1
      have e1 : j1 = i2 := by rcases honly j1 hj1 with h | h; exact absurd h hne; exact h
      rw [e1, h22]
    · intro hh
      exact absurd (Finset.mem_range.mpr hi1) hh
    · intro j2 hj2 hne
      rw [Finset.mem_range] at hj2
      have e2 : j2 = i1 := by rcases honly j2 hj2 with h | h; exact h; exact absurd h hne
      refine Finset.sum_eq_zero (fun j1 hj1 => ?_)
      rw [Finset.mem_range] at hj1
      rcases honly j1 hj1 with h | h
      · rw [h, e2, h11]
      · rw [h, e2, h21 he]
    · intro hh
      exact absurd (Finset.mem_range.mpr hi2) hh

/-- C5 (angular gradient is the true derivative): for an object returned by the
constructor, a list of `n` neighbors with element indices in range and two of
its neighbors `i1`, `i2` that pass the canonical pair rule, with non-zero
distances `r = |p|`, a branch `lambda` with `1 + lambda*cos(theta) > 1e-6` and a
mode `k`: `calculate` succeeds and the entry of the returned jacobian in the
angular slot of the pair and the block of `i1` (of `i2`), axis `a`, is the sum,
over the accepted and not skipped pairs of that slot, of the values `dgd*1`
and `dgd*2` of the pairs that contain `i1` (`i2`); when the list consists of
these two neighbors the entries are the six values `dgdx1..dgdz2` themselves.
These six values are the partial derivatives, with respect to the components
of `p1` and `p2`, of
`G(p1,p2) = 2^(1-zeta_k) * (1 + lambda*(p1.p2)/(|p1||p2|))^zeta_k
  * exp(-eta_k*(|p1|^2+|p2|^2)) * tanh(1-|p1|/Rc)^3 * tanh(1-|p2|/Rc)^3`,
so in the two-neighbor list the jacobian entries are these derivatives.  The
loop body adds `dgd*1` to block `i1` and `dgd*2` to block `i2`, and
`dpsidx1 = x2/(r1*r2) - cos*x1/r1^2` is the partial derivative of `cos(theta)`
with respect to `x1`. -/
theorem angular_gradient_is_derivative (numElems sizeRad sizeAng : Int) (radiusCut : ℝ)
    (radiusEta radiusShift : Option (Nat → ℝ)) (angleEta angleZeta : Nat → ℝ)
    (self : SymmFuncBehler ℝ)
    (hself : SymmFuncBehler.SymmFuncBehler numElems sizeRad sizeAng radiusCut
      radiusEta radiusShift (some angleEta) (some angleZeta) = .ok self)
    (n : Nat) (pos : Nat → Nat → ℝ) (elem : Nat → Int)
    (hel : ∀ i : Nat, i < n → 0 ≤ elem i ∧ elem i < numElems)
    (i1 i2 : Nat) (hi1 : i1 < n) (hi2 : i2 < n)
    (hpair : pairSkipped elem i1 i2 = false)
    (hr1 : pos i1 0 = Real.sqrt (pos i1 1 ^ 2 + pos i1 2 ^ 2 + pos i1 3 ^ 2) ∧ pos i1 0 ≠ 0)
    (hr2 : pos i2 0 = Real.sqrt (pos i2 1 ^ 2 + pos i2 2 ^ 2 + pos i2 3 ^ 2) ∧ pos i2 0 ≠ 0)
    (l : Nat) (hl : l < 2) (k : Nat) (hk : (k : Int) < sizeAng)
    (hchi : 1 / 1000000 < 1 + (if l = 0 then 1 else -1)
      * ((pos i1 1 * pos i2 1 + pos i1 2 * pos i2 2 + pos i1 3 * pos i2 3)
          / (pos i1 0 * pos i2 0)))
    (d0 f0 : Int → ℝ) :
    (∃ data diff : Int → ℝ,
      SymmFuncBehler.calculate ⟨Real.tanh, Real.exp, Real.rpow⟩ (n : Int) (some pos) (some elem)
          { self := self, symmData := some d0, symmDiff := some f0 }
        = (.ok (), { self := self, symmData := some data, symmDiff := some diff }) ∧
      (∀ a : Nat, a < 3 →
        diff (angularSlot self elem i1 i2 l k
              + (3 * ((i1 : Int) + 1) + (a : Int)) * self.numBasis)
          = (∑ j2 in Finset.range n, ∑ j1 in Finset.range n,
              if pairSkipped elem j1 j2 = false ∧ elem j1 = elem i1 ∧ elem j2 = elem i2
                  ∧ ¬ chi0At pos j1 j2 l < chi0_thr then
                (if j1 = i1 then (angularTermAt ⟨Real.tanh, Real.exp, Real.rpow⟩ self pos j1 j2 l k).grad1 a else 0)
                  + (if j2 = i1 then (angularTermAt ⟨Real.tanh, Real.exp, Real.rpow⟩ self pos j1 j2 l k).grad2 a else 0)
              else 0)
        ∧ diff (angularSlot self elem i1 i2 l k
              + (3 * ((i2 : Int) + 1) + (a : Int)) * self.numBasis)
          = (∑ j2 in Finset.range n, ∑ j1 in Finset.range n,
              if pairSkipped elem j1 j2 = false ∧ elem j1 = elem i1 ∧ elem j2 = elem i2
                  ∧ ¬ chi0At pos j1 j2 l < chi0_thr then
                (if j1 = i2 then (angularTermAt ⟨Real.tanh, Real.exp, Real.rpow⟩ self pos j1 j2 l k).grad1 a else 0)
                  + (if j2 = i2 then (angularTermAt ⟨Real.tanh, Real.exp, Real.rpow⟩ self pos j1 j2 l k).grad2 a else 0)
              else 0)) ∧
      ((∀ j : Nat, j < n → j = i1 ∨ j = i2) → ∀ a : Nat, a < 3 →
        diff (angularSlot self elem i1 i2 l k
              + (3 * ((i1 : Int) + 1) + (a : Int)) * self.numBasis)
          = (angularTermAt ⟨Real.tanh, Real.exp, Real.rpow⟩ self pos i1 i2 l k).grad1 a
        ∧ diff (angularSlot self elem i1 i2 l k
              + (3 * ((i2 : Int) + 1) + (a : Int)) * self.numBasis)
          = (angularTermAt ⟨Real.tanh, Real.exp, Real.rpow⟩ self pos i1 i2 l k).grad2 a
        ∧ HasDerivAt (fun u : ℝ =>
            (2 : ℝ) ^ (1 - angleZeta k)
              * (1 + (if l = 0 then 1 else -1)
                  * (((if a = 0 then u else pos i1 1) * pos i2 1
                        + (if a = 1 then u else pos i1 2) * pos i2 2
                        + (if a = 2 then u else pos i1 3) * pos i2 3)
                      / (Real.sqrt ((if a = 0 then u else pos i1 1) ^ 2
                          + (if a = 1 then u else pos i1 2) ^ 2
                          + (if a = 2 then u else pos i1 3) ^ 2) * pos i2 0))) ^ angleZeta k
              * Real.exp (-(angleEta k) * (Real.sqrt ((if a = 0 then u else pos i1 1) ^ 2
                  + (if a = 1 then u else pos i1 2) ^ 2
                  + (if a = 2 then u else pos i1 3) ^ 2) ^ 2 + pos i2 0 ^ 2))
              * Real.tanh (1 - Real.sqrt ((if a = 0 then u else pos i1 1) ^ 2
                  + (if a = 1 then u else pos i1 2) ^ 2
                  + (if a = 2 then u else pos i1 3) ^ 2) / radiusCut) ^ 3
              * Real.tanh (1 - pos i2 0 / radiusCut) ^ 3)
          (diff (angularSlot self elem i1 i2 l k
              + (3 * ((i1 : Int) + 1) + (a : Int)) * self.numBasis)) (pos i1 (a + 1))
        ∧ HasDerivAt (fun u : ℝ =>
            (2 : ℝ) ^ (1 - angleZeta k)
              * (1 + (if l = 0 then 1 else -1)
                  * ((pos i1 1 * (if a = 0 then u else pos i2 1)
                        + pos i1 2 * (if a = 1 then u else pos i2 2)
                        + pos i1 3 * (if a = 2 then u else pos i2 3))
                      / (pos i1 0 * Real.sqrt ((if a = 0 then u else pos i2 1) ^ 2
                          + (if a = 1 then u else pos i2 2) ^ 2
                          + (if a = 2 then u else pos i2 3) ^ 2)))) ^ angleZeta k
              * Real.exp (-(angleEta k) * (pos i1 0 ^ 2
                  + Real.sqrt ((if a = 0 then u else pos i2 1) ^ 2
                    + (if a = 1 then u else pos i2 2) ^ 2
                    + (if a = 2 then u else pos i2 3) ^ 2) ^ 2))
              * Real.tanh (1 - pos i1 0 / radiusCut) ^ 3
              * Real.tanh (1 - Real.sqrt ((if a = 0 then u else pos i2 1) ^ 2
                  + (if a = 1 then u else pos i2 2) ^ 2
                  + (if a = 2 then u else pos i2 3) ^ 2) / radiusCut) ^ 3)
          (diff (angularSlot self elem i1 i2 l k
              + (3 * ((i2 : Int) + 1) + (a : Int)) * self.numBasis)) (pos i2 (a + 1)))) ∧
    (∀ (o : Out ℝ) (a : Nat), a < 3 →
      (angularMode ⟨Real.tanh, Real.exp, Real.rpow⟩ self pos elem i2 i1 l o k).symmDiff
          (angularSlot self elem i1 i2 l k
            + (3 * ((i1 : Int) + 1) + (a : Int)) * self.numBasis)
        = o.symmDiff (angularSlot self elem i1 i2 l k
            + (3 * ((i1 : Int) + 1) + (a : Int)) * self.numBasis)
          + (angularTermAt ⟨Real.tanh, Real.exp, Real.rpow⟩ self pos i1 i2 l k).grad1 a ∧
      (angularMode ⟨Real.tanh, Real.exp, Real.rpow⟩ self pos elem i2 i1 l o k).symmDiff
          (angularSlot self elem i1 i2 l k
            + (3 * ((i2 : Int) + 1) + (a : Int)) * self.numBasis)
        = o.symmDiff (angularSlot self elem i1 i2 l k
            + (3 * ((i2 : Int) + 1) + (a : Int)) * self.numBasis)
          + (angularTermAt ⟨Real.tanh, Real.exp, Real.rpow⟩ self pos i1 i2 l k).grad2 a) ∧
    (∀ a : Nat, a < 3 →
      HasDerivAt (fun u : ℝ =>
            (2 : ℝ) ^ (1 - angleZeta k)
              * (1 + (if l = 0 then 1 else -1)
                  * (((if a = 0 then u else pos i1 1) * pos i2 1
                        + (if a = 1 then u else pos i1 2) * pos i2 2
                        + (if a = 2 then u else pos i1 3) * pos i2 3)
                      / (Real.sqrt ((if a = 0 then u else pos i1 1) ^ 2
                          + (if a = 1 then u else pos i1 2) ^ 2
                          + (if a = 2 then u else pos i1 3) ^ 2) * pos i2 0))) ^ angleZeta k
              * Real.exp (-(angleEta k) * (Real.sqrt ((if a = 0 then u else pos i1 1) ^ 2
                  + (if a = 1 then u else pos i1 2) ^ 2
                  + (if a = 2 then u else pos i1 3) ^ 2) ^ 2 + pos i2 0 ^ 2))
              * Real.tanh (1 - Real.sqrt ((if a = 0 then u else pos i1 1) ^ 2
                  + (if a = 1 then u else pos i1 2) ^ 2
                  + (if a = 2 then u else pos i1 3) ^ 2) / radiusCut) ^ 3
              * Real.tanh (1 - pos i2 0 / radiusCut) ^ 3)
        ((angularTermAt ⟨Real.tanh, Real.exp, Real.rpow⟩ self pos i1 i2 l k).grad1 a)
        (pos i1 (a + 1))) ∧
    (∀ a : Nat, a < 3 →
      HasDerivAt (fun u : ℝ =>
            (2 : ℝ) ^ (1 - angleZeta k)
              * (1 + (if l = 0 then 1 else -1)
                  * ((pos i1 1 * (if a = 0 then u else pos i2 1)
                        + pos i1 2 * (if a = 1 then u else pos i2 2)
                        + pos i1 3 * (if a = 2 then u else pos i2 3))
                      / (pos i1 0 * Real.sqrt ((if a = 0 then u else pos i2 1) ^ 2
                          + (if a = 1 then u else pos i2 2) ^ 2
                          + (if a = 2 then u else pos i2 3) ^ 2)))) ^ angleZeta k
              * Real.exp (-(angleEta k) * (pos i1 0 ^ 2
                  + Real.sqrt ((if a = 0 then u else pos i2 1) ^ 2
                    + (if a = 1 then u else pos i2 2) ^ 2
                    + (if a = 2 then u else pos i2 3) ^ 2) ^ 2))
              * Real.tanh (1 - pos i1 0 / radiusCut) ^ 3
              * Real.tanh (1 - Real.sqrt ((if a = 0 then u else pos i2 1) ^ 2
                  + (if a = 1 then u else pos i2 2) ^ 2
                  + (if a = 2 then u else pos i2 3) ^ 2) / radiusCut) ^ 3)
        ((angularTermAt ⟨Real.tanh, Real.exp, Real.rpow⟩ self pos i1 i2 l k).grad2 a)
        (pos i2 (a + 1))) ∧
    (dpsiOf (pos i1 0) (pos i1 1) (pos i1 2) (pos i1 3)
        (pos i2 0) (pos i2 1) (pos i2 2) (pos i2 3)).1
      = pos i2 1 / (pos i1 0 * pos i2 0)
        - (pos i1 1 * pos i2 1 + pos i1 2 * pos i2 2 + pos i1 3 * pos i2 3)
            / (pos i1 0 * pos i2 0) * pos i1 1 / pos i1 0 ^ 2 ∧
    HasDerivAt (fun u : ℝ => (u * pos i2 1 + pos i1 2 * pos i2 2 + pos i1 3 * pos i2 3)
        / (Real.sqrt (u ^ 2 + pos i1 2 ^ 2 + pos i1 3 ^ 2) * pos i2 0))
      (dpsiOf (pos i1 0) (pos i1 1) (pos i1 2) (pos i1 3)
        (pos i2 0) (pos i2 1) (pos i2 2) (pos i2 3)).1 (pos i1 1) := by
  have w := wellFormed_of_construct _ _ _ _ _ _ _ _ _ hself
  have hs := (construct_ok _ _ _ _ _ _ _ _ _ hself).2
  have hne : self.numElems = numElems := by rw [hs]
  have hsa : self.sizeAng = sizeAng := by rw [hs]
  have hrc : self.radiusCut = radiusCut := by rw [hs]
  have hEta : self.angleEta = some angleEta := by rw [hs]
  have hZeta : self.angleZeta = some angleZeta := by rw [hs]
  have hel2 : ∀ i : Nat, i < n → 0 ≤ elem i ∧ elem i < self.numElems :=
    fun i hi => by rw [hne]; exact hel i hi
  have hcanon := not_pairSkipped elem i1 i2 hpair
  have hle : elem i1 ≤ elem i2 := by rcases hcanon with h | h <;> omega
  have h12 : i1 ≠ i2 := by
    intro heq
    rw [heq] at hcanon
    rcases hcanon with h | h <;> omega
  have hkn : k < self.sizeAng.toNat := by omega
  obtain ⟨b0, b1, b2⟩ := angular_slot_bounds self w _ _ (hel2 i1 hi1).1 hle (hel2 i2 hi2).2 l k
    hl hkn
  have hN : self.numBasis ≠ 0 := by omega
  have hchi0 : 0 < 1 + (if l = 0 then 1 else -1)
      * ((pos i1 1 * pos i2 1 + pos i1 2 * pos i2 2 + pos i1 3 * pos i2 3)
          / (pos i1 0 * pos i2 0)) := lt_trans (by norm_num) hchi
  have hthr : ¬ chi0At pos i1 i2 l < chi0_thr := by
    unfold chi0At lambdaOf chi0_thr
    rw [psiOf_eq]
    exact not_lt.mpr (le_of_lt hchi)
  have hD1 : ∀ a : Nat, a < 3 →
      HasDerivAt (fun u : ℝ =>
            (2 : ℝ) ^ (1 - angleZeta k)
              * (1 + (if l = 0 then 1 else -1)
                  * (((if a = 0 then u else pos i1 1) * pos i2 1
                        + (if a = 1 then u else pos i1 2) * pos i2 2
                        + (if a = 2 then u else pos i1 3) * pos i2 3)
                      / (Real.sqrt ((if a = 0 then u else pos i1 1) ^ 2
                          + (if a = 1 then u else pos i1 2) ^ 2
                          + (if a = 2 then u else pos i1 3) ^ 2) * pos i2 0))) ^ angleZeta k
              * Real.exp (-(angleEta k) * (Real.sqrt ((if a = 0 then u else pos i1 1) ^ 2
                  + (if a = 1 then u else pos i1 2) ^ 2
                  + (if a = 2 then u else pos i1 3) ^ 2) ^ 2 + pos i2 0 ^ 2))
              * Real.tanh (1 - Real.sqrt ((if a = 0 then u else pos i1 1) ^ 2
                  + (if a = 1 then u else pos i1 2) ^ 2
                  + (if a = 2 then u else pos i1 3) ^ 2) / radiusCut) ^ 3
              * Real.tanh (1 - pos i2 0 / radiusCut) ^ 3)
        ((angularTermAt ⟨Real.tanh, Real.exp, Real.rpow⟩ self pos i1 i2 l k).grad1 a)
        (pos i1 (a + 1)) := by
    intro a ha
    rw [← axisCoord_eq (pos i1) a ha, ← hrc]
    exact hasDerivAt_angular_neighbor1 self angleEta angleZeta hEta hZeta _ _ _ _ _ _ _ _ l k a
      ha hr1.1 hr1.2 hr2.2 hchi0
  have hD2 : ∀ a : Nat, a < 3 →
      HasDerivAt (fun u : ℝ =>
            (2 : ℝ) ^ (1 - angleZeta k)
              * (1 + (if l = 0 then 1 else -1)
                  * ((pos i1 1 * (if a = 0 then u else pos i2 1)
                        + pos i1 2 * (if a = 1 then u else pos i2 2)
                        + pos i1 3 * (if a = 2 then u else pos i2 3))
                      / (pos i1 0 * Real.sqrt ((if a = 0 then u else pos i2 1) ^ 2
                          + (if a = 1 then u else pos i2 2) ^ 2
                          + (if a = 2 then u else pos i2 3) ^ 2)))) ^ angleZeta k
              * Real.exp (-(angleEta k) * (pos i1 0 ^ 2
                  + Real.sqrt ((if a = 0 then u else pos i2 1) ^ 2
                    + (if a = 1 then u else pos i2 2) ^ 2
                    + (if a = 2 then u else pos i2 3) ^ 2) ^ 2))
              * Real.tanh (1 - pos i1 0 / radiusCut) ^ 3
              * Real.tanh (1 - Real.sqrt ((if a = 0 then u else pos i2 1) ^ 2
                  + (if a = 1 then u else pos i2 2) ^ 2
                  + (if a = 2 then u else pos i2 3) ^ 2) / radiusCut) ^ 3)
        ((angularTermAt ⟨Real.tanh, Real.exp, Real.rpow⟩ self pos i1 i2 l k).grad2 a)
        (pos i2 (a + 1)) := by
    intro a ha
    rw [← axisCoord_eq (pos i2) a ha, ← hrc]
    exact hasDerivAt_angular_neighbor2 self angleEta angleZeta hEta hZeta _ _ _ _ _ _ _ _ l k a
      ha hr2.1 hr1.2 hr2.2 hchi0
  have hsum : ∀ (i a : Nat), i < n → a < 3 →
      (calculateBody ⟨Real.tanh, Real.exp, Real.rpow⟩ self (n : Int) pos elem
          { symmData := d0, symmDiff := f0 }).symmDiff
        (angularSlot self elem i1 i2 l k + (3 * ((i : Int) + 1) + (a : Int)) * self.numBasis)
      = ∑ j2 in Finset.range n, ∑ j1 in Finset.range n,
          if pairSkipped elem j1 j2 = false ∧ elem j1 = elem i1 ∧ elem j2 = elem i2
              ∧ ¬ chi0At pos j1 j2 l < chi0_thr then
            (if j1 = i then (angularTermAt ⟨Real.tanh, Real.exp, Real.rpow⟩ self pos j1 j2 l k).grad1 a else 0)
              + (if j2 = i then (angularTermAt ⟨Real.tanh, Real.exp, Real.rpow⟩ self pos j1 j2 l k).grad2 a else 0)
          else 0 := by
    intro i a hi ha
    exact angular_block_entry _ self w n pos elem hel2 _ _ _ (hel2 i1 hi1).1 hle
      (hel2 i2 hi2).2 l k i a hl hkn hi ha
  have hrev : pairSkipped elem i2 i1 = true := by
    rw [pairSkipped_eq_true_iff]
    rintro (g | ⟨g1, g2⟩) <;> rcases hcanon with h | h <;> omega
  have honly : (∀ j : Nat, j < n → j = i1 ∨ j = i2) → ∀ (i a : Nat), i < n → a < 3 →
      (calculateBody ⟨Real.tanh, Real.exp, Real.rpow⟩ self (n : Int) pos elem
          { symmData := d0, symmDiff := f0 }).symmDiff
        (angularSlot self elem i1 i2 l k + (3 * ((i : Int) + 1) + (a : Int)) * self.numBasis)
      = (if i1 = i then (angularTermAt ⟨Real.tanh, Real.exp, Real.rpow⟩ self pos i1 i2 l k).grad1 a else 0)
          + (if i2 = i then (angularTermAt ⟨Real.tanh, Real.exp, Real.rpow⟩ self pos i1 i2 l k).grad2 a else 0) := by
    intro ho i a hi ha
    rw [hsum i a hi ha, pair_sum_only _ n i1 i2 hi1 hi2 ho]
    · have p : pairSkipped elem i1 i2 = false ∧ elem i1 = elem i1 ∧ elem i2 = elem i2
          ∧ ¬ chi0At pos i1 i2 l < chi0_thr := ⟨hpair, rfl, rfl, hthr⟩
      rw [if_pos p]
    · have p : ¬ (pairSkipped elem i1 i1 = false ∧ elem i1 = elem i1 ∧ elem i1 = elem i2
          ∧ ¬ chi0At pos i1 i1 l < chi0_thr) := by
        rintro ⟨g, -⟩
        rw [pairSkipped_self] at g
        exact absurd g (by decide)
      rw [if_neg p]
    · have p : ¬ (pairSkipped elem i2 i2 = false ∧ elem i2 = elem i1 ∧ elem i2 = elem i2
          ∧ ¬ chi0At pos i2 i2 l < chi0_thr) := by
        rintro ⟨g, -⟩
        rw [pairSkipped_self] at g
        exact absurd g (by decide)
      rw [if_neg p]
    · intro _
      have p : ¬ (pairSkipped elem i2 i1 = false ∧ elem i2 = elem i1 ∧ elem i1 = elem i2
          ∧ ¬ chi0At pos i2 i1 l < chi0_thr) := by
        rintro ⟨g, -⟩
        rw [hrev] at g
        exact absurd g (by decide)
      rw [if_neg p]
  refine ⟨⟨_, _, calculate_ok _ self n pos elem d0 f0, ?_, ?_⟩, ?_, hD1, hD2, ?_, ?_⟩
  · intro a ha
    exact ⟨hsum i1 a hi1 ha, hsum i2 a hi2 ha⟩
  · intro ho a ha
    have q1 := honly ho i1 a hi1 ha
    have q2 := honly ho i2 a hi2 ha
    rw [if_pos rfl, if_neg (fun h => h12 h.symm), add_zero] at q1
    rw [if_neg h12, if_pos rfl, zero_add] at q2
    refine ⟨q1, q2, ?_, ?_⟩
    · rw [q1]
      exact hD1 a ha
    · rw [q2]
      exact hD2 a ha
  · intro o a ha
    exact ⟨angularMode_block1 _ self hN pos elem i2 i1 l h12 o k a ha,
      angularMode_block2 _ self hN pos elem i2 i1 l h12 o k a ha⟩
  · simp only [dpsiOf, psiOf_eq]
    ring
  · exact hasDerivAt_psi _ _ _ _ _ _ _ _ hr1.1 hr1.2 hr2.2

theorem angular_gradient_is_derivative_witness :
    ∃ data diff : Int → ℝ,
      SymmFuncBehler.calculate ⟨Real.tanh, Real.exp, Real.rpow⟩ ((2 : Nat) : Int)
          (some (fun i c => if c = 0 then 1 else if c = i + 1 then 1 else 0))
          (some (fun _ => 0))
          { self := { numElems := 1, numBasis := 3, sizeRad := 1, sizeAng := 1, numRadBasis := 1,
                      numAngBasis := 2, radiusCut := 5, radiusEta := some (fun _ => 1),
                      radiusShift := some (fun _ => 0), angleEta := some (fun _ => 1),
                      angleZeta := some (fun _ => 2) }
            symmData := some (fun _ => 0), symmDiff := some (fun _ => 0) }
        = (.ok (), { self := { numElems := 1, numBasis := 3, sizeRad := 1, sizeAng := 1,
                               numRadBasis := 1, numAngBasis := 2, radiusCut := 5,
                               radiusEta := some (fun _ => 1), radiusShift := some (fun _ => 0),
                               angleEta := some (fun _ => 1), angleZeta := some (fun _ => 2) }
                     symmData := some data, symmDiff := some diff })
      ∧ diff 10 = (angularTermAt ⟨Real.tanh, Real.exp, Real.rpow⟩
          { numElems := 1, numBasis := 3, sizeRad := 1, sizeAng := 1, numRadBasis := 1,
            numAngBasis := 2, radiusCut := 5, radiusEta := some (fun _ => 1),
            radiusShift := some (fun _ => 0), angleEta := some (fun _ => 1),
            angleZeta := some (fun _ => 2) }
          (fun i c => if c = 0 then 1 else if c = i + 1 then 1 else 0) 0 1 0 0).grad1 0 := by
  have hsq : Real.sqrt ((1 : ℝ) ^ 2 + 0 ^ 2 + 0 ^ 2) = 1 := by norm_num
  have hsq2 : Real.sqrt ((0 : ℝ) ^ 2 + 1 ^ 2 + 0 ^ 2) = 1 := by norm_num
  obtain ⟨⟨data, diff, h, -, h2⟩, -⟩ := angular_gradient_is_derivative 1 1 1 5
    (some (fun _ => 1)) (some (fun _ => 0)) (fun _ => 1) (fun _ => 2)
    { numElems := 1, numBasis := 3, sizeRad := 1, sizeAng := 1, numRadBasis := 1,
      numAngBasis := 2, radiusCut := 5, radiusEta := some (fun _ => 1),
      radiusShift := some (fun _ => 0), angleEta := some (fun _ => 1),
      angleZeta := some (fun _ => 2) }
    (by norm_num [SymmFuncBehler.SymmFuncBehler, SymmFunc.SymmFunc, stop_by_error])
    2 (fun i c => if c = 0 then 1 else if c = i + 1 then 1 else 0) (fun _ => 0)
    (fun _ _ => ⟨le_refl 0, Int.zero_lt_one⟩) 0 1 (by decide) (by decide)
    (by decide) (by simp [hsq]) (by simp [hsq2]) 0 (by decide) 0 (by decide) (by norm_num)
    (fun _ => 0) (fun _ => 0)
  have h3 := (h2 (fun j hj => by omega) 0 (by decide)).1
  have e : angularSlot
      ({ numElems := 1, numBasis := 3, sizeRad := 1, sizeAng := 1, numRadBasis := 1,
         numAngBasis := 2, radiusCut := 5, radiusEta := some (fun _ => 1),
         radiusShift := some (fun _ => 0), angleEta := some (fun _ => 1),
         angleZeta := some (fun _ => 2) } : SymmFuncBehler ℝ) (fun _ => 0) 0 1 0 0
        + (3 * (((0 : Nat) : Int) + 1) + ((0 : Nat) : Int)) * 3 = 10 := by
    simp [angularSlot]
  simp only [] at h3
  rw [e] at h3
  exact ⟨data, diff, h, h3⟩

end SANNP
